import Mathlib

/-!
# Mineways RTX raytracer: the scene loader

A shallow embedding of `Source/MinecraftSceneLoader.cpp`, `Source/MinecraftSceneLoader.h`,
`Source/sharedShaderData.h` and the hit groups of `Source/Renderer.cpp`, followed by
theorems about it.

Conventions of the embedding

* the loader is embedded over `float` values that are finite numbers, carried by `ℚ`: on
  them `==`, `<`, and the `min` and `max` of `donut::math` are the operations of the
  order, and both zeros are one value. Of the arithmetic of the embedded code,
  `float3(max) * -1.f` is exact and `1.0f - v` is rounded to the nearest `float`
  (`roundToFloat`).
* the deduplication key, its map and the loops of `AddGeometryToScene` are embedded a
  second time, in the namespace `Ieee`, over `float` values that are a number or a NaN:
  there `==` is false on a NaN and `1.0f - v` of a NaN is a NaN. On a parser output
  without a NaN the two embeddings give the same result (`AddGeometryToScene_ofScene`).
  Infinities are left out of both.
* a `std::vector` is a `List`; `push_back` appends at the end.
* reading a vector outside its bounds is undefined behaviour in the source: every
  function that reads one returns `Option`, and `none` stands for such a read
  (and, in the two functions with a `uint` loop counter, for a loop that does not end).
* the subscripts `stride * size_t(i) + k` are taken modulo `2 ^ 64`, the `uint32_t` cast
  modulo `2 ^ 32`. Vertex counts, `index_offset` and the `int` counters of `SceneStats`
  are unbounded numbers.
* the parser, the device, the command list and the texture cache are collaborators:
  the parse outcome is an argument of `LoadScene`, and the calls made on the other
  three are returned as a list of `Call`s. `log::warning` output is left out.
-/

namespace Mineways

/-! ## Shader-side data (`sharedShaderData.h`) and vector types -/

/-- The finite values of a C++ `float`. The values of the type with a NaN are
`Ieee.float`, below. -/
abbrev float := ℚ

/-- The constant `std::numeric_limits<float>::max()`. -/
def FLT_MAX : float := 340282346638528859811704183484516925440

/-- The nearest integer, a tie going to the even one. -/
def roundHalfEven (m : ℚ) : Int :=
  let f := ⌊m⌋
  let r := m - f
  if r < 1 / 2 then f
  else if 1 / 2 < r then f + 1
  else if f % 2 = 0 then f else f + 1

/-- The value of type `float` nearest to `x`, a tie going to the even significand: the
rounding of every arithmetic operation of the type. A `float` has 24 significant bits and
its last bit is worth `2 ^ -149` at least. (Above `FLT_MAX` the operation gives an
infinity, which is left out.) -/
def roundToFloat (x : ℚ) : float :=
  if x = 0 then 0
  else
    let u : Int := max (Int.log 2 |x| - 23) (-149)
    (roundHalfEven (x / (2 : ℚ) ^ u) : ℚ) * (2 : ℚ) ^ u

/-- The operator `-` of the type `float`. -/
def float.sub (a b : float) : float := roundToFloat (a - b)

structure float3 where
  x : float
  y : float
  z : float
deriving DecidableEq

structure float2 where
  x : float
  y : float
deriving DecidableEq

/-- Vertex format used in the buffer (`sharedShaderData.h`, lines 29-35). -/
structure VertexData where
  position : float3
  uvX : float
  normal : float3
  uvY : float
deriving DecidableEq

/-- AABB buffer element (`sharedShaderData.h`, lines 62-66). -/
structure AABB where
  min : float3
  max : float3
deriving DecidableEq

/-- Per-box material record (`sharedShaderData.h`, lines 68-77). -/
structure AABBMaterials where
  negXMatID : Int
  posXMatID : Int
  negZMatID : Int
  posZMatID : Int
  negYMatID : Int
  posYMatID : Int
  padding : Int × Int
deriving DecidableEq

/-- Constant buffer of the metal/rough generation pass (`sharedShaderData.h`, lines 22-26);
the texture dimensions are left out. -/
structure CBMetalRoughTexGen where
  convertShininessToRoughness : Int
  metallicValid : Int
deriving DecidableEq

/-! ## The deduplication key (`MinecraftSceneLoader.h`, lines 19-39)

Over numbers, where `operator==` holds exactly for equal keys. The key over every value
of `float`, for which `operator==` is false on a NaN, is `Ieee.SceneVertex`. -/

structure SceneVertex where
  position : float3
  normal : float3
  uv : float2
deriving DecidableEq

namespace SceneVertex

/-- The value-initialised `SceneVertex vertex{}`. -/
def zero : SceneVertex := ⟨⟨0, 0, 0⟩, ⟨0, 0, 0⟩, ⟨0, 0⟩⟩

/-- The member `operator==`: componentwise comparison, then `all` of each group. -/
def eq (a b : SceneVertex) : Bool :=
  let samePos := (decide (a.position.x = b.position.x), decide (a.position.y = b.position.y),
    decide (a.position.z = b.position.z))
  let sameNormal := (decide (a.normal.x = b.normal.x), decide (a.normal.y = b.normal.y),
    decide (a.normal.z = b.normal.z))
  let sameUV := (decide (a.uv.x = b.uv.x), decide (a.uv.y = b.uv.y))
  (samePos.1 && samePos.2.1 && samePos.2.2) && (sameNormal.1 && sameNormal.2.1 && sameNormal.2.2)
    && (sameUV.1 && sameUV.2)

def toVertexData (v : SceneVertex) : VertexData :=
  { position := v.position, normal := v.normal, uvX := v.uv.x, uvY := v.uv.y }

end SceneVertex

/-! ## The hash of the key (`MinecraftSceneLoader.cpp`, lines 11-40) -/

/-- The function `hash_combine`, returning the new seed; `size_t` is 64 bits wide. -/
def hash_combine (seed hash : Nat) : Nat :=
  let hash := (hash + (0x9e3779b9 + (seed <<< 6) % 2 ^ 64 + (seed >>> 2))) % 2 ^ 64
  seed ^^^ hash

/-- The specialisation `std::hash<float3>`, over the library's `std::hash<float>`. -/
def hashFloat3 (hashFloat : float → Nat) (f : float3) : Nat :=
  let seed := 0
  let seed := hash_combine seed (hashFloat f.x)
  let seed := hash_combine seed (hashFloat f.y)
  let seed := hash_combine seed (hashFloat f.z)
  seed

/-- The specialisation `std::hash<MinecraftSceneLoader::SceneVertex>`. -/
def hashSceneVertex (hashFloat : float → Nat) (vertex : SceneVertex) : Nat :=
  let seed := 0
  let seed := hash_combine seed (hashFloat3 hashFloat vertex.position)
  let seed := hash_combine seed (hashFloat3 hashFloat vertex.normal)
  let seed := hash_combine seed (hashFloat vertex.uv.x)
  let seed := hash_combine seed (hashFloat vertex.uv.y)
  seed

/-! ## The map `std::unordered_map<SceneVertex, uint32_t>`

The library container is not part of the repository. It is modelled as a hash table
with one chain per hash value: an operation on key `k` only looks at the chain of
`hash k` and compares keys with `SceneVertex.eq`. Bucket counts and rehashing are
left out. -/

structure UnorderedMap where
  buckets : Nat → List (SceneVertex × Nat)

namespace UnorderedMap

/-- The map `uniqueVertices{}`. -/
def empty : UnorderedMap := ⟨fun _ => []⟩

/-- Search of one chain. -/
def chainFind : List (SceneVertex × Nat) → SceneVertex → Option Nat
  | [], _ => none
  | (k', v) :: rest, k => if SceneVertex.eq k' k then some v else chainFind rest k

/-- Assignment in one chain: the entry of an equal key is overwritten, else one is added. -/
def chainSet : List (SceneVertex × Nat) → SceneVertex → Nat → List (SceneVertex × Nat)
  | [], k, v => [(k, v)]
  | (k', v') :: rest, k, v =>
    if SceneVertex.eq k' k then (k', v) :: rest else (k', v') :: chainSet rest k v

def find? (hash : SceneVertex → Nat) (m : UnorderedMap) (k : SceneVertex) : Option Nat :=
  chainFind (m.buckets (hash k)) k

/-- The member `count`. -/
def count (hash : SceneVertex → Nat) (m : UnorderedMap) (k : SceneVertex) : Nat :=
  if (m.find? hash k).isSome then 1 else 0

/-- The statement `m[k] = v`. -/
def set (hash : SceneVertex → Nat) (m : UnorderedMap) (k : SceneVertex) (v : Nat) :
    UnorderedMap :=
  ⟨fun h => if h = hash k then chainSet (m.buckets h) k v else m.buckets h⟩

/-- The expression `m[k]` read as a value: an absent key is inserted with value `0`. -/
def get (hash : SceneVertex → Nat) (m : UnorderedMap) (k : SceneVertex) :
    Nat × UnorderedMap :=
  match m.find? hash k with
  | some v => (v, m)
  | none => (0, m.set hash k 0)

end UnorderedMap

/-! ## Parser output (`tiny_obj_loader.h`, only the members the loader reads) -/

structure index_t where
  vertex_index : Int
  normal_index : Int
  texcoord_index : Int
deriving DecidableEq

structure mesh_t where
  indices : List index_t
  num_face_vertices : List Nat
  material_ids : List Int
deriving DecidableEq

structure shape_t where
  mesh : mesh_t
deriving DecidableEq

structure attrib_t where
  vertices : List float
  normals : List float
  texcoords : List float
deriving DecidableEq

structure material_t where
  name : String
  diffuse : float3
  emission : float3
  diffuse_texname : String
  alpha_texname : String
  normal_texname : String
  emissive_texname : String
  specular_highlight_texname : String
  roughness_texname : String
  metallic_texname : String
deriving DecidableEq

/-! ## Engine and device objects

The types of `donut` and `nvrhi` are not part of the repository; only what the loader
sets or tests is kept. A handle is an `Option`: `none` is the null handle. -/

/-- A file path `modelFolderName / name`, kept as its two parts. -/
structure TexturePath where
  folder : String
  name : String
deriving DecidableEq

/-- The folder `modelFolderName` of `AddMaterialsToScene`. -/
def modelFolderName : String := "/MinecraftModels/"

/-- A texture handle returned by `LoadTextureFromFile`: the file and the sRGB flag it
was asked with. The cache is taken to return a texture for every path. -/
structure FileTexture where
  path : TexturePath
  sRGB : Bool
deriving DecidableEq

/-- A texture object held by a material: loaded from a file by the texture cache, or
written by `CreateMetalRoughTextures` from a roughness texture, an optional metallic
texture and the constant buffer of the pass. -/
inductive LoadedTexture where
  | fromFile (texture : FileTexture)
  | metalRough (roughnessTex : FileTexture) (metallicTex : Option FileTexture)
      (cb : CBMetalRoughTexGen)
deriving DecidableEq

/-- Modelled from the spec: the enumeration `MaterialDomain` of `donut` is not in the
repository; the loader names `AlphaTested`, and `Opaque` is the default domain. -/
inductive MaterialDomain where
  | Opaque
  | AlphaTested
deriving DecidableEq

/-- Modelled from the spec: the structure `Material` of `donut` is not in the repository.
It has the members the loader assigns, and the defaults of `Material sceneMat{}` for the
ones assigned under a condition: the default domain, not double sided, no texture. -/
structure Material where
  modelFileName : String := ""
  name : String := ""
  materialID : Int := 0
  baseOrDiffuseColor : float3 := ⟨1, 1, 1⟩
  emissiveColor : float3 := ⟨0, 0, 0⟩
  roughness : float := 0
  metalness : float := 0
  alphaCutoff : float := 1 / 2
  domain : MaterialDomain := MaterialDomain.Opaque
  doubleSided : Bool := false
  metalnessInRedChannel : Bool := false
  baseOrDiffuseTexture : Option LoadedTexture := none
  normalTexture : Option LoadedTexture := none
  emissiveTexture : Option LoadedTexture := none
  metalRoughOrSpecularTexture : Option LoadedTexture := none
deriving DecidableEq

/-- A buffer created by `device->createBuffer`: its debug name and its element count
(`byteSize` divided by the element size). -/
structure Buffer where
  debugName : String
  count : Nat
deriving DecidableEq

/-- The geometry of a bottom-level acceleration structure. -/
inductive GeometryDesc where
  | Triangles (indexBuffer vertexBuffer : Buffer) (indexCount vertexCount : Nat)
  | AABBs (buffer : Buffer) (count : Nat)
deriving DecidableEq

inductive InstanceFlags where
  | None
  | TriangleFrontCounterclockwise
deriving DecidableEq

/-- A bottom-level acceleration structure, with the flags `AllowCompaction` and
`PreferFastTrace` of its description. -/
structure BottomLevelAS where
  geometry : GeometryDesc
  allowCompaction : Bool
  preferFastTrace : Bool
deriving DecidableEq

structure InstanceDesc where
  bottomLevelAS : BottomLevelAS
  instanceMask : Nat
  flags : InstanceFlags
  instanceContributionToHitGroupIndex : Nat
  transform : List float
deriving DecidableEq

/-- The matrix `float3x4::identity()`, row by row. -/
def identityTransform : List float := [1, 0, 0, 0, 0, 1, 0, 0, 0, 0, 1, 0]

/-- A top-level acceleration structure: the capacity it was created with and the
instances it was built from. -/
structure TopLevelAS where
  topLevelMaxInstances : Nat
  instances : List InstanceDesc
deriving DecidableEq

/-- The calls the loader makes on the device, the command list, the texture cache and
the descriptor table, in the order it makes them. The calls of the metal/rough
generation pass are gathered in two entries: `initMetalRoughTexGenCS` for the shader, the
constant buffer, the binding layout and the pipeline that `InitMetalRoughTexGenCS`
creates, and `dispatchMetalRough` for the texture, the binding set, the buffer write,
the dispatch and the descriptor of one `CreateMetalRoughTextures`. -/
inductive Call where
  | createBuffer (buffer : Buffer)
  | writeBuffer (buffer : Buffer)
  | createAccelStruct (isTopLevel : Bool)
  | buildBottomLevelAccelStruct (blas : BottomLevelAS)
  | buildTopLevelAccelStruct (instances : List InstanceDesc)
  | LoadTextureFromFile (path : TexturePath) (sRGB : Bool)
  | UnloadTexture (texture : FileTexture)
  | initMetalRoughTexGenCS
  | dispatchMetalRough (texture : LoadedTexture)
  | TextureCacheReset
deriving DecidableEq

/-! ## The loader object (`MinecraftSceneLoader.h`, lines 62-68 and 91-122) -/

structure SceneStats where
  numTriangles : Int := 0
  numAABBs : Int := 0
  numMaterials : Int := 0
  numUniqueVertices : Int := 0
  numIndices : Int := 0
deriving DecidableEq

/-- The data members of `MinecraftSceneLoader`. The four handles of the metal/rough
generation pass (`m_Shader`, `m_ConstantBuffer`, `m_BindingLayout`, `m_ComputeHandle`) are
one flag, `m_MetalRoughTexGenCS`: set by `InitMetalRoughTexGenCS`, cleared by
`RemoveMetalRoughTexGenCS`. -/
structure Scene where
  m_sceneIsLoaded : Bool := false
  m_sceneStats : SceneStats := {}
  m_AABBs : List AABB := []
  m_AABBMaterials : List AABBMaterials := []
  m_Indices : List Nat := []
  m_Vertices : List VertexData := []
  m_TriPerFaceMatID : List Int := []
  m_Materials : List Material := []
  m_BlasTriangles : Option BottomLevelAS := none
  m_BlasAABBs : Option BottomLevelAS := none
  m_TopLevelAS : Option TopLevelAS := none
  m_AABBBuffer : Option Buffer := none
  m_VertexBuffer : Option Buffer := none
  m_IndexBuffer : Option Buffer := none
  m_AABBMaterialIDBuffer : Option Buffer := none
  m_TriangleMaterialIDBuffer : Option Buffer := none
  m_MaterialBuffer : Option Buffer := none
  m_MetalRoughTexGenCS : Bool := false
deriving DecidableEq

namespace Scene

def IsLoaded (this : Scene) : Bool := this.m_sceneIsLoaded
def GetTLAS (this : Scene) : Option TopLevelAS := this.m_TopLevelAS
def GetAABBBuffer (this : Scene) : Option Buffer := this.m_AABBBuffer
def GetVertexBuffer (this : Scene) : Option Buffer := this.m_VertexBuffer
def GetIndexBuffer (this : Scene) : Option Buffer := this.m_IndexBuffer
def GetAABBMaterialIDBuffer (this : Scene) : Option Buffer := this.m_AABBMaterialIDBuffer
def GetTriangleMaterialIDBuffer (this : Scene) : Option Buffer :=
  this.m_TriangleMaterialIDBuffer
def GetMaterialBuffer (this : Scene) : Option Buffer := this.m_MaterialBuffer

end Scene

/-! ## `AddGeometryToScene` (`MinecraftSceneLoader.cpp`, lines 230-327) -/

/-- The conversion `size_t(i)` of an `int`. -/
def size_t (i : Int) : Nat := (i % 2 ^ 64).toNat

/-- The subscript `stride * size_t(i) + k`, computed in `size_t`. -/
def attribIndex (stride : Nat) (i : Int) (k : Nat) : Nat :=
  (stride * size_t i + k) % 2 ^ 64

/-- The box before any vertex is seen (lines 240-242). -/
def initialAABB : AABB :=
  { min := ⟨FLT_MAX, FLT_MAX, FLT_MAX⟩
    max := ⟨FLT_MAX * -1, FLT_MAX * -1, FLT_MAX * -1⟩ }

/-- One turn of the vertex loop of a box face (lines 248-258). -/
def growAABB (attribs : attrib_t) (mesh : mesh_t) (index_offset : Nat) (aabb : AABB)
    (v : Nat) : Option AABB := do
  let idx ← mesh.indices[index_offset + v]?
  let vx ← attribs.vertices[attribIndex 3 idx.vertex_index 0]?
  let vy ← attribs.vertices[attribIndex 3 idx.vertex_index 1]?
  let vz ← attribs.vertices[attribIndex 3 idx.vertex_index 2]?
  pure
    { min := ⟨min vx aabb.min.x, min vy aabb.min.y, min vz aabb.min.z⟩
      max := ⟨max vx aabb.max.x, max vy aabb.max.y, max vz aabb.max.z⟩ }

/-- The face loop of a box shape (lines 244-261), over the faces still to visit. -/
def blockFaces (attribs : attrib_t) (mesh : mesh_t) : List Nat → Nat → AABB → Option AABB
  | [], _, aabb => some aabb
  | fv :: rest, index_offset, aabb => do
    let aabb ← (List.range fv).foldlM (growAABB attribs mesh index_offset) aabb
    blockFaces attribs mesh rest (index_offset + fv) aabb

/-- The per-face materials of a box shape (lines 265-272). -/
def blockMaterials (mesh : mesh_t) : Option AABBMaterials := do
  let m0 ← mesh.material_ids[0]?
  let m2 ← mesh.material_ids[2]?
  let m4 ← mesh.material_ids[4]?
  let m6 ← mesh.material_ids[6]?
  let m8 ← mesh.material_ids[8]?
  let m10 ← mesh.material_ids[10]?
  pure
    { negXMatID := m0, negYMatID := m2, negZMatID := m4,
      posXMatID := m6, posYMatID := m8, posZMatID := m10, padding := (0, 0) }

/-- The state the loops of `AddGeometryToScene` work on: the loader object and the
local map. `corners` is a history the source does not have: it records, in execution
order, the value of the local `vertex` at line 310; nothing reads it. -/
structure Extraction where
  scene : Scene
  uniqueVertices : UnorderedMap
  corners : List SceneVertex

/-- The `SceneVertex` of one corner (lines 290-308). -/
def readVertex (attribs : attrib_t) (idx : index_t) : Option SceneVertex := do
  let vertex := SceneVertex.zero
  let px ← attribs.vertices[attribIndex 3 idx.vertex_index 0]?
  let py ← attribs.vertices[attribIndex 3 idx.vertex_index 1]?
  let pz ← attribs.vertices[attribIndex 3 idx.vertex_index 2]?
  let vertex := { vertex with position := ⟨px, py, pz⟩ }
  let vertex ←
    if idx.normal_index ≥ 0 then do
      let nx ← attribs.normals[attribIndex 3 idx.normal_index 0]?
      let ny ← attribs.normals[attribIndex 3 idx.normal_index 1]?
      let nz ← attribs.normals[attribIndex 3 idx.normal_index 2]?
      pure { vertex with normal := ⟨nx, ny, nz⟩ }
    else pure vertex
  let vertex ←
    if idx.texcoord_index ≥ 0 then do
      let u ← attribs.texcoords[attribIndex 2 idx.texcoord_index 0]?
      let v ← attribs.texcoords[attribIndex 2 idx.texcoord_index 1]?
      pure { vertex with uv := ⟨u, float.sub 1 v⟩ }
    else pure vertex
  pure vertex

/-- The duplicate check and the index push (lines 310-318). The index pushed is read from
the map by a second `operator[]` (line 317): over numbers it finds the entry that line 312
stored; for a key with a NaN, which `Ieee.addVertex` covers, it does not. -/
def addVertex (hash : SceneVertex → Nat) (e : Extraction) (vertex : SceneVertex) :
    Extraction :=
  let e :=
    if e.uniqueVertices.count hash vertex = 0 then
      { e with
        uniqueVertices := e.uniqueVertices.set hash vertex (e.scene.m_Vertices.length % 2 ^ 32)
        scene :=
          { e.scene with
            m_Vertices := e.scene.m_Vertices ++ [vertex.toVertexData]
            m_sceneStats :=
              { e.scene.m_sceneStats with
                numUniqueVertices := e.scene.m_sceneStats.numUniqueVertices + 1 } } }
    else e
  let r := e.uniqueVertices.get hash vertex
  { uniqueVertices := r.2
    corners := e.corners ++ [vertex]
    scene :=
      { e.scene with
        m_Indices := e.scene.m_Indices ++ [r.1]
        m_sceneStats :=
          { e.scene.m_sceneStats with numIndices := e.scene.m_sceneStats.numIndices + 1 } } }

/-- The local `vertex` built from entry `i` of the index list (lines 290-308). -/
def cornerAt (attribs : attrib_t) (mesh : mesh_t) (i : Nat) : Option SceneVertex := do
  let idx ← mesh.indices[i]?
  readVertex attribs idx

/-- One turn of the vertex loop of a triangle face (lines 289-319). -/
def meshCorner (hash : SceneVertex → Nat) (attribs : attrib_t) (mesh : mesh_t)
    (index_offset : Nat) (e : Extraction) (v : Nat) : Option Extraction := do
  let vertex ← cornerAt attribs mesh (index_offset + v)
  pure (addVertex hash e vertex)

/-- The end of a triangle face (lines 321-323): the triangle counter and the material. -/
def pushTriangle (e : Extraction) (matID : Int) : Extraction :=
  { e with
    scene :=
      { e.scene with
        m_sceneStats :=
          { e.scene.m_sceneStats with numTriangles := e.scene.m_sceneStats.numTriangles + 1 }
        m_TriPerFaceMatID := e.scene.m_TriPerFaceMatID ++ [matID] } }

/-- One turn of the face loop of a mesh shape (lines 281-323), for face `f` with `fv`
vertices: the new `index_offset` and the new state. A face that is not a triangle is
left by `continue`, before `index_offset` is advanced. -/
def meshFace (hash : SceneVertex → Nat) (attribs : attrib_t) (mesh : mesh_t)
    (f fv index_offset : Nat) (e : Extraction) : Option (Nat × Extraction) :=
  if fv ≠ 3 then
    some (index_offset, e)
  else do
    let e ← (List.range fv).foldlM (meshCorner hash attribs mesh index_offset) e
    let index_offset := index_offset + fv
    let matID ← mesh.material_ids[f]?
    pure (index_offset, pushTriangle e matID)

/-- The face loop of a mesh shape (lines 280-324), over the faces still to visit;
`f` is the number of the first of them. -/
def meshFaces (hash : SceneVertex → Nat) (attribs : attrib_t) (mesh : mesh_t) :
    List Nat → Nat → Nat → Extraction → Option Extraction
  | [], _, _, e => some e
  | fv :: rest, f, index_offset, e => do
    let r ← meshFace hash attribs mesh f fv index_offset e
    meshFaces hash attribs mesh rest (f + 1) r.1 r.2

/-- One turn of the shape loop (lines 236-325). -/
def addShape (hash : SceneVertex → Nat) (attribs : attrib_t) (e : Extraction)
    (shape : shape_t) : Option Extraction :=
  let index_offset := 0
  if shape.mesh.num_face_vertices.length = 12 then do
    let aabb ← blockFaces attribs shape.mesh shape.mesh.num_face_vertices index_offset
      initialAABB
    let aabbMaterials ← blockMaterials shape.mesh
    pure
      { e with
        scene :=
          { e.scene with
            m_AABBs := e.scene.m_AABBs ++ [aabb]
            m_AABBMaterials := e.scene.m_AABBMaterials ++ [aabbMaterials]
            m_sceneStats :=
              { e.scene.m_sceneStats with numAABBs := e.scene.m_sceneStats.numAABBs + 1 } } }
  else
    meshFaces hash attribs shape.mesh shape.mesh.num_face_vertices 0 index_offset e

/-- The shape loop, started with the empty map, with its whole final state. -/
def extractGeometry (hash : SceneVertex → Nat) (attribs : attrib_t) (shapes : List shape_t)
    (this : Scene) : Option Extraction :=
  shapes.foldlM (addShape hash attribs) ⟨this, UnorderedMap.empty, []⟩

def AddGeometryToScene (hash : SceneVertex → Nat) (attribs : attrib_t)
    (shapes : List shape_t) (this : Scene) : Option Scene :=
  (extractGeometry hash attribs shapes this).map Extraction.scene

/-! ## Materials (`MinecraftSceneLoader.cpp`, lines 121-228 and 488-528) -/

/-- The call `pTextureCache->LoadTextureFromFile(path, sRGB, nullptr, commandList)`. -/
def LoadTextureFromFile (path : TexturePath) (sRGB : Bool) : FileTexture × List Call :=
  (⟨path, sRGB⟩, [Call.LoadTextureFromFile path sRGB])

/-- The function `CreateMetalRoughTextures`: the constant buffer it fills (lines 510-512)
and the texture it returns. -/
def CreateMetalRoughTextures (roughnessTex : FileTexture) (metallicTex : Option FileTexture)
    (convertShininessToRoughness : Bool) : LoadedTexture × List Call :=
  let cb : CBMetalRoughTexGen :=
    { convertShininessToRoughness := if convertShininessToRoughness then 1 else 0
      metallicValid := if metallicTex ≠ none then 1 else 0 }
  let loadedTexture := LoadedTexture.metalRough roughnessTex metallicTex cb
  (loadedTexture, [Call.dispatchMetalRough loadedTexture])

/-- Lines 140-149: the base colour texture and the alpha test. -/
def resolveBaseColor (material : material_t) (sceneMat : Material) : Material × List Call :=
  if material.diffuse_texname ≠ "" then
    let texPath : TexturePath := ⟨modelFolderName, material.diffuse_texname⟩
    let r := LoadTextureFromFile texPath true
    let sceneMat := { sceneMat with baseOrDiffuseTexture := some (LoadedTexture.fromFile r.1) }
    let sceneMat :=
      if material.alpha_texname ≠ "" then
        { sceneMat with domain := MaterialDomain.AlphaTested, doubleSided := true }
      else sceneMat
    (sceneMat, r.2)
  else (sceneMat, [])

/-- Lines 151-154: the normal map. -/
def resolveNormal (material : material_t) (sceneMat : Material) : Material × List Call :=
  if material.normal_texname ≠ "" then
    let texPath : TexturePath := ⟨modelFolderName, material.normal_texname⟩
    let r := LoadTextureFromFile texPath false
    ({ sceneMat with normalTexture := some (LoadedTexture.fromFile r.1) }, r.2)
  else (sceneMat, [])

/-- Lines 156-159: the emissive map. -/
def resolveEmissive (material : material_t) (sceneMat : Material) : Material × List Call :=
  if material.emissive_texname ≠ "" then
    let texPath : TexturePath := ⟨modelFolderName, material.emissive_texname⟩
    let r := LoadTextureFromFile texPath false
    ({ sceneMat with emissiveTexture := some (LoadedTexture.fromFile r.1) }, r.2)
  else (sceneMat, [])

/-- Lines 161-181: the combined roughness and metalness texture. -/
def resolveRoughMetal (material : material_t) (sceneMat : Material) : Material × List Call :=
  if material.specular_highlight_texname ≠ "" ∨ material.roughness_texname ≠ "" then
    let sceneMat := { sceneMat with metalnessInRedChannel := true }
    let convertShininessToRoughness : Bool := decide (material.roughness_texname = "")
    let roughTexName :=
      if convertShininessToRoughness then material.specular_highlight_texname
      else material.roughness_texname
    let roughTexPath : TexturePath := ⟨modelFolderName, roughTexName⟩
    let roughnessTexture := LoadTextureFromFile roughTexPath false
    let hasMetallic : Bool := decide (material.metallic_texname ≠ "")
    let metallicTexture : Option FileTexture × List Call :=
      if hasMetallic then
        let metallicTexPath : TexturePath := ⟨modelFolderName, material.metallic_texname⟩
        let r := LoadTextureFromFile metallicTexPath false
        (some r.1, r.2)
      else (none, [])
    let created := CreateMetalRoughTextures roughnessTexture.1
      (if hasMetallic then metallicTexture.1 else none) convertShininessToRoughness
    let sceneMat := { sceneMat with metalRoughOrSpecularTexture := some created.1 }
    let unloads :=
      [Call.UnloadTexture roughnessTexture.1] ++
        (if hasMetallic then (metallicTexture.1.map Call.UnloadTexture).toList else [])
    (sceneMat, roughnessTexture.2 ++ metallicTexture.2 ++ created.2 ++ unloads)
  else (sceneMat, [])

/-- One turn of the material loop (lines 129-182): the material pushed for the parsed
material at position `i`, and the calls made for it. -/
def makeMaterial (i : Nat) (material : material_t) : Material × List Call :=
  let sceneMat : Material := {}
  let sceneMat :=
    { sceneMat with
      modelFileName := "MinecraftSceneLoader"
      name := material.name
      materialID := i
      baseOrDiffuseColor := ⟨material.diffuse.x, material.diffuse.y, material.diffuse.z⟩
      emissiveColor := ⟨material.emission.x, material.emission.y, material.emission.z⟩
      roughness := 1
      metalness := 0
      -- the literal `0.1` of line 138, converted to `float`
      alphaCutoff := 13421773 / 134217728 }
  let r1 := resolveBaseColor material sceneMat
  let r2 := resolveNormal material r1.1
  let r3 := resolveEmissive material r2.1
  let r4 := resolveRoughMetal material r3.1
  (r4.1, r1.2 ++ r2.2 ++ r3.2 ++ r4.2)

/-- The material loop (lines 128-183), over the materials still to visit; `i` is the
position of the first of them. -/
def materialsLoop : List material_t → Nat → Scene × List Call → Scene × List Call
  | [], _, r => r
  | material :: rest, i, (this, calls) =>
    let made := makeMaterial i material
    materialsLoop rest (i + 1)
      ({ this with m_Materials := this.m_Materials ++ [made.1] }, calls ++ made.2)

/-- The function `AddMaterialsToScene`. The counter of its loop is a `uint`: with
`2 ^ 32` materials or more it never reaches the size and the loop does not end, which
is `none`. -/
def AddMaterialsToScene (materials : List material_t) (this : Scene) :
    Option (Scene × List Call) :=
  if 2 ^ 32 ≤ materials.length then none
  else
    let this := { this with m_MetalRoughTexGenCS := true }
    let r := materialsLoop materials 0 (this, [Call.initMetalRoughTexGenCS])
    some ({ r.1 with m_MetalRoughTexGenCS := false }, r.2)

/-- The function `CreateMaterialsBuffers`, with the same `uint` counter in its first loop. -/
def CreateMaterialsBuffers (this : Scene) : Option (Scene × List Call) :=
  if 2 ^ 32 ≤ this.m_Materials.length then none
  else
    let materialBuffer : Buffer := ⟨"MaterialBuffer", this.m_Materials.length⟩
    let r : Scene × List Call :=
      ({ this with m_MaterialBuffer := some materialBuffer },
        [Call.createBuffer materialBuffer, Call.writeBuffer materialBuffer])
    let r : Scene × List Call :=
      if r.1.m_TriPerFaceMatID ≠ [] then
        let buffer : Buffer := ⟨"TrianglePerFaceMatID", r.1.m_TriPerFaceMatID.length⟩
        ({ r.1 with m_TriangleMaterialIDBuffer := some buffer },
          r.2 ++ [Call.createBuffer buffer, Call.writeBuffer buffer])
      else r
    let r : Scene × List Call :=
      if r.1.m_AABBMaterials ≠ [] then
        let buffer : Buffer := ⟨"AABBMatID", r.1.m_AABBMaterials.length⟩
        ({ r.1 with m_AABBMaterialIDBuffer := some buffer },
          r.2 ++ [Call.createBuffer buffer, Call.writeBuffer buffer])
      else r
    some r

/-! ## Geometry buffers and acceleration structures (lines 329-449) -/

def CreateGeometryBuffers (this : Scene) : Scene × List Call :=
  let r : Scene × List Call :=
    if this.m_Vertices ≠ [] ∧ this.m_Indices ≠ [] then
      let indexBuffer : Buffer := ⟨"MinecraftSceneLoader::Indices", this.m_Indices.length⟩
      let vertexBuffer : Buffer := ⟨"MinecraftSceneLoader::Vertices", this.m_Vertices.length⟩
      ({ this with m_IndexBuffer := some indexBuffer, m_VertexBuffer := some vertexBuffer },
        [Call.createBuffer indexBuffer, Call.createBuffer vertexBuffer,
          Call.writeBuffer indexBuffer, Call.writeBuffer vertexBuffer])
    else (this, [])
  if r.1.m_AABBs ≠ [] then
    let buffer : Buffer := ⟨"MinecraftSceneLoader::AABBs", r.1.m_AABBs.length⟩
    ({ r.1 with m_AABBBuffer := some buffer },
      r.2 ++ [Call.createBuffer buffer, Call.writeBuffer buffer])
  else r

def CreateAccelerationStructure (this : Scene) : Scene × List Call :=
  let r : Scene × List Call :=
    match this.m_IndexBuffer, this.m_VertexBuffer with
    | some indexBuffer, some vertexBuffer =>
      let blas : BottomLevelAS :=
        { geometry := GeometryDesc.Triangles indexBuffer vertexBuffer this.m_Indices.length
            this.m_Vertices.length
          allowCompaction := false
          preferFastTrace := false }
      ({ this with m_BlasTriangles := some blas },
        [Call.createAccelStruct false, Call.buildBottomLevelAccelStruct blas])
    | _, _ => (this, [])
  let r : Scene × List Call :=
    match r.1.m_AABBBuffer with
    | some buffer =>
      let blas : BottomLevelAS :=
        { geometry := GeometryDesc.AABBs buffer r.1.m_AABBs.length
          allowCompaction := true
          preferFastTrace := true }
      ({ r.1 with m_BlasAABBs := some blas },
        r.2 ++ [Call.createAccelStruct false, Call.buildBottomLevelAccelStruct blas])
    | none => r
  let instances : List InstanceDesc := []
  let instances :=
    match r.1.m_BlasTriangles with
    | some blas =>
      instances ++
        [{ bottomLevelAS := blas, instanceMask := 0xFF,
           flags := InstanceFlags.TriangleFrontCounterclockwise,
           instanceContributionToHitGroupIndex := 0, transform := identityTransform }]
    | none => instances
  let instances :=
    match r.1.m_BlasAABBs with
    | some blas =>
      instances ++
        [{ bottomLevelAS := blas, instanceMask := 0xFF, flags := InstanceFlags.None,
           instanceContributionToHitGroupIndex := 1, transform := identityTransform }]
    | none => instances
  let tlas : TopLevelAS := { topLevelMaxInstances := instances.length, instances := instances }
  ({ r.1 with m_TopLevelAS := some tlas },
    r.2 ++ [Call.createAccelStruct true, Call.buildTopLevelAccelStruct instances])

/-! ## The lifecycle (lines 42-119) -/

/-- The reader after `ParseFromFile`: the value the call returned and what the getters
of the reader give. -/
structure ObjReader where
  valid : Bool
  error : String
  warning : String
  attrib : attrib_t
  shapes : List shape_t
  materials : List material_t

/-- The function `LoadScene`, on the outcome of the parse step: the value returned, the
loader afterwards and the calls made. -/
def LoadScene (hash : SceneVertex → Nat) (reader : ObjReader) (this : Scene) :
    Option (Bool × Scene × List Call) :=
  if !reader.valid then
    some (false, this, [])
  else if reader.materials.isEmpty then
    some (false, this, [])
  else do
    let this ← AddGeometryToScene hash reader.attrib reader.shapes this
    let r1 ← AddMaterialsToScene reader.materials this
    let r2 ← CreateMaterialsBuffers r1.1
    let r3 := CreateGeometryBuffers r2.1
    let r4 := CreateAccelerationStructure r3.1
    some (true, { r4.1 with m_sceneIsLoaded := true }, r1.2 ++ r2.2 ++ r3.2 ++ r4.2)

/-- The function `UnloadScene`: the value returned, the loader afterwards and the call
made on the texture cache. -/
def UnloadScene (this : Scene) : Bool × Scene × List Call :=
  (true,
    { this with
      m_sceneStats := {}
      m_Materials := []
      m_AABBs := []
      m_AABBMaterials := []
      m_Indices := []
      m_Vertices := []
      m_TriPerFaceMatID := []
      m_TopLevelAS := none
      m_BlasAABBs := none
      m_BlasTriangles := none
      m_AABBBuffer := none
      m_VertexBuffer := none
      m_IndexBuffer := none
      m_MaterialBuffer := none
      m_TriangleMaterialIDBuffer := none
      m_AABBMaterialIDBuffer := none
      m_sceneIsLoaded := false },
    [Call.TextureCacheReset])

/-! ## The ray tracing pipeline of the renderer (`Renderer.cpp`, lines 103-147) -/

/-- A hit group of the pipeline description: its export name, the names of its shaders
and the flag `isProceduralPrimitive`. -/
structure HitGroupDesc where
  exportName : String
  closestHitShader : String
  anyHitShader : String
  intersectionShader : Option String
  isProceduralPrimitive : Bool
deriving DecidableEq

/-- The shader table of `nvrhi`: the ray generation shader, the hit groups and the miss
shaders, each list in the order of the calls that added them; entry `k` of `hitGroups`
is the hit group of index `k`. -/
structure ShaderTable where
  rayGenerationShader : Option String := none
  hitGroups : List String := []
  missShaders : List String := []
deriving DecidableEq

namespace ShaderTable

def setRayGenerationShader (table : ShaderTable) (exportName : String) : ShaderTable :=
  { table with rayGenerationShader := some exportName }

def addHitGroup (table : ShaderTable) (exportName : String) : ShaderTable :=
  { table with hitGroups := table.hitGroups ++ [exportName] }

def addMissShader (table : ShaderTable) (exportName : String) : ShaderTable :=
  { table with missShaders := table.missShaders ++ [exportName] }

end ShaderTable

/-- The function `Renderer::InitRayTracingPipeline`: the hit groups of the pipeline
description (lines 114-133) and the shader table (lines 142-146). -/
def InitRayTracingPipeline : List HitGroupDesc × ShaderTable :=
  let hitGroups : List HitGroupDesc :=
    [ { exportName := "TriangleHitGroup", closestHitShader := "ClosestHitTriangle",
        anyHitShader := "AnyHitTriangle", intersectionShader := none,
        isProceduralPrimitive := false },
      { exportName := "AABBHitGroup", closestHitShader := "ClosestHitAABB",
        anyHitShader := "AnyHitAABB", intersectionShader := some "IntersectionAABB",
        isProceduralPrimitive := true } ]
  let m_ShaderTable : ShaderTable := {}
  let m_ShaderTable := m_ShaderTable.setRayGenerationShader "RayGen"
  let m_ShaderTable := m_ShaderTable.addHitGroup "TriangleHitGroup"
  let m_ShaderTable := m_ShaderTable.addHitGroup "AABBHitGroup"
  let m_ShaderTable := m_ShaderTable.addMissShader "Miss"
  (hitGroups, m_ShaderTable)

/-! ## The extraction over every value of `float`

Above, a `float` is a number, and the key, the map and the loops are written over
numbers. Here the deduplication key, its hash, the map and the loops of
`AddGeometryToScene` are written once more, line by line, over a `float` that is a number
or a NaN: `operator==` is false on a NaN, and arithmetic on a NaN gives a NaN.

The box of a shape of 12 faces is made with `min` and `max` of `donut::math`, which are
not part of the repository: of that branch the reads, the material record and the counter
are kept, and `m_AABBs` is left out. -/

namespace Ieee

/-- A value of the C++ type `float`: a finite number, or a NaN. Infinities are left out,
and the two zeros are one value, as they are for `operator==`. -/
inductive float where
  | number (x : ℚ)
  | nan
deriving DecidableEq

namespace float

/-- The operator `==` of the type: false as soon as one operand is a NaN. -/
def eq : float → float → Bool
  | number a, number b => decide (a = b)
  | _, _ => false

/-- The operator `-` of the type: the difference, rounded to the nearest value of the
type; a NaN when an operand is a NaN. -/
def sub : float → float → float
  | number a, number b => number (roundToFloat (a - b))
  | _, _ => nan

end float

structure float3 where
  x : float
  y : float
  z : float
deriving DecidableEq

structure float2 where
  x : float
  y : float
deriving DecidableEq

/-- Vertex format used in the buffer (`sharedShaderData.h`, lines 29-35). -/
structure VertexData where
  position : float3
  uvX : float
  normal : float3
  uvY : float
deriving DecidableEq

/-- The deduplication key (`MinecraftSceneLoader.h`, lines 19-39). -/
structure SceneVertex where
  position : float3
  normal : float3
  uv : float2
deriving DecidableEq

namespace SceneVertex

/-- The value-initialised `SceneVertex vertex{}`. -/
def zero : SceneVertex :=
  ⟨⟨float.number 0, float.number 0, float.number 0⟩,
    ⟨float.number 0, float.number 0, float.number 0⟩, ⟨float.number 0, float.number 0⟩⟩

/-- The member `operator==`: componentwise comparison, then `all` of each group. -/
def eq (a b : SceneVertex) : Bool :=
  let samePos := (float.eq a.position.x b.position.x, float.eq a.position.y b.position.y,
    float.eq a.position.z b.position.z)
  let sameNormal := (float.eq a.normal.x b.normal.x, float.eq a.normal.y b.normal.y,
    float.eq a.normal.z b.normal.z)
  let sameUV := (float.eq a.uv.x b.uv.x, float.eq a.uv.y b.uv.y)
  (samePos.1 && samePos.2.1 && samePos.2.2) && (sameNormal.1 && sameNormal.2.1 && sameNormal.2.2)
    && (sameUV.1 && sameUV.2)

def toVertexData (v : SceneVertex) : VertexData :=
  { position := v.position, normal := v.normal, uvX := v.uv.x, uvY := v.uv.y }

end SceneVertex

/-- The specialisation `std::hash<float3>`, over the library's `std::hash<float>`. -/
def hashFloat3 (hashFloat : float → Nat) (f : float3) : Nat :=
  let seed := 0
  let seed := hash_combine seed (hashFloat f.x)
  let seed := hash_combine seed (hashFloat f.y)
  let seed := hash_combine seed (hashFloat f.z)
  seed

/-- The specialisation `std::hash<MinecraftSceneLoader::SceneVertex>`. -/
def hashSceneVertex (hashFloat : float → Nat) (vertex : SceneVertex) : Nat :=
  let seed := 0
  let seed := hash_combine seed (hashFloat3 hashFloat vertex.position)
  let seed := hash_combine seed (hashFloat3 hashFloat vertex.normal)
  let seed := hash_combine seed (hashFloat vertex.uv.x)
  let seed := hash_combine seed (hashFloat vertex.uv.y)
  seed

/-- The map `std::unordered_map<SceneVertex, uint32_t>`, as above: one chain per hash
value, keys compared with `SceneVertex.eq`. -/
structure UnorderedMap where
  buckets : Nat → List (SceneVertex × Nat)

namespace UnorderedMap

/-- The map `uniqueVertices{}`. -/
def empty : UnorderedMap := ⟨fun _ => []⟩

/-- Search of one chain. -/
def chainFind : List (SceneVertex × Nat) → SceneVertex → Option Nat
  | [], _ => none
  | (k', v) :: rest, k => if SceneVertex.eq k' k then some v else chainFind rest k

/-- Assignment in one chain: the entry of an equal key is overwritten, else one is added. -/
def chainSet : List (SceneVertex × Nat) → SceneVertex → Nat → List (SceneVertex × Nat)
  | [], k, v => [(k, v)]
  | (k', v') :: rest, k, v =>
    if SceneVertex.eq k' k then (k', v) :: rest else (k', v') :: chainSet rest k v

def find? (hash : SceneVertex → Nat) (m : UnorderedMap) (k : SceneVertex) : Option Nat :=
  chainFind (m.buckets (hash k)) k

/-- The member `count`. -/
def count (hash : SceneVertex → Nat) (m : UnorderedMap) (k : SceneVertex) : Nat :=
  if (m.find? hash k).isSome then 1 else 0

/-- The statement `m[k] = v`. -/
def set (hash : SceneVertex → Nat) (m : UnorderedMap) (k : SceneVertex) (v : Nat) :
    UnorderedMap :=
  ⟨fun h => if h = hash k then chainSet (m.buckets h) k v else m.buckets h⟩

/-- The expression `m[k]` read as a value: an absent key is inserted with value `0`. -/
def get (hash : SceneVertex → Nat) (m : UnorderedMap) (k : SceneVertex) :
    Nat × UnorderedMap :=
  match m.find? hash k with
  | some v => (v, m)
  | none => (0, m.set hash k 0)

end UnorderedMap

/-- The three arrays of `tinyobj::attrib_t`. -/
structure attrib_t where
  vertices : List float
  normals : List float
  texcoords : List float
deriving DecidableEq

/-- The data members of `MinecraftSceneLoader` that `AddGeometryToScene` writes, `m_AABBs`
apart. -/
structure Scene where
  m_sceneStats : SceneStats := {}
  m_AABBMaterials : List AABBMaterials := []
  m_Indices : List Nat := []
  m_Vertices : List VertexData := []
  m_TriPerFaceMatID : List Int := []
deriving DecidableEq

/-- The state the loops of `AddGeometryToScene` work on: the loader object and the
local map. -/
structure Extraction where
  scene : Scene
  uniqueVertices : UnorderedMap

/-- One turn of the vertex loop of a box face: the reads of lines 248-251. -/
def readBoxVertex (attribs : attrib_t) (mesh : mesh_t) (index_offset : Nat) (_ : Unit)
    (v : Nat) : Option Unit := do
  let idx ← mesh.indices[index_offset + v]?
  let _ ← attribs.vertices[attribIndex 3 idx.vertex_index 0]?
  let _ ← attribs.vertices[attribIndex 3 idx.vertex_index 1]?
  let _ ← attribs.vertices[attribIndex 3 idx.vertex_index 2]?
  pure ()

/-- The face loop of a box shape (lines 244-261), over the faces still to visit: its
reads. -/
def blockFaces (attribs : attrib_t) (mesh : mesh_t) : List Nat → Nat → Option Unit
  | [], _ => some ()
  | fv :: rest, index_offset => do
    (List.range fv).foldlM (readBoxVertex attribs mesh index_offset) ()
    blockFaces attribs mesh rest (index_offset + fv)

/-- The `SceneVertex` of one corner (lines 290-308). -/
def readVertex (attribs : attrib_t) (idx : index_t) : Option SceneVertex := do
  let vertex := SceneVertex.zero
  let px ← attribs.vertices[attribIndex 3 idx.vertex_index 0]?
  let py ← attribs.vertices[attribIndex 3 idx.vertex_index 1]?
  let pz ← attribs.vertices[attribIndex 3 idx.vertex_index 2]?
  let vertex := { vertex with position := ⟨px, py, pz⟩ }
  let vertex ←
    if idx.normal_index ≥ 0 then do
      let nx ← attribs.normals[attribIndex 3 idx.normal_index 0]?
      let ny ← attribs.normals[attribIndex 3 idx.normal_index 1]?
      let nz ← attribs.normals[attribIndex 3 idx.normal_index 2]?
      pure { vertex with normal := ⟨nx, ny, nz⟩ }
    else pure vertex
  let vertex ←
    if idx.texcoord_index ≥ 0 then do
      let u ← attribs.texcoords[attribIndex 2 idx.texcoord_index 0]?
      let v ← attribs.texcoords[attribIndex 2 idx.texcoord_index 1]?
      pure { vertex with uv := ⟨u, float.sub (float.number 1) v⟩ }
    else pure vertex
  pure vertex

/-- The duplicate check and the index push (lines 310-318). -/
def addVertex (hash : SceneVertex → Nat) (e : Extraction) (vertex : SceneVertex) :
    Extraction :=
  let e :=
    if e.uniqueVertices.count hash vertex = 0 then
      { e with
        uniqueVertices := e.uniqueVertices.set hash vertex (e.scene.m_Vertices.length % 2 ^ 32)
        scene :=
          { e.scene with
            m_Vertices := e.scene.m_Vertices ++ [vertex.toVertexData]
            m_sceneStats :=
              { e.scene.m_sceneStats with
                numUniqueVertices := e.scene.m_sceneStats.numUniqueVertices + 1 } } }
    else e
  let r := e.uniqueVertices.get hash vertex
  { uniqueVertices := r.2
    scene :=
      { e.scene with
        m_Indices := e.scene.m_Indices ++ [r.1]
        m_sceneStats :=
          { e.scene.m_sceneStats with numIndices := e.scene.m_sceneStats.numIndices + 1 } } }

/-- The local `vertex` built from entry `i` of the index list (lines 290-308). -/
def cornerAt (attribs : attrib_t) (mesh : mesh_t) (i : Nat) : Option SceneVertex := do
  let idx ← mesh.indices[i]?
  readVertex attribs idx

/-- One turn of the vertex loop of a triangle face (lines 289-319). -/
def meshCorner (hash : SceneVertex → Nat) (attribs : attrib_t) (mesh : mesh_t)
    (index_offset : Nat) (e : Extraction) (v : Nat) : Option Extraction := do
  let vertex ← cornerAt attribs mesh (index_offset + v)
  pure (addVertex hash e vertex)

/-- The end of a triangle face (lines 321-323): the triangle counter and the material. -/
def pushTriangle (e : Extraction) (matID : Int) : Extraction :=
  { e with
    scene :=
      { e.scene with
        m_sceneStats :=
          { e.scene.m_sceneStats with numTriangles := e.scene.m_sceneStats.numTriangles + 1 }
        m_TriPerFaceMatID := e.scene.m_TriPerFaceMatID ++ [matID] } }

/-- One turn of the face loop of a mesh shape (lines 281-323), for face `f` with `fv`
vertices: the new `index_offset` and the new state. A face that is not a triangle is
left by `continue`, before `index_offset` is advanced. -/
def meshFace (hash : SceneVertex → Nat) (attribs : attrib_t) (mesh : mesh_t)
    (f fv index_offset : Nat) (e : Extraction) : Option (Nat × Extraction) :=
  if fv ≠ 3 then
    some (index_offset, e)
  else do
    let e ← (List.range fv).foldlM (meshCorner hash attribs mesh index_offset) e
    let index_offset := index_offset + fv
    let matID ← mesh.material_ids[f]?
    pure (index_offset, pushTriangle e matID)

/-- The face loop of a mesh shape (lines 280-324), over the faces still to visit;
`f` is the number of the first of them. -/
def meshFaces (hash : SceneVertex → Nat) (attribs : attrib_t) (mesh : mesh_t) :
    List Nat → Nat → Nat → Extraction → Option Extraction
  | [], _, _, e => some e
  | fv :: rest, f, index_offset, e => do
    let r ← meshFace hash attribs mesh f fv index_offset e
    meshFaces hash attribs mesh rest (f + 1) r.1 r.2

/-- One turn of the shape loop (lines 236-325). -/
def addShape (hash : SceneVertex → Nat) (attribs : attrib_t) (e : Extraction)
    (shape : shape_t) : Option Extraction :=
  let index_offset := 0
  if shape.mesh.num_face_vertices.length = 12 then do
    blockFaces attribs shape.mesh shape.mesh.num_face_vertices index_offset
    let aabbMaterials ← blockMaterials shape.mesh
    pure
      { e with
        scene :=
          { e.scene with
            m_AABBMaterials := e.scene.m_AABBMaterials ++ [aabbMaterials]
            m_sceneStats :=
              { e.scene.m_sceneStats with numAABBs := e.scene.m_sceneStats.numAABBs + 1 } } }
  else
    meshFaces hash attribs shape.mesh shape.mesh.num_face_vertices 0 index_offset e

/-- The shape loop, started with the empty map, with its whole final state. -/
def extractGeometry (hash : SceneVertex → Nat) (attribs : attrib_t) (shapes : List shape_t)
    (this : Scene) : Option Extraction :=
  shapes.foldlM (addShape hash attribs) ⟨this, UnorderedMap.empty⟩

def AddGeometryToScene (hash : SceneVertex → Nat) (attribs : attrib_t)
    (shapes : List shape_t) (this : Scene) : Option Scene :=
  (extractGeometry hash attribs shapes this).map Extraction.scene

end Ieee

/-! ## Well-formed parser output

The precondition under which the loader reads no vector outside its bounds. -/

/-- The reads made through one index triple stay inside the attribute arrays. -/
def IndexInBounds (attribs : attrib_t) (idx : index_t) : Prop :=
  0 ≤ idx.vertex_index ∧ 3 * idx.vertex_index + 2 < attribs.vertices.length ∧
  (0 ≤ idx.normal_index → 3 * idx.normal_index + 2 < attribs.normals.length) ∧
  (0 ≤ idx.texcoord_index → 2 * idx.texcoord_index + 1 < attribs.texcoords.length)

instance (attribs : attrib_t) (idx : index_t) : Decidable (IndexInBounds attribs idx) := by
  unfold IndexInBounds; infer_instance

/-- The index list has one entry per face vertex, the material list one entry per face,
and every index triple is in bounds. -/
def WellFormedShape (attribs : attrib_t) (shape : shape_t) : Prop :=
  shape.mesh.indices.length = shape.mesh.num_face_vertices.sum ∧
  shape.mesh.material_ids.length = shape.mesh.num_face_vertices.length ∧
  ∀ idx ∈ shape.mesh.indices, IndexInBounds attribs idx

instance (attribs : attrib_t) (shape : shape_t) : Decidable (WellFormedShape attribs shape) := by
  unfold WellFormedShape; infer_instance

/-- The unloaded state of the loader: `IsLoaded()` is false, every container is empty,
every buffer handle and every acceleration structure handle is null. -/
def Unloaded (this : Scene) : Prop :=
  this.IsLoaded = false ∧
  this.m_Materials = [] ∧ this.m_AABBs = [] ∧ this.m_AABBMaterials = [] ∧
  this.m_Indices = [] ∧ this.m_Vertices = [] ∧ this.m_TriPerFaceMatID = [] ∧
  this.m_TopLevelAS = none ∧ this.m_BlasAABBs = none ∧ this.m_BlasTriangles = none ∧
  this.m_AABBBuffer = none ∧ this.m_VertexBuffer = none ∧ this.m_IndexBuffer = none ∧
  this.m_MaterialBuffer = none ∧ this.m_TriangleMaterialIDBuffer = none ∧
  this.m_AABBMaterialIDBuffer = none

instance (this : Scene) : Decidable (Unloaded this) := by
  unfold Unloaded; infer_instance

/-- A box whose corners satisfy `min ≤ max` on every axis. -/
def AABB.Ordered (aabb : AABB) : Prop :=
  aabb.min.x ≤ aabb.max.x ∧ aabb.min.y ≤ aabb.max.y ∧ aabb.min.z ≤ aabb.max.z

/-- The loader with the members that `AddGeometryToScene` writes blanked: two loaders
with the same image agree on every other member. -/
def Scene.outsideGeometry (this : Scene) : Scene :=
  { this with
    m_sceneStats := {}
    m_AABBs := []
    m_AABBMaterials := []
    m_Indices := []
    m_Vertices := []
    m_TriPerFaceMatID := [] }

/-- The materials pushed for the parsed materials `materials`, the first of which is at
position `i`. -/
def madeMaterials (i : Nat) (materials : List material_t) : List Material :=
  (materials.enumFrom i).map (fun p => (makeMaterial p.1 p.2).1)

/-! ## The vertices of a box shape -/

/-- The position read through one index triple (lines 249-251). -/
def vertexPosition (attribs : attrib_t) (idx : index_t) : Option float3 := do
  let vx ← attribs.vertices[attribIndex 3 idx.vertex_index 0]?
  let vy ← attribs.vertices[attribIndex 3 idx.vertex_index 1]?
  let vz ← attribs.vertices[attribIndex 3 idx.vertex_index 2]?
  pure ⟨vx, vy, vz⟩

/-- The box after one more vertex (lines 253-258). -/
def growBox (aabb : AABB) (p : float3) : AABB :=
  { min := ⟨min p.x aabb.min.x, min p.y aabb.min.y, min p.z aabb.min.z⟩
    max := ⟨max p.x aabb.max.x, max p.y aabb.max.y, max p.z aabb.max.z⟩ }

/-- The point `p` lies inside the box, borders included. -/
def AABB.Contains (aabb : AABB) (p : float3) : Prop :=
  aabb.min.x ≤ p.x ∧ p.x ≤ aabb.max.x ∧ aabb.min.y ≤ p.y ∧ p.y ≤ aabb.max.y ∧
  aabb.min.z ≤ p.z ∧ p.z ≤ aabb.max.z

/-- Every parsed coordinate is in the range of a finite `float`. -/
def InFloatRange (attribs : attrib_t) : Prop :=
  ∀ x ∈ attribs.vertices, -FLT_MAX ≤ x ∧ x ≤ FLT_MAX

instance (attribs : attrib_t) : Decidable (InFloatRange attribs) := by
  unfold InFloatRange; infer_instance

/-! ## The materials of the triangle faces -/

/-- The material IDs of the faces of a mesh that have exactly 3 vertices, in face order. -/
def triangleFaceMaterials (mesh : mesh_t) : List Int :=
  ((mesh.num_face_vertices.zip mesh.material_ids).filter (fun p => p.1 = 3)).map (fun p => p.2)

/-- The material IDs of the triangle faces of a shape that is processed as a mesh; a
shape of twelve faces is a box and has none. -/
def shapeTriangleMaterials (shape : shape_t) : List Int :=
  if shape.mesh.num_face_vertices.length = 12 then [] else triangleFaceMaterials shape.mesh

/-! ## Sequences of calls on the loader -/

/-- A call of a client on the loader: `LoadScene`, given with the outcome of its parse
step, or `UnloadScene`. -/
inductive LoaderCall where
  | load (reader : ObjReader)
  | unload

/-- The loader after one call of a client. -/
def callLoader (hash : SceneVertex → Nat) (this : Scene) : LoaderCall → Option Scene
  | LoaderCall.load reader => (LoadScene hash reader this).map (fun r => r.2.1)
  | LoaderCall.unload => some (UnloadScene this).2.1

/-- The loader after a sequence of calls, made one after the other. -/
def runCalls (hash : SceneVertex → Nat) (calls : List LoaderCall) (this : Scene) :
    Option Scene :=
  calls.foldlM (callLoader hash) this

/-- Every material of the array has its position as `materialID`. -/
def MaterialIDsArePositions (this : Scene) : Prop :=
  ∀ (i : Nat) (sceneMat : Material), this.m_Materials[i]? = some sceneMat →
    sceneMat.materialID = (i : Int)

/-- The discipline of `Renderer::Render` (`Renderer.cpp`, lines 225-238): in the sequence
`calls`, started on the loader `this`, every `LoadScene` is made on a loader whose
`IsLoaded()` is false. -/
def LoadsWhenNotLoaded (hash : SceneVertex → Nat) : List LoaderCall → Scene → Prop
  | [], _ => True
  | call :: rest, this =>
    (∀ reader, call = LoaderCall.load reader → this.IsLoaded = false) ∧
    ∀ s', callLoader hash this call = some s' → LoadsWhenNotLoaded hash rest s'

/-! ## The order of first occurrence -/

/-- The vertices of a corner stream, each once, in the order of their first occurrence. -/
def firstOccurrences (corners : List SceneVertex) : List SceneVertex :=
  corners.foldl (fun D v => if v ∈ D then D else D ++ [v]) []

/-! ## Index entries outside the arrays -/

/-- The value fits the C type `int`. -/
def IsInt (i : Int) : Prop := -2 ^ 31 ≤ i ∧ i < 2 ^ 31

instance (i : Int) : Decidable (IsInt i) := by
  unfold IsInt; infer_instance

/-- The shape has an index entry, among those of its faces, that points outside the
attribute arrays: for a box, whose loop reads positions only, a vertex index outside the
position array; for a mesh an index triple that is not in bounds. -/
def ReferencesOutOfBounds (attribs : attrib_t) (shape : shape_t) : Prop :=
  ∃ k idx, k < shape.mesh.num_face_vertices.sum ∧ shape.mesh.indices[k]? = some idx ∧
    IsInt idx.vertex_index ∧ IsInt idx.normal_index ∧ IsInt idx.texcoord_index ∧
    if shape.mesh.num_face_vertices.length = 12 then
      ¬ (0 ≤ idx.vertex_index ∧ 3 * idx.vertex_index + 2 < attribs.vertices.length)
    else ¬ IndexInBounds attribs idx

/-! ## The relation kept by the duplicate check -/

/-- The index of vertex `v` when `D` lists the distinct vertices met so far, in order of
first occurrence, and the vertex array held `n0` entries before the first of them. -/
def indexIn (n0 : Nat) (D : List SceneVertex) (v : SceneVertex) : Nat :=
  (n0 + D.indexOf v) % 2 ^ 32

/-- The state `e` of the loops, started on the loader `s0`, agrees with the list `D` of
the distinct corners met so far: the vertex array grew by `D`, the map holds exactly the
vertices of `D` with their indices, and the index stream grew by one index per corner. -/
def Deduplicated (hash : SceneVertex → Nat) (s0 : Scene) (e : Extraction)
    (D : List SceneVertex) : Prop :=
  D.Nodup ∧ (∀ v, v ∈ D ↔ v ∈ e.corners) ∧
  e.scene.m_Vertices = s0.m_Vertices ++ D.map SceneVertex.toVertexData ∧
  (∀ v, e.uniqueVertices.find? hash v =
    if v ∈ D then some (indexIn s0.m_Vertices.length D v) else none) ∧
  e.scene.m_Indices = s0.m_Indices ++ e.corners.map (indexIn s0.m_Vertices.length D)

/-! ## The extraction with a naive deduplicator

Written from the words of the specification, not from the source: the loops of
`AddGeometryToScene` in which the duplicate check searches, from its first entry, the
list of the vertices emitted so far, and no hash is computed. -/

/-- The state of the loops with the naive deduplicator: the loader, the size `first` of
the vertex array when the call started, and the vertices emitted by the call, in the
order they were emitted. -/
structure NaiveExtraction where
  scene : Scene
  first : Nat
  emitted : List SceneVertex

/-- Linear search of the emitted vertices for one equal to `vertex`, with `operator==`:
the position of the first one found. -/
def naiveSearch : List SceneVertex → SceneVertex → Option Nat
  | [], _ => none
  | v :: rest, vertex =>
    if SceneVertex.eq v vertex then some 0
    else (naiveSearch rest vertex).map (fun position => position + 1)

/-- The duplicate check of the naive deduplicator: a vertex found among the emitted ones
reuses the index of the one found, as a `uint32_t`; another one is emitted, appended to
the vertex array and given the next index. The index is pushed in both cases. -/
def naiveAddVertex (e : NaiveExtraction) (vertex : SceneVertex) : NaiveExtraction :=
  match naiveSearch e.emitted vertex with
  | some position =>
    { e with
      scene :=
        { e.scene with
          m_Indices := e.scene.m_Indices ++ [(e.first + position) % 2 ^ 32]
          m_sceneStats :=
            { e.scene.m_sceneStats with numIndices := e.scene.m_sceneStats.numIndices + 1 } } }
  | none =>
    { e with
      emitted := e.emitted ++ [vertex]
      scene :=
        { e.scene with
          m_Vertices := e.scene.m_Vertices ++ [vertex.toVertexData]
          m_Indices := e.scene.m_Indices ++ [e.scene.m_Vertices.length % 2 ^ 32]
          m_sceneStats :=
            { e.scene.m_sceneStats with
              numUniqueVertices := e.scene.m_sceneStats.numUniqueVertices + 1
              numIndices := e.scene.m_sceneStats.numIndices + 1 } } }

def naiveMeshCorner (attribs : attrib_t) (mesh : mesh_t) (index_offset : Nat)
    (e : NaiveExtraction) (v : Nat) : Option NaiveExtraction := do
  let vertex ← cornerAt attribs mesh (index_offset + v)
  pure (naiveAddVertex e vertex)

def naivePushTriangle (e : NaiveExtraction) (matID : Int) : NaiveExtraction :=
  { e with
    scene :=
      { e.scene with
        m_sceneStats :=
          { e.scene.m_sceneStats with numTriangles := e.scene.m_sceneStats.numTriangles + 1 }
        m_TriPerFaceMatID := e.scene.m_TriPerFaceMatID ++ [matID] } }

def naiveMeshFace (attribs : attrib_t) (mesh : mesh_t) (f fv index_offset : Nat)
    (e : NaiveExtraction) : Option (Nat × NaiveExtraction) :=
  if fv ≠ 3 then
    some (index_offset, e)
  else do
    let e ← (List.range fv).foldlM (naiveMeshCorner attribs mesh index_offset) e
    let index_offset := index_offset + fv
    let matID ← mesh.material_ids[f]?
    pure (index_offset, naivePushTriangle e matID)

def naiveMeshFaces (attribs : attrib_t) (mesh : mesh_t) :
    List Nat → Nat → Nat → NaiveExtraction → Option NaiveExtraction
  | [], _, _, e => some e
  | fv :: rest, f, index_offset, e => do
    let r ← naiveMeshFace attribs mesh f fv index_offset e
    naiveMeshFaces attribs mesh rest (f + 1) r.1 r.2

def naiveAddShape (attribs : attrib_t) (e : NaiveExtraction) (shape : shape_t) :
    Option NaiveExtraction :=
  let index_offset := 0
  if shape.mesh.num_face_vertices.length = 12 then do
    let aabb ← blockFaces attribs shape.mesh shape.mesh.num_face_vertices index_offset
      initialAABB
    let aabbMaterials ← blockMaterials shape.mesh
    pure
      { e with
        scene :=
          { e.scene with
            m_AABBs := e.scene.m_AABBs ++ [aabb]
            m_AABBMaterials := e.scene.m_AABBMaterials ++ [aabbMaterials]
            m_sceneStats :=
              { e.scene.m_sceneStats with numAABBs := e.scene.m_sceneStats.numAABBs + 1 } } }
  else
    naiveMeshFaces attribs shape.mesh shape.mesh.num_face_vertices 0 index_offset e

/-- The extraction with the naive deduplicator, started with no vertex emitted. -/
def naiveAddGeometryToScene (attribs : attrib_t) (shapes : List shape_t) (this : Scene) :
    Option Scene :=
  (shapes.foldlM (naiveAddShape attribs) ⟨this, this.m_Vertices.length, []⟩).map
    NaiveExtraction.scene

/-- Two optional results are both absent, or both present and related by `R`. -/
def Related {β γ : Type} (R : β → γ → Prop) : Option β → Option γ → Prop
  | none, none => True
  | some b, some c => R b c
  | _, _ => False

/-- The state `e` of the loops with the map and the state `n` of the loops with the
naive deduplicator, both started on the loader `s0`, hold the same loader, and the map
holds the vertices `n` has emitted, each with its index. -/
def Simulates (hash : SceneVertex → Nat) (s0 : Scene) (e : Extraction)
    (n : NaiveExtraction) : Prop :=
  e.scene = n.scene ∧ n.first = s0.m_Vertices.length ∧ Deduplicated hash s0 e n.emitted

/-! ## Parser output over every value of `float` -/

namespace Ieee

/-- The reads made through one index triple stay inside the attribute arrays. -/
def IndexInBounds (attribs : attrib_t) (idx : index_t) : Prop :=
  0 ≤ idx.vertex_index ∧ 3 * idx.vertex_index + 2 < attribs.vertices.length ∧
  (0 ≤ idx.normal_index → 3 * idx.normal_index + 2 < attribs.normals.length) ∧
  (0 ≤ idx.texcoord_index → 2 * idx.texcoord_index + 1 < attribs.texcoords.length)

instance (attribs : attrib_t) (idx : index_t) : Decidable (IndexInBounds attribs idx) := by
  unfold IndexInBounds; infer_instance

/-- The index list has one entry per face vertex, the material list one entry per face,
and every index triple is in bounds. -/
def WellFormedShape (attribs : attrib_t) (shape : shape_t) : Prop :=
  shape.mesh.indices.length = shape.mesh.num_face_vertices.sum ∧
  shape.mesh.material_ids.length = shape.mesh.num_face_vertices.length ∧
  ∀ idx ∈ shape.mesh.indices, IndexInBounds attribs idx

instance (attribs : attrib_t) (shape : shape_t) : Decidable (WellFormedShape attribs shape) := by
  unfold WellFormedShape; infer_instance

/-- No entry of the three arrays is a NaN. -/
def NoNaN (attribs : attrib_t) : Prop :=
  (∀ x ∈ attribs.vertices, x ≠ float.nan) ∧ (∀ x ∈ attribs.normals, x ≠ float.nan) ∧
  ∀ x ∈ attribs.texcoords, x ≠ float.nan

instance (attribs : attrib_t) : Decidable (NoNaN attribs) := by
  unfold NoNaN; infer_instance

end Ieee

/-! ## The corner stream

The corners that the loops of `AddGeometryToScene` build, in the order they build them,
read from the parser output without the duplicate check, the map and the loader. -/

namespace Ieee

/-- The corners built by the face loop of a mesh shape (lines 280-308 and 320), over the
faces still to visit: the three corners of each face of 3 vertices, read at
`index_offset`; as in the source, a face that is not a triangle leaves `index_offset` as
it is. -/
def meshCorners (attribs : attrib_t) (mesh : mesh_t) : List Nat → Nat → Option (List SceneVertex)
  | [], _ => some []
  | fv :: rest, index_offset =>
    if fv ≠ 3 then meshCorners attribs mesh rest index_offset
    else do
      let v0 ← cornerAt attribs mesh index_offset
      let v1 ← cornerAt attribs mesh (index_offset + 1)
      let v2 ← cornerAt attribs mesh (index_offset + 2)
      let corners ← meshCorners attribs mesh rest (index_offset + 3)
      pure (v0 :: v1 :: v2 :: corners)

/-- The corners built for one shape: none for a shape of 12 faces, which is a box. -/
def shapeCorners (attribs : attrib_t) (shape : shape_t) : Option (List SceneVertex) :=
  if shape.mesh.num_face_vertices.length = 12 then some []
  else meshCorners attribs shape.mesh shape.mesh.num_face_vertices 0

/-- The processed triangle corners of all mesh shapes, in shape order, face order and
corner order. -/
def processedCorners (attribs : attrib_t) : List shape_t → Option (List SceneVertex)
  | [] => some []
  | shape :: rest => do
    let corners ← shapeCorners attribs shape
    let others ← processedCorners attribs rest
    pure (corners ++ others)

/-- The corners of the triangle faces of a mesh as the parser output lists them, written
from the words of the specification: a face owns the index entries that follow those of
the faces before it, whatever their vertex counts, and a triangle gives its three corners
in their order. `first` is the first index entry of the first face of the list. -/
def sourceFaceCorners (attribs : attrib_t) (mesh : mesh_t) :
    List Nat → Nat → Option (List SceneVertex)
  | [], _ => some []
  | fv :: rest, first =>
    if fv = 3 then do
      let v0 ← cornerAt attribs mesh first
      let v1 ← cornerAt attribs mesh (first + 1)
      let v2 ← cornerAt attribs mesh (first + 2)
      let corners ← sourceFaceCorners attribs mesh rest (first + 3)
      pure (v0 :: v1 :: v2 :: corners)
    else sourceFaceCorners attribs mesh rest (first + fv)

/-- The corners of the triangle faces of all mesh shapes, as the parser output lists
them: shape order, face order, corner order. -/
def sourceCorners (attribs : attrib_t) : List shape_t → Option (List SceneVertex)
  | [] => some []
  | shape :: rest => do
    let corners ←
      if shape.mesh.num_face_vertices.length = 12 then some []
      else sourceFaceCorners attribs shape.mesh shape.mesh.num_face_vertices 0
    let others ← sourceCorners attribs rest
    pure (corners ++ others)

/-- The vertices of a corner stream, each once, in the order of their first occurrence. -/
def firstOccurrences (corners : List SceneVertex) : List SceneVertex :=
  corners.foldl (fun D v => if v ∈ D then D else D ++ [v]) []

end Ieee

/-- Every face of every mesh shape (a shape that has not 12 faces) is a triangle. -/
def TriangleMeshes (shapes : List shape_t) : Prop :=
  ∀ shape ∈ shapes, shape.mesh.num_face_vertices.length ≠ 12 →
    ∀ fv ∈ shape.mesh.num_face_vertices, fv = 3

instance (shapes : List shape_t) : Decidable (TriangleMeshes shapes) := by
  unfold TriangleMeshes; infer_instance

/-! ## The extraction with a naive deduplicator, over every value of `float`

Written from the words of the specification, as above. -/

namespace Ieee

/-- The state of the loops with the naive deduplicator: the loader, the size `first` of
the vertex array when the call started, and the vertices emitted by the call, in the
order they were emitted. -/
structure NaiveExtraction where
  scene : Scene
  first : Nat
  emitted : List SceneVertex

/-- Linear search of the emitted vertices for one equal to `vertex`, with `operator==`:
the position of the first one found. -/
def naiveSearch : List SceneVertex → SceneVertex → Option Nat
  | [], _ => none
  | v :: rest, vertex =>
    if SceneVertex.eq v vertex then some 0
    else (naiveSearch rest vertex).map (fun position => position + 1)

/-- The duplicate check of the naive deduplicator: a vertex found among the emitted ones
reuses the index of the one found, as a `uint32_t`; another one is emitted, appended to
the vertex array and given the next index. The index is pushed in both cases. -/
def naiveAddVertex (e : NaiveExtraction) (vertex : SceneVertex) : NaiveExtraction :=
  match naiveSearch e.emitted vertex with
  | some position =>
    { e with
      scene :=
        { e.scene with
          m_Indices := e.scene.m_Indices ++ [(e.first + position) % 2 ^ 32]
          m_sceneStats :=
            { e.scene.m_sceneStats with numIndices := e.scene.m_sceneStats.numIndices + 1 } } }
  | none =>
    { e with
      emitted := e.emitted ++ [vertex]
      scene :=
        { e.scene with
          m_Vertices := e.scene.m_Vertices ++ [vertex.toVertexData]
          m_Indices := e.scene.m_Indices ++ [e.scene.m_Vertices.length % 2 ^ 32]
          m_sceneStats :=
            { e.scene.m_sceneStats with
              numUniqueVertices := e.scene.m_sceneStats.numUniqueVertices + 1
              numIndices := e.scene.m_sceneStats.numIndices + 1 } } }

def naiveMeshCorner (attribs : attrib_t) (mesh : mesh_t) (index_offset : Nat)
    (e : NaiveExtraction) (v : Nat) : Option NaiveExtraction := do
  let vertex ← cornerAt attribs mesh (index_offset + v)
  pure (naiveAddVertex e vertex)

def naivePushTriangle (e : NaiveExtraction) (matID : Int) : NaiveExtraction :=
  { e with
    scene :=
      { e.scene with
        m_sceneStats :=
          { e.scene.m_sceneStats with numTriangles := e.scene.m_sceneStats.numTriangles + 1 }
        m_TriPerFaceMatID := e.scene.m_TriPerFaceMatID ++ [matID] } }

def naiveMeshFace (attribs : attrib_t) (mesh : mesh_t) (f fv index_offset : Nat)
    (e : NaiveExtraction) : Option (Nat × NaiveExtraction) :=
  if fv ≠ 3 then
    some (index_offset, e)
  else do
    let e ← (List.range fv).foldlM (naiveMeshCorner attribs mesh index_offset) e
    let index_offset := index_offset + fv
    let matID ← mesh.material_ids[f]?
    pure (index_offset, naivePushTriangle e matID)

def naiveMeshFaces (attribs : attrib_t) (mesh : mesh_t) :
    List Nat → Nat → Nat → NaiveExtraction → Option NaiveExtraction
  | [], _, _, e => some e
  | fv :: rest, f, index_offset, e => do
    let r ← naiveMeshFace attribs mesh f fv index_offset e
    naiveMeshFaces attribs mesh rest (f + 1) r.1 r.2

def naiveAddShape (attribs : attrib_t) (e : NaiveExtraction) (shape : shape_t) :
    Option NaiveExtraction :=
  let index_offset := 0
  if shape.mesh.num_face_vertices.length = 12 then do
    blockFaces attribs shape.mesh shape.mesh.num_face_vertices index_offset
    let aabbMaterials ← blockMaterials shape.mesh
    pure
      { e with
        scene :=
          { e.scene with
            m_AABBMaterials := e.scene.m_AABBMaterials ++ [aabbMaterials]
            m_sceneStats :=
              { e.scene.m_sceneStats with numAABBs := e.scene.m_sceneStats.numAABBs + 1 } } }
  else
    naiveMeshFaces attribs shape.mesh shape.mesh.num_face_vertices 0 index_offset e

/-- The extraction with the naive deduplicator, started with no vertex emitted. -/
def naiveAddGeometryToScene (attribs : attrib_t) (shapes : List shape_t) (this : Scene) :
    Option Scene :=
  (shapes.foldlM (naiveAddShape attribs) ⟨this, this.m_Vertices.length, []⟩).map
    NaiveExtraction.scene

end Ieee

/-! ## Numbers as values of `float`

The parser output, the key and the loader written over numbers, seen as the ones written
over every value of `float`: each number `x` becomes `Ieee.float.number x`. -/

def ofFloat3 (f : float3) : Ieee.float3 :=
  ⟨Ieee.float.number f.x, Ieee.float.number f.y, Ieee.float.number f.z⟩

def ofFloat2 (f : float2) : Ieee.float2 := ⟨Ieee.float.number f.x, Ieee.float.number f.y⟩

def ofVertex (v : SceneVertex) : Ieee.SceneVertex :=
  ⟨ofFloat3 v.position, ofFloat3 v.normal, ofFloat2 v.uv⟩

def ofVertexData (d : VertexData) : Ieee.VertexData :=
  { position := ofFloat3 d.position, uvX := Ieee.float.number d.uvX,
    normal := ofFloat3 d.normal, uvY := Ieee.float.number d.uvY }

/-- A parser output without a NaN. -/
def ofAttribs (attribs : attrib_t) : Ieee.attrib_t :=
  { vertices := attribs.vertices.map Ieee.float.number
    normals := attribs.normals.map Ieee.float.number
    texcoords := attribs.texcoords.map Ieee.float.number }

/-- The members of the loader that `AddGeometryToScene` writes, `m_AABBs` apart. -/
def ofScene (this : Scene) : Ieee.Scene :=
  { m_sceneStats := this.m_sceneStats
    m_AABBMaterials := this.m_AABBMaterials
    m_Indices := this.m_Indices
    m_Vertices := this.m_Vertices.map ofVertexData
    m_TriPerFaceMatID := this.m_TriPerFaceMatID }

def ofMap (m : UnorderedMap) : Ieee.UnorderedMap :=
  ⟨fun h => (m.buckets h).map (fun p => (ofVertex p.1, p.2))⟩

def ofExtraction (e : Extraction) : Ieee.Extraction := ⟨ofScene e.scene, ofMap e.uniqueVertices⟩

def ofNaiveExtraction (e : NaiveExtraction) : Ieee.NaiveExtraction :=
  ⟨ofScene e.scene, e.first, e.emitted.map ofVertex⟩

/-- The states of the loops under two hash functions hold the same loader, and their maps
answer every lookup alike. -/
def SameLookups (hash1 hash2 : Ieee.SceneVertex → Nat) (e1 e2 : Ieee.Extraction) : Prop :=
  e1.scene = e2.scene ∧
  ∀ k, e1.uniqueVertices.find? hash1 k = e2.uniqueVertices.find? hash2 k

/-! ## A small scene

One box (the unit cube, twelve triangles of material 0) and one triangle of material 1. -/

def sceneAttribs : attrib_t :=
  { vertices := [0, 0, 0, 1, 0, 0, 0, 1, 0, 1, 1, 0, 0, 0, 1, 1, 0, 1, 0, 1, 1, 1, 1, 1,
      2, 0, 0, 3, 0, 0, 2, 1, 0]
    normals := [0, 0, 1]
    texcoords := [0, 0, 1, 0, 0, 1] }

/-- An index triple with a position only. -/
def positionOnly (i : Int) : index_t := ⟨i, -1, -1⟩

def cubeShape : shape_t :=
  { mesh :=
    { indices := [0, 4, 6, 0, 6, 2, 0, 1, 5, 0, 5, 4, 0, 2, 3, 0, 3, 1,
        1, 3, 7, 1, 7, 5, 2, 6, 7, 2, 7, 3, 4, 5, 7, 4, 7, 6].map positionOnly
      num_face_vertices := [3, 3, 3, 3, 3, 3, 3, 3, 3, 3, 3, 3]
      material_ids := [0, 0, 0, 0, 0, 0, 0, 0, 0, 0, 0, 0] } }

def triangleShape : shape_t :=
  { mesh :=
    { indices := [⟨8, 0, 0⟩, ⟨9, 0, 1⟩, ⟨10, 0, 2⟩]
      num_face_vertices := [3]
      material_ids := [1] } }

/-- A mesh shape of two faces: a quadrilateral on index entries 0 to 3, then a triangle
on index entries 4 to 6. -/
def mixedShape : shape_t :=
  { mesh :=
    { indices := [0, 1, 3, 2, 8, 9, 10].map positionOnly
      num_face_vertices := [4, 3]
      material_ids := [0, 1] } }

/-- A shape of twelve faces that have no vertex. -/
def emptyBlock : shape_t :=
  { mesh :=
    { indices := []
      num_face_vertices := [0, 0, 0, 0, 0, 0, 0, 0, 0, 0, 0, 0]
      material_ids := [0, 0, 0, 0, 0, 0, 0, 0, 0, 0, 0, 0] } }

def stoneMaterial : material_t :=
  { name := "stone", diffuse := ⟨1 / 2, 1 / 2, 1 / 2⟩, emission := ⟨0, 0, 0⟩,
    diffuse_texname := "stone.png", alpha_texname := "", normal_texname := "",
    emissive_texname := "", specular_highlight_texname := "", roughness_texname := "",
    metallic_texname := "" }

def glassMaterial : material_t :=
  { name := "glass", diffuse := ⟨1, 1, 1⟩, emission := ⟨0, 0, 0⟩,
    diffuse_texname := "glass.png", alpha_texname := "glass_a.png", normal_texname := "",
    emissive_texname := "", specular_highlight_texname := "glass_s.png",
    roughness_texname := "", metallic_texname := "" }

/-- A parse that succeeded: the small scene with two materials. -/
def sceneReader : ObjReader :=
  { valid := true, error := "", warning := "", attrib := sceneAttribs,
    shapes := [cubeShape, triangleShape], materials := [stoneMaterial, glassMaterial] }

/-- A parse that succeeded and found no material. -/
def noMaterialReader : ObjReader :=
  { valid := true, error := "", warning := "", attrib := sceneAttribs,
    shapes := [cubeShape, triangleShape], materials := [] }

/-- A parse that failed. -/
def failedReader : ObjReader :=
  { valid := false, error := "Cannot open file", warning := "", attrib := ⟨[], [], []⟩,
    shapes := [], materials := [] }

/-- A parse that succeeded: one material and no shape. -/
def materialOnlyReader : ObjReader :=
  { valid := true, error := "", warning := "", attrib := ⟨[], [], []⟩,
    shapes := [], materials := [stoneMaterial] }

/-- The loader after `materialOnlyReader` was loaded on a fresh loader. -/
def loadedScene : Scene :=
  { m_sceneIsLoaded := true
    m_Materials := [(makeMaterial 0 stoneMaterial).1]
    m_MaterialBuffer := some ⟨"MaterialBuffer", 1⟩
    m_TopLevelAS := some ⟨0, []⟩ }

/-- A parse that succeeded with a warning: one material and the shape that has a
quadrilateral before a triangle. -/
def mixedReader : ObjReader :=
  { valid := true, error := "", warning := "material file not found", attrib := sceneAttribs,
    shapes := [mixedShape], materials := [stoneMaterial] }

/-- A material with a roughness texture and a specular highlight texture, and no
metallic texture. -/
def roughMaterial : material_t :=
  { name := "iron", diffuse := ⟨1, 1, 1⟩, emission := ⟨0, 0, 0⟩,
    diffuse_texname := "iron.png", alpha_texname := "", normal_texname := "iron_n.png",
    emissive_texname := "", specular_highlight_texname := "iron_s.png",
    roughness_texname := "iron_r.png", metallic_texname := "" }

/-- A material with an alpha texture and no base colour texture. -/
def alphaOnlyMaterial : material_t :=
  { name := "leaves", diffuse := ⟨1, 1, 1⟩, emission := ⟨0, 0, 0⟩,
    diffuse_texname := "", alpha_texname := "leaves_a.png", normal_texname := "",
    emissive_texname := "", specular_highlight_texname := "", roughness_texname := "",
    metallic_texname := "" }

/-- A square made of two triangles that share two corners. -/
def quadShape : shape_t :=
  { mesh :=
    { indices := [0, 1, 3, 0, 3, 2].map positionOnly
      num_face_vertices := [3, 3]
      material_ids := [0, 0] } }

/-- A mesh that has a corner with vertex index 11, when the positions end at 10. -/
def brokenShape : shape_t :=
  { mesh :=
    { indices := [0, 1, 11].map positionOnly
      num_face_vertices := [3]
      material_ids := [0] } }

/-- A parse that succeeded, with one material and a face that points outside the
position array. -/
def brokenReader : ObjReader :=
  { valid := true, error := "", warning := "", attrib := sceneAttribs,
    shapes := [brokenShape], materials := [stoneMaterial] }

/-- The unit cube as a box, every face vertex with normal index 7 and texcoord index 9,
when the normals end at index 0 and the texcoords at index 2. -/
def strayNormalBlock : shape_t :=
  { mesh :=
    { indices := [0, 4, 6, 0, 6, 2, 0, 1, 5, 0, 5, 4, 0, 2, 3, 0, 3, 1,
        1, 3, 7, 1, 7, 5, 2, 6, 7, 2, 7, 3, 4, 5, 7, 4, 7, 6].map (fun i => ⟨i, 7, 9⟩)
      num_face_vertices := [3, 3, 3, 3, 3, 3, 3, 3, 3, 3, 3, 3]
      material_ids := [0, 0, 0, 0, 0, 0, 0, 0, 0, 0, 0, 0] } }

/-- The positions of the small scene, and one normal whose first component is a NaN. -/
def nanAttribs : Ieee.attrib_t :=
  { vertices := sceneAttribs.vertices.map Ieee.float.number
    normals := [Ieee.float.nan, Ieee.float.number 0, Ieee.float.number 1]
    texcoords := [] }

/-- Two triangles: the first has three corners with a position only; the first corner of
the second has the normal with the NaN. -/
def nanShape : shape_t :=
  { mesh :=
    { indices := [⟨0, -1, -1⟩, ⟨1, -1, -1⟩, ⟨3, -1, -1⟩, ⟨2, 0, -1⟩, ⟨3, -1, -1⟩, ⟨1, -1, -1⟩]
      num_face_vertices := [3, 3]
      material_ids := [0, 0] } }

/-- Three triangles: the corner of `nanShape` that has the NaN occurs twice, as the first
corner of the second and of the third triangle. -/
def twiceNanShape : shape_t :=
  { mesh :=
    { indices := [⟨0, -1, -1⟩, ⟨1, -1, -1⟩, ⟨3, -1, -1⟩, ⟨2, 0, -1⟩, ⟨3, -1, -1⟩, ⟨1, -1, -1⟩,
        ⟨2, 0, -1⟩, ⟨1, -1, -1⟩, ⟨0, -1, -1⟩]
      num_face_vertices := [3, 3, 3]
      material_ids := [0, 0, 0] } }

/-- The corner of `nanShape` and `twiceNanShape` that has the NaN: position `(0, 1, 0)`,
normal `(NaN, 0, 1)`, no texture coordinate. -/
def nanCorner : Ieee.SceneVertex :=
  ⟨⟨Ieee.float.number 0, Ieee.float.number 1, Ieee.float.number 0⟩,
    ⟨Ieee.float.nan, Ieee.float.number 0, Ieee.float.number 1⟩,
    ⟨Ieee.float.number 0, Ieee.float.number 0⟩⟩

/-- A hash of the source form, over a `std::hash<float>` that sends every value to 0. -/
def Ieee.constantHash : Ieee.SceneVertex → Nat := Ieee.hashSceneVertex (fun _ => 0)

/-- The positions and the normal of the small scene, and two texture coordinates:
`(1 / 2, 0.1f)`, whose second component is the `float` nearest to one tenth, and
`(1, NaN)`. -/
def uvAttribs : Ieee.attrib_t :=
  { vertices := sceneAttribs.vertices.map Ieee.float.number
    normals := [Ieee.float.number 0, Ieee.float.number 0, Ieee.float.number 1]
    texcoords := [Ieee.float.number (1 / 2), Ieee.float.number (13421773 / 134217728),
      Ieee.float.number 1, Ieee.float.nan] }

/-- The state of the loops before the first shape, on a fresh loader. -/
def freshExtraction : Extraction := ⟨{}, UnorderedMap.empty, []⟩

/-- A hash of the source form, over a `std::hash<float>` that sends every value to 0. -/
def constantHash : SceneVertex → Nat := hashSceneVertex (fun _ => 0)

/-! # Theorems -/

/-! ## General lemmas -/

theorem foldlM_option_isSome {α β : Type} (f : β → α → Option β) (l : List α)
    (h : ∀ b, ∀ a ∈ l, (f b a).isSome) (b : β) : (l.foldlM f b).isSome := by
  induction l generalizing b with
  | nil => simp
  | cons a l ih =>
    obtain ⟨b', hb'⟩ := Option.isSome_iff_exists.1 (h b a (List.mem_cons_self _ _))
    simp only [List.foldlM_cons, hb', Option.bind_eq_bind, Option.some_bind]
    exact ih (fun b a' ha' => h b a' (List.mem_cons_of_mem _ ha')) b'

theorem size_t_le (i : Int) (hi : 0 ≤ i) : (size_t i : Int) ≤ i := by
  unfold size_t
  omega

theorem attribIndex_le (stride : Nat) (i : Int) (k : Nat) (hi : 0 ≤ i) :
    (attribIndex stride i k : Int) ≤ stride * i + k := by
  have h1 : attribIndex stride i k ≤ stride * size_t i + k := Nat.mod_le _ _
  have h2 : (stride : Int) * (size_t i : Int) ≤ stride * i :=
    mul_le_mul_of_nonneg_left (size_t_le i hi) (Int.ofNat_nonneg _)
  have h3 : (attribIndex stride i k : Int) ≤ stride * (size_t i : Int) + k := by
    exact_mod_cast h1
  linarith

theorem getElem?_of_lt {α : Type} (l : List α) (i : Nat) (h : i < l.length) :
    ∃ x, l[i]? = some x ∧ x ∈ l :=
  ⟨l[i], List.getElem?_eq_getElem h, List.getElem_mem h⟩

/-! ## Reads of a well-formed shape succeed -/

theorem vertices_read (attribs : attrib_t) (idx : index_t) (h : IndexInBounds attribs idx)
    (k : Nat) (hk : k ≤ 2) : ∃ x, attribs.vertices[attribIndex 3 idx.vertex_index k]? = some x := by
  have h1 := attribIndex_le 3 idx.vertex_index k h.1
  have h2 := h.2.1
  have h3 : attribIndex 3 idx.vertex_index k < attribs.vertices.length := by
    have : (attribIndex 3 idx.vertex_index k : Int) < attribs.vertices.length := by
      push_cast at h1
      omega
    exact_mod_cast this
  exact ⟨_, List.getElem?_eq_getElem h3⟩

theorem normals_read (attribs : attrib_t) (idx : index_t) (h : IndexInBounds attribs idx)
    (hn : 0 ≤ idx.normal_index) (k : Nat) (hk : k ≤ 2) :
    ∃ x, attribs.normals[attribIndex 3 idx.normal_index k]? = some x := by
  have h1 := attribIndex_le 3 idx.normal_index k hn
  have h2 := h.2.2.1 hn
  have h3 : attribIndex 3 idx.normal_index k < attribs.normals.length := by
    have : (attribIndex 3 idx.normal_index k : Int) < attribs.normals.length := by
      push_cast at h1
      omega
    exact_mod_cast this
  exact ⟨_, List.getElem?_eq_getElem h3⟩

theorem texcoords_read (attribs : attrib_t) (idx : index_t) (h : IndexInBounds attribs idx)
    (ht : 0 ≤ idx.texcoord_index) (k : Nat) (hk : k ≤ 1) :
    ∃ x, attribs.texcoords[attribIndex 2 idx.texcoord_index k]? = some x := by
  have h1 := attribIndex_le 2 idx.texcoord_index k ht
  have h2 := h.2.2.2 ht
  have h3 : attribIndex 2 idx.texcoord_index k < attribs.texcoords.length := by
    have : (attribIndex 2 idx.texcoord_index k : Int) < attribs.texcoords.length := by
      push_cast at h1
      omega
    exact_mod_cast this
  exact ⟨_, List.getElem?_eq_getElem h3⟩

theorem growAABB_isSome (attribs : attrib_t) (mesh : mesh_t) (index_offset v : Nat)
    (aabb : AABB) (hlt : index_offset + v < mesh.indices.length)
    (hidx : ∀ idx ∈ mesh.indices, IndexInBounds attribs idx) :
    (growAABB attribs mesh index_offset aabb v).isSome := by
  obtain ⟨idx, hi, hmem⟩ := getElem?_of_lt mesh.indices _ hlt
  obtain ⟨vx, hx⟩ := vertices_read attribs idx (hidx idx hmem) 0 (by omega)
  obtain ⟨vy, hy⟩ := vertices_read attribs idx (hidx idx hmem) 1 (by omega)
  obtain ⟨vz, hz⟩ := vertices_read attribs idx (hidx idx hmem) 2 (by omega)
  simp [growAABB, hi, hx, hy, hz]

theorem blockFaces_isSome (attribs : attrib_t) (mesh : mesh_t)
    (hidx : ∀ idx ∈ mesh.indices, IndexInBounds attribs idx) (fvs : List Nat) :
    ∀ (index_offset : Nat) (aabb : AABB), index_offset + fvs.sum ≤ mesh.indices.length →
      (blockFaces attribs mesh fvs index_offset aabb).isSome := by
  induction fvs with
  | nil => intro index_offset aabb _; simp [blockFaces]
  | cons fv rest ih =>
    intro index_offset aabb hsum
    simp only [List.sum_cons] at hsum
    have hfold : ((List.range fv).foldlM (growAABB attribs mesh index_offset) aabb).isSome := by
      apply foldlM_option_isSome
      intro b v hv
      exact growAABB_isSome attribs mesh index_offset v b
        (by have := List.mem_range.1 hv; omega) hidx
    obtain ⟨aabb', h'⟩ := Option.isSome_iff_exists.1 hfold
    simp only [blockFaces, h', Option.bind_eq_bind, Option.some_bind]
    exact ih (index_offset + fv) aabb' (by omega)

theorem blockMaterials_isSome (mesh : mesh_t) (h : 11 ≤ mesh.material_ids.length) :
    (blockMaterials mesh).isSome := by
  obtain ⟨m0, h0, _⟩ := getElem?_of_lt mesh.material_ids 0 (by omega)
  obtain ⟨m2, h2, _⟩ := getElem?_of_lt mesh.material_ids 2 (by omega)
  obtain ⟨m4, h4, _⟩ := getElem?_of_lt mesh.material_ids 4 (by omega)
  obtain ⟨m6, h6, _⟩ := getElem?_of_lt mesh.material_ids 6 (by omega)
  obtain ⟨m8, h8, _⟩ := getElem?_of_lt mesh.material_ids 8 (by omega)
  obtain ⟨m10, h10, _⟩ := getElem?_of_lt mesh.material_ids 10 (by omega)
  simp [blockMaterials, h0, h2, h4, h6, h8, h10]

/-- What a box shape does to the state: the box and its materials are appended and the
box counter grows; everything else is kept. -/
theorem addShape_block (hash : SceneVertex → Nat) (attribs : attrib_t) (e e' : Extraction)
    (shape : shape_t) (h12 : shape.mesh.num_face_vertices.length = 12)
    (h : addShape hash attribs e shape = some e') :
    ∃ aabb aabbMaterials,
      blockFaces attribs shape.mesh shape.mesh.num_face_vertices 0 initialAABB = some aabb ∧
      blockMaterials shape.mesh = some aabbMaterials ∧
      e' = { e with
        scene :=
          { e.scene with
            m_AABBs := e.scene.m_AABBs ++ [aabb]
            m_AABBMaterials := e.scene.m_AABBMaterials ++ [aabbMaterials]
            m_sceneStats :=
              { e.scene.m_sceneStats with numAABBs := e.scene.m_sceneStats.numAABBs + 1 } } } := by
  unfold addShape at h
  simp only [h12, if_true] at h
  cases hb : blockFaces attribs shape.mesh shape.mesh.num_face_vertices 0 initialAABB with
  | none => simp [hb] at h
  | some aabb =>
    cases hm : blockMaterials shape.mesh with
    | none => simp [hb, hm] at h
    | some mats =>
      simp [hb, hm] at h
      exact ⟨aabb, mats, rfl, rfl, h.symm⟩

theorem addShape_block_isSome (hash : SceneVertex → Nat) (attribs : attrib_t) (e : Extraction)
    (shape : shape_t) (h12 : shape.mesh.num_face_vertices.length = 12)
    (hwf : WellFormedShape attribs shape) : (addShape hash attribs e shape).isSome := by
  obtain ⟨aabb, hb⟩ := Option.isSome_iff_exists.1
    (blockFaces_isSome attribs shape.mesh hwf.2.2 shape.mesh.num_face_vertices 0 initialAABB
      (by have := hwf.1; omega))
  obtain ⟨mats, hm⟩ := Option.isSome_iff_exists.1
    (blockMaterials_isSome shape.mesh (by have := hwf.2.1; omega))
  unfold addShape
  simp [h12, hb, hm]

/-! ## C1 -/

/-- C1: a shape with exactly 12 faces appends exactly one AABB and exactly one
AABBMaterials record, and leaves the vertex array, the index stream and the per-triangle
material stream as they were; on a well-formed shape the step is defined. -/
theorem block_shape_appends_one_box (hash : SceneVertex → Nat) (attribs : attrib_t)
    (e : Extraction) (shape : shape_t) (h12 : shape.mesh.num_face_vertices.length = 12) :
    (WellFormedShape attribs shape → (addShape hash attribs e shape).isSome) ∧
    ∀ e', addShape hash attribs e shape = some e' →
      (∃ aabb, e'.scene.m_AABBs = e.scene.m_AABBs ++ [aabb]) ∧
      (∃ aabbMaterials, e'.scene.m_AABBMaterials = e.scene.m_AABBMaterials ++ [aabbMaterials]) ∧
      e'.scene.m_Vertices = e.scene.m_Vertices ∧
      e'.scene.m_Indices = e.scene.m_Indices ∧
      e'.scene.m_TriPerFaceMatID = e.scene.m_TriPerFaceMatID := by
  refine ⟨addShape_block_isSome hash attribs e shape h12, ?_⟩
  intro e' h
  obtain ⟨aabb, mats, _, _, rfl⟩ := addShape_block hash attribs e e' shape h12 h
  exact ⟨⟨aabb, rfl⟩, ⟨mats, rfl⟩, rfl, rfl, rfl⟩

/-- Witness of C1: the unit cube of the small scene. -/
theorem block_shape_appends_one_box_witness :
    cubeShape.mesh.num_face_vertices.length = 12 ∧
    ((WellFormedShape sceneAttribs cubeShape →
        (addShape constantHash sceneAttribs freshExtraction cubeShape).isSome) ∧
      ∀ e', addShape constantHash sceneAttribs freshExtraction cubeShape = some e' →
        (∃ aabb, e'.scene.m_AABBs = freshExtraction.scene.m_AABBs ++ [aabb]) ∧
        (∃ aabbMaterials,
          e'.scene.m_AABBMaterials = freshExtraction.scene.m_AABBMaterials ++ [aabbMaterials]) ∧
        e'.scene.m_Vertices = freshExtraction.scene.m_Vertices ∧
        e'.scene.m_Indices = freshExtraction.scene.m_Indices ∧
        e'.scene.m_TriPerFaceMatID = freshExtraction.scene.m_TriPerFaceMatID) :=
  ⟨by decide,
    block_shape_appends_one_box constantHash sceneAttribs freshExtraction cubeShape (by decide)⟩

/-! ## The face loop of a mesh shape -/

theorem meshFace_skip (hash : SceneVertex → Nat) (attribs : attrib_t) (mesh : mesh_t)
    (f fv index_offset : Nat) (e : Extraction) (hfv : fv ≠ 3) :
    meshFace hash attribs mesh f fv index_offset e = some (index_offset, e) := by
  simp [meshFace, hfv]

/-- A triangle face reads three corners and one material, and pushes them in this order. -/
theorem meshFace_three (hash : SceneVertex → Nat) (attribs : attrib_t) (mesh : mesh_t)
    (f index_offset : Nat) (e : Extraction) (r : Nat × Extraction)
    (h : meshFace hash attribs mesh f 3 index_offset e = some r) :
    ∃ v0 v1 v2 matID,
      cornerAt attribs mesh index_offset = some v0 ∧
      cornerAt attribs mesh (index_offset + 1) = some v1 ∧
      cornerAt attribs mesh (index_offset + 2) = some v2 ∧
      mesh.material_ids[f]? = some matID ∧
      r = (index_offset + 3,
        pushTriangle (addVertex hash (addVertex hash (addVertex hash e v0) v1) v2) matID) := by
  have hr : List.range 3 = [0, 1, 2] := rfl
  simp only [meshFace, ne_eq, not_true_eq_false, if_false, hr, List.foldlM_cons,
    List.foldlM_nil, meshCorner] at h
  cases h0 : cornerAt attribs mesh index_offset with
  | none => simp [h0] at h
  | some v0 =>
    cases h1 : cornerAt attribs mesh (index_offset + 1) with
    | none => simp [h0, h1] at h
    | some v1 =>
      cases h2 : cornerAt attribs mesh (index_offset + 2) with
      | none => simp [h0, h1, h2] at h
      | some v2 =>
        cases hm : mesh.material_ids[f]? with
        | none => simp [h0, h1, h2, hm] at h
        | some matID =>
          simp [h0, h1, h2, hm] at h
          exact ⟨v0, v1, v2, matID, rfl, rfl, rfl, rfl, h.symm⟩

theorem meshFace_three_of_reads (hash : SceneVertex → Nat) (attribs : attrib_t) (mesh : mesh_t)
    (f index_offset : Nat) (e : Extraction) (v0 v1 v2 : SceneVertex) (matID : Int)
    (h0 : cornerAt attribs mesh index_offset = some v0)
    (h1 : cornerAt attribs mesh (index_offset + 1) = some v1)
    (h2 : cornerAt attribs mesh (index_offset + 2) = some v2)
    (hm : mesh.material_ids[f]? = some matID) :
    meshFace hash attribs mesh f 3 index_offset e = some (index_offset + 3,
      pushTriangle (addVertex hash (addVertex hash (addVertex hash e v0) v1) v2) matID) := by
  have hr : List.range 3 = [0, 1, 2] := rfl
  simp [meshFace, hr, meshCorner, h0, h1, h2, hm]

theorem addVertex_m_Indices (hash : SceneVertex → Nat) (e : Extraction) (v : SceneVertex) :
    ∃ i, (addVertex hash e v).scene.m_Indices = e.scene.m_Indices ++ [i] := by
  unfold addVertex
  split <;> exact ⟨_, rfl⟩

theorem addVertex_m_Vertices (hash : SceneVertex → Nat) (e : Extraction) (v : SceneVertex) :
    (addVertex hash e v).scene.m_Vertices =
      if e.uniqueVertices.count hash v = 0 then e.scene.m_Vertices ++ [v.toVertexData]
      else e.scene.m_Vertices := by
  unfold addVertex
  split <;> rfl

theorem addVertex_corners (hash : SceneVertex → Nat) (e : Extraction) (v : SceneVertex) :
    (addVertex hash e v).corners = e.corners ++ [v] := by
  unfold addVertex
  split <;> rfl

/-- The members of the loader that the duplicate check and the index push leave alone. -/
theorem addVertex_frame (hash : SceneVertex → Nat) (e : Extraction) (v : SceneVertex) :
    (addVertex hash e v).scene.m_AABBs = e.scene.m_AABBs ∧
    (addVertex hash e v).scene.m_AABBMaterials = e.scene.m_AABBMaterials ∧
    (addVertex hash e v).scene.m_TriPerFaceMatID = e.scene.m_TriPerFaceMatID ∧
    (addVertex hash e v).scene.m_sceneStats.numTriangles = e.scene.m_sceneStats.numTriangles ∧
    (addVertex hash e v).scene.m_sceneStats.numAABBs = e.scene.m_sceneStats.numAABBs := by
  unfold addVertex
  split <;> exact ⟨rfl, rfl, rfl, rfl, rfl⟩

/-- What a triangle face does to the loader, member by member. -/
theorem meshFace_three_scene (hash : SceneVertex → Nat) (attribs : attrib_t) (mesh : mesh_t)
    (f index_offset : Nat) (e : Extraction) (r : Nat × Extraction)
    (h : meshFace hash attribs mesh f 3 index_offset e = some r) :
    (∃ i0 i1 i2, r.2.scene.m_Indices = e.scene.m_Indices ++ [i0, i1, i2]) ∧
    (∃ matID, mesh.material_ids[f]? = some matID ∧
      r.2.scene.m_TriPerFaceMatID = e.scene.m_TriPerFaceMatID ++ [matID]) ∧
    r.2.scene.m_sceneStats.numTriangles = e.scene.m_sceneStats.numTriangles + 1 ∧
    r.2.scene.m_AABBs = e.scene.m_AABBs ∧
    r.2.scene.m_AABBMaterials = e.scene.m_AABBMaterials := by
  obtain ⟨v0, v1, v2, matID, _, _, _, hm, rfl⟩ :=
    meshFace_three hash attribs mesh f index_offset e r h
  obtain ⟨i0, hi0⟩ := addVertex_m_Indices hash e v0
  obtain ⟨i1, hi1⟩ := addVertex_m_Indices hash (addVertex hash e v0) v1
  obtain ⟨i2, hi2⟩ := addVertex_m_Indices hash (addVertex hash (addVertex hash e v0) v1) v2
  obtain ⟨a0, b0, c0, d0, _⟩ := addVertex_frame hash e v0
  obtain ⟨a1, b1, c1, d1, _⟩ := addVertex_frame hash (addVertex hash e v0) v1
  obtain ⟨a2, b2, c2, d2, _⟩ := addVertex_frame hash (addVertex hash (addVertex hash e v0) v1) v2
  refine ⟨⟨i0, i1, i2, ?_⟩, ⟨matID, hm, ?_⟩, ?_, ?_, ?_⟩
  · simp only [pushTriangle]
    rw [hi2, hi1, hi0]
    simp
  · simp only [pushTriangle]
    rw [c2, c1, c0]
  · simp only [pushTriangle]
    rw [d2, d1, d0]
  · simp only [pushTriangle]
    rw [a2, a1, a0]
  · simp only [pushTriangle]
    rw [b2, b1, b0]

/-- Totals of the face loop: three indices and one material per triangle face, nothing
for the other faces, and no box. -/
theorem meshFaces_scene (hash : SceneVertex → Nat) (attribs : attrib_t) (mesh : mesh_t)
    (fvs : List Nat) :
    ∀ (f index_offset : Nat) (e e' : Extraction),
      meshFaces hash attribs mesh fvs f index_offset e = some e' →
      e'.scene.m_Indices.length = e.scene.m_Indices.length + 3 * fvs.count 3 ∧
      e'.scene.m_TriPerFaceMatID.length = e.scene.m_TriPerFaceMatID.length + fvs.count 3 ∧
      e'.scene.m_sceneStats.numTriangles = e.scene.m_sceneStats.numTriangles + fvs.count 3 ∧
      e'.scene.m_AABBs = e.scene.m_AABBs ∧
      e'.scene.m_AABBMaterials = e.scene.m_AABBMaterials := by
  induction fvs with
  | nil =>
    intro f index_offset e e' h
    simp only [meshFaces, Option.some.injEq] at h
    subst h
    simp
  | cons fv rest ih =>
    intro f index_offset e e' h
    by_cases hfv : fv = 3
    · subst hfv
      cases hr : meshFace hash attribs mesh f 3 index_offset e with
      | none => simp [meshFaces, hr] at h
      | some r =>
        simp only [meshFaces, hr, Option.bind_eq_bind, Option.some_bind] at h
        obtain ⟨⟨i0, i1, i2, hi⟩, ⟨matID, _, hm⟩, ht, ha, hb⟩ :=
          meshFace_three_scene hash attribs mesh f index_offset e r hr
        obtain ⟨h1, h2, h3, h4, h5⟩ := ih (f + 1) r.1 r.2 e' h
        refine ⟨?_, ?_, ?_, ?_, ?_⟩
        · rw [h1, hi]; simp [List.count_cons]; omega
        · rw [h2, hm]; simp [List.count_cons]; omega
        · rw [h3, ht]; simp [List.count_cons]; omega
        · rw [h4, ha]
        · rw [h5, hb]
    · simp only [meshFaces, meshFace_skip hash attribs mesh f fv index_offset e hfv,
        Option.bind_eq_bind, Option.some_bind] at h
      obtain ⟨h1, h2, h3, h4, h5⟩ := ih (f + 1) index_offset e e' h
      have hc : (fv :: rest).count 3 = rest.count 3 := by
        simp [List.count_cons, hfv]
      rw [hc]
      exact ⟨h1, h2, h3, h4, h5⟩

theorem readVertex_isSome (attribs : attrib_t) (idx : index_t)
    (h : IndexInBounds attribs idx) : (readVertex attribs idx).isSome := by
  obtain ⟨px, hx⟩ := vertices_read attribs idx h 0 (by omega)
  obtain ⟨py, hy⟩ := vertices_read attribs idx h 1 (by omega)
  obtain ⟨pz, hz⟩ := vertices_read attribs idx h 2 (by omega)
  by_cases hn : 0 ≤ idx.normal_index
  · obtain ⟨nx, hnx⟩ := normals_read attribs idx h hn 0 (by omega)
    obtain ⟨ny, hny⟩ := normals_read attribs idx h hn 1 (by omega)
    obtain ⟨nz, hnz⟩ := normals_read attribs idx h hn 2 (by omega)
    by_cases ht : 0 ≤ idx.texcoord_index
    · obtain ⟨u, hu⟩ := texcoords_read attribs idx h ht 0 (by omega)
      obtain ⟨v, hv⟩ := texcoords_read attribs idx h ht 1 (by omega)
      simp [readVertex, hx, hy, hz, hn, hnx, hny, hnz, ht, hu, hv]
    · simp [readVertex, hx, hy, hz, hn, hnx, hny, hnz, ht]
  · by_cases ht : 0 ≤ idx.texcoord_index
    · obtain ⟨u, hu⟩ := texcoords_read attribs idx h ht 0 (by omega)
      obtain ⟨v, hv⟩ := texcoords_read attribs idx h ht 1 (by omega)
      simp [readVertex, hx, hy, hz, hn, ht, hu, hv]
    · simp [readVertex, hx, hy, hz, hn, ht]

theorem cornerAt_isSome (attribs : attrib_t) (mesh : mesh_t) (i : Nat)
    (hlt : i < mesh.indices.length)
    (hidx : ∀ idx ∈ mesh.indices, IndexInBounds attribs idx) :
    (cornerAt attribs mesh i).isSome := by
  obtain ⟨idx, hi, hmem⟩ := getElem?_of_lt mesh.indices _ hlt
  obtain ⟨v, hv⟩ := Option.isSome_iff_exists.1 (readVertex_isSome attribs idx (hidx idx hmem))
  simp [cornerAt, hi, hv]

/-- The face loop of a mesh shape is defined whenever the faces still to visit fit in
the index list from `index_offset` on and in the material list from `f` on. -/
theorem meshFaces_isSome (hash : SceneVertex → Nat) (attribs : attrib_t) (mesh : mesh_t)
    (hidx : ∀ idx ∈ mesh.indices, IndexInBounds attribs idx) (fvs : List Nat) :
    ∀ (f index_offset : Nat) (e : Extraction),
      index_offset + fvs.sum ≤ mesh.indices.length →
      f + fvs.length ≤ mesh.material_ids.length →
      (meshFaces hash attribs mesh fvs f index_offset e).isSome := by
  induction fvs with
  | nil => intro f index_offset e _ _; simp [meshFaces]
  | cons fv rest ih =>
    intro f index_offset e hsum hlen
    simp only [List.sum_cons, List.length_cons] at hsum hlen
    by_cases hfv : fv = 3
    · subst hfv
      obtain ⟨v0, h0⟩ := Option.isSome_iff_exists.1
        (cornerAt_isSome attribs mesh index_offset (by omega) hidx)
      obtain ⟨v1, h1⟩ := Option.isSome_iff_exists.1
        (cornerAt_isSome attribs mesh (index_offset + 1) (by omega) hidx)
      obtain ⟨v2, h2⟩ := Option.isSome_iff_exists.1
        (cornerAt_isSome attribs mesh (index_offset + 2) (by omega) hidx)
      obtain ⟨matID, hm, _⟩ := getElem?_of_lt mesh.material_ids f (by omega)
      simp only [meshFaces, meshFace_three_of_reads hash attribs mesh f index_offset e
        v0 v1 v2 matID h0 h1 h2 hm, Option.bind_eq_bind, Option.some_bind]
      exact ih (f + 1) (index_offset + 3) _ (by omega) (by omega)
    · simp only [meshFaces, meshFace_skip hash attribs mesh f fv index_offset e hfv,
        Option.bind_eq_bind, Option.some_bind]
      exact ih (f + 1) index_offset e (by omega) (by omega)

theorem addShape_mesh_isSome (hash : SceneVertex → Nat) (attribs : attrib_t) (e : Extraction)
    (shape : shape_t) (h12 : shape.mesh.num_face_vertices.length ≠ 12)
    (hwf : WellFormedShape attribs shape) : (addShape hash attribs e shape).isSome := by
  unfold addShape
  simp only [h12, if_false]
  exact meshFaces_isSome hash attribs shape.mesh hwf.2.2 shape.mesh.num_face_vertices 0 0 e
    (by have := hwf.1; omega) (by have := hwf.2.1; omega)

/-! ## C2 -/

/-- C2: in a shape whose face count is not 12, a face with exactly 3 vertices appends
exactly 3 entries to the index stream and exactly 1 entry to the per-triangle material
stream, and a face with another vertex count changes nothing at all (no index, vertex
or material entry, no triangle counted); the shape appends no AABB and no AABBMaterials
record, and on a well-formed shape the step is defined. -/
theorem mesh_shape_output (hash : SceneVertex → Nat) (attribs : attrib_t)
    (e : Extraction) (shape : shape_t) (h12 : shape.mesh.num_face_vertices.length ≠ 12) :
    (∀ (f index_offset : Nat) (e0 : Extraction) (r : Nat × Extraction),
      meshFace hash attribs shape.mesh f 3 index_offset e0 = some r →
        (∃ i0 i1 i2, r.2.scene.m_Indices = e0.scene.m_Indices ++ [i0, i1, i2]) ∧
        (∃ matID, r.2.scene.m_TriPerFaceMatID = e0.scene.m_TriPerFaceMatID ++ [matID]) ∧
        r.2.scene.m_sceneStats.numTriangles = e0.scene.m_sceneStats.numTriangles + 1) ∧
    (∀ (f fv index_offset : Nat) (e0 : Extraction), fv ≠ 3 →
      ∃ r, meshFace hash attribs shape.mesh f fv index_offset e0 = some r ∧
        r.2.scene = e0.scene) ∧
    (WellFormedShape attribs shape → (addShape hash attribs e shape).isSome) ∧
    (∀ e', addShape hash attribs e shape = some e' →
      e'.scene.m_AABBs = e.scene.m_AABBs ∧
      e'.scene.m_AABBMaterials = e.scene.m_AABBMaterials ∧
      e'.scene.m_Indices.length =
        e.scene.m_Indices.length + 3 * shape.mesh.num_face_vertices.count 3 ∧
      e'.scene.m_TriPerFaceMatID.length =
        e.scene.m_TriPerFaceMatID.length + shape.mesh.num_face_vertices.count 3 ∧
      e'.scene.m_sceneStats.numTriangles =
        e.scene.m_sceneStats.numTriangles + shape.mesh.num_face_vertices.count 3) := by
  refine ⟨?_, ?_, addShape_mesh_isSome hash attribs e shape h12, ?_⟩
  · intro f index_offset e0 r h
    obtain ⟨hi, ⟨matID, _, hm⟩, ht, _, _⟩ :=
      meshFace_three_scene hash attribs shape.mesh f index_offset e0 r h
    exact ⟨hi, ⟨matID, hm⟩, ht⟩
  · intro f fv index_offset e0 hfv
    exact ⟨_, meshFace_skip hash attribs shape.mesh f fv index_offset e0 hfv, rfl⟩
  · intro e' h
    unfold addShape at h
    simp only [h12, if_false] at h
    obtain ⟨h1, h2, h3, h4, h5⟩ :=
      meshFaces_scene hash attribs shape.mesh shape.mesh.num_face_vertices 0 0 e e' h
    exact ⟨h4, h5, h1, h2, h3⟩

/-- Witness of C2: the quadrilateral followed by a triangle. -/
theorem mesh_shape_output_witness :
    mixedShape.mesh.num_face_vertices.length ≠ 12 ∧
    (∀ e', addShape constantHash sceneAttribs freshExtraction mixedShape = some e' →
      e'.scene.m_AABBs = freshExtraction.scene.m_AABBs ∧
      e'.scene.m_AABBMaterials = freshExtraction.scene.m_AABBMaterials ∧
      e'.scene.m_Indices.length =
        freshExtraction.scene.m_Indices.length + 3 * mixedShape.mesh.num_face_vertices.count 3 ∧
      e'.scene.m_TriPerFaceMatID.length =
        freshExtraction.scene.m_TriPerFaceMatID.length +
          mixedShape.mesh.num_face_vertices.count 3 ∧
      e'.scene.m_sceneStats.numTriangles =
        freshExtraction.scene.m_sceneStats.numTriangles +
          mixedShape.mesh.num_face_vertices.count 3) :=
  ⟨by decide,
    (mesh_shape_output constantHash sceneAttribs freshExtraction mixedShape (by decide)).2.2.2⟩

/-! ## C3 -/

/-- C3, the code at a shape that has a quadrilateral before a triangle: the shape is well
formed, the triangle is face 1, the vertex counts of the faces before it sum to 4 and
its own index entries are 4, 5 and 6, yet the three corners the loader builds come from
index entries 0, 1 and 2, which belong to the skipped quadrilateral. -/
theorem skipped_face_keeps_index_offset :
    WellFormedShape sceneAttribs mixedShape ∧
    mixedShape.mesh.num_face_vertices[1]? = some 3 ∧
    (mixedShape.mesh.num_face_vertices.take 1).sum = 4 ∧
    (extractGeometry constantHash sceneAttribs [mixedShape] {}).map Extraction.corners =
      [0, 1, 2].mapM (cornerAt sceneAttribs mixedShape.mesh) ∧
    (extractGeometry constantHash sceneAttribs [mixedShape] {}).map Extraction.corners ≠
      [4, 5, 6].mapM (cornerAt sceneAttribs mixedShape.mesh) ∧
    (AddGeometryToScene constantHash sceneAttribs [mixedShape] {}).map
        (fun s => s.m_Vertices.map VertexData.position) =
      some [⟨0, 0, 0⟩, ⟨1, 0, 0⟩, ⟨1, 1, 0⟩] ∧
    [4, 5, 6].mapM (cornerAt sceneAttribs mixedShape.mesh) =
      some [⟨⟨2, 0, 0⟩, ⟨0, 0, 0⟩, ⟨0, 0⟩⟩, ⟨⟨3, 0, 0⟩, ⟨0, 0, 0⟩, ⟨0, 0⟩⟩,
        ⟨⟨2, 1, 0⟩, ⟨0, 0, 0⟩, ⟨0, 0⟩⟩] := by
  refine ⟨by decide, by decide, by decide, by decide, by decide, by decide, by decide⟩

/-! ## The map, seen through `find?` -/

theorem SceneVertex.eq_iff (a b : SceneVertex) : SceneVertex.eq a b = true ↔ a = b := by
  obtain ⟨⟨px, py, pz⟩, ⟨nx, ny, nz⟩, ⟨u, v⟩⟩ := a
  obtain ⟨⟨px', py', pz'⟩, ⟨nx', ny', nz'⟩, ⟨u', v'⟩⟩ := b
  simp only [SceneVertex.eq, Bool.and_eq_true, decide_eq_true_eq, SceneVertex.mk.injEq,
    float3.mk.injEq, float2.mk.injEq]
  tauto

theorem UnorderedMap.chainFind_chainSet_self (c : List (SceneVertex × Nat)) (k : SceneVertex)
    (v : Nat) : UnorderedMap.chainFind (UnorderedMap.chainSet c k v) k = some v := by
  induction c with
  | nil => simp [UnorderedMap.chainSet, UnorderedMap.chainFind, (SceneVertex.eq_iff k k).2 rfl]
  | cons p rest ih =>
    obtain ⟨k', v'⟩ := p
    by_cases hk : SceneVertex.eq k' k = true
    · simp [UnorderedMap.chainSet, UnorderedMap.chainFind, hk]
    · simp [UnorderedMap.chainSet, UnorderedMap.chainFind, hk, ih]

theorem UnorderedMap.chainFind_chainSet_ne (c : List (SceneVertex × Nat)) (k k2 : SceneVertex)
    (v : Nat) (hne : k2 ≠ k) :
    UnorderedMap.chainFind (UnorderedMap.chainSet c k v) k2 = UnorderedMap.chainFind c k2 := by
  induction c with
  | nil =>
    have : SceneVertex.eq k k2 = false := by
      rw [Bool.eq_false_iff]
      intro h
      exact hne ((SceneVertex.eq_iff k k2).1 h).symm
    simp [UnorderedMap.chainSet, UnorderedMap.chainFind, this]
  | cons p rest ih =>
    obtain ⟨k', v'⟩ := p
    by_cases hk : SceneVertex.eq k' k = true
    · have hkk : k' = k := (SceneVertex.eq_iff k' k).1 hk
      have : SceneVertex.eq k' k2 = false := by
        rw [Bool.eq_false_iff]
        intro h
        exact hne (((SceneVertex.eq_iff k' k2).1 h).symm.trans hkk)
      simp [UnorderedMap.chainSet, UnorderedMap.chainFind, hk, this]
    · by_cases hk2 : SceneVertex.eq k' k2 = true
      · simp [UnorderedMap.chainSet, UnorderedMap.chainFind, hk, hk2]
      · simp [UnorderedMap.chainSet, UnorderedMap.chainFind, hk, hk2, ih]

theorem UnorderedMap.find?_empty (hash : SceneVertex → Nat) (k : SceneVertex) :
    UnorderedMap.empty.find? hash k = none := rfl

theorem UnorderedMap.find?_set (hash : SceneVertex → Nat) (m : UnorderedMap)
    (k k2 : SceneVertex) (v : Nat) :
    (m.set hash k v).find? hash k2 = if k2 = k then some v else m.find? hash k2 := by
  by_cases hk : k2 = k
  · subst hk
    simp [UnorderedMap.find?, UnorderedMap.set, UnorderedMap.chainFind_chainSet_self]
  · by_cases hh : hash k2 = hash k
    · simp [UnorderedMap.find?, UnorderedMap.set, hh, hk,
        UnorderedMap.chainFind_chainSet_ne _ k k2 v hk]
    · simp [UnorderedMap.find?, UnorderedMap.set, hh, hk]

theorem UnorderedMap.count_eq_zero (hash : SceneVertex → Nat) (m : UnorderedMap)
    (k : SceneVertex) : m.count hash k = 0 ↔ m.find? hash k = none := by
  unfold UnorderedMap.count
  cases m.find? hash k <;> simp

theorem UnorderedMap.get_of_find? (hash : SceneVertex → Nat) (m : UnorderedMap)
    (k : SceneVertex) (v : Nat) (h : m.find? hash k = some v) : m.get hash k = (v, m) := by
  simp [UnorderedMap.get, h]

/-- A vertex the map does not hold yet is stored, appended and given the position it was
appended at, cut to 32 bits. -/
theorem addVertex_new (hash : SceneVertex → Nat) (e : Extraction) (v : SceneVertex)
    (h : e.uniqueVertices.find? hash v = none) :
    (addVertex hash e v).scene.m_Vertices = e.scene.m_Vertices ++ [v.toVertexData] ∧
    (addVertex hash e v).scene.m_Indices =
      e.scene.m_Indices ++ [e.scene.m_Vertices.length % 2 ^ 32] ∧
    (addVertex hash e v).uniqueVertices =
      e.uniqueVertices.set hash v (e.scene.m_Vertices.length % 2 ^ 32) ∧
    (addVertex hash e v).corners = e.corners ++ [v] := by
  have hc : e.uniqueVertices.count hash v = 0 := (UnorderedMap.count_eq_zero hash _ v).2 h
  have hf : (e.uniqueVertices.set hash v (e.scene.m_Vertices.length % 2 ^ 32)).find? hash v =
      some (e.scene.m_Vertices.length % 2 ^ 32) := by
    rw [UnorderedMap.find?_set]; simp
  have hg := UnorderedMap.get_of_find? hash _ v _ hf
  refine ⟨?_, ?_, ?_, ?_⟩ <;> simp only [addVertex, hc, if_true, hg]

/-- A vertex the map holds already only pushes the stored index. -/
theorem addVertex_old (hash : SceneVertex → Nat) (e : Extraction) (v : SceneVertex) (i : Nat)
    (h : e.uniqueVertices.find? hash v = some i) :
    (addVertex hash e v).scene.m_Vertices = e.scene.m_Vertices ∧
    (addVertex hash e v).scene.m_Indices = e.scene.m_Indices ++ [i] ∧
    (addVertex hash e v).uniqueVertices = e.uniqueVertices ∧
    (addVertex hash e v).corners = e.corners ++ [v] := by
  have hc : e.uniqueVertices.count hash v ≠ 0 := by
    rw [Ne, UnorderedMap.count_eq_zero, h]; simp
  have hg := UnorderedMap.get_of_find? hash _ v _ h
  refine ⟨?_, ?_, ?_, ?_⟩ <;> simp only [addVertex, hc, if_false, hg]

/-! ## The duplicate check keeps the vertex array, the map and the index stream in step -/

theorem foldlM_option_invariant {α β : Type} (P : β → Prop) (f : β → α → Option β)
    (hf : ∀ b a b', f b a = some b' → P b → P b') (l : List α) :
    ∀ b b', l.foldlM f b = some b' → P b → P b' := by
  induction l with
  | nil =>
    intro b b' h hP
    simp only [List.foldlM_nil, Option.pure_def, Option.some.injEq] at h
    exact h ▸ hP
  | cons a l ih =>
    intro b b' h hP
    cases hb : f b a with
    | none => simp [List.foldlM_cons, hb] at h
    | some b1 =>
      simp only [List.foldlM_cons, hb, Option.bind_eq_bind, Option.some_bind] at h
      exact ih b1 b' h (hf b a b1 hb hP)

theorem deduplicated_init (hash : SceneVertex → Nat) (s0 : Scene) :
    Deduplicated hash s0 ⟨s0, UnorderedMap.empty, []⟩ [] := by
  refine ⟨List.nodup_nil, fun v => Iff.rfl, by simp, fun v => ?_, by simp⟩
  simp [UnorderedMap.find?_empty]

/-- Only four components of the state matter to the relation. -/
theorem deduplicated_congr (hash : SceneVertex → Nat) (s0 : Scene) (e e' : Extraction)
    (D : List SceneVertex) (h : Deduplicated hash s0 e D)
    (hV : e'.scene.m_Vertices = e.scene.m_Vertices)
    (hI : e'.scene.m_Indices = e.scene.m_Indices)
    (hM : e'.uniqueVertices = e.uniqueVertices) (hC : e'.corners = e.corners) :
    Deduplicated hash s0 e' D := by
  unfold Deduplicated
  rw [hV, hI, hM, hC]
  exact h

theorem deduplicated_addVertex (hash : SceneVertex → Nat) (s0 : Scene) (e : Extraction)
    (D : List SceneVertex) (h : Deduplicated hash s0 e D) (v : SceneVertex) :
    Deduplicated hash s0 (addVertex hash e v) (if v ∈ D then D else D ++ [v]) := by
  obtain ⟨hnd, hmem, hV, hfind, hI⟩ := h
  by_cases hv : v ∈ D
  · have hf : e.uniqueVertices.find? hash v = some (indexIn s0.m_Vertices.length D v) := by
      rw [hfind v]; simp [hv]
    obtain ⟨aV, aI, aM, aC⟩ := addVertex_old hash e v _ hf
    simp only [hv, if_true]
    refine ⟨hnd, fun w => ?_, ?_, ?_, ?_⟩
    · rw [aC, List.mem_append, List.mem_singleton, ← hmem w]
      constructor
      · exact fun hw => Or.inl hw
      · rintro (hw | rfl)
        · exact hw
        · exact hv
    · rw [aV, hV]
    · rw [aM]; exact hfind
    · rw [aI, aC, hI]; simp
  · have hf : e.uniqueVertices.find? hash v = none := by
      rw [hfind v]; simp [hv]
    obtain ⟨aV, aI, aM, aC⟩ := addVertex_new hash e v hf
    simp only [hv, if_false]
    have hlen : e.scene.m_Vertices.length = s0.m_Vertices.length + D.length := by
      rw [hV]; simp
    have hnew : indexIn s0.m_Vertices.length (D ++ [v]) v =
        e.scene.m_Vertices.length % 2 ^ 32 := by
      unfold indexIn
      rw [List.indexOf_append_of_not_mem hv, List.indexOf_cons_self, hlen]
      rfl
    have hold : ∀ w ∈ D, indexIn s0.m_Vertices.length (D ++ [v]) w =
        indexIn s0.m_Vertices.length D w := by
      intro w hw
      unfold indexIn
      rw [List.indexOf_append_of_mem hw]
    refine ⟨?_, fun w => ?_, ?_, fun w => ?_, ?_⟩
    · rw [List.nodup_append]
      refine ⟨hnd, List.nodup_singleton v, ?_⟩
      intro a ha hb
      rw [List.mem_singleton] at hb
      exact hv (hb ▸ ha)
    · rw [aC, List.mem_append, List.mem_append, hmem w]
    · rw [aV, hV]; simp
    · rw [aM, UnorderedMap.find?_set]
      by_cases hw : w = v
      · subst hw
        simp [hnew]
      · by_cases hwD : w ∈ D
        · simp [hw, hwD, hfind w, hold w hwD]
        · simp [hw, hwD, hfind w]
    · rw [aI, aC, hI, List.map_append, List.map_singleton, hnew, List.append_assoc]
      congr 2
      apply List.map_congr_left
      intro w hw
      exact (hold w ((hmem w).2 hw)).symm

/-- The state of the loops agrees with some list of distinct corners. -/
theorem deduplicated_step (hash : SceneVertex → Nat) (s0 : Scene) (e : Extraction)
    (v : SceneVertex) (h : ∃ D, Deduplicated hash s0 e D) :
    ∃ D, Deduplicated hash s0 (addVertex hash e v) D := by
  obtain ⟨D, hD⟩ := h
  exact ⟨_, deduplicated_addVertex hash s0 e D hD v⟩

theorem deduplicated_pushTriangle (hash : SceneVertex → Nat) (s0 : Scene) (e : Extraction)
    (D : List SceneVertex) (matID : Int) (h : Deduplicated hash s0 e D) :
    Deduplicated hash s0 (pushTriangle e matID) D :=
  deduplicated_congr hash s0 e (pushTriangle e matID) D h rfl rfl rfl rfl

theorem deduplicated_meshFace (hash : SceneVertex → Nat) (attribs : attrib_t) (mesh : mesh_t)
    (s0 : Scene) (f fv index_offset : Nat) (e : Extraction) (r : Nat × Extraction)
    (hr : meshFace hash attribs mesh f fv index_offset e = some r)
    (h : ∃ D, Deduplicated hash s0 e D) : ∃ D, Deduplicated hash s0 r.2 D := by
  by_cases hfv : fv = 3
  · subst hfv
    obtain ⟨v0, v1, v2, matID, _, _, _, _, rfl⟩ :=
      meshFace_three hash attribs mesh f index_offset e r hr
    obtain ⟨D, hD⟩ := deduplicated_step hash s0 _ v2
      (deduplicated_step hash s0 _ v1 (deduplicated_step hash s0 e v0 h))
    exact ⟨D, deduplicated_pushTriangle hash s0 _ D matID hD⟩
  · rw [meshFace_skip hash attribs mesh f fv index_offset e hfv] at hr
    simp only [Option.some.injEq] at hr
    subst hr
    exact h

theorem deduplicated_meshFaces (hash : SceneVertex → Nat) (attribs : attrib_t) (mesh : mesh_t)
    (s0 : Scene) (fvs : List Nat) :
    ∀ (f index_offset : Nat) (e e' : Extraction),
      meshFaces hash attribs mesh fvs f index_offset e = some e' →
      (∃ D, Deduplicated hash s0 e D) → ∃ D, Deduplicated hash s0 e' D := by
  induction fvs with
  | nil =>
    intro f index_offset e e' h hD
    simp only [meshFaces, Option.some.injEq] at h
    exact h ▸ hD
  | cons fv rest ih =>
    intro f index_offset e e' h hD
    cases hr : meshFace hash attribs mesh f fv index_offset e with
    | none => simp [meshFaces, hr] at h
    | some r =>
      simp only [meshFaces, hr, Option.bind_eq_bind, Option.some_bind] at h
      exact ih (f + 1) r.1 r.2 e' h
        (deduplicated_meshFace hash attribs mesh s0 f fv index_offset e r hr hD)

theorem deduplicated_addShape (hash : SceneVertex → Nat) (attribs : attrib_t) (s0 : Scene)
    (e : Extraction) (shape : shape_t) (e' : Extraction)
    (h : addShape hash attribs e shape = some e')
    (hD : ∃ D, Deduplicated hash s0 e D) : ∃ D, Deduplicated hash s0 e' D := by
  by_cases h12 : shape.mesh.num_face_vertices.length = 12
  · obtain ⟨aabb, mats, _, _, rfl⟩ := addShape_block hash attribs e e' shape h12 h
    obtain ⟨D, hD⟩ := hD
    exact ⟨D, deduplicated_congr hash s0 e _ D hD rfl rfl rfl rfl⟩
  · unfold addShape at h
    simp only [h12, if_false] at h
    exact deduplicated_meshFaces hash attribs shape.mesh s0 _ 0 0 e e' h hD

/-- After the shape loop the final state agrees with a list of the distinct corners. -/
theorem extractGeometry_deduplicated (hash : SceneVertex → Nat) (attribs : attrib_t)
    (shapes : List shape_t) (this : Scene) (e : Extraction)
    (h : extractGeometry hash attribs shapes this = some e) :
    ∃ D, Deduplicated hash this e D :=
  foldlM_option_invariant (fun e => ∃ D, Deduplicated hash this e D) (addShape hash attribs)
    (fun b a b' hb hP => deduplicated_addShape hash attribs this b a b' hb hP)
    shapes _ e h ⟨[], deduplicated_init hash this⟩

theorem extractGeometry_isSome (hash : SceneVertex → Nat) (attribs : attrib_t)
    (shapes : List shape_t) (this : Scene)
    (hwf : ∀ shape ∈ shapes, WellFormedShape attribs shape) :
    (extractGeometry hash attribs shapes this).isSome := by
  apply foldlM_option_isSome
  intro e shape hmem
  by_cases h12 : shape.mesh.num_face_vertices.length = 12
  · exact addShape_block_isSome hash attribs e shape h12 (hwf shape hmem)
  · exact addShape_mesh_isSome hash attribs e shape h12 (hwf shape hmem)

/-! ## The vertex array and the index stream, against the history of corners -/

/-- After the shape loop on a loader whose vertex array and index stream are empty, the
length of the vertex array is the number of distinct values in the history of the corners
built, the index stream has one entry per corner, and two corners with equal values have
the same entry in the index stream. -/
theorem extractGeometry_counts_distinct (hash : SceneVertex → Nat) (attribs : attrib_t)
    (shapes : List shape_t) (this : Scene) (hV : this.m_Vertices = [])
    (hI : this.m_Indices = []) :
    ((∀ shape ∈ shapes, WellFormedShape attribs shape) →
      (AddGeometryToScene hash attribs shapes this).isSome) ∧
    ∀ e, extractGeometry hash attribs shapes this = some e →
      AddGeometryToScene hash attribs shapes this = some e.scene ∧
      e.scene.m_Vertices.length = e.corners.toFinset.card ∧
      e.scene.m_Indices.length = e.corners.length ∧
      ∀ j k, j < e.corners.length → k < e.corners.length →
        e.corners[j]? = e.corners[k]? → e.scene.m_Indices[j]? = e.scene.m_Indices[k]? := by
  constructor
  · intro hwf
    simp only [AddGeometryToScene, Option.isSome_map']
    exact extractGeometry_isSome hash attribs shapes this hwf
  · intro e h
    obtain ⟨D, hnd, hmem, hVe, _, hIe⟩ := extractGeometry_deduplicated hash attribs shapes this e h
    rw [hV] at hVe
    rw [hI] at hIe
    simp only [List.nil_append] at hVe hIe
    refine ⟨by simp [AddGeometryToScene, h], ?_, ?_, ?_⟩
    · have hfin : D.toFinset = e.corners.toFinset := by
        ext v
        simp [hmem v]
      rw [← hfin, List.toFinset_card_of_nodup hnd, hVe, List.length_map]
    · rw [hIe, List.length_map]
    · intro j k _ _ hjk
      rw [hIe, List.getElem?_map, List.getElem?_map, hjk]

/-- After the shape loop, as long as the vertex array fits the 32-bit index type, the index
pushed for the k-th corner of the history points at the `VertexData` of that corner: with
`n` the length of the index stream before the call, `m_Vertices[m_Indices[n + k]]` is
`toVertexData` of the k-th corner. The corners built for a triangle face are those of the
index entries `index_offset`, `index_offset + 1` and `index_offset + 2`, in this order. -/
theorem extractGeometry_index_stream (hash : SceneVertex → Nat) (attribs : attrib_t)
    (shapes : List shape_t) (this : Scene) (e : Extraction)
    (h : extractGeometry hash attribs shapes this = some e)
    (hsize : e.scene.m_Vertices.length ≤ 2 ^ 32) :
    AddGeometryToScene hash attribs shapes this = some e.scene ∧
    e.scene.m_Indices.length = this.m_Indices.length + e.corners.length ∧
    (∀ (k : Nat) (vertex : SceneVertex), e.corners[k]? = some vertex →
      ∃ i, e.scene.m_Indices[this.m_Indices.length + k]? = some i ∧
        e.scene.m_Vertices[i]? = some vertex.toVertexData) ∧
    ∀ (mesh : mesh_t) (f index_offset : Nat) (e0 : Extraction) (r : Nat × Extraction),
      meshFace hash attribs mesh f 3 index_offset e0 = some r →
      ∃ v0 v1 v2, cornerAt attribs mesh index_offset = some v0 ∧
        cornerAt attribs mesh (index_offset + 1) = some v1 ∧
        cornerAt attribs mesh (index_offset + 2) = some v2 ∧
        r.2.corners = e0.corners ++ [v0, v1, v2] := by
  obtain ⟨D, hnd, hmem, hVe, _, hIe⟩ := extractGeometry_deduplicated hash attribs shapes this e h
  refine ⟨by simp [AddGeometryToScene, h], by rw [hIe]; simp, ?_, ?_⟩
  rotate_left
  · intro mesh f index_offset e0 r hr
    obtain ⟨v0, v1, v2, matID, h0, h1, h2, _, rfl⟩ :=
      meshFace_three hash attribs mesh f index_offset e0 r hr
    refine ⟨v0, v1, v2, h0, h1, h2, ?_⟩
    show (addVertex hash (addVertex hash (addVertex hash e0 v0) v1) v2).corners = _
    rw [addVertex_corners, addVertex_corners, addVertex_corners]
    simp
  intro k vertex hk
  have hin : vertex ∈ D := (hmem vertex).2 (List.getElem?_mem hk)
  have hlt : D.indexOf vertex < D.length := List.indexOf_lt_length.2 hin
  have hlen : e.scene.m_Vertices.length = this.m_Vertices.length + D.length := by
    rw [hVe]; simp
  have hidx : indexIn this.m_Vertices.length D vertex =
      this.m_Vertices.length + D.indexOf vertex := by
    unfold indexIn
    exact Nat.mod_eq_of_lt (by omega)
  refine ⟨indexIn this.m_Vertices.length D vertex, ?_, ?_⟩
  · rw [hIe, List.getElem?_append_right (by omega)]
    simp [hk]
  · rw [hidx, hVe, List.getElem?_append_right (by omega)]
    simp only [Nat.add_sub_cancel_left, List.getElem?_map]
    rw [List.getElem?_indexOf hin]
    rfl

/-! ## C6 -/

theorem growAABB_ordered (attribs : attrib_t) (mesh : mesh_t) (index_offset v : Nat)
    (aabb aabb' : AABB) (h : growAABB attribs mesh index_offset aabb v = some aabb') :
    aabb'.Ordered := by
  unfold growAABB at h
  cases hi : mesh.indices[index_offset + v]? with
  | none => simp [hi] at h
  | some idx =>
    cases hx : attribs.vertices[attribIndex 3 idx.vertex_index 0]? with
    | none => simp [hi, hx] at h
    | some vx =>
      cases hy : attribs.vertices[attribIndex 3 idx.vertex_index 1]? with
      | none => simp [hi, hx, hy] at h
      | some vy =>
        cases hz : attribs.vertices[attribIndex 3 idx.vertex_index 2]? with
        | none => simp [hi, hx, hy, hz] at h
        | some vz =>
          simp only [hi, hx, hy, hz, Option.bind_eq_bind, Option.some_bind, Option.pure_def,
            Option.some.injEq] at h
          subst h
          exact ⟨le_trans (min_le_left _ _) (le_max_left _ _),
            le_trans (min_le_left _ _) (le_max_left _ _),
            le_trans (min_le_left _ _) (le_max_left _ _)⟩

/-- The vertex loop of a face gives an ordered box as soon as it makes a turn or starts
from an ordered box. -/
theorem growAABB_fold_ordered (attribs : attrib_t) (mesh : mesh_t) (index_offset : Nat)
    (l : List Nat) (aabb aabb' : AABB)
    (h : l.foldlM (growAABB attribs mesh index_offset) aabb = some aabb')
    (hstart : l ≠ [] ∨ aabb.Ordered) : aabb'.Ordered := by
  cases l with
  | nil =>
    simp only [List.foldlM_nil, Option.pure_def, Option.some.injEq] at h
    rcases hstart with hne | ho
    · exact absurd rfl hne
    · exact h ▸ ho
  | cons v rest =>
    cases h1 : growAABB attribs mesh index_offset aabb v with
    | none => simp [List.foldlM_cons, h1] at h
    | some aabb1 =>
      simp only [List.foldlM_cons, h1, Option.bind_eq_bind, Option.some_bind] at h
      exact foldlM_option_invariant AABB.Ordered (growAABB attribs mesh index_offset)
        (fun b a b' hb _ => growAABB_ordered attribs mesh index_offset a b b' hb)
        rest aabb1 aabb' h (growAABB_ordered attribs mesh index_offset v aabb aabb1 h1)

theorem blockFaces_ordered (attribs : attrib_t) (mesh : mesh_t) (fvs : List Nat) :
    ∀ (index_offset : Nat) (aabb aabb' : AABB),
      blockFaces attribs mesh fvs index_offset aabb = some aabb' →
      (0 < fvs.sum ∨ aabb.Ordered) → aabb'.Ordered := by
  induction fvs with
  | nil =>
    intro index_offset aabb aabb' h hstart
    simp only [blockFaces, Option.some.injEq] at h
    rcases hstart with hpos | ho
    · simp at hpos
    · exact h ▸ ho
  | cons fv rest ih =>
    intro index_offset aabb aabb' h hstart
    cases h1 : (List.range fv).foldlM (growAABB attribs mesh index_offset) aabb with
    | none => simp [blockFaces, h1] at h
    | some aabb1 =>
      simp only [blockFaces, h1, Option.bind_eq_bind, Option.some_bind] at h
      apply ih (index_offset + fv) aabb1 aabb' h
      by_cases hfv : fv = 0
      · subst hfv
        simp only [List.range_zero, List.foldlM_nil, Option.pure_def, Option.some.injEq] at h1
        subst h1
        simpa using hstart
      · right
        apply growAABB_fold_ordered attribs mesh index_offset (List.range fv) aabb aabb1 h1
        left
        intro hr
        have := congrArg List.length hr
        simp at this
        exact hfv this

/-- C7: the AABBMaterials record appended for a shape of twelve faces holds the material
IDs of faces 0, 2, 4, 6, 8 and 10 as negX, negY, negZ, posX, posY and posZ, and a zero
padding; on a well-formed shape the step is defined. -/
theorem block_materials_face_positions (hash : SceneVertex → Nat) (attribs : attrib_t)
    (e : Extraction) (shape : shape_t) (h12 : shape.mesh.num_face_vertices.length = 12) :
    (WellFormedShape attribs shape → (addShape hash attribs e shape).isSome) ∧
    ∀ e', addShape hash attribs e shape = some e' →
      ∃ m, e'.scene.m_AABBMaterials = e.scene.m_AABBMaterials ++ [m] ∧
        shape.mesh.material_ids[0]? = some m.negXMatID ∧
        shape.mesh.material_ids[2]? = some m.negYMatID ∧
        shape.mesh.material_ids[4]? = some m.negZMatID ∧
        shape.mesh.material_ids[6]? = some m.posXMatID ∧
        shape.mesh.material_ids[8]? = some m.posYMatID ∧
        shape.mesh.material_ids[10]? = some m.posZMatID ∧
        m.padding = (0, 0) := by
  refine ⟨addShape_block_isSome hash attribs e shape h12, ?_⟩
  intro e' h
  obtain ⟨aabb, mats, _, hm, rfl⟩ := addShape_block hash attribs e e' shape h12 h
  refine ⟨mats, rfl, ?_⟩
  unfold blockMaterials at hm
  cases h0 : shape.mesh.material_ids[0]? with
  | none => simp [h0] at hm
  | some m0 =>
    cases h2 : shape.mesh.material_ids[2]? with
    | none => simp [h0, h2] at hm
    | some m2 =>
      cases h4 : shape.mesh.material_ids[4]? with
      | none => simp [h0, h2, h4] at hm
      | some m4 =>
        cases h6 : shape.mesh.material_ids[6]? with
        | none => simp [h0, h2, h4, h6] at hm
        | some m6 =>
          cases h8 : shape.mesh.material_ids[8]? with
          | none => simp [h0, h2, h4, h6, h8] at hm
          | some m8 =>
            cases h10 : shape.mesh.material_ids[10]? with
            | none => simp [h0, h2, h4, h6, h8, h10] at hm
            | some m10 =>
              simp only [h0, h2, h4, h6, h8, h10, Option.bind_eq_bind, Option.some_bind,
                Option.pure_def, Option.some.injEq] at hm
              subst hm
              exact ⟨rfl, rfl, rfl, rfl, rfl, rfl, rfl⟩

/-- Witness of C7: the unit cube. -/
theorem block_materials_face_positions_witness :
    cubeShape.mesh.num_face_vertices.length = 12 ∧
    WellFormedShape sceneAttribs cubeShape ∧
    ∃ e', addShape constantHash sceneAttribs freshExtraction cubeShape = some e' ∧
      ∃ m, e'.scene.m_AABBMaterials = freshExtraction.scene.m_AABBMaterials ++ [m] ∧
        cubeShape.mesh.material_ids[0]? = some m.negXMatID ∧
        cubeShape.mesh.material_ids[2]? = some m.negYMatID ∧
        cubeShape.mesh.material_ids[4]? = some m.negZMatID ∧
        cubeShape.mesh.material_ids[6]? = some m.posXMatID ∧
        cubeShape.mesh.material_ids[8]? = some m.posYMatID ∧
        cubeShape.mesh.material_ids[10]? = some m.posZMatID ∧
        m.padding = (0, 0) := by
  have h := block_materials_face_positions constantHash sceneAttribs freshExtraction cubeShape
    (by decide)
  obtain ⟨e', he⟩ := Option.isSome_iff_exists.1 (h.1 (by decide))
  exact ⟨by decide, by decide, e', he, h.2 e' he⟩

/-! ## What `AddGeometryToScene` leaves alone -/

theorem addVertex_outsideGeometry (hash : SceneVertex → Nat) (e : Extraction)
    (v : SceneVertex) :
    (addVertex hash e v).scene.outsideGeometry = e.scene.outsideGeometry := by
  unfold addVertex
  split <;> rfl

theorem pushTriangle_outsideGeometry (e : Extraction) (matID : Int) :
    (pushTriangle e matID).scene.outsideGeometry = e.scene.outsideGeometry := rfl

theorem meshFace_outsideGeometry (hash : SceneVertex → Nat) (attribs : attrib_t)
    (mesh : mesh_t) (f fv index_offset : Nat) (e : Extraction) (r : Nat × Extraction)
    (hr : meshFace hash attribs mesh f fv index_offset e = some r) :
    r.2.scene.outsideGeometry = e.scene.outsideGeometry := by
  by_cases hfv : fv = 3
  · subst hfv
    obtain ⟨v0, v1, v2, matID, _, _, _, _, rfl⟩ :=
      meshFace_three hash attribs mesh f index_offset e r hr
    have h0 := addVertex_outsideGeometry hash e v0
    have h1 := addVertex_outsideGeometry hash (addVertex hash e v0) v1
    have h2 := addVertex_outsideGeometry hash (addVertex hash (addVertex hash e v0) v1) v2
    rw [pushTriangle_outsideGeometry, h2, h1, h0]
  · rw [meshFace_skip hash attribs mesh f fv index_offset e hfv] at hr
    simp only [Option.some.injEq] at hr
    subst hr
    rfl

theorem meshFaces_outsideGeometry (hash : SceneVertex → Nat) (attribs : attrib_t)
    (mesh : mesh_t) (fvs : List Nat) :
    ∀ (f index_offset : Nat) (e e' : Extraction),
      meshFaces hash attribs mesh fvs f index_offset e = some e' →
      e'.scene.outsideGeometry = e.scene.outsideGeometry := by
  induction fvs with
  | nil =>
    intro f index_offset e e' h
    simp only [meshFaces, Option.some.injEq] at h
    rw [h]
  | cons fv rest ih =>
    intro f index_offset e e' h
    cases hr : meshFace hash attribs mesh f fv index_offset e with
    | none => simp [meshFaces, hr] at h
    | some r =>
      simp only [meshFaces, hr, Option.bind_eq_bind, Option.some_bind] at h
      exact (ih (f + 1) r.1 r.2 e' h).trans
        (meshFace_outsideGeometry hash attribs mesh f fv index_offset e r hr)

theorem addShape_outsideGeometry (hash : SceneVertex → Nat) (attribs : attrib_t)
    (e : Extraction) (shape : shape_t) (e' : Extraction)
    (h : addShape hash attribs e shape = some e') :
    e'.scene.outsideGeometry = e.scene.outsideGeometry := by
  by_cases h12 : shape.mesh.num_face_vertices.length = 12
  · obtain ⟨aabb, mats, _, _, rfl⟩ := addShape_block hash attribs e e' shape h12 h
    rfl
  · unfold addShape at h
    simp only [h12, if_false] at h
    exact meshFaces_outsideGeometry hash attribs shape.mesh _ 0 0 e e' h

/-- The geometry extraction writes the five geometry containers and the statistics, and
no other member of the loader. -/
theorem AddGeometryToScene_outsideGeometry (hash : SceneVertex → Nat) (attribs : attrib_t)
    (shapes : List shape_t) (this s : Scene)
    (h : AddGeometryToScene hash attribs shapes this = some s) :
    s.outsideGeometry = this.outsideGeometry := by
  unfold AddGeometryToScene at h
  cases he : extractGeometry hash attribs shapes this with
  | none => simp [he] at h
  | some e =>
    simp only [he, Option.map_some', Option.some.injEq] at h
    subst h
    exact foldlM_option_invariant
      (fun e => e.scene.outsideGeometry = this.outsideGeometry) (addShape hash attribs)
      (fun b a b' hb hP => (addShape_outsideGeometry hash attribs b a b' hb).trans hP)
      shapes _ e he rfl

theorem m_Materials_of_outsideGeometry (a b : Scene)
    (h : a.outsideGeometry = b.outsideGeometry) : a.m_Materials = b.m_Materials := by
  have h1 : a.outsideGeometry.m_Materials = b.outsideGeometry.m_Materials :=
    congrArg Scene.m_Materials h
  exact h1

/-! ## The material loop -/

theorem makeMaterial_identity (i : Nat) (material : material_t) :
    (makeMaterial i material).1.materialID = i ∧
    (makeMaterial i material).1.name = material.name ∧
    (makeMaterial i material).1.baseOrDiffuseColor = material.diffuse ∧
    (makeMaterial i material).1.emissiveColor = material.emission := by
  simp only [makeMaterial, resolveBaseColor, resolveNormal, resolveEmissive, resolveRoughMetal]
  split_ifs <;> exact ⟨rfl, rfl, rfl, rfl⟩

theorem materialsLoop_scene (materials : List material_t) :
    ∀ (i : Nat) (this : Scene) (calls : List Call),
      (materialsLoop materials i (this, calls)).1 =
        { this with m_Materials := this.m_Materials ++ madeMaterials i materials } := by
  induction materials with
  | nil => intro i this calls; simp [materialsLoop, madeMaterials]
  | cons material rest ih =>
    intro i this calls
    simp only [materialsLoop, ih, madeMaterials, List.enumFrom_cons, List.map_cons,
      List.append_assoc, List.singleton_append]

theorem madeMaterials_length (i : Nat) (materials : List material_t) :
    (madeMaterials i materials).length = materials.length := by
  simp [madeMaterials]

theorem madeMaterials_getElem? (i j : Nat) (materials : List material_t) :
    (madeMaterials i materials)[j]? =
      (materials[j]?).map (fun material => (makeMaterial (i + j) material).1) := by
  simp only [madeMaterials, List.getElem?_map, List.getElem?_enumFrom, Option.map_map]
  rfl

theorem AddMaterialsToScene_scene (materials : List material_t) (this : Scene)
    (r : Scene × List Call) (h : AddMaterialsToScene materials this = some r) :
    materials.length < 2 ^ 32 ∧
    r.1 = { this with
      m_Materials := this.m_Materials ++ madeMaterials 0 materials
      m_MetalRoughTexGenCS := false } := by
  unfold AddMaterialsToScene at h
  split at h
  · cases h
  · rename_i hlen
    simp only [Option.some.injEq] at h
    subst h
    refine ⟨by omega, ?_⟩
    simp only [materialsLoop_scene]

theorem CreateMaterialsBuffers_m_Materials (this : Scene) (r : Scene × List Call)
    (h : CreateMaterialsBuffers this = some r) : r.1.m_Materials = this.m_Materials := by
  unfold CreateMaterialsBuffers at h
  split at h
  · cases h
  · simp only [Option.some.injEq] at h
    subst h
    split_ifs <;> rfl

theorem CreateGeometryBuffers_m_Materials (this : Scene) :
    (CreateGeometryBuffers this).1.m_Materials = this.m_Materials := by
  simp only [CreateGeometryBuffers]
  split_ifs <;> rfl

theorem CreateAccelerationStructure_m_Materials (this : Scene) :
    (CreateAccelerationStructure this).1.m_Materials = this.m_Materials := by
  unfold CreateAccelerationStructure
  simp only
  repeat' split
  all_goals rfl

/-! ## The two outcomes of `LoadScene` -/

/-- A fatal condition: the call returns false, changes nothing and makes no call. -/
theorem LoadScene_fatal (hash : SceneVertex → Nat) (reader : ObjReader) (this : Scene)
    (h : reader.valid = false ∨ reader.materials = []) :
    LoadScene hash reader this = some (false, this, []) := by
  unfold LoadScene
  by_cases hv : reader.valid = true
  · rcases h with h | h
    · rw [h] at hv; cases hv
    · simp [hv, h]
  · simp [hv]

/-- The steps behind a call that returned true. -/
theorem LoadScene_true (hash : SceneVertex → Nat) (reader : ObjReader) (this s' : Scene)
    (calls : List Call) (h : LoadScene hash reader this = some (true, s', calls)) :
    reader.valid = true ∧ reader.materials ≠ [] ∧
    ∃ s1 r1 r2,
      AddGeometryToScene hash reader.attrib reader.shapes this = some s1 ∧
      AddMaterialsToScene reader.materials s1 = some r1 ∧
      CreateMaterialsBuffers r1.1 = some r2 ∧
      s' = { (CreateAccelerationStructure (CreateGeometryBuffers r2.1).1).1 with
        m_sceneIsLoaded := true } := by
  unfold LoadScene at h
  by_cases hv : reader.valid = true
  · by_cases hm : reader.materials = []
    · simp [hv, hm] at h
    · have hne : reader.materials.isEmpty = false := by
        cases hl : reader.materials with
        | nil => exact absurd hl hm
        | cons a l => rfl
      simp only [hv, hne, Bool.not_true, Bool.false_eq_true, if_false] at h
      cases h1 : AddGeometryToScene hash reader.attrib reader.shapes this with
      | none => simp [h1] at h
      | some s1 =>
        cases h2 : AddMaterialsToScene reader.materials s1 with
        | none => simp [h1, h2] at h
        | some r1 =>
          cases h3 : CreateMaterialsBuffers r1.1 with
          | none => simp [h1, h2, h3] at h
          | some r2 =>
            simp only [h1, h2, h3, Option.bind_eq_bind, Option.some_bind, Option.some.injEq,
              Prod.mk.injEq, true_and] at h
            exact ⟨hv, hm, s1, r1, r2, rfl, h2, h3, h.1.symm⟩
  · simp [hv] at h

/-- A call that returned false met a fatal condition, changed nothing and made no call. -/
theorem LoadScene_false (hash : SceneVertex → Nat) (reader : ObjReader) (this s' : Scene)
    (calls : List Call) (h : LoadScene hash reader this = some (false, s', calls)) :
    (reader.valid = false ∨ reader.materials = []) ∧ s' = this ∧ calls = [] := by
  by_cases hf : reader.valid = false ∨ reader.materials = []
  · rw [LoadScene_fatal hash reader this hf] at h
    simp only [Option.some.injEq, Prod.mk.injEq, true_and] at h
    exact ⟨hf, h.1.symm, h.2.symm⟩
  · exfalso
    have hv : reader.valid = true := by
      cases hb : reader.valid with
      | true => rfl
      | false => exact absurd (Or.inl hb) hf
    have hm : reader.materials ≠ [] := fun hm => hf (Or.inr hm)
    have hne : reader.materials.isEmpty = false := by
      cases hl : reader.materials with
      | nil => exact absurd hl hm
      | cons a l => rfl
    unfold LoadScene at h
    simp only [hv, hne, Bool.not_true, Bool.false_eq_true, if_false] at h
    cases h1 : AddGeometryToScene hash reader.attrib reader.shapes this with
    | none => simp [h1] at h
    | some s1 =>
      cases h2 : AddMaterialsToScene reader.materials s1 with
      | none => simp [h1, h2] at h
      | some r1 =>
        cases h3 : CreateMaterialsBuffers r1.1 with
        | none => simp [h1, h2, h3] at h
        | some r2 => simp [h1, h2, h3] at h

/-- A parse that succeeded with at least one material, fewer than `2 ^ 32` materials in
the loader and in the file together, and well-formed shapes: the call returns true. -/
theorem LoadScene_succeeds (hash : SceneVertex → Nat) (reader : ObjReader) (this : Scene)
    (hv : reader.valid = true) (hm : reader.materials ≠ [])
    (hlen : this.m_Materials.length + reader.materials.length < 2 ^ 32)
    (hwf : ∀ shape ∈ reader.shapes, WellFormedShape reader.attrib shape) :
    ∃ s' calls, LoadScene hash reader this = some (true, s', calls) := by
  have hne : reader.materials.isEmpty = false := by
    cases hl : reader.materials with
    | nil => exact absurd hl hm
    | cons a l => rfl
  obtain ⟨e, he⟩ := Option.isSome_iff_exists.1
    (extractGeometry_isSome hash reader.attrib reader.shapes this hwf)
  have h1 : AddGeometryToScene hash reader.attrib reader.shapes this = some e.scene := by
    simp [AddGeometryToScene, he]
  have hmat : e.scene.m_Materials = this.m_Materials := by
    have hout :=
      AddGeometryToScene_outsideGeometry hash reader.attrib reader.shapes this e.scene h1
    exact m_Materials_of_outsideGeometry e.scene this hout
  have hlt : ¬ 2 ^ 32 ≤ reader.materials.length := by omega
  obtain ⟨r1, h2⟩ : ∃ r1, AddMaterialsToScene reader.materials e.scene = some r1 := by
    unfold AddMaterialsToScene
    simp only [hlt, if_false]
    exact ⟨_, rfl⟩
  have hr1 := (AddMaterialsToScene_scene reader.materials e.scene r1 h2).2
  have hlen1 : ¬ 2 ^ 32 ≤ r1.1.m_Materials.length := by
    rw [hr1]
    simp only [List.length_append, madeMaterials_length, hmat]
    omega
  obtain ⟨r2, h3⟩ : ∃ r2, CreateMaterialsBuffers r1.1 = some r2 := by
    unfold CreateMaterialsBuffers
    simp only [hlen1, if_false]
    exact ⟨_, rfl⟩
  unfold LoadScene
  simp only [hv, hne, Bool.not_true, Bool.false_eq_true, if_false, h1, h2, h3,
    Option.bind_eq_bind, Option.some_bind]
  exact ⟨_, _, rfl⟩

/-! ## C8 -/

/-- C8: after `LoadScene` has returned true on an unloaded loader, `m_Materials` has the
length of the parsed material list, and the material at position `i` has `materialID`
equal to `i` and the name, the diffuse colour and the emission colour of the parsed
material at position `i`; such a call returns true whenever the parse succeeded with at
least one material and well-formed shapes. -/
theorem materials_keep_parsed_order (hash : SceneVertex → Nat) (reader : ObjReader)
    (this : Scene) (hU : Unloaded this) :
    (reader.valid = true → reader.materials ≠ [] → reader.materials.length < 2 ^ 32 →
      (∀ shape ∈ reader.shapes, WellFormedShape reader.attrib shape) →
      ∃ s' calls, LoadScene hash reader this = some (true, s', calls)) ∧
    ∀ s' calls, LoadScene hash reader this = some (true, s', calls) →
      s'.m_Materials.length = reader.materials.length ∧
      ∀ (i : Nat) (material : material_t), reader.materials[i]? = some material →
        ∃ sceneMat, s'.m_Materials[i]? = some sceneMat ∧
          sceneMat.materialID = (i : Int) ∧
          sceneMat.name = material.name ∧
          sceneMat.baseOrDiffuseColor = material.diffuse ∧
          sceneMat.emissiveColor = material.emission := by
  have hM : this.m_Materials = [] := hU.2.1
  constructor
  · intro hv hm hlen hwf
    exact LoadScene_succeeds hash reader this hv hm (by rw [hM]; simpa using hlen) hwf
  · intro s' calls h
    obtain ⟨_, _, s1, r1, r2, h1, h2, h3, rfl⟩ := LoadScene_true hash reader this s' calls h
    have e1 : s1.m_Materials = [] := by
      rw [m_Materials_of_outsideGeometry s1 this
        (AddGeometryToScene_outsideGeometry hash reader.attrib reader.shapes this s1 h1), hM]
    have e2 : r1.1.m_Materials = madeMaterials 0 reader.materials := by
      rw [(AddMaterialsToScene_scene reader.materials s1 r1 h2).2]
      simp [e1]
    have e3 : ({ (CreateAccelerationStructure (CreateGeometryBuffers r2.1).1).1 with
        m_sceneIsLoaded := true } : Scene).m_Materials = madeMaterials 0 reader.materials := by
      show (CreateAccelerationStructure (CreateGeometryBuffers r2.1).1).1.m_Materials = _
      rw [CreateAccelerationStructure_m_Materials, CreateGeometryBuffers_m_Materials,
        CreateMaterialsBuffers_m_Materials r1.1 r2 h3, e2]
    rw [e3]
    refine ⟨madeMaterials_length 0 reader.materials, ?_⟩
    intro i material hi
    refine ⟨(makeMaterial i material).1, ?_, makeMaterial_identity i material⟩
    rw [madeMaterials_getElem?, hi]
    simp

/-- Witness of C8: the small scene with its two materials, on a fresh loader. -/
theorem materials_keep_parsed_order_witness :
    Unloaded {} ∧
    ∃ s' calls, LoadScene constantHash sceneReader {} = some (true, s', calls) ∧
      s'.m_Materials.length = sceneReader.materials.length ∧
      ∀ (i : Nat) (material : material_t), sceneReader.materials[i]? = some material →
        ∃ sceneMat, s'.m_Materials[i]? = some sceneMat ∧
          sceneMat.materialID = (i : Int) ∧
          sceneMat.name = material.name ∧
          sceneMat.baseOrDiffuseColor = material.diffuse ∧
          sceneMat.emissiveColor = material.emission := by
  have h := materials_keep_parsed_order constantHash sceneReader {} (by decide)
  obtain ⟨s', calls, hs⟩ := h.1 rfl (by decide) (by decide) (by decide)
  exact ⟨by decide, s', calls, hs, h.2 s' calls hs⟩

/-! ## C9 -/

/-- C9, at a loaded loader: `loadedScene` is what a successful load leaves; the next
`LoadScene`, whose parse succeeds with an empty material list, returns false, and
`IsLoaded()` is true afterwards. -/
theorem no_material_load_keeps_IsLoaded :
    (LoadScene constantHash materialOnlyReader {}).map (fun r => (r.1, r.2.1)) =
      some (true, loadedScene) ∧
    noMaterialReader.valid = true ∧ noMaterialReader.materials = [] ∧
    ∃ s', LoadScene constantHash noMaterialReader loadedScene = some (false, s', []) ∧
      s'.IsLoaded = true :=
  ⟨rfl, rfl, rfl, loadedScene, rfl, rfl⟩

/-- C9, amended: when the parse step succeeds with an empty material list, `LoadScene`
returns false, on every loader; `IsLoaded()` is afterwards what it was before the call,
so it is false when the call was made on a loader that was not loaded; and the call
constructs nothing: it makes no call on the device, the command list or the texture
cache, and every member of the loader is as it was. -/
theorem no_material_load_fails (hash : SceneVertex → Nat) (reader : ObjReader)
    (this : Scene) (hv : reader.valid = true) (hm : reader.materials = []) :
    ∃ s', LoadScene hash reader this = some (false, s', []) ∧
      s'.IsLoaded = this.IsLoaded ∧ (this.IsLoaded = false → s'.IsLoaded = false) ∧
      s' = this := by
  refine ⟨this, ?_, rfl, fun h => h, rfl⟩
  simp [LoadScene, hv, hm]

/-- Witness of C9, amended: the small scene without its materials, on a fresh loader. -/
theorem no_material_load_fails_witness :
    noMaterialReader.valid = true ∧ noMaterialReader.materials = [] ∧
    ∃ s', LoadScene constantHash noMaterialReader {} = some (false, s', []) ∧
      s'.IsLoaded = false ∧ s' = {} := by
  obtain ⟨s', h1, _, h3, h4⟩ := no_material_load_fails constantHash noMaterialReader {} rfl rfl
  exact ⟨rfl, rfl, s', h1, h3 rfl, h4⟩

/-! ## C10 -/

/-- C10, at a loaded loader: `loadedScene` is what a successful load leaves, and a second
`LoadScene` whose parse fails, or finds no material, returns false and leaves the loader
loaded, with its material and its handles. -/
theorem failed_load_keeps_loaded_scene :
    (LoadScene constantHash materialOnlyReader {}).map (fun r => (r.1, r.2.1)) =
      some (true, loadedScene) ∧
    LoadScene constantHash failedReader loadedScene = some (false, loadedScene, []) ∧
    LoadScene constantHash noMaterialReader loadedScene = some (false, loadedScene, []) ∧
    loadedScene.IsLoaded = true ∧ loadedScene.m_Materials ≠ [] ∧
    loadedScene.GetMaterialBuffer ≠ none ∧ loadedScene.GetTLAS ≠ none ∧
    ¬ Unloaded loadedScene := by
  refine ⟨rfl, rfl, rfl, rfl, ?_, ?_, ?_, ?_⟩
  · simp [loadedScene]
  · simp [loadedScene, Scene.GetMaterialBuffer]
  · simp [loadedScene, Scene.GetTLAS]
  · intro h
    have := h.1
    simp [loadedScene, Scene.IsLoaded] at this

/-- C10, amended: `LoadScene` returns false exactly on a parse failure or an empty
material list, and such a call changes no member of the loader and makes no call on the
device, the command list or the texture cache; so a loader that was unloaded before the
call is unloaded after it. -/
theorem failed_load_changes_nothing (hash : SceneVertex → Nat) (reader : ObjReader)
    (this : Scene) :
    ((reader.valid = false ∨ reader.materials = []) →
      LoadScene hash reader this = some (false, this, [])) ∧
    ∀ s' calls, LoadScene hash reader this = some (false, s', calls) →
      (reader.valid = false ∨ reader.materials = []) ∧ s' = this ∧ calls = [] ∧
      (Unloaded this → Unloaded s') := by
  refine ⟨LoadScene_fatal hash reader this, ?_⟩
  intro s' calls h
  obtain ⟨hf, hs, hc⟩ := LoadScene_false hash reader this s' calls h
  exact ⟨hf, hs, hc, fun hU => hs ▸ hU⟩

/-- Witness of C10, amended: a failed parse on a fresh loader. -/
theorem failed_load_changes_nothing_witness :
    LoadScene constantHash failedReader {} = some (false, {}, []) ∧ Unloaded {} ∧
    ∀ s' calls, LoadScene constantHash failedReader {} = some (false, s', calls) →
      Unloaded s' := by
  have h := failed_load_changes_nothing constantHash failedReader {}
  exact ⟨h.1 (Or.inl rfl), by decide, fun s' calls hs => (h.2 s' calls hs).2.2.2 (by decide)⟩

/-! ## C11 -/

/-- C11: whenever `LoadScene` returns, it returns true if and only if the parse step
succeeded and the parsed material list is not empty; when it returns true `IsLoaded()`
is true afterwards, and when it returns false the loader is as it was. It returns
whenever the shapes are well formed, whatever the vertex counts of their faces. The
value returned depends neither on the warning text of the parse nor on the shapes. -/
theorem load_returns_true_iff (hash : SceneVertex → Nat) (reader : ObjReader)
    (this : Scene) :
    (∀ b s' calls, LoadScene hash reader this = some (b, s', calls) →
      (b = true ↔ (reader.valid = true ∧ reader.materials ≠ [])) ∧
      (b = true → s'.IsLoaded = true) ∧ (b = false → s' = this)) ∧
    ((∀ shape ∈ reader.shapes, WellFormedShape reader.attrib shape) →
      this.m_Materials.length + reader.materials.length < 2 ^ 32 →
      ∃ b s' calls, LoadScene hash reader this = some (b, s', calls) ∧
        (b = true ↔ (reader.valid = true ∧ reader.materials ≠ []))) ∧
    (∀ warning, LoadScene hash { reader with warning := warning } this =
      LoadScene hash reader this) ∧
    (∀ shapes b s' calls b2 s2 calls2,
      LoadScene hash reader this = some (b, s', calls) →
      LoadScene hash { reader with shapes := shapes } this = some (b2, s2, calls2) →
      b = b2) := by
  have key : ∀ (rd : ObjReader) b s' calls, LoadScene hash rd this = some (b, s', calls) →
      (b = true ↔ (rd.valid = true ∧ rd.materials ≠ [])) := by
    intro rd b s' calls h
    cases b with
    | true =>
      obtain ⟨hv, hm, _⟩ := LoadScene_true hash rd this s' calls h
      simp [hv, hm]
    | false =>
      obtain ⟨hf, _, _⟩ := LoadScene_false hash rd this s' calls h
      constructor
      · intro hb; cases hb
      · rintro ⟨hv, hm⟩
        rcases hf with hf | hf
        · rw [hf] at hv; cases hv
        · exact absurd hf hm
  refine ⟨?_, ?_, ?_, ?_⟩
  · intro b s' calls h
    refine ⟨key reader b s' calls h, ?_, ?_⟩
    · intro hb
      subst hb
      obtain ⟨_, _, s1, r1, r2, _, _, _, rfl⟩ := LoadScene_true hash reader this s' calls h
      rfl
    · intro hb
      subst hb
      exact (LoadScene_false hash reader this s' calls h).2.1
  · intro hwf hlen
    by_cases hf : reader.valid = false ∨ reader.materials = []
    · refine ⟨false, this, [], LoadScene_fatal hash reader this hf, ?_⟩
      constructor
      · intro hb; cases hb
      · rintro ⟨hv, hm⟩
        rcases hf with hf | hf
        · rw [hf] at hv; cases hv
        · exact absurd hf hm
    · have hv : reader.valid = true := by
        cases hb : reader.valid with
        | true => rfl
        | false => exact absurd (Or.inl hb) hf
      have hm : reader.materials ≠ [] := fun hm => hf (Or.inr hm)
      obtain ⟨s', calls, h⟩ := LoadScene_succeeds hash reader this hv hm hlen hwf
      exact ⟨true, s', calls, h, by simp [hv, hm]⟩
  · intro warning
    rfl
  · intro shapes b s' calls b2 s2 calls2 h h2
    have k1 := key reader b s' calls h
    have k2 := key { reader with shapes := shapes } b2 s2 calls2 h2
    have k3 : b = true ↔ b2 = true := k1.trans k2.symm
    cases b <;> cases b2 <;> simp at k3 ⊢

/-- Witness of C11: a parse with a warning, whose only shape has a quadrilateral before
a triangle, loaded on a fresh loader: the call returns true. -/
theorem load_returns_true_iff_witness :
    (∀ shape ∈ mixedReader.shapes, WellFormedShape mixedReader.attrib shape) ∧
    mixedReader.warning ≠ "" ∧ mixedShape.mesh.num_face_vertices = [4, 3] ∧
    ∃ s' calls, LoadScene constantHash mixedReader {} = some (true, s', calls) ∧
      s'.IsLoaded = true := by
  have h := load_returns_true_iff constantHash mixedReader {}
  obtain ⟨b, s', calls, hs, hb⟩ := h.2.1 (by decide) (by decide)
  have hb' : b = true := hb.2 ⟨rfl, by decide⟩
  subst hb'
  exact ⟨by decide, by decide, rfl, s', calls, hs, (h.1 true s' calls hs).2.1 rfl⟩

/-! ## C12 -/

/-- C12: from every state `UnloadScene` returns true and leaves the loader unloaded: the
six containers are empty, the TLAS, the two BLAS handles and the six buffer handles are
null, the five statistics are zero, `IsLoaded()` is false, and the one call made is the
reset of the texture cache. -/
theorem unload_leaves_scene_unloaded (this : Scene) :
    (UnloadScene this).1 = true ∧
    Unloaded (UnloadScene this).2.1 ∧
    (UnloadScene this).2.1.m_Materials = [] ∧ (UnloadScene this).2.1.m_AABBs = [] ∧
    (UnloadScene this).2.1.m_AABBMaterials = [] ∧ (UnloadScene this).2.1.m_Indices = [] ∧
    (UnloadScene this).2.1.m_Vertices = [] ∧ (UnloadScene this).2.1.m_TriPerFaceMatID = [] ∧
    (UnloadScene this).2.1.GetTLAS = none ∧
    (UnloadScene this).2.1.m_BlasTriangles = none ∧ (UnloadScene this).2.1.m_BlasAABBs = none ∧
    (UnloadScene this).2.1.GetAABBBuffer = none ∧ (UnloadScene this).2.1.GetVertexBuffer = none ∧
    (UnloadScene this).2.1.GetIndexBuffer = none ∧
    (UnloadScene this).2.1.GetMaterialBuffer = none ∧
    (UnloadScene this).2.1.GetTriangleMaterialIDBuffer = none ∧
    (UnloadScene this).2.1.GetAABBMaterialIDBuffer = none ∧
    (UnloadScene this).2.1.m_sceneStats = ⟨0, 0, 0, 0, 0⟩ ∧
    (UnloadScene this).2.1.IsLoaded = false ∧
    (UnloadScene this).2.2 = [Call.TextureCacheReset] := by
  refine ⟨rfl, ?_, rfl, rfl, rfl, rfl, rfl, rfl, rfl, rfl, rfl, rfl, rfl, rfl, rfl, rfl, rfl,
    rfl, rfl, rfl⟩
  exact ⟨rfl, rfl, rfl, rfl, rfl, rfl, rfl, rfl, rfl, rfl, rfl, rfl, rfl, rfl, rfl, rfl⟩

/-! ## C13 -/

/-- C13: `UnloadScene` is idempotent: from every state, the loader after two calls in a
row is the loader after one call, and both calls return true. -/
theorem unload_is_idempotent (this : Scene) :
    (UnloadScene (UnloadScene this).2.1).2.1 = (UnloadScene this).2.1 ∧
    (UnloadScene (UnloadScene this).2.1).1 = (UnloadScene this).1 := by
  exact ⟨rfl, rfl⟩

/-! ## C16 -/

/-- C16: in `CreateAccelerationStructure`, from every state, a triangle BLAS is built if
and only if the index buffer and the vertex buffer both exist, an AABB BLAS is built if
and only if the AABB buffer exists, and the TLAS is created with `topLevelMaxInstances`
equal to the number of instances it is built from, which is the number of BLAS handles
that are not null, at most 2. -/
theorem accel_structs_follow_buffers (this : Scene) :
    ((∃ blas indexBuffer vertexBuffer indexCount vertexCount,
        blas.geometry = GeometryDesc.Triangles indexBuffer vertexBuffer indexCount vertexCount ∧
        Call.buildBottomLevelAccelStruct blas ∈ (CreateAccelerationStructure this).2) ↔
      (this.m_IndexBuffer ≠ none ∧ this.m_VertexBuffer ≠ none)) ∧
    ((∃ blas buffer count, blas.geometry = GeometryDesc.AABBs buffer count ∧
        Call.buildBottomLevelAccelStruct blas ∈ (CreateAccelerationStructure this).2) ↔
      this.m_AABBBuffer ≠ none) ∧
    ∃ tlas, (CreateAccelerationStructure this).1.m_TopLevelAS = some tlas ∧
      Call.buildTopLevelAccelStruct tlas.instances ∈ (CreateAccelerationStructure this).2 ∧
      tlas.topLevelMaxInstances = tlas.instances.length ∧
      tlas.instances.length =
        (if (CreateAccelerationStructure this).1.m_BlasTriangles ≠ none then 1 else 0) +
          (if (CreateAccelerationStructure this).1.m_BlasAABBs ≠ none then 1 else 0) ∧
      tlas.topLevelMaxInstances ≤ 2 := by
  obtain ⟨loaded, stats, aabbs, aabbMats, indices, vertices, triMats, mats, blasT, blasA, tlas,
    aabbBuf, vertexBuf, indexBuf, aabbMatBuf, triMatBuf, matBuf, cs⟩ := this
  cases indexBuf <;> cases vertexBuf <;> cases aabbBuf <;> cases blasT <;> cases blasA <;>
    simp [CreateAccelerationStructure] <;>
    exact ⟨⟨_, ⟨_, _, _, _, rfl⟩, Or.inl rfl⟩, ⟨_, ⟨_, _, rfl⟩, Or.inr rfl⟩⟩

/-! ## C17 -/

/-- C17: the instance list passed to the TLAS build is, in this order, one instance for
the triangle BLAS when it is not null, with contribution index 0, mask 0xFF, the
identity transform and the flag `TriangleFrontCounterclockwise`, then one instance for
the AABB BLAS when it is not null, with contribution index 1, mask 0xFF, the identity
transform and no flag. In the shader table of the renderer index 0 is the triangle hit
group, which is not procedural, and index 1 is the AABB hit group, which is. -/
theorem tlas_instances_route_hit_groups (this : Scene) :
    (∃ instances,
      (CreateAccelerationStructure this).2.getLast? =
        some (Call.buildTopLevelAccelStruct instances) ∧
      (CreateAccelerationStructure this).1.m_TopLevelAS =
        some ⟨instances.length, instances⟩ ∧
      instances =
        ((CreateAccelerationStructure this).1.m_BlasTriangles.map (fun blas =>
            ({ bottomLevelAS := blas, instanceMask := 0xFF,
               flags := InstanceFlags.TriangleFrontCounterclockwise,
               instanceContributionToHitGroupIndex := 0,
               transform := [1, 0, 0, 0, 0, 1, 0, 0, 0, 0, 1, 0] } : InstanceDesc))).toList ++
        ((CreateAccelerationStructure this).1.m_BlasAABBs.map (fun blas =>
            ({ bottomLevelAS := blas, instanceMask := 0xFF, flags := InstanceFlags.None,
               instanceContributionToHitGroupIndex := 1,
               transform := [1, 0, 0, 0, 0, 1, 0, 0, 0, 0, 1, 0] } : InstanceDesc))).toList) ∧
    InitRayTracingPipeline.2.hitGroups[0]? = some "TriangleHitGroup" ∧
    InitRayTracingPipeline.2.hitGroups[1]? = some "AABBHitGroup" ∧
    (InitRayTracingPipeline.1.map (fun g => (g.exportName, g.isProceduralPrimitive)) =
      [("TriangleHitGroup", false), ("AABBHitGroup", true)]) := by
  refine ⟨?_, by decide, by decide, by decide⟩
  obtain ⟨loaded, stats, aabbs, aabbMats, indices, vertices, triMats, mats, blasT, blasA, tlas,
    aabbBuf, vertexBuf, indexBuf, aabbMatBuf, triMatBuf, matBuf, cs⟩ := this
  cases indexBuf <;> cases vertexBuf <;> cases aabbBuf <;> cases blasT <;> cases blasA <;>
    simp [CreateAccelerationStructure, identityTransform]

/-! ## What each step of a successful load writes -/

/-- Two loaders with the same image under `outsideGeometry` hold the same handles. -/
theorem handles_of_outsideGeometry (a b : Scene)
    (h : a.outsideGeometry = b.outsideGeometry) :
    a.m_BlasTriangles = b.m_BlasTriangles ∧ a.m_BlasAABBs = b.m_BlasAABBs ∧
    a.m_AABBBuffer = b.m_AABBBuffer ∧ a.m_VertexBuffer = b.m_VertexBuffer ∧
    a.m_IndexBuffer = b.m_IndexBuffer ∧
    a.m_AABBMaterialIDBuffer = b.m_AABBMaterialIDBuffer ∧
    a.m_TriangleMaterialIDBuffer = b.m_TriangleMaterialIDBuffer ∧
    a.m_TopLevelAS = b.m_TopLevelAS := by
  have h1 := congrArg Scene.m_BlasTriangles h
  have h2 := congrArg Scene.m_BlasAABBs h
  have h3 := congrArg Scene.m_AABBBuffer h
  have h4 := congrArg Scene.m_VertexBuffer h
  have h5 := congrArg Scene.m_IndexBuffer h
  have h6 := congrArg Scene.m_AABBMaterialIDBuffer h
  have h7 := congrArg Scene.m_TriangleMaterialIDBuffer h
  have h8 := congrArg Scene.m_TopLevelAS h
  exact ⟨h1, h2, h3, h4, h5, h6, h7, h8⟩


theorem AddMaterialsToScene_fields (materials : List material_t) (this : Scene)
    (r : Scene × List Call) (h : AddMaterialsToScene materials this = some r) :
    r.1.m_AABBs = this.m_AABBs ∧ r.1.m_AABBMaterials = this.m_AABBMaterials ∧
    r.1.m_Indices = this.m_Indices ∧ r.1.m_Vertices = this.m_Vertices ∧
    r.1.m_TriPerFaceMatID = this.m_TriPerFaceMatID ∧
    r.1.m_BlasTriangles = this.m_BlasTriangles ∧ r.1.m_BlasAABBs = this.m_BlasAABBs ∧
    r.1.m_AABBBuffer = this.m_AABBBuffer ∧ r.1.m_VertexBuffer = this.m_VertexBuffer ∧
    r.1.m_IndexBuffer = this.m_IndexBuffer ∧
    r.1.m_AABBMaterialIDBuffer = this.m_AABBMaterialIDBuffer ∧
    r.1.m_TriangleMaterialIDBuffer = this.m_TriangleMaterialIDBuffer := by
  rw [(AddMaterialsToScene_scene materials this r h).2]
  exact ⟨rfl, rfl, rfl, rfl, rfl, rfl, rfl, rfl, rfl, rfl, rfl, rfl⟩

/-- The buffers `CreateMaterialsBuffers` creates, and the members it keeps. -/
theorem CreateMaterialsBuffers_fields (this : Scene) (r : Scene × List Call)
    (h : CreateMaterialsBuffers this = some r) :
    r.1.m_MaterialBuffer = some ⟨"MaterialBuffer", this.m_Materials.length⟩ ∧
    r.1.m_TriangleMaterialIDBuffer =
      (if this.m_TriPerFaceMatID ≠ [] then
        some ⟨"TrianglePerFaceMatID", this.m_TriPerFaceMatID.length⟩
      else this.m_TriangleMaterialIDBuffer) ∧
    r.1.m_AABBMaterialIDBuffer =
      (if this.m_AABBMaterials ≠ [] then some ⟨"AABBMatID", this.m_AABBMaterials.length⟩
      else this.m_AABBMaterialIDBuffer) ∧
    r.1.m_AABBs = this.m_AABBs ∧ r.1.m_AABBMaterials = this.m_AABBMaterials ∧
    r.1.m_Indices = this.m_Indices ∧ r.1.m_Vertices = this.m_Vertices ∧
    r.1.m_TriPerFaceMatID = this.m_TriPerFaceMatID ∧
    r.1.m_BlasTriangles = this.m_BlasTriangles ∧ r.1.m_BlasAABBs = this.m_BlasAABBs ∧
    r.1.m_AABBBuffer = this.m_AABBBuffer ∧ r.1.m_VertexBuffer = this.m_VertexBuffer ∧
    r.1.m_IndexBuffer = this.m_IndexBuffer := by
  unfold CreateMaterialsBuffers at h
  split at h
  · cases h
  · simp only [Option.some.injEq] at h
    subst h
    split_ifs <;> exact ⟨rfl, rfl, rfl, rfl, rfl, rfl, rfl, rfl, rfl, rfl, rfl, rfl, rfl⟩

/-- The buffers `CreateGeometryBuffers` creates, and the members it keeps. -/
theorem CreateGeometryBuffers_fields (this : Scene) :
    (CreateGeometryBuffers this).1.m_IndexBuffer =
      (if this.m_Vertices ≠ [] ∧ this.m_Indices ≠ [] then
        some ⟨"MinecraftSceneLoader::Indices", this.m_Indices.length⟩
      else this.m_IndexBuffer) ∧
    (CreateGeometryBuffers this).1.m_VertexBuffer =
      (if this.m_Vertices ≠ [] ∧ this.m_Indices ≠ [] then
        some ⟨"MinecraftSceneLoader::Vertices", this.m_Vertices.length⟩
      else this.m_VertexBuffer) ∧
    (CreateGeometryBuffers this).1.m_AABBBuffer =
      (if this.m_AABBs ≠ [] then some ⟨"MinecraftSceneLoader::AABBs", this.m_AABBs.length⟩
      else this.m_AABBBuffer) ∧
    (CreateGeometryBuffers this).1.m_AABBs = this.m_AABBs ∧
    (CreateGeometryBuffers this).1.m_AABBMaterials = this.m_AABBMaterials ∧
    (CreateGeometryBuffers this).1.m_Indices = this.m_Indices ∧
    (CreateGeometryBuffers this).1.m_Vertices = this.m_Vertices ∧
    (CreateGeometryBuffers this).1.m_TriPerFaceMatID = this.m_TriPerFaceMatID ∧
    (CreateGeometryBuffers this).1.m_BlasTriangles = this.m_BlasTriangles ∧
    (CreateGeometryBuffers this).1.m_BlasAABBs = this.m_BlasAABBs ∧
    (CreateGeometryBuffers this).1.m_AABBMaterialIDBuffer = this.m_AABBMaterialIDBuffer ∧
    (CreateGeometryBuffers this).1.m_TriangleMaterialIDBuffer =
      this.m_TriangleMaterialIDBuffer := by
  simp only [CreateGeometryBuffers]
  split_ifs <;> exact ⟨rfl, rfl, rfl, rfl, rfl, rfl, rfl, rfl, rfl, rfl, rfl, rfl⟩

/-- The members `CreateAccelerationStructure` keeps: the containers and the buffers. -/
theorem CreateAccelerationStructure_fields (this : Scene) :
    (CreateAccelerationStructure this).1.m_AABBs = this.m_AABBs ∧
    (CreateAccelerationStructure this).1.m_AABBMaterials = this.m_AABBMaterials ∧
    (CreateAccelerationStructure this).1.m_Indices = this.m_Indices ∧
    (CreateAccelerationStructure this).1.m_Vertices = this.m_Vertices ∧
    (CreateAccelerationStructure this).1.m_TriPerFaceMatID = this.m_TriPerFaceMatID ∧
    (CreateAccelerationStructure this).1.m_AABBBuffer = this.m_AABBBuffer ∧
    (CreateAccelerationStructure this).1.m_VertexBuffer = this.m_VertexBuffer ∧
    (CreateAccelerationStructure this).1.m_IndexBuffer = this.m_IndexBuffer ∧
    (CreateAccelerationStructure this).1.m_AABBMaterialIDBuffer =
      this.m_AABBMaterialIDBuffer ∧
    (CreateAccelerationStructure this).1.m_TriangleMaterialIDBuffer =
      this.m_TriangleMaterialIDBuffer := by
  unfold CreateAccelerationStructure
  simp only
  repeat' split
  all_goals exact ⟨rfl, rfl, rfl, rfl, rfl, rfl, rfl, rfl, rfl, rfl⟩

/-- After a load that returned true, the containers are those the geometry extraction
left, and each geometry buffer was created under the test of its array, or is the handle
the loader held before the call. -/
theorem LoadScene_true_fields (hash : SceneVertex → Nat) (reader : ObjReader)
    (this s' : Scene) (calls : List Call)
    (h : LoadScene hash reader this = some (true, s', calls)) :
    ∃ s1, AddGeometryToScene hash reader.attrib reader.shapes this = some s1 ∧
      s'.m_AABBs = s1.m_AABBs ∧ s'.m_AABBMaterials = s1.m_AABBMaterials ∧
      s'.m_Indices = s1.m_Indices ∧ s'.m_Vertices = s1.m_Vertices ∧
      s'.m_TriPerFaceMatID = s1.m_TriPerFaceMatID ∧
      s'.m_IndexBuffer =
        (if s1.m_Vertices ≠ [] ∧ s1.m_Indices ≠ [] then
          some ⟨"MinecraftSceneLoader::Indices", s1.m_Indices.length⟩
        else this.m_IndexBuffer) ∧
      s'.m_VertexBuffer =
        (if s1.m_Vertices ≠ [] ∧ s1.m_Indices ≠ [] then
          some ⟨"MinecraftSceneLoader::Vertices", s1.m_Vertices.length⟩
        else this.m_VertexBuffer) ∧
      s'.m_AABBBuffer =
        (if s1.m_AABBs ≠ [] then some ⟨"MinecraftSceneLoader::AABBs", s1.m_AABBs.length⟩
        else this.m_AABBBuffer) ∧
      s'.m_TriangleMaterialIDBuffer =
        (if s1.m_TriPerFaceMatID ≠ [] then
          some ⟨"TrianglePerFaceMatID", s1.m_TriPerFaceMatID.length⟩
        else this.m_TriangleMaterialIDBuffer) ∧
      s'.m_AABBMaterialIDBuffer =
        (if s1.m_AABBMaterials ≠ [] then some ⟨"AABBMatID", s1.m_AABBMaterials.length⟩
        else this.m_AABBMaterialIDBuffer) := by
  obtain ⟨_, _, s1, r1, r2, h1, h2, h3, rfl⟩ := LoadScene_true hash reader this s' calls h
  have hout := AddGeometryToScene_outsideGeometry hash reader.attrib reader.shapes this s1 h1
  obtain ⟨_, _, o3, o2, o1, o5, o4, _⟩ := handles_of_outsideGeometry s1 this hout
  obtain ⟨a1, a2, a3, a4, a5, _, _, a8, a9, a10, a11, a12⟩ :=
    AddMaterialsToScene_fields reader.materials s1 r1 h2
  obtain ⟨_, b2, b3, b4, b5, b6, b7, b8, _, _, b11, b12, b13⟩ :=
    CreateMaterialsBuffers_fields r1.1 r2 h3
  obtain ⟨c1, c2, c3, c4, c5, c6, c7, c8, _, _, c11, c12⟩ := CreateGeometryBuffers_fields r2.1
  obtain ⟨d1, d2, d3, d4, d5, d6, d7, d8, d9, d10⟩ :=
    CreateAccelerationStructure_fields (CreateGeometryBuffers r2.1).1
  refine ⟨s1, h1, ?_, ?_, ?_, ?_, ?_, ?_, ?_, ?_, ?_, ?_⟩
  · exact d1.trans (c4.trans (b4.trans a1))
  · exact d2.trans (c5.trans (b5.trans a2))
  · exact d3.trans (c6.trans (b6.trans a3))
  · exact d4.trans (c7.trans (b7.trans a4))
  · exact d5.trans (c8.trans (b8.trans a5))
  · refine d8.trans (c1.trans ?_)
    rw [b7, b6, b13, a4, a3, a10, o1]
  · refine d7.trans (c2.trans ?_)
    rw [b7, b6, b12, a4, a3, a9, o2]
  · refine d6.trans (c3.trans ?_)
    rw [b4, b11, a1, a8, o3]
  · refine d10.trans (c12.trans (b2.trans ?_))
    rw [a5, a12, o4]
  · refine d9.trans (c11.trans (b3.trans ?_))
    rw [a2, a11, o5]

/-! ## Totals of the geometry extraction -/

/-- The index stream grows by three entries for each entry of the per-triangle material
stream, and the two box containers grow together. -/
theorem extractGeometry_counts (hash : SceneVertex → Nat) (attribs : attrib_t)
    (shapes : List shape_t) (this : Scene) (e : Extraction)
    (h : extractGeometry hash attribs shapes this = some e) :
    e.scene.m_Indices.length + 3 * this.m_TriPerFaceMatID.length =
      this.m_Indices.length + 3 * e.scene.m_TriPerFaceMatID.length ∧
    e.scene.m_AABBs.length + this.m_AABBMaterials.length =
      this.m_AABBs.length + e.scene.m_AABBMaterials.length := by
  refine foldlM_option_invariant
    (fun e => e.scene.m_Indices.length + 3 * this.m_TriPerFaceMatID.length =
        this.m_Indices.length + 3 * e.scene.m_TriPerFaceMatID.length ∧
      e.scene.m_AABBs.length + this.m_AABBMaterials.length =
        this.m_AABBs.length + e.scene.m_AABBMaterials.length)
    (addShape hash attribs) ?_ shapes _ e h ⟨rfl, rfl⟩
  intro b shape b' hb hP
  by_cases h12 : shape.mesh.num_face_vertices.length = 12
  · obtain ⟨aabb, mats, _, _, rfl⟩ := addShape_block hash attribs b b' shape h12 hb
    simp only [List.length_append, List.length_singleton]
    omega
  · unfold addShape at hb
    simp only [h12, if_false] at hb
    obtain ⟨h1, h2, _, h4, h5⟩ :=
      meshFaces_scene hash attribs shape.mesh shape.mesh.num_face_vertices 0 0 b b' hb
    rw [h1, h2, h4, h5]
    omega

/-- The face loop of a mesh pushes the materials of its triangle faces, in face order. -/
theorem meshFaces_materials (hash : SceneVertex → Nat) (attribs : attrib_t) (mesh : mesh_t)
    (fvs : List Nat) :
    ∀ (f index_offset : Nat) (e e' : Extraction),
      meshFaces hash attribs mesh fvs f index_offset e = some e' →
      e'.scene.m_TriPerFaceMatID = e.scene.m_TriPerFaceMatID ++
        ((fvs.zip (mesh.material_ids.drop f)).filter (fun p => p.1 = 3)).map (fun p => p.2) := by
  induction fvs with
  | nil =>
    intro f index_offset e e' h
    simp only [meshFaces, Option.some.injEq] at h
    subst h
    simp
  | cons fv rest ih =>
    intro f index_offset e e' h
    by_cases hfv : fv = 3
    · subst hfv
      cases hr : meshFace hash attribs mesh f 3 index_offset e with
      | none => simp [meshFaces, hr] at h
      | some r =>
        simp only [meshFaces, hr, Option.bind_eq_bind, Option.some_bind] at h
        obtain ⟨_, ⟨matID, hm, hpush⟩, _, _, _⟩ :=
          meshFace_three_scene hash attribs mesh f index_offset e r hr
        have hlt : f < mesh.material_ids.length := by
          by_contra hge
          rw [List.getElem?_eq_none (by omega)] at hm
          cases hm
        have hval : mesh.material_ids[f] = matID := by
          rw [List.getElem?_eq_getElem hlt] at hm
          exact Option.some.inj hm
        rw [ih (f + 1) r.1 r.2 e' h, hpush, List.drop_eq_getElem_cons hlt, hval]
        simp
    · simp only [meshFaces, meshFace_skip hash attribs mesh f fv index_offset e hfv,
        Option.bind_eq_bind, Option.some_bind] at h
      rw [ih (f + 1) index_offset e e' h]
      by_cases hlt : f < mesh.material_ids.length
      · rw [List.drop_eq_getElem_cons hlt, List.zip_cons_cons, List.filter_cons]
        simp only [hfv, decide_False, Bool.false_eq_true, if_false]
      · rw [List.drop_eq_nil_of_le (by omega), List.drop_eq_nil_of_le (by omega)]
        simp

theorem addShape_materials (hash : SceneVertex → Nat) (attribs : attrib_t) (e e' : Extraction)
    (shape : shape_t) (h : addShape hash attribs e shape = some e') :
    e'.scene.m_TriPerFaceMatID = e.scene.m_TriPerFaceMatID ++ shapeTriangleMaterials shape := by
  by_cases h12 : shape.mesh.num_face_vertices.length = 12
  · obtain ⟨aabb, mats, _, _, rfl⟩ := addShape_block hash attribs e e' shape h12 h
    simp [shapeTriangleMaterials, h12]
  · unfold addShape at h
    simp only [h12, if_false] at h
    rw [meshFaces_materials hash attribs shape.mesh _ 0 0 e e' h]
    simp [shapeTriangleMaterials, h12, triangleFaceMaterials]

theorem foldlM_addShape_materials (hash : SceneVertex → Nat) (attribs : attrib_t)
    (shapes : List shape_t) :
    ∀ (e e' : Extraction), shapes.foldlM (addShape hash attribs) e = some e' →
      e'.scene.m_TriPerFaceMatID =
        e.scene.m_TriPerFaceMatID ++ shapes.flatMap shapeTriangleMaterials := by
  induction shapes with
  | nil =>
    intro e e' h
    simp only [List.foldlM_nil, Option.pure_def, Option.some.injEq] at h
    subst h
    simp
  | cons shape rest ih =>
    intro e e' h
    cases h1 : addShape hash attribs e shape with
    | none => simp [List.foldlM_cons, h1] at h
    | some e1 =>
      simp only [List.foldlM_cons, h1, Option.bind_eq_bind, Option.some_bind] at h
      rw [ih e1 e' h, addShape_materials hash attribs e e1 shape h1]
      simp

/-! ## C19 -/

/-- C19: after `AddGeometryToScene` on a loader whose index stream and per-triangle
material stream are empty, the index stream has three entries for each entry of the
material stream, so the material stream has `m_Indices.size() / 3` entries, and the
material stream lists the material IDs of the faces with 3 vertices of the mesh shapes,
in shape order and face order; each such face pushes its three indices and its material
ID `material_ids[f]` in the same turn of the face loop. On well-formed shapes the call
is defined. -/
theorem triangle_materials_aligned (hash : SceneVertex → Nat) (attribs : attrib_t)
    (shapes : List shape_t) (this : Scene) (hI : this.m_Indices = [])
    (hT : this.m_TriPerFaceMatID = []) :
    ((∀ shape ∈ shapes, WellFormedShape attribs shape) →
      (AddGeometryToScene hash attribs shapes this).isSome) ∧
    (∀ e, extractGeometry hash attribs shapes this = some e →
      AddGeometryToScene hash attribs shapes this = some e.scene ∧
      e.scene.m_Indices.length = 3 * e.scene.m_TriPerFaceMatID.length ∧
      e.scene.m_Indices.length % 3 = 0 ∧
      e.scene.m_TriPerFaceMatID.length = e.scene.m_Indices.length / 3 ∧
      e.scene.m_TriPerFaceMatID = shapes.flatMap shapeTriangleMaterials) ∧
    ∀ (mesh : mesh_t) (f index_offset : Nat) (e0 : Extraction) (r : Nat × Extraction),
      meshFace hash attribs mesh f 3 index_offset e0 = some r →
      ∃ i0 i1 i2 matID, mesh.material_ids[f]? = some matID ∧
        r.2.scene.m_Indices = e0.scene.m_Indices ++ [i0, i1, i2] ∧
        r.2.scene.m_TriPerFaceMatID = e0.scene.m_TriPerFaceMatID ++ [matID] := by
  refine ⟨?_, ?_, ?_⟩
  · intro hwf
    simp only [AddGeometryToScene, Option.isSome_map']
    exact extractGeometry_isSome hash attribs shapes this hwf
  · intro e h
    have hc := (extractGeometry_counts hash attribs shapes this e h).1
    rw [hI, hT] at hc
    simp only [List.length_nil, Nat.mul_zero, Nat.add_zero, Nat.zero_add] at hc
    have hm := foldlM_addShape_materials hash attribs shapes _ e h
    simp only [hT, List.nil_append] at hm
    refine ⟨by simp [AddGeometryToScene, h], hc, by omega, by omega, hm⟩
  · intro mesh f index_offset e0 r hr
    obtain ⟨⟨i0, i1, i2, hi⟩, ⟨matID, hm, hp⟩, _, _, _⟩ :=
      meshFace_three_scene hash attribs mesh f index_offset e0 r hr
    exact ⟨i0, i1, i2, matID, hm, hi, hp⟩

/-- Witness of C19: the quadrilateral followed by a triangle, on a fresh loader: one
material, that of face 1, for three indices. -/
theorem triangle_materials_aligned_witness :
    (({} : Scene).m_Indices = []) ∧ (({} : Scene).m_TriPerFaceMatID = []) ∧
    [mixedShape].flatMap shapeTriangleMaterials = [1] ∧
    ∃ e, extractGeometry constantHash sceneAttribs [mixedShape] {} = some e ∧
      e.scene.m_Indices.length = 3 * e.scene.m_TriPerFaceMatID.length ∧
      e.scene.m_TriPerFaceMatID = [mixedShape].flatMap shapeTriangleMaterials := by
  have h := triangle_materials_aligned constantHash sceneAttribs [mixedShape] {} rfl rfl
  obtain ⟨e, he⟩ := Option.isSome_iff_exists.1
    (extractGeometry_isSome constantHash sceneAttribs [mixedShape] {} (by decide))
  exact ⟨rfl, rfl, by decide, e, he, (h.2.1 e he).2.1, (h.2.1 e he).2.2.2.2⟩

/-! ## C15 -/

/-- On a loader whose geometry containers are empty, the extraction leaves the vertex
array, the index stream and the per-triangle material stream empty together, and the
two box containers empty together. -/
theorem AddGeometryToScene_empty_together (hash : SceneVertex → Nat) (attribs : attrib_t)
    (shapes : List shape_t) (this s1 : Scene) (hU : Unloaded this)
    (h : AddGeometryToScene hash attribs shapes this = some s1) :
    (s1.m_Vertices = [] ↔ s1.m_Indices = []) ∧
    (s1.m_Indices = [] ↔ s1.m_TriPerFaceMatID = []) ∧
    (s1.m_AABBs = [] ↔ s1.m_AABBMaterials = []) := by
  obtain ⟨_, _, hA, hAM, hI, hV, hT, _⟩ := hU
  unfold AddGeometryToScene at h
  cases he : extractGeometry hash attribs shapes this with
  | none => simp [he] at h
  | some e =>
    simp only [he, Option.map_some', Option.some.injEq] at h
    subst h
    obtain ⟨D, _, hmem, hVe, _, hIe⟩ := extractGeometry_deduplicated hash attribs shapes this e he
    obtain ⟨hc1, hc2⟩ := extractGeometry_counts hash attribs shapes this e he
    rw [hV] at hVe
    rw [hI] at hIe hc1
    rw [hT] at hc1
    rw [hA, hAM] at hc2
    simp only [List.nil_append] at hVe hIe
    simp only [List.length_nil, Nat.mul_zero, Nat.add_zero, Nat.zero_add] at hc1 hc2
    refine ⟨?_, ?_, ?_⟩
    · rw [hVe, hIe, List.map_eq_nil_iff, List.map_eq_nil_iff, List.eq_nil_iff_forall_not_mem,
        List.eq_nil_iff_forall_not_mem]
      exact forall_congr' (fun v => not_congr (hmem v))
    · rw [← List.length_eq_zero, ← List.length_eq_zero (l := e.scene.m_TriPerFaceMatID)]
      omega
    · rw [← List.length_eq_zero, ← List.length_eq_zero (l := e.scene.m_AABBMaterials)]
      omega

/-- C15: after `LoadScene` has returned true on an unloaded loader, each geometry buffer
exists exactly when its array is not empty: the vertex, index and per-triangle material
buffers are null exactly when the scene has no triangle (the three arrays are empty
together), and the AABB and AABB material buffers are null exactly when the scene has no
box (the two arrays are empty together). Such a call returns true whenever the parse
succeeded with at least one material and well-formed shapes. -/
theorem geometry_buffers_follow_arrays (hash : SceneVertex → Nat) (reader : ObjReader)
    (this : Scene) (hU : Unloaded this) :
    (reader.valid = true → reader.materials ≠ [] → reader.materials.length < 2 ^ 32 →
      (∀ shape ∈ reader.shapes, WellFormedShape reader.attrib shape) →
      ∃ s' calls, LoadScene hash reader this = some (true, s', calls)) ∧
    ∀ s' calls, LoadScene hash reader this = some (true, s', calls) →
      (s'.GetVertexBuffer ≠ none ↔ s'.m_Vertices ≠ []) ∧
      (s'.GetIndexBuffer ≠ none ↔ s'.m_Indices ≠ []) ∧
      (s'.GetTriangleMaterialIDBuffer ≠ none ↔ s'.m_TriPerFaceMatID ≠ []) ∧
      (s'.GetAABBBuffer ≠ none ↔ s'.m_AABBs ≠ []) ∧
      (s'.GetAABBMaterialIDBuffer ≠ none ↔ s'.m_AABBMaterials ≠ []) ∧
      (s'.m_Vertices = [] ↔ s'.m_Indices = []) ∧
      (s'.m_Indices = [] ↔ s'.m_TriPerFaceMatID = []) ∧
      (s'.m_AABBs = [] ↔ s'.m_AABBMaterials = []) := by
  constructor
  · intro hv hm hlen hwf
    have hM : this.m_Materials = [] := hU.2.1
    exact LoadScene_succeeds hash reader this hv hm (by rw [hM]; simpa using hlen) hwf
  · intro s' calls h
    obtain ⟨s1, h1, eA, eAM, eI, eV, eT, bI, bV, bA, bT, bAM⟩ :=
      LoadScene_true_fields hash reader this s' calls h
    obtain ⟨hVI, hIT, hAB⟩ :=
      AddGeometryToScene_empty_together hash reader.attrib reader.shapes this s1 hU h1
    obtain ⟨_, _, _, _, _, _, _, _, _, _, nA, nV, nI, _, nT, nAM⟩ := hU
    simp only [Scene.GetVertexBuffer, Scene.GetIndexBuffer, Scene.GetTriangleMaterialIDBuffer,
      Scene.GetAABBBuffer, Scene.GetAABBMaterialIDBuffer]
    rw [bI, bV, bA, bT, bAM, nA, nV, nI, nT, nAM, eA, eAM, eI, eV, eT]
    refine ⟨?_, ?_, ?_, ?_, ?_, hVI, hIT, hAB⟩
    · by_cases hv : s1.m_Vertices = []
      · simp [hv]
      · have hi : s1.m_Indices ≠ [] := fun hi => hv (hVI.2 hi)
        simp [hv, hi]
    · by_cases hi : s1.m_Indices = []
      · simp [hi]
      · have hv : s1.m_Vertices ≠ [] := fun hv => hi (hVI.1 hv)
        simp [hv, hi]
    · by_cases ht : s1.m_TriPerFaceMatID = [] <;> simp [ht]
    · by_cases ha : s1.m_AABBs = [] <;> simp [ha]
    · by_cases ha : s1.m_AABBMaterials = [] <;> simp [ha]

/-- Witness of C15: the small scene on a fresh loader. -/
theorem geometry_buffers_follow_arrays_witness :
    Unloaded {} ∧
    ∃ s' calls, LoadScene constantHash sceneReader {} = some (true, s', calls) ∧
      (s'.GetVertexBuffer ≠ none ↔ s'.m_Vertices ≠ []) ∧
      (s'.GetIndexBuffer ≠ none ↔ s'.m_Indices ≠ []) ∧
      (s'.GetTriangleMaterialIDBuffer ≠ none ↔ s'.m_TriPerFaceMatID ≠ []) ∧
      (s'.GetAABBBuffer ≠ none ↔ s'.m_AABBs ≠ []) ∧
      (s'.GetAABBMaterialIDBuffer ≠ none ↔ s'.m_AABBMaterials ≠ []) := by
  have h := geometry_buffers_follow_arrays constantHash sceneReader {} (by decide)
  obtain ⟨s', calls, hs⟩ := h.1 rfl (by decide) (by decide) (by decide)
  obtain ⟨a, b, c, d, e, _⟩ := h.2 s' calls hs
  exact ⟨by decide, s', calls, hs, a, b, c, d, e⟩

/-! ## C18 -/

/-- The steps of a material before the roughness and metalness step set no combined
texture and dispatch nothing. -/
theorem makeMaterial_before_roughMetal (i : Nat) (material : material_t) :
    ∃ (sceneMat : Material) (calls : List Call),
      makeMaterial i material =
        ((resolveRoughMetal material sceneMat).1,
          calls ++ (resolveRoughMetal material sceneMat).2) ∧
      sceneMat.metalRoughOrSpecularTexture = none ∧
      ∀ t, Call.dispatchMetalRough t ∉ calls := by
  refine ⟨_, _, rfl, ?_, ?_⟩
  · simp only [resolveBaseColor, resolveNormal, resolveEmissive]
    split_ifs <;> rfl
  · intro t
    simp only [resolveBaseColor, resolveNormal, resolveEmissive, LoadTextureFromFile]
    split_ifs <;> simp

/-- Without a roughness and without a specular highlight texture the step does nothing. -/
theorem resolveRoughMetal_none (material : material_t) (sceneMat : Material)
    (hr : material.roughness_texname = "") (hs : material.specular_highlight_texname = "") :
    resolveRoughMetal material sceneMat = (sceneMat, []) := by
  simp [resolveRoughMetal, hr, hs]

/-- With one of the two textures the step sets the combined texture and dispatches it. -/
theorem resolveRoughMetal_some (material : material_t) (sceneMat : Material)
    (h : material.roughness_texname ≠ "" ∨ material.specular_highlight_texname ≠ "") :
    ∃ roughnessTex metallicTex cb,
      (resolveRoughMetal material sceneMat).1.metalRoughOrSpecularTexture =
        some (LoadedTexture.metalRough roughnessTex metallicTex cb) ∧
      Call.dispatchMetalRough (LoadedTexture.metalRough roughnessTex metallicTex cb) ∈
        (resolveRoughMetal material sceneMat).2 ∧
      (material.roughness_texname ≠ "" →
        cb.convertShininessToRoughness = 0 ∧
        roughnessTex.path.name = material.roughness_texname) ∧
      (material.roughness_texname = "" →
        cb.convertShininessToRoughness = 1 ∧
        roughnessTex.path.name = material.specular_highlight_texname) ∧
      (cb.metallicValid = 1 ↔ material.metallic_texname ≠ "") ∧
      (cb.metallicValid = 0 ↔ material.metallic_texname = "") ∧
      (metallicTex ≠ none ↔ material.metallic_texname ≠ "") := by
  refine ⟨⟨⟨modelFolderName, if material.roughness_texname = "" then
        material.specular_highlight_texname else material.roughness_texname⟩, false⟩,
    if material.metallic_texname ≠ "" then some ⟨⟨modelFolderName, material.metallic_texname⟩,
        false⟩ else none,
    ⟨if material.roughness_texname = "" then 1 else 0,
      if material.metallic_texname ≠ "" then 1 else 0⟩, ?_⟩
  by_cases hr : material.roughness_texname = ""
  · have hs : material.specular_highlight_texname ≠ "" := by
      rcases h with h | h
      · exact absurd hr h
      · exact h
    by_cases hm : material.metallic_texname = "" <;>
      simp [resolveRoughMetal, CreateMetalRoughTextures, LoadTextureFromFile, hs, hr, hm]
  · by_cases hm : material.metallic_texname = "" <;>
      simp [resolveRoughMetal, CreateMetalRoughTextures, LoadTextureFromFile, hr, hm]

/-- C18: for each material, `AddMaterialsToScene` synthesizes a combined rough/metal
texture if and only if `roughness_texname` or `specular_highlight_texname` is not empty.
The synthesis runs with `convertShininessToRoughness` 0 on the roughness texture whenever
`roughness_texname` is not empty, and with 1 on the specular highlight texture otherwise;
`metallicValid` is 1 exactly when `metallic_texname` is not empty, and 0 otherwise. The
material pushed at position `j` is the one made from the parsed material at `j`. -/
theorem rough_metal_texture_synthesis (i : Nat) (material : material_t) :
    (material.roughness_texname = "" ∧ material.specular_highlight_texname = "" →
      (makeMaterial i material).1.metalRoughOrSpecularTexture = none ∧
      ∀ t, Call.dispatchMetalRough t ∉ (makeMaterial i material).2) ∧
    (material.roughness_texname ≠ "" ∨ material.specular_highlight_texname ≠ "" →
      ∃ roughnessTex metallicTex cb,
        (makeMaterial i material).1.metalRoughOrSpecularTexture =
          some (LoadedTexture.metalRough roughnessTex metallicTex cb) ∧
        Call.dispatchMetalRough (LoadedTexture.metalRough roughnessTex metallicTex cb) ∈
          (makeMaterial i material).2 ∧
        (material.roughness_texname ≠ "" →
          cb.convertShininessToRoughness = 0 ∧
          roughnessTex.path.name = material.roughness_texname) ∧
        (material.roughness_texname = "" →
          cb.convertShininessToRoughness = 1 ∧
          roughnessTex.path.name = material.specular_highlight_texname) ∧
        (cb.metallicValid = 1 ↔ material.metallic_texname ≠ "") ∧
        (cb.metallicValid = 0 ↔ material.metallic_texname = "") ∧
        (metallicTex ≠ none ↔ material.metallic_texname ≠ "")) ∧
    (∀ (materials : List material_t) (this : Scene) (r : Scene × List Call),
      AddMaterialsToScene materials this = some r →
      ∀ (j : Nat) (parsed : material_t), materials[j]? = some parsed →
        r.1.m_Materials[this.m_Materials.length + j]? = some (makeMaterial j parsed).1) := by
  obtain ⟨sceneMat, calls, hmk, hnone, hcalls⟩ := makeMaterial_before_roughMetal i material
  refine ⟨?_, ?_, ?_⟩
  · rintro ⟨hr, hs⟩
    rw [hmk, resolveRoughMetal_none material sceneMat hr hs]
    refine ⟨hnone, ?_⟩
    intro t ht
    simp only [List.append_nil] at ht
    exact hcalls t ht
  · intro h
    obtain ⟨roughnessTex, metallicTex, cb, h1, h2, h3⟩ :=
      resolveRoughMetal_some material sceneMat h
    refine ⟨roughnessTex, metallicTex, cb, ?_, ?_, h3⟩
    · rw [hmk]; exact h1
    · rw [hmk]; exact List.mem_append_right _ h2
  · intro materials this r h j parsed hj
    rw [(AddMaterialsToScene_scene materials this r h).2]
    simp only
    rw [List.getElem?_append_right (by omega), Nat.add_sub_cancel_left,
      madeMaterials_getElem?, hj]
    simp

/-- Witness of C18: a material with a roughness and a specular highlight texture and
no metallic texture: the roughness texture is used, without conversion. -/
theorem rough_metal_texture_synthesis_witness :
    (roughMaterial.roughness_texname ≠ "" ∨ roughMaterial.specular_highlight_texname ≠ "") ∧
    roughMaterial.specular_highlight_texname ≠ "" ∧ roughMaterial.metallic_texname = "" ∧
    ∃ roughnessTex metallicTex cb,
      (makeMaterial 0 roughMaterial).1.metalRoughOrSpecularTexture =
        some (LoadedTexture.metalRough roughnessTex metallicTex cb) ∧
      cb.convertShininessToRoughness = 0 ∧
      roughnessTex.path.name = roughMaterial.roughness_texname ∧
      cb.metallicValid = 0 := by
  obtain ⟨roughnessTex, metallicTex, cb, h1, _, h3, _, _, h6, _⟩ :=
    (rough_metal_texture_synthesis 0 roughMaterial).2.1 (Or.inl (by decide))
  exact ⟨Or.inl (by decide), by decide, by decide, roughnessTex, metallicTex, cb, h1,
    (h3 (by decide)).1, (h3 (by decide)).2, h6.2 (by decide)⟩

/-! ## The box of a shape is the bounding box of its vertices -/

theorem growAABB_eq (attribs : attrib_t) (mesh : mesh_t) (index_offset : Nat) (aabb : AABB)
    (v : Nat) :
    growAABB attribs mesh index_offset aabb v =
      (mesh.indices[index_offset + v]?).bind
        (fun idx => (vertexPosition attribs idx).map (growBox aabb)) := by
  unfold growAABB vertexPosition
  cases mesh.indices[index_offset + v]? with
  | none => rfl
  | some idx =>
    simp only [Option.bind_eq_bind, Option.some_bind]
    cases attribs.vertices[attribIndex 3 idx.vertex_index 0]? with
    | none => rfl
    | some vx =>
      cases attribs.vertices[attribIndex 3 idx.vertex_index 1]? with
      | none => rfl
      | some vy =>
        cases attribs.vertices[attribIndex 3 idx.vertex_index 2]? with
        | none => rfl
        | some vz => rfl

/-- One component of the box along the vertex loop of a face, for a component `m` of
the box that `grow` lowers to the component `c` of the vertex: the result is below the
start and below every vertex visited, and is the start or one of the vertices. -/
theorem growAABB_fold_lower (attribs : attrib_t) (mesh : mesh_t) (index_offset : Nat)
    (m : AABB → float) (c : float3 → float)
    (hgrow : ∀ aabb p, m (growBox aabb p) = min (c p) (m aabb)) (l : List Nat) :
    ∀ (aabb aabb' : AABB), l.foldlM (growAABB attribs mesh index_offset) aabb = some aabb' →
      m aabb' ≤ m aabb ∧
      (∀ v ∈ l, ∃ idx p, mesh.indices[index_offset + v]? = some idx ∧
        vertexPosition attribs idx = some p ∧ m aabb' ≤ c p) ∧
      (m aabb' = m aabb ∨ ∃ v ∈ l, ∃ idx p, mesh.indices[index_offset + v]? = some idx ∧
        vertexPosition attribs idx = some p ∧ c p = m aabb') := by
  induction l with
  | nil =>
    intro aabb aabb' h
    simp only [List.foldlM_nil, Option.pure_def, Option.some.injEq] at h
    subst h
    exact ⟨le_refl _, by simp, Or.inl rfl⟩
  | cons v rest ih =>
    intro aabb aabb' h
    cases h1 : growAABB attribs mesh index_offset aabb v with
    | none => simp [List.foldlM_cons, h1] at h
    | some aabb1 =>
      simp only [List.foldlM_cons, h1, Option.bind_eq_bind, Option.some_bind] at h
      rw [growAABB_eq] at h1
      cases hi : mesh.indices[index_offset + v]? with
      | none => simp [hi] at h1
      | some idx =>
        cases hp : vertexPosition attribs idx with
        | none => simp [hi, hp] at h1
        | some p =>
          simp only [hi, hp, Option.some_bind, Option.map_some', Option.some.injEq] at h1
          subst h1
          obtain ⟨i1, i2, i3⟩ := ih (growBox aabb p) aabb' h
          rw [hgrow] at i1 i3
          refine ⟨le_trans i1 (min_le_right _ _), ?_, ?_⟩
          · intro w hw
            rcases List.mem_cons.1 hw with rfl | hw
            · exact ⟨idx, p, hi, hp, le_trans i1 (min_le_left _ _)⟩
            · exact i2 w hw
          · rcases i3 with i3 | ⟨w, hw, idx', p', a, b, c'⟩
            · rcases min_choice (c p) (m aabb) with hmin | hmin
              · right
                exact ⟨v, List.mem_cons_self _ _, idx, p, hi, hp, by rw [i3, hmin]⟩
              · left
                rw [i3, hmin]
            · right
              exact ⟨w, List.mem_cons_of_mem _ hw, idx', p', a, b, c'⟩

/-- The same along the face loop of a box shape, over the index entries from
`index_offset` on. -/
theorem blockFaces_lower (attribs : attrib_t) (mesh : mesh_t)
    (m : AABB → float) (c : float3 → float)
    (hgrow : ∀ aabb p, m (growBox aabb p) = min (c p) (m aabb)) (fvs : List Nat) :
    ∀ (index_offset : Nat) (aabb aabb' : AABB),
      blockFaces attribs mesh fvs index_offset aabb = some aabb' →
      m aabb' ≤ m aabb ∧
      (∀ k, index_offset ≤ k → k < index_offset + fvs.sum →
        ∃ idx p, mesh.indices[k]? = some idx ∧ vertexPosition attribs idx = some p ∧
          m aabb' ≤ c p) ∧
      (m aabb' = m aabb ∨ ∃ k idx p, index_offset ≤ k ∧ k < index_offset + fvs.sum ∧
        mesh.indices[k]? = some idx ∧ vertexPosition attribs idx = some p ∧
        c p = m aabb') := by
  induction fvs with
  | nil =>
    intro index_offset aabb aabb' h
    simp only [blockFaces, Option.some.injEq] at h
    subst h
    refine ⟨le_refl _, ?_, Or.inl rfl⟩
    intro k h1 h2
    simp at h2
    omega
  | cons fv rest ih =>
    intro index_offset aabb aabb' h
    cases h1 : (List.range fv).foldlM (growAABB attribs mesh index_offset) aabb with
    | none => simp [blockFaces, h1] at h
    | some aabb1 =>
      simp only [blockFaces, h1, Option.bind_eq_bind, Option.some_bind] at h
      obtain ⟨a1, a2, a3⟩ :=
        growAABB_fold_lower attribs mesh index_offset m c hgrow (List.range fv) aabb aabb1 h1
      obtain ⟨b1, b2, b3⟩ := ih (index_offset + fv) aabb1 aabb' h
      simp only [List.sum_cons]
      refine ⟨le_trans b1 a1, ?_, ?_⟩
      · intro k hk1 hk2
        by_cases hk : k < index_offset + fv
        · obtain ⟨idx, p, hi, hp, hle⟩ := a2 (k - index_offset) (List.mem_range.2 (by omega))
          have hko : index_offset + (k - index_offset) = k := by omega
          rw [hko] at hi
          exact ⟨idx, p, hi, hp, le_trans b1 hle⟩
        · exact b2 k (by omega) (by omega)
      · rcases b3 with b3 | ⟨k, idx, p, k1, k2, hi, hp, hc⟩
        · rcases a3 with a3 | ⟨v, hv, idx, p, hi, hp, hc⟩
          · left
            rw [b3, a3]
          · right
            have hv' := List.mem_range.1 hv
            exact ⟨index_offset + v, idx, p, by omega, by omega, hi, hp, by rw [hc, b3]⟩
        · right
          exact ⟨k, idx, p, by omega, by omega, hi, hp, hc⟩

theorem vertexPosition_mem (attribs : attrib_t) (idx : index_t) (p : float3)
    (h : vertexPosition attribs idx = some p) :
    p.x ∈ attribs.vertices ∧ p.y ∈ attribs.vertices ∧ p.z ∈ attribs.vertices := by
  unfold vertexPosition at h
  cases hx : attribs.vertices[attribIndex 3 idx.vertex_index 0]? with
  | none => simp [hx] at h
  | some vx =>
    cases hy : attribs.vertices[attribIndex 3 idx.vertex_index 1]? with
    | none => simp [hx, hy] at h
    | some vy =>
      cases hz : attribs.vertices[attribIndex 3 idx.vertex_index 2]? with
      | none => simp [hx, hy, hz] at h
      | some vz =>
        simp only [hx, hy, hz, Option.bind_eq_bind, Option.some_bind, Option.pure_def,
          Option.some.injEq] at h
        subst h
        exact ⟨List.getElem?_mem hx, List.getElem?_mem hy, List.getElem?_mem hz⟩

/-- One component of the box of a shape with at least one vertex, started at the
value `top` that no coordinate exceeds: it is below every vertex, and one vertex has it. -/
theorem blockFaces_exact (attribs : attrib_t) (mesh : mesh_t)
    (m : AABB → float) (c : float3 → float)
    (hgrow : ∀ aabb p, m (growBox aabb p) = min (c p) (m aabb)) (fvs : List Nat)
    (aabb aabb' : AABB) (h : blockFaces attribs mesh fvs 0 aabb = some aabb')
    (hpos : 0 < fvs.sum)
    (htop : ∀ idx p, vertexPosition attribs idx = some p → c p ≤ m aabb) :
    (∀ k, k < fvs.sum → ∃ idx p, mesh.indices[k]? = some idx ∧
      vertexPosition attribs idx = some p ∧ m aabb' ≤ c p) ∧
    ∃ k idx p, k < fvs.sum ∧ mesh.indices[k]? = some idx ∧
      vertexPosition attribs idx = some p ∧ c p = m aabb' := by
  obtain ⟨_, h2, h3⟩ := blockFaces_lower attribs mesh m c hgrow fvs 0 aabb aabb' h
  refine ⟨fun k hk => h2 k (Nat.zero_le _) (by omega), ?_⟩
  rcases h3 with h3 | ⟨k, idx, p, _, k2, hi, hp, hc⟩
  · obtain ⟨idx, p, hi, hp, hle⟩ := h2 0 (le_refl _) (by omega)
    refine ⟨0, idx, p, hpos, hi, hp, le_antisymm ?_ hle⟩
    rw [h3]
    exact htop idx p hp
  · exact ⟨k, idx, p, by omega, hi, hp, hc⟩

theorem at_known_vertex (attribs : attrib_t) (mesh : mesh_t) (k : Nat) (Q : float3 → Prop)
    (idx0 : index_t) (p0 : float3)
    (h : ∃ idx p, mesh.indices[k]? = some idx ∧ vertexPosition attribs idx = some p ∧ Q p)
    (hi : mesh.indices[k]? = some idx0) (hp : vertexPosition attribs idx0 = some p0) :
    Q p0 := by
  obtain ⟨idx, p, h1, h2, h3⟩ := h
  rw [hi, Option.some.injEq] at h1
  subst h1
  rw [hp, Option.some.injEq] at h2
  subst h2
  exact h3

/-! ## C20 -/

/-- The zero record: all six material IDs are 0. -/
theorem blockMaterials_zero (mesh : mesh_t) (mats : AABBMaterials)
    (hzero : ∀ m ∈ mesh.material_ids, m = 0) (h : blockMaterials mesh = some mats) :
    mats = ⟨0, 0, 0, 0, 0, 0, (0, 0)⟩ := by
  unfold blockMaterials at h
  cases h0 : mesh.material_ids[0]? with
  | none => simp [h0] at h
  | some m0 =>
    cases h2 : mesh.material_ids[2]? with
    | none => simp [h0, h2] at h
    | some m2 =>
      cases h4 : mesh.material_ids[4]? with
      | none => simp [h0, h2, h4] at h
      | some m4 =>
        cases h6 : mesh.material_ids[6]? with
        | none => simp [h0, h2, h4, h6] at h
        | some m6 =>
          cases h8 : mesh.material_ids[8]? with
          | none => simp [h0, h2, h4, h6, h8] at h
          | some m8 =>
            cases h10 : mesh.material_ids[10]? with
            | none => simp [h0, h2, h4, h6, h8, h10] at h
            | some m10 =>
              simp only [h0, h2, h4, h6, h8, h10, Option.bind_eq_bind, Option.some_bind,
                Option.pure_def, Option.some.injEq] at h
              subst h
              rw [hzero m0 (List.getElem?_mem h0), hzero m2 (List.getElem?_mem h2),
                hzero m4 (List.getElem?_mem h4), hzero m6 (List.getElem?_mem h6),
                hzero m8 (List.getElem?_mem h8), hzero m10 (List.getElem?_mem h10)]

/-- What a box shape with material 0 on every face does to the boxes and the corners. -/
theorem addShape_zero_block (hash : SceneVertex → Nat) (attribs : attrib_t)
    (e e' : Extraction) (block : shape_t)
    (h12 : block.mesh.num_face_vertices.length = 12)
    (hzero : ∀ m ∈ block.mesh.material_ids, m = 0)
    (h : addShape hash attribs e block = some e') :
    (∃ aabb, e'.scene.m_AABBs = e.scene.m_AABBs ++ [aabb]) ∧
    e'.scene.m_AABBMaterials = e.scene.m_AABBMaterials ++ [⟨0, 0, 0, 0, 0, 0, (0, 0)⟩] ∧
    e'.corners = e.corners := by
  obtain ⟨aabb, mats, _, hm, rfl⟩ := addShape_block hash attribs e e' block h12 h
  rw [blockMaterials_zero block.mesh mats hzero hm]
  exact ⟨⟨aabb, rfl⟩, rfl, rfl⟩

/-- What a shape of one triangle does to the boxes and the corners. -/
theorem addShape_one_triangle (hash : SceneVertex → Nat) (attribs : attrib_t)
    (e e' : Extraction) (tri : shape_t) (h1 : tri.mesh.num_face_vertices = [3])
    (h : addShape hash attribs e tri = some e') :
    e'.scene.m_AABBs = e.scene.m_AABBs ∧
    e'.scene.m_AABBMaterials = e.scene.m_AABBMaterials ∧
    ∃ v0 v1 v2, cornerAt attribs tri.mesh 0 = some v0 ∧ cornerAt attribs tri.mesh 1 = some v1 ∧
      cornerAt attribs tri.mesh 2 = some v2 ∧ e'.corners = e.corners ++ [v0, v1, v2] := by
  have h12 : tri.mesh.num_face_vertices.length ≠ 12 := by rw [h1]; decide
  unfold addShape at h
  simp only [h12, if_false] at h
  obtain ⟨_, _, _, hA, hAM⟩ :=
    meshFaces_scene hash attribs tri.mesh tri.mesh.num_face_vertices 0 0 e e' h
  refine ⟨hA, hAM, ?_⟩
  rw [h1] at h
  cases hr : meshFace hash attribs tri.mesh 0 3 0 e with
  | none => simp [meshFaces, hr] at h
  | some r =>
    simp only [meshFaces, hr, Option.bind_eq_bind, Option.some_bind, Option.some.injEq] at h
    obtain ⟨v0, v1, v2, matID, c0, c1, c2, _, rfl⟩ :=
      meshFace_three hash attribs tri.mesh 0 0 e r hr
    refine ⟨v0, v1, v2, c0, by simpa using c1, by simpa using c2, ?_⟩
    rw [← h]
    show (addVertex hash (addVertex hash (addVertex hash e v0) v1) v2).corners = _
    rw [addVertex_corners, addVertex_corners, addVertex_corners]
    simp

/-- The vertex array grows by the number of distinct corners built, and the index
stream by the number of corners built. -/
theorem extractGeometry_lengths (hash : SceneVertex → Nat) (attribs : attrib_t)
    (shapes : List shape_t) (this : Scene) (e : Extraction)
    (h : extractGeometry hash attribs shapes this = some e) :
    e.scene.m_Vertices.length = this.m_Vertices.length + e.corners.toFinset.card ∧
    e.scene.m_Indices.length = this.m_Indices.length + e.corners.length := by
  obtain ⟨D, hnd, hmem, hVe, _, hIe⟩ := extractGeometry_deduplicated hash attribs shapes this e h
  have hfin : D.toFinset = e.corners.toFinset := by
    ext v
    simp [hmem v]
  refine ⟨?_, by rw [hIe]; simp⟩
  rw [← hfin, List.toFinset_card_of_nodup hnd, hVe]
  simp

/-- The steps behind a call that returned true, with the calls they made. -/
theorem LoadScene_true_calls (hash : SceneVertex → Nat) (reader : ObjReader) (this s' : Scene)
    (calls : List Call) (h : LoadScene hash reader this = some (true, s', calls)) :
    ∃ s1 r1 r2,
      AddGeometryToScene hash reader.attrib reader.shapes this = some s1 ∧
      AddMaterialsToScene reader.materials s1 = some r1 ∧
      CreateMaterialsBuffers r1.1 = some r2 ∧
      s' = { (CreateAccelerationStructure (CreateGeometryBuffers r2.1).1).1 with
        m_sceneIsLoaded := true } ∧
      calls = r1.2 ++ r2.2 ++ (CreateGeometryBuffers r2.1).2 ++
        (CreateAccelerationStructure (CreateGeometryBuffers r2.1).1).2 := by
  obtain ⟨hv, hm, _⟩ := LoadScene_true hash reader this s' calls h
  have hne : reader.materials.isEmpty = false := by
    cases hl : reader.materials with
    | nil => exact absurd hl hm
    | cons a l => rfl
  unfold LoadScene at h
  simp only [hv, hne, Bool.not_true, Bool.false_eq_true, if_false] at h
  cases h1 : AddGeometryToScene hash reader.attrib reader.shapes this with
  | none => simp [h1] at h
  | some s1 =>
    cases h2 : AddMaterialsToScene reader.materials s1 with
    | none => simp [h1, h2] at h
    | some r1 =>
      cases h3 : CreateMaterialsBuffers r1.1 with
      | none => simp [h1, h2, h3] at h
      | some r2 =>
        simp only [h1, h2, h3, Option.bind_eq_bind, Option.some_bind, Option.some.injEq,
          Prod.mk.injEq, true_and] at h
        exact ⟨s1, r1, r2, rfl, h2, h3, h.1.symm, h.2.symm⟩

/-- With the three geometry buffers in place, both BLAS are built and the TLAS is built
from the triangle instance and the AABB instance, in this order. -/
theorem CreateAccelerationStructure_both (this : Scene) (indexBuffer vertexBuffer buffer : Buffer)
    (hi : this.m_IndexBuffer = some indexBuffer) (hv : this.m_VertexBuffer = some vertexBuffer)
    (ha : this.m_AABBBuffer = some buffer) :
    ∃ blasT blasA i0 i1,
      (CreateAccelerationStructure this).1.m_BlasTriangles = some blasT ∧
      (CreateAccelerationStructure this).1.m_BlasAABBs = some blasA ∧
      Call.buildBottomLevelAccelStruct blasT ∈ (CreateAccelerationStructure this).2 ∧
      Call.buildBottomLevelAccelStruct blasA ∈ (CreateAccelerationStructure this).2 ∧
      (CreateAccelerationStructure this).1.m_TopLevelAS = some ⟨2, [i0, i1]⟩ ∧
      Call.buildTopLevelAccelStruct [i0, i1] ∈ (CreateAccelerationStructure this).2 ∧
      i0.bottomLevelAS = blasT ∧ i0.instanceContributionToHitGroupIndex = 0 ∧
      i1.bottomLevelAS = blasA ∧ i1.instanceContributionToHitGroupIndex = 1 := by
  obtain ⟨loaded, stats, aabbs, aabbMats, indices, vertices, triMats, mats, blasT, blasA, tlas,
    aabbBuf, vertexBuf, indexBuf, aabbMatBuf, triMatBuf, matBuf, cs⟩ := this
  simp only at hi hv ha
  subst hi hv ha
  refine ⟨BottomLevelAS.mk
      (GeometryDesc.Triangles indexBuffer vertexBuffer indices.length vertices.length)
      false false,
    BottomLevelAS.mk (GeometryDesc.AABBs buffer aabbs.length) true true,
    InstanceDesc.mk (BottomLevelAS.mk
      (GeometryDesc.Triangles indexBuffer vertexBuffer indices.length vertices.length)
      false false) 0xFF InstanceFlags.TriangleFrontCounterclockwise 0 identityTransform,
    InstanceDesc.mk (BottomLevelAS.mk (GeometryDesc.AABBs buffer aabbs.length) true true)
      0xFF InstanceFlags.None 1 identityTransform, ?_⟩
  simp [CreateAccelerationStructure]

/-- The geometry of a scene made of one box shape with material 0 and one shape of one
triangle with material 1 and three distinct corners, in either order, extracted on an
unloaded loader. -/
theorem extract_block_and_triangle (hash : SceneVertex → Nat) (attribs : attrib_t)
    (this : Scene) (block tri : shape_t) (shapes : List shape_t) (e : Extraction)
    (hU : Unloaded this)
    (hshapes : shapes = [block, tri] ∨ shapes = [tri, block])
    (hb12 : block.mesh.num_face_vertices.length = 12)
    (hzero : ∀ m ∈ block.mesh.material_ids, m = 0)
    (ht1 : tri.mesh.num_face_vertices = [3]) (htm : tri.mesh.material_ids = [1])
    (hdistinct : ∀ i j, i < 3 → j < 3 → i ≠ j →
      cornerAt attribs tri.mesh i ≠ cornerAt attribs tri.mesh j)
    (h : extractGeometry hash attribs shapes this = some e) :
    (∃ aabb, e.scene.m_AABBs = [aabb]) ∧
    e.scene.m_AABBMaterials = [⟨0, 0, 0, 0, 0, 0, (0, 0)⟩] ∧
    e.scene.m_Vertices.length = 3 ∧ e.scene.m_Indices.length = 3 ∧
    e.scene.m_TriPerFaceMatID = [1] := by
  obtain ⟨_, _, hA, hAM, hI, hV, hT, _⟩ := hU
  have ht12 : tri.mesh.num_face_vertices.length ≠ 12 := by rw [ht1]; decide
  have hmat : e.scene.m_TriPerFaceMatID = [1] := by
    have hm := foldlM_addShape_materials hash attribs shapes _ e h
    simp only [hT, List.nil_append] at hm
    rw [hm]
    rcases hshapes with rfl | rfl <;>
      simp [shapeTriangleMaterials, hb12, ht12, triangleFaceMaterials, ht1, htm]
  have hsum : (∃ aabb, e.scene.m_AABBs = [aabb]) ∧
      e.scene.m_AABBMaterials = [⟨0, 0, 0, 0, 0, 0, (0, 0)⟩] ∧
      ∃ v0 v1 v2, cornerAt attribs tri.mesh 0 = some v0 ∧
        cornerAt attribs tri.mesh 1 = some v1 ∧ cornerAt attribs tri.mesh 2 = some v2 ∧
        e.corners = [v0, v1, v2] := by
    unfold extractGeometry at h
    rcases hshapes with rfl | rfl
    · cases h1 : addShape hash attribs ⟨this, UnorderedMap.empty, []⟩ block with
      | none => simp [List.foldlM_cons, h1] at h
      | some e1 =>
        simp only [List.foldlM_cons, h1, Option.bind_eq_bind, Option.some_bind] at h
        cases h2 : addShape hash attribs e1 tri with
        | none => simp [h2] at h
        | some e2 =>
          simp only [h2, Option.some_bind, List.foldlM_nil, Option.pure_def,
            Option.some.injEq] at h
          subst h
          obtain ⟨⟨aabb, b1⟩, b2, b3⟩ := addShape_zero_block hash attribs _ e1 block hb12 hzero h1
          obtain ⟨t1, t2, v0, v1, v2, c0, c1, c2, t3⟩ :=
            addShape_one_triangle hash attribs e1 e2 tri ht1 h2
          refine ⟨⟨aabb, ?_⟩, ?_, v0, v1, v2, c0, c1, c2, ?_⟩
          · rw [t1, b1, hA]; rfl
          · rw [t2, b2, hAM]; rfl
          · rw [t3, b3]; rfl
    · cases h1 : addShape hash attribs ⟨this, UnorderedMap.empty, []⟩ tri with
      | none => simp [List.foldlM_cons, h1] at h
      | some e1 =>
        simp only [List.foldlM_cons, h1, Option.bind_eq_bind, Option.some_bind] at h
        cases h2 : addShape hash attribs e1 block with
        | none => simp [h2] at h
        | some e2 =>
          simp only [h2, Option.some_bind, List.foldlM_nil, Option.pure_def,
            Option.some.injEq] at h
          subst h
          obtain ⟨t1, t2, v0, v1, v2, c0, c1, c2, t3⟩ :=
            addShape_one_triangle hash attribs _ e1 tri ht1 h1
          obtain ⟨⟨aabb, b1⟩, b2, b3⟩ := addShape_zero_block hash attribs e1 e2 block hb12 hzero h2
          refine ⟨⟨aabb, ?_⟩, ?_, v0, v1, v2, c0, c1, c2, ?_⟩
          · rw [b1, t1, hA]; rfl
          · rw [b2, t2, hAM]; rfl
          · rw [b3, t3]; rfl
  obtain ⟨hbox, hboxm, v0, v1, v2, c0, c1, c2, hcorners⟩ := hsum
  have d01 : v0 ≠ v1 := fun hh =>
    hdistinct 0 1 (by omega) (by omega) (by omega) (by rw [c0, c1, hh])
  have d02 : v0 ≠ v2 := fun hh =>
    hdistinct 0 2 (by omega) (by omega) (by omega) (by rw [c0, c2, hh])
  have d12 : v1 ≠ v2 := fun hh =>
    hdistinct 1 2 (by omega) (by omega) (by omega) (by rw [c1, c2, hh])
  obtain ⟨l1, l2⟩ := extractGeometry_lengths hash attribs shapes this e h
  have hnd : [v0, v1, v2].Nodup := by simp [d01, d02, d12]
  rw [hcorners, hV, List.toFinset_card_of_nodup hnd] at l1
  rw [hcorners, hI] at l2
  exact ⟨hbox, hboxm, by simpa using l1, by simpa using l2, hmat⟩

/-! ## C14 -/

/-- C14: on an unloaded loader, a parse that succeeded with a non-empty material list
and two shapes, one of 12 faces whose material is 0 everywhere and one of a single
triangle with material 1 and three distinct corners, in either order, loads and returns
true: there is 1 AABB, 1 AABBMaterials record whose six IDs are 0, 3 vertices, 3 indices,
the material stream of the triangles is `[1]`, `IsLoaded()` is true, both BLAS are set and
were built, and the TLAS was built from 2 instances, the triangle BLAS with hit group
contribution 0 and the AABB BLAS with contribution 1. -/
theorem box_and_triangle_scene_loads (hash : SceneVertex → Nat) (reader : ObjReader)
    (this : Scene) (block tri : shape_t)
    (hU : Unloaded this) (hv : reader.valid = true) (hm : reader.materials ≠ [])
    (hlen : reader.materials.length < 2 ^ 32)
    (hshapes : reader.shapes = [block, tri] ∨ reader.shapes = [tri, block])
    (hb12 : block.mesh.num_face_vertices.length = 12)
    (hzero : ∀ m ∈ block.mesh.material_ids, m = 0)
    (hbwf : WellFormedShape reader.attrib block)
    (ht1 : tri.mesh.num_face_vertices = [3]) (htm : tri.mesh.material_ids = [1])
    (htwf : WellFormedShape reader.attrib tri)
    (hdistinct : ∀ i j, i < 3 → j < 3 → i ≠ j →
      cornerAt reader.attrib tri.mesh i ≠ cornerAt reader.attrib tri.mesh j) :
    ∃ s' calls, LoadScene hash reader this = some (true, s', calls) ∧
      s'.m_AABBs.length = 1 ∧
      s'.m_AABBMaterials = [⟨0, 0, 0, 0, 0, 0, (0, 0)⟩] ∧
      s'.m_Vertices.length = 3 ∧ s'.m_Indices.length = 3 ∧
      s'.m_TriPerFaceMatID = [1] ∧
      s'.IsLoaded = true ∧
      ∃ blasT blasA i0 i1,
        s'.m_BlasTriangles = some blasT ∧ s'.m_BlasAABBs = some blasA ∧
        Call.buildBottomLevelAccelStruct blasT ∈ calls ∧
        Call.buildBottomLevelAccelStruct blasA ∈ calls ∧
        s'.GetTLAS = some ⟨2, [i0, i1]⟩ ∧
        Call.buildTopLevelAccelStruct [i0, i1] ∈ calls ∧
        i0.bottomLevelAS = blasT ∧ i0.instanceContributionToHitGroupIndex = 0 ∧
        i1.bottomLevelAS = blasA ∧ i1.instanceContributionToHitGroupIndex = 1 := by
  have hM : this.m_Materials = [] := hU.2.1
  have hwf : ∀ shape ∈ reader.shapes, WellFormedShape reader.attrib shape := by
    intro shape hs
    rcases hshapes with h | h <;> rw [h] at hs <;> simp at hs <;>
      rcases hs with rfl | rfl <;> assumption
  obtain ⟨s', calls, hs⟩ := LoadScene_succeeds hash reader this hv hm
    (by rw [hM]; simpa using hlen) hwf
  obtain ⟨s1, hg, fA, fAM, fI, fV, fT, fIB, fVB, fAB, _⟩ :=
    LoadScene_true_fields hash reader this s' calls hs
  obtain ⟨s1', r1, r2, hg', _, _, hs', hcalls⟩ :=
    LoadScene_true_calls hash reader this s' calls hs
  obtain ⟨e, he, rfl⟩ : ∃ e, extractGeometry hash reader.attrib reader.shapes this = some e ∧
      e.scene = s1 := by
    unfold AddGeometryToScene at hg
    cases he : extractGeometry hash reader.attrib reader.shapes this with
    | none => simp [he] at hg
    | some e => exact ⟨e, rfl, by simpa [he] using hg⟩
  obtain ⟨⟨aabb, gA⟩, gAM, gV, gI, gT⟩ :=
    extract_block_and_triangle hash reader.attrib this block tri reader.shapes e hU hshapes
      hb12 hzero ht1 htm hdistinct he
  have hVne : e.scene.m_Vertices ≠ [] := fun hh => by rw [hh] at gV; simp at gV
  have hIne : e.scene.m_Indices ≠ [] := fun hh => by rw [hh] at gI; simp at gI
  have hAne : e.scene.m_AABBs ≠ [] := fun hh => by rw [hh] at gA; simp at gA
  rw [if_pos ⟨hVne, hIne⟩] at fIB fVB
  rw [if_pos hAne] at fAB
  have hX := CreateAccelerationStructure_fields (CreateGeometryBuffers r2.1).1
  have hs1 : s'.m_IndexBuffer =
      (CreateAccelerationStructure (CreateGeometryBuffers r2.1).1).1.m_IndexBuffer := by
    rw [hs']
  have hs2 : s'.m_VertexBuffer =
      (CreateAccelerationStructure (CreateGeometryBuffers r2.1).1).1.m_VertexBuffer := by
    rw [hs']
  have hs3 : s'.m_AABBBuffer =
      (CreateAccelerationStructure (CreateGeometryBuffers r2.1).1).1.m_AABBBuffer := by
    rw [hs']
  obtain ⟨blasT, blasA, i0, i1, q1, q2, q3, q4, q5, q6, q7, q8, q9, q10⟩ :=
    CreateAccelerationStructure_both (CreateGeometryBuffers r2.1).1 _ _ _
      (by rw [← hX.2.2.2.2.2.2.2.1, ← hs1]; exact fIB)
      (by rw [← hX.2.2.2.2.2.2.1, ← hs2]; exact fVB)
      (by rw [← hX.2.2.2.2.2.1, ← hs3]; exact fAB)
  refine ⟨s', calls, hs, ?_, ?_, ?_, ?_, ?_, ?_, blasT, blasA, i0, i1, ?_, ?_, ?_, ?_, ?_, ?_,
    q7, q8, q9, q10⟩
  · rw [fA, gA]; rfl
  · rw [fAM, gAM]
  · rw [fV, gV]
  · rw [fI, gI]
  · rw [fT, gT]
  · rw [hs']; rfl
  · rw [hs']; exact q1
  · rw [hs']; exact q2
  · rw [hcalls]; exact List.mem_append_right _ q3
  · rw [hcalls]; exact List.mem_append_right _ q4
  · rw [hs']; exact q5
  · rw [hcalls]; exact List.mem_append_right _ q6

theorem box_and_triangle_scene_loads_witness :
    ∃ s' calls, LoadScene constantHash sceneReader {} = some (true, s', calls) ∧
      s'.m_AABBs.length = 1 ∧
      s'.m_AABBMaterials = [⟨0, 0, 0, 0, 0, 0, (0, 0)⟩] ∧
      s'.m_Vertices.length = 3 ∧ s'.m_Indices.length = 3 ∧
      s'.m_TriPerFaceMatID = [1] ∧
      s'.IsLoaded = true ∧
      ∃ blasT blasA i0 i1,
        s'.m_BlasTriangles = some blasT ∧ s'.m_BlasAABBs = some blasA ∧
        Call.buildBottomLevelAccelStruct blasT ∈ calls ∧
        Call.buildBottomLevelAccelStruct blasA ∈ calls ∧
        s'.GetTLAS = some ⟨2, [i0, i1]⟩ ∧
        Call.buildTopLevelAccelStruct [i0, i1] ∈ calls ∧
        i0.bottomLevelAS = blasT ∧ i0.instanceContributionToHitGroupIndex = 0 ∧
        i1.bottomLevelAS = blasA ∧ i1.instanceContributionToHitGroupIndex = 1 :=
  box_and_triangle_scene_loads constantHash sceneReader {} cubeShape triangleShape
    (by decide) rfl (by decide) (by decide) (Or.inl rfl) rfl (by decide) (by decide)
    rfl rfl (by decide)
    (by
      intro i j hi hj hij
      interval_cases i <;> interval_cases j <;> first | exact absurd rfl hij | decide)

/-! ## The reads of one corner -/

theorem attribIndex_of_int (stride : Nat) (i : Int) (k : Nat) (h0 : 0 ≤ i) (h1 : i < 2 ^ 31)
    (hs : stride ≤ 3) (hk : k ≤ 2) : attribIndex stride i k = stride * i.toNat + k := by
  unfold attribIndex size_t
  have h2 : (i % 2 ^ 64).toNat = i.toNat := by
    rw [Int.emod_eq_of_lt h0 (by omega)]
  rw [h2]
  have h3 : i.toNat < 2 ^ 31 := by omega
  apply Nat.mod_eq_of_lt
  have : stride * i.toNat ≤ 3 * i.toNat := Nat.mul_le_mul_right _ hs
  omega

theorem readVertex_some (attribs : attrib_t) (idx : index_t) (vertex : SceneVertex)
    (h : readVertex attribs idx = some vertex) :
    attribs.vertices[attribIndex 3 idx.vertex_index 0]? = some vertex.position.x ∧
    attribs.vertices[attribIndex 3 idx.vertex_index 1]? = some vertex.position.y ∧
    attribs.vertices[attribIndex 3 idx.vertex_index 2]? = some vertex.position.z ∧
    (0 ≤ idx.normal_index →
      attribs.normals[attribIndex 3 idx.normal_index 0]? = some vertex.normal.x ∧
      attribs.normals[attribIndex 3 idx.normal_index 1]? = some vertex.normal.y ∧
      attribs.normals[attribIndex 3 idx.normal_index 2]? = some vertex.normal.z) ∧
    (idx.normal_index < 0 → vertex.normal = ⟨0, 0, 0⟩) ∧
    (0 ≤ idx.texcoord_index → ∃ u v,
      attribs.texcoords[attribIndex 2 idx.texcoord_index 0]? = some u ∧
      attribs.texcoords[attribIndex 2 idx.texcoord_index 1]? = some v ∧
      vertex.uv = ⟨u, float.sub 1 v⟩) ∧
    (idx.texcoord_index < 0 → vertex.uv = ⟨0, 0⟩) := by
  unfold readVertex at h
  cases hx : attribs.vertices[attribIndex 3 idx.vertex_index 0]? with
  | none => simp [hx] at h
  | some px =>
  cases hy : attribs.vertices[attribIndex 3 idx.vertex_index 1]? with
  | none => simp [hx, hy] at h
  | some py =>
  cases hz : attribs.vertices[attribIndex 3 idx.vertex_index 2]? with
  | none => simp [hx, hy, hz] at h
  | some pz =>
  simp only [hx, hy, hz, Option.bind_eq_bind, Option.some_bind, Option.pure_def] at h
  by_cases hn : idx.normal_index ≥ 0
  · by_cases ht : idx.texcoord_index ≥ 0
    · simp only [hn, ht, if_true] at h
      cases hnx : attribs.normals[attribIndex 3 idx.normal_index 0]? with
      | none => simp [hnx] at h
      | some nx =>
      cases hny : attribs.normals[attribIndex 3 idx.normal_index 1]? with
      | none => simp [hnx, hny] at h
      | some ny =>
      cases hnz : attribs.normals[attribIndex 3 idx.normal_index 2]? with
      | none => simp [hnx, hny, hnz] at h
      | some nz =>
      cases hu : attribs.texcoords[attribIndex 2 idx.texcoord_index 0]? with
      | none => simp [hnx, hny, hnz, hu] at h
      | some u =>
      cases hv : attribs.texcoords[attribIndex 2 idx.texcoord_index 1]? with
      | none => simp [hnx, hny, hnz, hu, hv] at h
      | some v =>
      simp only [hnx, hny, hnz, hu, hv, Option.some_bind, Option.some.injEq] at h
      subst h
      exact ⟨rfl, rfl, rfl, fun _ => ⟨rfl, rfl, rfl⟩, fun hh => absurd hh (by omega),
        fun _ => ⟨u, v, rfl, rfl, rfl⟩, fun hh => absurd hh (by omega)⟩
    · simp only [hn, ht, if_true, if_false] at h
      cases hnx : attribs.normals[attribIndex 3 idx.normal_index 0]? with
      | none => simp [hnx] at h
      | some nx =>
      cases hny : attribs.normals[attribIndex 3 idx.normal_index 1]? with
      | none => simp [hnx, hny] at h
      | some ny =>
      cases hnz : attribs.normals[attribIndex 3 idx.normal_index 2]? with
      | none => simp [hnx, hny, hnz] at h
      | some nz =>
      simp only [hnx, hny, hnz, Option.some_bind, Option.some.injEq] at h
      subst h
      exact ⟨rfl, rfl, rfl, fun _ => ⟨rfl, rfl, rfl⟩, fun hh => absurd hh (by omega),
        fun hh => absurd hh ht, fun _ => rfl⟩
  · by_cases ht : idx.texcoord_index ≥ 0
    · simp only [hn, ht, if_true, if_false] at h
      cases hu : attribs.texcoords[attribIndex 2 idx.texcoord_index 0]? with
      | none => simp [hu] at h
      | some u =>
      cases hv : attribs.texcoords[attribIndex 2 idx.texcoord_index 1]? with
      | none => simp [hu, hv] at h
      | some v =>
      simp only [hu, hv, Option.some_bind, Option.some.injEq] at h
      subst h
      exact ⟨rfl, rfl, rfl, fun hh => absurd hh hn, fun _ => rfl,
        fun _ => ⟨u, v, rfl, rfl, rfl⟩, fun hh => absurd hh (by omega)⟩
    · simp only [hn, ht, if_false, Option.some_bind, Option.some.injEq] at h
      subst h
      exact ⟨rfl, rfl, rfl, fun hh => absurd hh hn, fun _ => rfl,
        fun hh => absurd hh ht, fun _ => rfl⟩

/-! ## C25 -/

/-- The steps after the base colour step leave the domain and the double-sided flag. -/
theorem makeMaterial_domain (i : Nat) (material : material_t) :
    (makeMaterial i material).1.domain =
      (if material.diffuse_texname ≠ "" ∧ material.alpha_texname ≠ "" then
        MaterialDomain.AlphaTested else MaterialDomain.Opaque) ∧
    (makeMaterial i material).1.doubleSided =
      decide (material.diffuse_texname ≠ "" ∧ material.alpha_texname ≠ "") := by
  simp only [makeMaterial, resolveBaseColor, resolveNormal, resolveEmissive, resolveRoughMetal]
  by_cases hd : material.diffuse_texname = "" <;> by_cases ha : material.alpha_texname = "" <;>
    simp only [hd, ha, ne_eq, not_true_eq_false, not_false_eq_true, if_true, if_false,
      and_self, and_true, and_false, decide_True, decide_False] <;>
    split_ifs <;> exact ⟨rfl, rfl⟩

/-- C25: the material that `AddMaterialsToScene` pushes for a parsed material has the
domain `AlphaTested` if and only if `diffuse_texname` and `alpha_texname` are both not
empty, and it is double sided under the same condition; otherwise, and so for a material
with an alpha texture and no base colour texture, it keeps the default domain and is not
double sided. The material pushed at position `j` is the one made from the parsed
material at `j`. -/
theorem alpha_tested_needs_both_textures (i : Nat) (material : material_t) :
    ((makeMaterial i material).1.domain = MaterialDomain.AlphaTested ↔
      (material.diffuse_texname ≠ "" ∧ material.alpha_texname ≠ "")) ∧
    ((makeMaterial i material).1.doubleSided = true ↔
      (material.diffuse_texname ≠ "" ∧ material.alpha_texname ≠ "")) ∧
    (material.alpha_texname ≠ "" → material.diffuse_texname = "" →
      (makeMaterial i material).1.domain = ({} : Material).domain ∧
      (makeMaterial i material).1.domain = MaterialDomain.Opaque ∧
      (makeMaterial i material).1.doubleSided = false) ∧
    (∀ (materials : List material_t) (this : Scene) (r : Scene × List Call),
      AddMaterialsToScene materials this = some r →
      ∀ (j : Nat) (parsed : material_t), materials[j]? = some parsed →
        r.1.m_Materials[this.m_Materials.length + j]? = some (makeMaterial j parsed).1) := by
  obtain ⟨hd, hs⟩ := makeMaterial_domain i material
  refine ⟨?_, ?_, ?_, ?_⟩
  · rw [hd]
    by_cases h : material.diffuse_texname ≠ "" ∧ material.alpha_texname ≠ ""
    · simp [h]
    · simp only [h, if_false, iff_false]
      intro hh; cases hh
  · rw [hs]; simp
  · intro ha hdiff
    have h : ¬ (material.diffuse_texname ≠ "" ∧ material.alpha_texname ≠ "") :=
      fun hh => hh.1 hdiff
    have e1 : (makeMaterial i material).1.domain = MaterialDomain.Opaque := by
      rw [hd]; simp [h]
    have e2 : (makeMaterial i material).1.doubleSided = false := by
      rw [hs]; simp [h]
    exact ⟨e1, e1, e2⟩
  · intro materials this r h j parsed hj
    rw [(AddMaterialsToScene_scene materials this r h).2]
    simp only
    rw [List.getElem?_append_right (by omega), Nat.add_sub_cancel_left,
      madeMaterials_getElem?, hj]
    simp

/-- Witness of C25: a material with an alpha texture only stays opaque and one sided. -/
theorem alpha_tested_needs_both_textures_witness :
    alphaOnlyMaterial.alpha_texname ≠ "" ∧ alphaOnlyMaterial.diffuse_texname = "" ∧
    (makeMaterial 0 alphaOnlyMaterial).1.domain = MaterialDomain.Opaque ∧
    (makeMaterial 0 alphaOnlyMaterial).1.doubleSided = false ∧
    (makeMaterial 1 glassMaterial).1.domain = MaterialDomain.AlphaTested :=
  ⟨by decide, by decide,
    ((alpha_tested_needs_both_textures 0 alphaOnlyMaterial).2.2.1 (by decide) (by decide)).2.1,
    ((alpha_tested_needs_both_textures 0 alphaOnlyMaterial).2.2.1 (by decide) (by decide)).2.2,
    (alpha_tested_needs_both_textures 1 glassMaterial).1.2 ⟨by decide, by decide⟩⟩

/-! ## C27 -/

/-- C27: when the parser output is well formed, `AddGeometryToScene` makes no read outside
an array: the call is defined, for every hash function, every loader state and every list
of shapes, boxes and meshes with faces that are skipped included. Well formed means, for
every shape: the index list has as many entries as the sum of the face vertex counts, the
material list as many as there are faces, every vertex index is inside the position
array, and every normal or texcoord index that is not negative is inside its array. -/
theorem well_formed_input_reads_in_bounds (hash : SceneVertex → Nat) (attribs : attrib_t)
    (shapes : List shape_t) (this : Scene)
    (hwf : ∀ shape ∈ shapes,
      shape.mesh.indices.length = shape.mesh.num_face_vertices.sum ∧
      shape.mesh.material_ids.length = shape.mesh.num_face_vertices.length ∧
      ∀ idx ∈ shape.mesh.indices,
        (0 ≤ idx.vertex_index ∧ 3 * idx.vertex_index + 2 < attribs.vertices.length) ∧
        (0 ≤ idx.normal_index → 3 * idx.normal_index + 2 < attribs.normals.length) ∧
        (0 ≤ idx.texcoord_index → 2 * idx.texcoord_index + 1 < attribs.texcoords.length)) :
    (extractGeometry hash attribs shapes this).isSome ∧
    ∃ s, AddGeometryToScene hash attribs shapes this = some s := by
  have hwf2 : ∀ shape ∈ shapes, WellFormedShape attribs shape := by
    intro shape hs
    obtain ⟨h1, h2, h3⟩ := hwf shape hs
    exact ⟨h1, h2, fun idx hi => ⟨(h3 idx hi).1.1, (h3 idx hi).1.2, (h3 idx hi).2.1,
      (h3 idx hi).2.2⟩⟩
  have h := extractGeometry_isSome hash attribs shapes this hwf2
  obtain ⟨e, he⟩ := Option.isSome_iff_exists.1 h
  exact ⟨h, e.scene, by simp [AddGeometryToScene, he]⟩

/-- Witness of C27: a box, a mesh whose first face is skipped, and a triangle. -/
theorem well_formed_input_reads_in_bounds_witness :
    ∃ s, AddGeometryToScene constantHash sceneAttribs [cubeShape, mixedShape, triangleShape]
      {} = some s :=
  (well_formed_input_reads_in_bounds constantHash sceneAttribs
    [cubeShape, mixedShape, triangleShape] {} (by decide)).2

/-! ## C26 -/

/-- C26: when every entry of the index stream is below the size of the vertex array
before `AddGeometryToScene`, the same holds after it, whatever the hash function, so
every index entry names an entry of the vertex array. The precondition holds on a fresh
loader and after `UnloadScene`, whose index stream is empty. On well-formed shapes the
call is defined. -/
theorem indices_below_vertex_count (hash : SceneVertex → Nat) (attribs : attrib_t)
    (shapes : List shape_t) (this : Scene)
    (hin : ∀ i ∈ this.m_Indices, i < this.m_Vertices.length) :
    ((∀ shape ∈ shapes, WellFormedShape attribs shape) →
      (AddGeometryToScene hash attribs shapes this).isSome) ∧
    (∀ s, AddGeometryToScene hash attribs shapes this = some s →
      (∀ i ∈ s.m_Indices, i < s.m_Vertices.length) ∧
      ∀ (k i : Nat), s.m_Indices[k]? = some i → ∃ data, s.m_Vertices[i]? = some data) ∧
    (∀ i ∈ ({} : Scene).m_Indices, i < ({} : Scene).m_Vertices.length) ∧
    (∀ other : Scene, ∀ i ∈ (UnloadScene other).2.1.m_Indices,
      i < (UnloadScene other).2.1.m_Vertices.length) := by
  refine ⟨?_, ?_, ?_, ?_⟩
  · intro hwf
    simp only [AddGeometryToScene, Option.isSome_map']
    exact extractGeometry_isSome hash attribs shapes this hwf
  · intro s hs
    unfold AddGeometryToScene at hs
    cases he : extractGeometry hash attribs shapes this with
    | none => simp [he] at hs
    | some e =>
      simp only [he, Option.map_some', Option.some.injEq] at hs
      subst hs
      obtain ⟨D, hnd, hmem, hVe, _, hIe⟩ :=
        extractGeometry_deduplicated hash attribs shapes this e he
      have hlen : e.scene.m_Vertices.length = this.m_Vertices.length + D.length := by
        rw [hVe]; simp
      have hall : ∀ i ∈ e.scene.m_Indices, i < e.scene.m_Vertices.length := by
        intro i hi
        rw [hIe, List.mem_append] at hi
        rcases hi with hi | hi
        · have := hin i hi
          omega
        · obtain ⟨v, hv, rfl⟩ := List.mem_map.1 hi
          have hvD : v ∈ D := (hmem v).2 hv
          have hlt : D.indexOf v < D.length := List.indexOf_lt_length.2 hvD
          have hle : indexIn this.m_Vertices.length D v ≤ this.m_Vertices.length + D.indexOf v :=
            Nat.mod_le _ _
          omega
      refine ⟨hall, ?_⟩
      intro k i hk
      have hlt := hall i (List.getElem?_mem hk)
      exact ⟨_, List.getElem?_eq_getElem hlt⟩
  · intro i hi
    simp at hi
  · intro other i hi
    simp [UnloadScene] at hi

/-- Witness of C26: the small scene on a fresh loader. -/
theorem indices_below_vertex_count_witness :
    ∃ s, AddGeometryToScene constantHash sceneAttribs [cubeShape, triangleShape] {} = some s ∧
      ∀ i ∈ s.m_Indices, i < s.m_Vertices.length := by
  have h := indices_below_vertex_count constantHash sceneAttribs [cubeShape, triangleShape] {}
    (by simp)
  obtain ⟨s, hs⟩ := Option.isSome_iff_exists.1 (h.1 (by decide))
  exact ⟨s, hs, (h.2.1 s hs).1⟩

/-! ## Material IDs over a sequence of calls -/

/-- The materials after a load that returned true: those held before, then one per
parsed material. -/
theorem LoadScene_true_m_Materials (hash : SceneVertex → Nat) (reader : ObjReader)
    (this s' : Scene) (calls : List Call)
    (h : LoadScene hash reader this = some (true, s', calls)) :
    s'.m_Materials = this.m_Materials ++ madeMaterials 0 reader.materials ∧
    s'.IsLoaded = true := by
  obtain ⟨_, _, s1, r1, r2, h1, h2, h3, rfl⟩ := LoadScene_true hash reader this s' calls h
  have e1 : s1.m_Materials = this.m_Materials :=
    m_Materials_of_outsideGeometry s1 this
      (AddGeometryToScene_outsideGeometry hash reader.attrib reader.shapes this s1 h1)
  have e2 : r1.1.m_Materials = this.m_Materials ++ madeMaterials 0 reader.materials := by
    rw [(AddMaterialsToScene_scene reader.materials s1 r1 h2).2]
    simp [e1]
  refine ⟨?_, rfl⟩
  show (CreateAccelerationStructure (CreateGeometryBuffers r2.1).1).1.m_Materials = _
  rw [CreateAccelerationStructure_m_Materials, CreateGeometryBuffers_m_Materials,
    CreateMaterialsBuffers_m_Materials r1.1 r2 h3, e2]

theorem madeMaterials_ids (materials : List material_t) :
    ∀ (i : Nat) (sceneMat : Material), (madeMaterials 0 materials)[i]? = some sceneMat →
      sceneMat.materialID = (i : Int) := by
  intro i sceneMat h
  rw [madeMaterials_getElem?] at h
  cases hm : materials[i]? with
  | none => simp [hm] at h
  | some material =>
    simp only [hm, Option.map_some', Option.some.injEq, Nat.zero_add] at h
    rw [← h]
    exact (makeMaterial_identity i material).1

/-- One call keeps the two facts: IDs are positions, and a loader that is not loaded holds
no material; for `LoadScene`, when it is made on a loader that is not loaded. -/
theorem callLoader_material_ids (hash : SceneVertex → Nat) (this s' : Scene)
    (call : LoaderCall) (hs : callLoader hash this call = some s')
    (hinv : MaterialIDsArePositions this)
    (hempty : this.IsLoaded = false → this.m_Materials = [])
    (hnot : ∀ reader, call = LoaderCall.load reader → this.IsLoaded = false) :
    MaterialIDsArePositions s' ∧ (s'.IsLoaded = false → s'.m_Materials = []) := by
  cases call with
  | unload =>
    simp only [callLoader, Option.some.injEq] at hs
    subst hs
    refine ⟨?_, fun _ => rfl⟩
    intro i sceneMat h
    simp [UnloadScene] at h
  | load reader =>
    simp only [callLoader] at hs
    cases hl : LoadScene hash reader this with
    | none => simp [hl] at hs
    | some r =>
      obtain ⟨b, s2, calls⟩ := r
      simp only [hl, Option.map_some', Option.some.injEq] at hs
      subst hs
      cases b with
      | false =>
        obtain ⟨_, rfl, _⟩ := LoadScene_false hash reader this s2 calls hl
        exact ⟨hinv, hempty⟩
      | true =>
        obtain ⟨hm, hloaded⟩ := LoadScene_true_m_Materials hash reader this s2 calls hl
        have h0 : this.m_Materials = [] := hempty (hnot reader rfl)
        rw [h0, List.nil_append] at hm
        refine ⟨?_, ?_⟩
        · intro i sceneMat h
          rw [hm] at h
          exact madeMaterials_ids reader.materials i sceneMat h
        · intro hh
          rw [hloaded] at hh
          cases hh

theorem runCalls_material_ids (hash : SceneVertex → Nat) (calls : List LoaderCall) :
    ∀ (this s : Scene), runCalls hash calls this = some s →
      MaterialIDsArePositions this → (this.IsLoaded = false → this.m_Materials = []) →
      LoadsWhenNotLoaded hash calls this →
      MaterialIDsArePositions s ∧ (s.IsLoaded = false → s.m_Materials = []) := by
  induction calls with
  | nil =>
    intro this s h hinv hempty _
    simp only [runCalls, List.foldlM_nil, Option.pure_def, Option.some.injEq] at h
    subst h
    exact ⟨hinv, hempty⟩
  | cons call rest ih =>
    intro this s h hinv hempty hp
    unfold runCalls at h
    cases h1 : callLoader hash this call with
    | none => simp [List.foldlM_cons, h1] at h
    | some s1 =>
      simp only [List.foldlM_cons, h1, Option.bind_eq_bind, Option.some_bind] at h
      obtain ⟨a, b⟩ := callLoader_material_ids hash this s1 call h1 hinv hempty hp.1
      exact ih s1 s h a b (hp.2 s1 h1)

theorem runCalls_isSome (hash : SceneVertex → Nat) (calls : List LoaderCall) :
    ∀ (this : Scene), MaterialIDsArePositions this →
      (this.IsLoaded = false → this.m_Materials = []) →
      LoadsWhenNotLoaded hash calls this →
      (∀ reader, LoaderCall.load reader ∈ calls → reader.materials.length < 2 ^ 32 ∧
        ∀ shape ∈ reader.shapes, WellFormedShape reader.attrib shape) →
      (runCalls hash calls this).isSome := by
  induction calls with
  | nil => intro this _ _ _ _; rfl
  | cons call rest ih =>
    intro this hinv hempty hp hwf
    have hstep : ∃ s1, callLoader hash this call = some s1 := by
      cases call with
      | unload => exact ⟨_, rfl⟩
      | load reader =>
        obtain ⟨hlen, hshapes⟩ := hwf reader (List.mem_cons_self _ _)
        have h0 : this.m_Materials = [] := hempty (hp.1 reader rfl)
        by_cases hv : reader.valid = true ∧ reader.materials ≠ []
        · obtain ⟨s', calls, hs⟩ := LoadScene_succeeds hash reader this hv.1 hv.2
            (by rw [h0]; simpa using hlen) hshapes
          exact ⟨s', by simp [callLoader, hs]⟩
        · have hf : reader.valid = false ∨ reader.materials = [] := by
            by_cases hv1 : reader.valid = true
            · right
              by_contra hm
              exact hv ⟨hv1, hm⟩
            · left
              simpa using hv1
          exact ⟨this, by simp [callLoader, LoadScene_fatal hash reader this hf]⟩
    obtain ⟨s1, h1⟩ := hstep
    obtain ⟨a, b⟩ := callLoader_material_ids hash this s1 call h1 hinv hempty hp.1
    have := ih s1 a b (hp.2 s1 h1) (fun reader hr => hwf reader (List.mem_cons_of_mem _ hr))
    unfold runCalls at this ⊢
    simp only [List.foldlM_cons, h1, Option.bind_eq_bind, Option.some_bind]
    exact this

/-! ## C21 -/

/-- C21, as stated: two calls of `LoadScene` in a row on a fresh loader, each with the
parse that has one material. Both return true, and the loader holds two materials whose
`materialID` is 0: the material at position 1 has the ID 0. -/
theorem second_load_restarts_material_ids :
    ∃ s sceneMat,
      runCalls constantHash
        [LoaderCall.load materialOnlyReader, LoaderCall.load materialOnlyReader] {} = some s ∧
      s.m_Materials.length = 2 ∧
      s.m_Materials[1]? = some sceneMat ∧ sceneMat.materialID = 0 ∧
      ¬ MaterialIDsArePositions s := by
  refine ⟨_, _, rfl, rfl, rfl, rfl, ?_⟩
  intro h
  have h1 := h 1 _ rfl
  revert h1
  decide

/-- C21, amended: start from an unloaded loader and make any sequence of `LoadScene` and
`UnloadScene` calls in which every `LoadScene` is made while `IsLoaded()` is false. Then
in the state reached every material of `m_Materials` has its position as `materialID`,
so the entry of the array at an ID is the material with this ID, and a loader that is not
loaded holds no material. The sequence is defined when the parses have well-formed shapes
and fewer than `2 ^ 32` materials. -/
theorem material_ids_are_positions (hash : SceneVertex → Nat) (calls : List LoaderCall)
    (this : Scene) (hU : Unloaded this) (hp : LoadsWhenNotLoaded hash calls this) :
    ((∀ reader, LoaderCall.load reader ∈ calls → reader.materials.length < 2 ^ 32 ∧
        ∀ shape ∈ reader.shapes, WellFormedShape reader.attrib shape) →
      (runCalls hash calls this).isSome) ∧
    ∀ s, runCalls hash calls this = some s →
      MaterialIDsArePositions s ∧ (s.IsLoaded = false → s.m_Materials = []) ∧
      ∀ (id : Int) (sceneMat : Material), 0 ≤ id →
        s.m_Materials[id.toNat]? = some sceneMat → sceneMat.materialID = id := by
  have hinv : MaterialIDsArePositions this := by
    intro i sceneMat h
    rw [hU.2.1] at h
    simp at h
  refine ⟨runCalls_isSome hash calls this hinv (fun _ => hU.2.1) hp, fun s hs => ?_⟩
  obtain ⟨h1, h2⟩ := runCalls_material_ids hash calls this s hs hinv (fun _ => hU.2.1) hp
  refine ⟨h1, h2, fun id sceneMat h0 hm => ?_⟩
  rw [h1 id.toNat sceneMat hm]
  exact Int.toNat_of_nonneg h0

/-- Witness of C21, amended: load, unload, load again, on a fresh loader. -/
theorem material_ids_are_positions_witness :
    Unloaded {} ∧
    LoadsWhenNotLoaded constantHash
      [LoaderCall.load sceneReader, LoaderCall.unload, LoaderCall.load materialOnlyReader] {} ∧
    ∃ s, runCalls constantHash
      [LoaderCall.load sceneReader, LoaderCall.unload, LoaderCall.load materialOnlyReader] {} =
        some s ∧ MaterialIDsArePositions s := by
  have hp : LoadsWhenNotLoaded constantHash
      [LoaderCall.load sceneReader, LoaderCall.unload, LoaderCall.load materialOnlyReader]
      {} := by
    refine ⟨fun _ _ => rfl, fun s1 _ => ⟨fun reader hr => (by cases hr), fun s2 h2 =>
      ⟨fun _ _ => ?_, fun _ _ => trivial⟩⟩⟩
    simp only [callLoader, Option.some.injEq] at h2
    rw [← h2]
    rfl
  have h := material_ids_are_positions constantHash _ {} (by decide) hp
  obtain ⟨s, hs⟩ := Option.isSome_iff_exists.1 (h.1 (by
    intro reader hr
    simp only [List.mem_cons, LoaderCall.load.injEq, List.mem_singleton, List.mem_nil_iff,
      or_false] at hr
    rcases hr with rfl | hr | rfl
    · exact ⟨by decide, by decide⟩
    · cases hr
    · exact ⟨by decide, by decide⟩))
  exact ⟨by decide, hp, s, hs, (h.2 s hs).1⟩

/-! ## The map and the naive deduplicator give the same extraction -/

theorem foldlM_related {α β γ : Type} (R : β → γ → Prop) (f : β → α → Option β)
    (g : γ → α → Option γ) (h : ∀ b c a, R b c → Related R (f b a) (g c a)) (l : List α) :
    ∀ b c, R b c → Related R (l.foldlM f b) (l.foldlM g c) := by
  induction l with
  | nil => intro b c hR; exact hR
  | cons a l ih =>
    intro b c hR
    have hstep := h b c a hR
    simp only [List.foldlM_cons]
    cases hf : f b a with
    | none =>
      cases hg : g c a with
      | none => trivial
      | some c1 => rw [hf, hg] at hstep; exact hstep.elim
    | some b1 =>
      cases hg : g c a with
      | none => rw [hf, hg] at hstep; exact hstep.elim
      | some c1 =>
        rw [hf, hg] at hstep
        exact ih b1 c1 hstep

theorem naiveSearch_eq (D : List SceneVertex) (v : SceneVertex) :
    naiveSearch D v = if v ∈ D then some (D.indexOf v) else none := by
  induction D with
  | nil => rfl
  | cons w D ih =>
    by_cases hw : w = v
    · subst hw
      have : SceneVertex.eq w w = true := (SceneVertex.eq_iff w w).2 rfl
      simp [naiveSearch, this]
    · have : SceneVertex.eq w v = false := by
        rw [Bool.eq_false_iff]
        exact fun h => hw ((SceneVertex.eq_iff w v).1 h)
      have hne : v ≠ w := fun h => hw h.symm
      simp only [naiveSearch, this, Bool.false_eq_true, if_false, ih, List.mem_cons, hne,
        false_or]
      by_cases hv : v ∈ D
      · simp [hv, List.indexOf_cons_ne _ hw]
      · simp [hv]

/-- The loader after the duplicate check, for a vertex the map holds. -/
theorem addVertex_scene_old (hash : SceneVertex → Nat) (e : Extraction) (v : SceneVertex)
    (i : Nat) (h : e.uniqueVertices.find? hash v = some i) :
    (addVertex hash e v).scene =
      { e.scene with
        m_Indices := e.scene.m_Indices ++ [i]
        m_sceneStats :=
          { e.scene.m_sceneStats with numIndices := e.scene.m_sceneStats.numIndices + 1 } } := by
  have hc : e.uniqueVertices.count hash v ≠ 0 := by
    rw [Ne, UnorderedMap.count_eq_zero, h]; simp
  have hg := UnorderedMap.get_of_find? hash _ v _ h
  simp only [addVertex, hc, if_false, hg]

/-- The loader after the duplicate check, for a vertex the map does not hold. -/
theorem addVertex_scene_new (hash : SceneVertex → Nat) (e : Extraction) (v : SceneVertex)
    (h : e.uniqueVertices.find? hash v = none) :
    (addVertex hash e v).scene =
      { e.scene with
        m_Vertices := e.scene.m_Vertices ++ [v.toVertexData]
        m_Indices := e.scene.m_Indices ++ [e.scene.m_Vertices.length % 2 ^ 32]
        m_sceneStats :=
          { e.scene.m_sceneStats with
            numUniqueVertices := e.scene.m_sceneStats.numUniqueVertices + 1
            numIndices := e.scene.m_sceneStats.numIndices + 1 } } := by
  have hc : e.uniqueVertices.count hash v = 0 := (UnorderedMap.count_eq_zero hash _ v).2 h
  have hf : (e.uniqueVertices.set hash v (e.scene.m_Vertices.length % 2 ^ 32)).find? hash v =
      some (e.scene.m_Vertices.length % 2 ^ 32) := by
    rw [UnorderedMap.find?_set]; simp
  have hg := UnorderedMap.get_of_find? hash _ v _ hf
  simp only [addVertex, hc, if_true, hg]

theorem simulates_addVertex (hash : SceneVertex → Nat) (s0 : Scene) (e : Extraction)
    (n : NaiveExtraction) (h : Simulates hash s0 e n) (v : SceneVertex) :
    Simulates hash s0 (addVertex hash e v) (naiveAddVertex n v) := by
  obtain ⟨hs, hfirst, hD⟩ := h
  have hD' := deduplicated_addVertex hash s0 e n.emitted hD v
  have hfind := hD.2.2.2.1 v
  by_cases hv : v ∈ n.emitted
  · simp only [hv, if_true] at hD' hfind
    have hn : naiveSearch n.emitted v = some (n.emitted.indexOf v) := by
      rw [naiveSearch_eq]; simp [hv]
    refine ⟨?_, ?_, ?_⟩
    · rw [addVertex_scene_old hash e v _ hfind]
      simp only [naiveAddVertex, hn, hs, hfirst, indexIn]
    · simp only [naiveAddVertex, hn]; exact hfirst
    · simp only [naiveAddVertex, hn]; exact hD'
  · simp only [hv, if_false] at hD' hfind
    have hn : naiveSearch n.emitted v = none := by
      rw [naiveSearch_eq]; simp [hv]
    refine ⟨?_, ?_, ?_⟩
    · rw [addVertex_scene_new hash e v hfind]
      simp only [naiveAddVertex, hn, hs]
    · simp only [naiveAddVertex, hn]; exact hfirst
    · simp only [naiveAddVertex, hn]; exact hD'


theorem simulates_pushTriangle (hash : SceneVertex → Nat) (s0 : Scene) (e : Extraction)
    (n : NaiveExtraction) (h : Simulates hash s0 e n) (matID : Int) :
    Simulates hash s0 (pushTriangle e matID) (naivePushTriangle n matID) := by
  obtain ⟨hs, hfirst, hD⟩ := h
  refine ⟨?_, hfirst, deduplicated_pushTriangle hash s0 e n.emitted matID hD⟩
  simp only [pushTriangle, naivePushTriangle, hs]

theorem simulates_meshCorner (hash : SceneVertex → Nat) (attribs : attrib_t) (mesh : mesh_t)
    (s0 : Scene) (index_offset : Nat) (e : Extraction) (n : NaiveExtraction) (v : Nat)
    (h : Simulates hash s0 e n) :
    Related (Simulates hash s0) (meshCorner hash attribs mesh index_offset e v)
      (naiveMeshCorner attribs mesh index_offset n v) := by
  unfold meshCorner naiveMeshCorner
  cases cornerAt attribs mesh (index_offset + v) with
  | none => trivial
  | some vertex => exact simulates_addVertex hash s0 e n h vertex

theorem simulates_meshFace (hash : SceneVertex → Nat) (attribs : attrib_t) (mesh : mesh_t)
    (s0 : Scene) (f fv index_offset : Nat) (e : Extraction) (n : NaiveExtraction)
    (h : Simulates hash s0 e n) :
    Related (fun r q => r.1 = q.1 ∧ Simulates hash s0 r.2 q.2)
      (meshFace hash attribs mesh f fv index_offset e)
      (naiveMeshFace attribs mesh f fv index_offset n) := by
  unfold meshFace naiveMeshFace
  by_cases hfv : fv ≠ 3
  · rw [if_pos hfv, if_pos hfv]
    exact ⟨rfl, h⟩
  · rw [if_neg hfv, if_neg hfv]
    have hc := foldlM_related (Simulates hash s0) (meshCorner hash attribs mesh index_offset)
      (naiveMeshCorner attribs mesh index_offset)
      (fun b c a hR => simulates_meshCorner hash attribs mesh s0 index_offset b c a hR)
      (List.range fv) e n h
    cases h1 : (List.range fv).foldlM (meshCorner hash attribs mesh index_offset) e with
    | none =>
      cases h2 : (List.range fv).foldlM (naiveMeshCorner attribs mesh index_offset) n with
      | none => trivial
      | some n1 => rw [h1, h2] at hc; exact hc.elim
    | some e1 =>
      cases h2 : (List.range fv).foldlM (naiveMeshCorner attribs mesh index_offset) n with
      | none => rw [h1, h2] at hc; exact hc.elim
      | some n1 =>
        rw [h1, h2] at hc
        simp only [Option.bind_eq_bind, Option.some_bind]
        cases mesh.material_ids[f]? with
        | none => trivial
        | some matID => exact ⟨rfl, simulates_pushTriangle hash s0 e1 n1 hc matID⟩

theorem simulates_meshFaces (hash : SceneVertex → Nat) (attribs : attrib_t) (mesh : mesh_t)
    (s0 : Scene) (fvs : List Nat) :
    ∀ (f index_offset : Nat) (e : Extraction) (n : NaiveExtraction),
      Simulates hash s0 e n →
      Related (Simulates hash s0) (meshFaces hash attribs mesh fvs f index_offset e)
        (naiveMeshFaces attribs mesh fvs f index_offset n) := by
  induction fvs with
  | nil => intro f index_offset e n h; exact h
  | cons fv rest ih =>
    intro f index_offset e n h
    have hf := simulates_meshFace hash attribs mesh s0 f fv index_offset e n h
    simp only [meshFaces, naiveMeshFaces]
    cases h1 : meshFace hash attribs mesh f fv index_offset e with
    | none =>
      cases h2 : naiveMeshFace attribs mesh f fv index_offset n with
      | none => trivial
      | some q => rw [h1, h2] at hf; exact hf.elim
    | some r =>
      cases h2 : naiveMeshFace attribs mesh f fv index_offset n with
      | none => rw [h1, h2] at hf; exact hf.elim
      | some q =>
        rw [h1, h2] at hf
        simp only [Option.bind_eq_bind, Option.some_bind]
        have hq : r.1 = q.1 := hf.1
        rw [hq]
        exact ih (f + 1) q.1 r.2 q.2 hf.2

theorem simulates_addShape (hash : SceneVertex → Nat) (attribs : attrib_t) (s0 : Scene)
    (e : Extraction) (n : NaiveExtraction) (shape : shape_t) (h : Simulates hash s0 e n) :
    Related (Simulates hash s0) (addShape hash attribs e shape)
      (naiveAddShape attribs n shape) := by
  unfold addShape naiveAddShape
  by_cases h12 : shape.mesh.num_face_vertices.length = 12
  · simp only [h12, if_true]
    cases blockFaces attribs shape.mesh shape.mesh.num_face_vertices 0 initialAABB with
    | none => trivial
    | some aabb =>
      cases blockMaterials shape.mesh with
      | none => trivial
      | some aabbMaterials =>
        obtain ⟨hs, hfirst, hD⟩ := h
        refine ⟨?_, hfirst, deduplicated_congr hash s0 e _ n.emitted hD rfl rfl rfl rfl⟩
        simp only [hs]
  · simp only [h12, if_false]
    exact simulates_meshFaces hash attribs shape.mesh s0 _ 0 0 e n h

theorem simulates_init (hash : SceneVertex → Nat) (this : Scene) :
    Simulates hash this ⟨this, UnorderedMap.empty, []⟩ ⟨this, this.m_Vertices.length, []⟩ :=
  ⟨rfl, rfl, deduplicated_init hash this⟩

/-- The extraction with the map and the extraction with the naive deduplicator end in
the same loader, or both make a read out of bounds. -/
theorem AddGeometryToScene_eq_naive (hash : SceneVertex → Nat) (attribs : attrib_t)
    (shapes : List shape_t) (this : Scene) :
    AddGeometryToScene hash attribs shapes this =
      naiveAddGeometryToScene attribs shapes this := by
  have h := foldlM_related (Simulates hash this) (addShape hash attribs)
    (naiveAddShape attribs)
    (fun b c a hR => simulates_addShape hash attribs this b c a hR) shapes _ _
    (simulates_init hash this)
  unfold AddGeometryToScene naiveAddGeometryToScene extractGeometry
  cases h1 : shapes.foldlM (addShape hash attribs) ⟨this, UnorderedMap.empty, []⟩ with
  | none =>
    cases h2 : shapes.foldlM (naiveAddShape attribs) ⟨this, this.m_Vertices.length, []⟩ with
    | none => rfl
    | some n => rw [h1, h2] at h; exact h.elim
  | some e =>
    cases h2 : shapes.foldlM (naiveAddShape attribs) ⟨this, this.m_Vertices.length, []⟩ with
    | none => rw [h1, h2] at h; exact h.elim
    | some n =>
      rw [h1, h2] at h
      simp only [Option.map_some', Option.some.injEq]
      exact h.1

/-! ## The vertex array lists first occurrences -/

/-- A property of the loop state that the duplicate check keeps, and that depends on the
vertex array, the index stream, the map and the corner history only, holds after the
shape loop. -/
theorem extractGeometry_invariant (hash : SceneVertex → Nat) (attribs : attrib_t)
    (P : Extraction → Prop) (hadd : ∀ e v, P e → P (addVertex hash e v))
    (hframe : ∀ e e', P e → e'.scene.m_Vertices = e.scene.m_Vertices →
      e'.scene.m_Indices = e.scene.m_Indices → e'.uniqueVertices = e.uniqueVertices →
      e'.corners = e.corners → P e')
    (shapes : List shape_t) (this : Scene) (e : Extraction)
    (h : extractGeometry hash attribs shapes this = some e)
    (h0 : P ⟨this, UnorderedMap.empty, []⟩) : P e := by
  have hpush : ∀ (e1 : Extraction) (matID : Int), P e1 → P (pushTriangle e1 matID) :=
    fun e1 matID h1 => hframe e1 (pushTriangle e1 matID) h1 rfl rfl rfl rfl
  have hface : ∀ (mesh : mesh_t) (f fv index_offset : Nat) (e0 : Extraction)
      (r : Nat × Extraction), meshFace hash attribs mesh f fv index_offset e0 = some r →
      P e0 → P r.2 := by
    intro mesh f fv index_offset e0 r hr hP
    by_cases hfv : fv = 3
    · subst hfv
      obtain ⟨v0, v1, v2, matID, _, _, _, _, rfl⟩ :=
        meshFace_three hash attribs mesh f index_offset e0 r hr
      exact hpush _ matID (hadd _ v2 (hadd _ v1 (hadd e0 v0 hP)))
    · rw [meshFace_skip hash attribs mesh f fv index_offset e0 hfv] at hr
      simp only [Option.some.injEq] at hr
      subst hr
      exact hP
  have hfaces : ∀ (mesh : mesh_t) (fvs : List Nat) (f index_offset : Nat)
      (e0 e1 : Extraction), meshFaces hash attribs mesh fvs f index_offset e0 = some e1 →
      P e0 → P e1 := by
    intro mesh fvs
    induction fvs with
    | nil =>
      intro f index_offset e0 e1 h1 hP
      simp only [meshFaces, Option.some.injEq] at h1
      exact h1 ▸ hP
    | cons fv rest ih =>
      intro f index_offset e0 e1 h1 hP
      cases hr : meshFace hash attribs mesh f fv index_offset e0 with
      | none => simp [meshFaces, hr] at h1
      | some r =>
        simp only [meshFaces, hr, Option.bind_eq_bind, Option.some_bind] at h1
        exact ih (f + 1) r.1 r.2 e1 h1 (hface mesh f fv index_offset e0 r hr hP)
  have hshape : ∀ (e0 : Extraction) (shape : shape_t) (e1 : Extraction),
      addShape hash attribs e0 shape = some e1 → P e0 → P e1 := by
    intro e0 shape e1 h1 hP
    by_cases h12 : shape.mesh.num_face_vertices.length = 12
    · obtain ⟨aabb, mats, _, _, rfl⟩ := addShape_block hash attribs e0 e1 shape h12 h1
      exact hframe e0 _ hP rfl rfl rfl rfl
    · unfold addShape at h1
      simp only [h12, if_false] at h1
      exact hfaces shape.mesh _ 0 0 e0 e1 h1 hP
  exact foldlM_option_invariant P (addShape hash attribs) hshape shapes _ e h h0

theorem firstOccurrences_append (corners : List SceneVertex) (v : SceneVertex) :
    firstOccurrences (corners ++ [v]) =
      if v ∈ firstOccurrences corners then firstOccurrences corners
      else firstOccurrences corners ++ [v] := by
  simp [firstOccurrences, List.foldl_append]

/-- The list agrees with first occurrences of a longer stream on its first entries. -/
theorem firstOccurrences_prefix (l1 l2 : List SceneVertex) :
    ∃ T, firstOccurrences (l1 ++ l2) = firstOccurrences l1 ++ T := by
  induction l2 using List.reverseRecOn with
  | nil => exact ⟨[], by simp⟩
  | append_singleton l2 v ih =>
    obtain ⟨T, hT⟩ := ih
    rw [← List.append_assoc, firstOccurrences_append, hT]
    by_cases hv : v ∈ firstOccurrences l1 ++ T
    · exact ⟨T, by simp [hv]⟩
    · exact ⟨T ++ [v], by simp [hv]⟩

theorem firstOccurrences_spec (corners : List SceneVertex) :
    (firstOccurrences corners).Nodup ∧ ∀ v, v ∈ firstOccurrences corners ↔ v ∈ corners := by
  induction corners using List.reverseRecOn with
  | nil => exact ⟨List.nodup_nil, fun v => Iff.rfl⟩
  | append_singleton l w ih =>
    obtain ⟨hnd, hmem⟩ := ih
    rw [firstOccurrences_append]
    by_cases hw : w ∈ firstOccurrences l
    · simp only [hw, if_true]
      refine ⟨hnd, fun v => ?_⟩
      rw [List.mem_append, List.mem_singleton, hmem v]
      constructor
      · exact fun h => Or.inl h
      · rintro (h | rfl)
        · exact h
        · exact (hmem v).1 hw
    · simp only [hw, if_false]
      refine ⟨?_, fun v => ?_⟩
      · rw [List.nodup_append]
        refine ⟨hnd, List.nodup_singleton w, ?_⟩
        intro a ha hb
        rw [List.mem_singleton] at hb
        exact hw (hb ▸ ha)
      · rw [List.mem_append, List.mem_append, hmem v]

/-- After the shape loop the state agrees with the first occurrences of the corners. -/
theorem extractGeometry_firstOccurrences (hash : SceneVertex → Nat) (attribs : attrib_t)
    (shapes : List shape_t) (this : Scene) (e : Extraction)
    (h : extractGeometry hash attribs shapes this = some e) :
    Deduplicated hash this e (firstOccurrences e.corners) := by
  refine extractGeometry_invariant hash attribs
    (fun e => Deduplicated hash this e (firstOccurrences e.corners)) ?_ ?_ shapes this e h
    (deduplicated_init hash this)
  · intro e0 v hP
    have := deduplicated_addVertex hash this e0 _ hP v
    rw [addVertex_corners, firstOccurrences_append]
    exact this
  · intro e0 e1 hP hV hI hM hC
    show Deduplicated hash this e1 (firstOccurrences e1.corners)
    rw [hC]
    exact deduplicated_congr hash this e0 e1 _ hP hV hI hM hC


/-- The first occurrences of a stream, cut at a corner that did not occur before it: the
corner comes right after the first occurrences of the corners before it. -/
theorem firstOccurrences_split (corners : List SceneVertex) (k : Nat) (vertex : SceneVertex)
    (hk : corners[k]? = some vertex) (hnew : vertex ∉ corners.take k) :
    ∃ T, firstOccurrences corners = firstOccurrences (corners.take k) ++ vertex :: T := by
  have h1 : corners.take (k + 1) = corners.take k ++ [vertex] := by
    rw [List.take_succ, hk]; rfl
  have hnot : vertex ∉ firstOccurrences (corners.take k) :=
    fun h => hnew ((firstOccurrences_spec _).2 vertex |>.1 h)
  obtain ⟨T, hT⟩ := firstOccurrences_prefix (corners.take (k + 1)) (corners.drop (k + 1))
  rw [List.take_append_drop, h1, firstOccurrences_append] at hT
  simp only [hnot, if_false] at hT
  exact ⟨T, by rw [hT]; simp⟩

/-- In a list without duplicates the last entry has the last position. -/
theorem indexOf_concat_self (init : List SceneVertex) (w : SceneVertex)
    (hnd : (init ++ [w]).Nodup) : (init ++ [w]).indexOf w = init.length := by
  have hnot : w ∉ init := by
    intro hmem
    rw [List.nodup_append] at hnd
    exact hnd.2.2 hmem (List.mem_singleton_self _)
  rw [List.indexOf_append_of_not_mem hnot, List.indexOf_cons_self]
  rfl

/-- The duplicate check appends a vertex the map does not hold to `m_Vertices` and pushes
the length the array had before the append. After the shape loop, as long as the vertex
array fits the 32-bit index type: the call has appended to `m_Vertices` the distinct
corners in the order of their first occurrence in the history of corners; a corner that
did not occur earlier has, as its index entry, the length of the array before the call
plus the number of distinct corners before it, which is the place where its `VertexData`
stands; and when the array was empty before the call, or an earlier index entry comes
within one of its length, every entry the call pushes is 0 or at most one more than an
earlier entry. -/
theorem extractGeometry_next_index (hash : SceneVertex → Nat) (attribs : attrib_t)
    (shapes : List shape_t) (this : Scene) :
    ((∀ shape ∈ shapes, WellFormedShape attribs shape) →
      (AddGeometryToScene hash attribs shapes this).isSome) ∧
    (∀ (e0 : Extraction) (vertex : SceneVertex),
      e0.uniqueVertices.count hash vertex = 0 → e0.scene.m_Vertices.length < 2 ^ 32 →
      (addVertex hash e0 vertex).scene.m_Vertices =
        e0.scene.m_Vertices ++ [vertex.toVertexData] ∧
      (addVertex hash e0 vertex).scene.m_Indices =
        e0.scene.m_Indices ++ [e0.scene.m_Vertices.length]) ∧
    ∀ e, extractGeometry hash attribs shapes this = some e →
      e.scene.m_Vertices.length ≤ 2 ^ 32 →
      AddGeometryToScene hash attribs shapes this = some e.scene ∧
      e.scene.m_Vertices =
        this.m_Vertices ++ (firstOccurrences e.corners).map SceneVertex.toVertexData ∧
      (∀ (k : Nat) (vertex : SceneVertex), e.corners[k]? = some vertex →
        vertex ∉ e.corners.take k →
        e.scene.m_Indices[this.m_Indices.length + k]? =
          some (this.m_Vertices.length + (firstOccurrences (e.corners.take k)).length) ∧
        e.scene.m_Vertices[this.m_Vertices.length +
          (firstOccurrences (e.corners.take k)).length]? = some vertex.toVertexData) ∧
      ((this.m_Vertices = [] ∨ ∃ i0 ∈ this.m_Indices, this.m_Vertices.length ≤ i0 + 1) →
        ∀ (k i : Nat), e.scene.m_Indices[this.m_Indices.length + k]? = some i →
          i = 0 ∨ ∃ j i', j < this.m_Indices.length + k ∧
            e.scene.m_Indices[j]? = some i' ∧ i ≤ i' + 1) := by
  refine ⟨?_, ?_, ?_⟩
  · intro hwf
    simp only [AddGeometryToScene, Option.isSome_map']
    exact extractGeometry_isSome hash attribs shapes this hwf
  · intro e0 vertex hc hlt
    obtain ⟨a, b, _, _⟩ :=
      addVertex_new hash e0 vertex ((UnorderedMap.count_eq_zero hash _ vertex).1 hc)
    rw [Nat.mod_eq_of_lt hlt] at b
    exact ⟨a, b⟩
  intro e h hsize
  obtain ⟨hnd, hmem, hVe, _, hIe⟩ := extractGeometry_firstOccurrences hash attribs shapes this e h
  have hlen : e.scene.m_Vertices.length =
      this.m_Vertices.length + (firstOccurrences e.corners).length := by
    rw [hVe]; simp
  have hidx : ∀ v ∈ e.corners,
      indexIn this.m_Vertices.length (firstOccurrences e.corners) v =
        this.m_Vertices.length + (firstOccurrences e.corners).indexOf v := by
    intro v hv
    have hlt : (firstOccurrences e.corners).indexOf v < (firstOccurrences e.corners).length :=
      List.indexOf_lt_length.2 ((hmem v).2 hv)
    unfold indexIn
    exact Nat.mod_eq_of_lt (by omega)
  have hentry : ∀ (k : Nat) (v : SceneVertex), e.corners[k]? = some v →
      e.scene.m_Indices[this.m_Indices.length + k]? =
        some (this.m_Vertices.length + (firstOccurrences e.corners).indexOf v) := by
    intro k v hk
    rw [hIe, List.getElem?_append_right (by omega), Nat.add_sub_cancel_left,
      List.getElem?_map, hk, Option.map_some', hidx v (List.getElem?_mem hk)]
  have hnew : ∀ (k : Nat) (vertex : SceneVertex), e.corners[k]? = some vertex →
      vertex ∉ e.corners.take k →
      e.scene.m_Indices[this.m_Indices.length + k]? =
        some (this.m_Vertices.length + (firstOccurrences (e.corners.take k)).length) ∧
      e.scene.m_Vertices[this.m_Vertices.length +
        (firstOccurrences (e.corners.take k)).length]? = some vertex.toVertexData := by
    intro k vertex hk hnot
    obtain ⟨T, hT⟩ := firstOccurrences_split e.corners k vertex hk hnot
    have hnotD : vertex ∉ firstOccurrences (e.corners.take k) :=
      fun hh => hnot ((firstOccurrences_spec _).2 vertex |>.1 hh)
    constructor
    · rw [hentry k vertex hk, hT, List.indexOf_append_of_not_mem hnotD,
        List.indexOf_cons_self]
      rfl
    · rw [hVe, List.getElem?_append_right (by omega), Nat.add_sub_cancel_left, hT,
        List.map_append, List.getElem?_append_right (by simp)]
      simp
  refine ⟨by simp [AddGeometryToScene, h], hVe, hnew, ?_⟩
  intro hpre k i hki
  have hklt : k < e.corners.length := by
    have := (List.getElem?_eq_some.1 hki).1
    rw [hIe, List.length_append, List.length_map] at this
    omega
  have hk : e.corners[k]? = some e.corners[k] := List.getElem?_eq_getElem hklt
  by_cases hold : e.corners[k] ∈ e.corners.take k
  · obtain ⟨j, hj⟩ := List.mem_iff_getElem?.1 hold
    rw [List.getElem?_take] at hj
    by_cases hjk : j < k
    · simp only [hjk, if_true] at hj
      right
      refine ⟨this.m_Indices.length + j, i, by omega, ?_, by omega⟩
      rw [hentry j _ hj, ← hentry k _ hk]
      exact hki
    · simp [hjk] at hj
  · obtain ⟨hi, _⟩ := hnew k _ hk hold
    rw [hki, Option.some.injEq] at hi
    rcases List.eq_nil_or_concat (firstOccurrences (e.corners.take k)) with hnil | ⟨init, w, hw⟩
    rotate_left
    · rw [List.concat_eq_append] at hw
      right
      have hwmem : w ∈ firstOccurrences (e.corners.take k) := by
        rw [hw]; simp
      have hwc := ((firstOccurrences_spec (e.corners.take k)).2 w).1 hwmem
      obtain ⟨j, hj⟩ := List.mem_iff_getElem?.1 hwc
      rw [List.getElem?_take] at hj
      by_cases hjk : j < k
      · simp only [hjk, if_true] at hj
        obtain ⟨T, hT⟩ := firstOccurrences_prefix (e.corners.take k) (e.corners.drop k)
        rw [List.take_append_drop] at hT
        have hnd2 := (firstOccurrences_spec (e.corners.take k)).1
        rw [hw] at hnd2
        have hlast := indexOf_concat_self init w hnd2
        refine ⟨this.m_Indices.length + j, _, by omega, hentry j _ hj, ?_⟩
        rw [hT, List.indexOf_append_of_mem hwmem, hi, hw, hlast]
        simp
        omega
      · simp [hjk] at hj
    · rw [hnil] at hi
      simp only [List.length_nil, Nat.add_zero] at hi
      rcases hpre with h0 | ⟨i0, hmem0, hle⟩
      · left
        rw [hi, h0]
        rfl
      · right
        obtain ⟨j0, hj0⟩ := List.mem_iff_getElem?.1 hmem0
        have hj0lt := (List.getElem?_eq_some.1 hj0).1
        refine ⟨j0, i0, by omega, ?_, by omega⟩
        rw [hIe, List.getElem?_append_left hj0lt]
        exact hj0

/-! ## A read outside the arrays gives no result -/

theorem foldlM_option_none {α β : Type} (f : β → α → Option β) (l : List α) (a : α)
    (ha : a ∈ l) (h : ∀ b, f b a = none) : ∀ b, l.foldlM f b = none := by
  induction l with
  | nil => cases ha
  | cons x l ih =>
    intro b
    simp only [List.foldlM_cons]
    cases hx : f b x with
    | none => rfl
    | some b1 =>
      simp only [Option.bind_eq_bind, Option.some_bind]
      rcases List.mem_cons.1 ha with rfl | hmem
      · rw [h b] at hx; cases hx
      · exact ih hmem b1

theorem attribIndex_of_negative (i : Int) (k : Nat) (h0 : i < 0) (h1 : -2 ^ 31 ≤ i)
    (hk : k ≤ 2) : 2 ^ 63 ≤ attribIndex 3 i k := by
  unfold attribIndex size_t
  have h2 : (i % 2 ^ 64).toNat = 2 ^ 64 - (-i).toNat := by omega
  rw [h2]
  have hm1 : 1 ≤ (-i).toNat := by omega
  have hm2 : (-i).toNat ≤ 2 ^ 31 := by omega
  generalize (-i).toNat = m at hm1 hm2
  have e : 3 * (2 ^ 64 - m) + k = (2 ^ 64 - 3 * m + k) + 2 * 2 ^ 64 := by omega
  rw [e, Nat.add_mul_mod_self_right, Nat.mod_eq_of_lt (by omega)]
  omega

/-- When the positions of a triple are read, its vertex index is inside the array. -/
theorem vertexPosition_inBounds (attribs : attrib_t) (idx : index_t) (p : float3)
    (hint : IsInt idx.vertex_index) (hlen : attribs.vertices.length < 2 ^ 63)
    (h : vertexPosition attribs idx = some p) :
    0 ≤ idx.vertex_index ∧ 3 * idx.vertex_index + 2 < attribs.vertices.length := by
  unfold vertexPosition at h
  cases hx : attribs.vertices[attribIndex 3 idx.vertex_index 0]? with
  | none => simp [hx] at h
  | some px =>
  cases hy : attribs.vertices[attribIndex 3 idx.vertex_index 1]? with
  | none => simp [hx, hy] at h
  | some py =>
  cases hz : attribs.vertices[attribIndex 3 idx.vertex_index 2]? with
  | none => simp [hx, hy, hz] at h
  | some pz =>
    have hx1 := (List.getElem?_eq_some.1 hx).1
    have hz1 := (List.getElem?_eq_some.1 hz).1
    have h0 : 0 ≤ idx.vertex_index := by
      by_contra hneg
      have := attribIndex_of_negative idx.vertex_index 0 (by omega) hint.1 (by omega)
      omega
    have he := attribIndex_of_int 3 idx.vertex_index 2 h0 hint.2 (by omega) (by omega)
    rw [he] at hz1
    refine ⟨h0, ?_⟩
    have : ((3 * idx.vertex_index.toNat + 2 : Nat) : Int) < attribs.vertices.length := by
      exact_mod_cast hz1
    have h3 : (idx.vertex_index.toNat : Int) = idx.vertex_index := Int.toNat_of_nonneg h0
    push_cast at this
    omega

/-- When a corner is built, its index triple is in bounds. -/
theorem readVertex_inBounds (attribs : attrib_t) (idx : index_t) (vertex : SceneVertex)
    (hv : IsInt idx.vertex_index) (hn : IsInt idx.normal_index)
    (ht : IsInt idx.texcoord_index) (hlen : attribs.vertices.length < 2 ^ 63)
    (h : readVertex attribs idx = some vertex) : IndexInBounds attribs idx := by
  obtain ⟨h1, h2, h3, h4, _, h6, _⟩ := readVertex_some attribs idx vertex h
  have hp : vertexPosition attribs idx = some vertex.position := by
    simp [vertexPosition, h1, h2, h3]
  obtain ⟨a, b⟩ := vertexPosition_inBounds attribs idx _ hv hlen hp
  refine ⟨a, b, ?_, ?_⟩
  · intro h0
    have hz1 := (List.getElem?_eq_some.1 (h4 h0).2.2).1
    have he := attribIndex_of_int 3 idx.normal_index 2 h0 hn.2 (by omega) (by omega)
    rw [he] at hz1
    have : ((3 * idx.normal_index.toNat + 2 : Nat) : Int) < attribs.normals.length := by
      exact_mod_cast hz1
    have h3 : (idx.normal_index.toNat : Int) = idx.normal_index := Int.toNat_of_nonneg h0
    push_cast at this
    omega
  · intro h0
    obtain ⟨u, v, _, hv2, _⟩ := h6 h0
    have hz1 := (List.getElem?_eq_some.1 hv2).1
    have he := attribIndex_of_int 2 idx.texcoord_index 1 h0 ht.2 (by omega) (by omega)
    rw [he] at hz1
    have : ((2 * idx.texcoord_index.toNat + 1 : Nat) : Int) < attribs.texcoords.length := by
      exact_mod_cast hz1
    have h3 : (idx.texcoord_index.toNat : Int) = idx.texcoord_index := Int.toNat_of_nonneg h0
    push_cast at this
    omega


/-- A corner that cannot be built anywhere among the entries of the triangle faces ends
the face loop without a result. -/
theorem meshFaces_none_of_corner (hash : SceneVertex → Nat) (attribs : attrib_t)
    (mesh : mesh_t) (fvs : List Nat) (htri : ∀ fv ∈ fvs, fv = 3) :
    ∀ (f index_offset j : Nat) (e : Extraction), j < fvs.sum →
      cornerAt attribs mesh (index_offset + j) = none →
      meshFaces hash attribs mesh fvs f index_offset e = none := by
  induction fvs with
  | nil => intro f index_offset j e hj; simp at hj
  | cons fv rest ih =>
    intro f index_offset j e hj hc
    have hfv : fv = 3 := htri fv (List.mem_cons_self _ _)
    subst hfv
    simp only [List.sum_cons] at hj
    by_cases hj3 : j < 3
    · have hfold : (List.range 3).foldlM (meshCorner hash attribs mesh index_offset) e = none :=
        foldlM_option_none _ _ j (List.mem_range.2 hj3)
          (fun b => by simp [meshCorner, hc]) e
      simp [meshFaces, meshFace, hfold]
    · cases hr : meshFace hash attribs mesh f 3 index_offset e with
      | none => simp [meshFaces, hr]
      | some r =>
        obtain ⟨_, _, _, _, _, _, _, _, rfl⟩ :=
          meshFace_three hash attribs mesh f index_offset e r hr
        simp only [meshFaces, hr, Option.bind_eq_bind, Option.some_bind]
        apply ih (fun fv h => htri fv (List.mem_cons_of_mem _ h)) (f + 1) (index_offset + 3)
          (j - 3) _ (by omega)
        have e1 : index_offset + 3 + (j - 3) = index_offset + j := by omega
        rw [e1]
        exact hc

/-- A position that cannot be read anywhere among the entries of the faces of a box ends
the face loop without a result. -/
theorem blockFaces_none_of_entry (attribs : attrib_t) (mesh : mesh_t) (fvs : List Nat) :
    ∀ (index_offset j : Nat) (aabb : AABB), j < fvs.sum →
      (mesh.indices[index_offset + j]?).bind (vertexPosition attribs) = none →
      blockFaces attribs mesh fvs index_offset aabb = none := by
  induction fvs with
  | nil => intro index_offset j aabb hj; simp at hj
  | cons fv rest ih =>
    intro index_offset j aabb hj hc
    simp only [List.sum_cons] at hj
    by_cases hjfv : j < fv
    · have hstep : ∀ b, growAABB attribs mesh index_offset b j = none := by
        intro b
        rw [growAABB_eq]
        cases hi : mesh.indices[index_offset + j]? with
        | none => rfl
        | some idx =>
          rw [hi] at hc
          simp only [Option.some_bind] at hc ⊢
          rw [hc]
          rfl
      have hfold : (List.range fv).foldlM (growAABB attribs mesh index_offset) aabb = none :=
        foldlM_option_none _ _ j (List.mem_range.2 hjfv) hstep aabb
      simp [blockFaces, hfold]
    · cases hr : (List.range fv).foldlM (growAABB attribs mesh index_offset) aabb with
      | none => simp [blockFaces, hr]
      | some aabb1 =>
        simp only [blockFaces, hr, Option.bind_eq_bind, Option.some_bind]
        apply ih (index_offset + fv) (j - fv) aabb1 (by omega)
        have e1 : index_offset + fv + (j - fv) = index_offset + j := by omega
        rw [e1]
        exact hc

/-- A shape with an entry that points outside the arrays gives no result, whatever the
state of the loops. -/
theorem addShape_none_of_out_of_bounds (hash : SceneVertex → Nat) (attribs : attrib_t)
    (shape : shape_t) (hlen : attribs.vertices.length < 2 ^ 63)
    (htri : shape.mesh.num_face_vertices.length ≠ 12 →
      ∀ fv ∈ shape.mesh.num_face_vertices, fv = 3)
    (hout : ReferencesOutOfBounds attribs shape) (e : Extraction) :
    addShape hash attribs e shape = none := by
  obtain ⟨k, idx, hk, hidx, hv, hn, ht, hbad⟩ := hout
  unfold addShape
  by_cases h12 : shape.mesh.num_face_vertices.length = 12
  · simp only [h12, if_true] at hbad ⊢
    have hpos : vertexPosition attribs idx = none := by
      cases hp : vertexPosition attribs idx with
      | none => rfl
      | some p => exact absurd (vertexPosition_inBounds attribs idx p hv hlen hp) hbad
    have := blockFaces_none_of_entry attribs shape.mesh shape.mesh.num_face_vertices 0 k
      initialAABB hk (by rw [Nat.zero_add, hidx]; exact hpos)
    simp [this]
  · simp only [h12, if_false] at hbad ⊢
    have hread : readVertex attribs idx = none := by
      cases hp : readVertex attribs idx with
      | none => rfl
      | some vertex => exact absurd (readVertex_inBounds attribs idx vertex hv hn ht hlen hp) hbad
    exact meshFaces_none_of_corner hash attribs shape.mesh _ (htri h12) 0 0 k e hk
      (by simp [cornerAt, hidx, hread])

/-- The loop of a box reads the position of a face vertex when its vertex index is inside
the position array, whatever the other two indices are. -/
theorem growAABB_isSome_of_position (attribs : attrib_t) (mesh : mesh_t)
    (index_offset v : Nat) (aabb : AABB) (hlt : index_offset + v < mesh.indices.length)
    (hidx : ∀ idx ∈ mesh.indices,
      0 ≤ idx.vertex_index ∧ 3 * idx.vertex_index + 2 < attribs.vertices.length) :
    (growAABB attribs mesh index_offset aabb v).isSome := by
  obtain ⟨idx, hi, hmem⟩ := getElem?_of_lt mesh.indices _ hlt
  have hb : IndexInBounds attribs (positionOnly idx.vertex_index) :=
    ⟨(hidx idx hmem).1, (hidx idx hmem).2,
      fun h => absurd (show (0 : Int) ≤ -1 from h) (by decide),
      fun h => absurd (show (0 : Int) ≤ -1 from h) (by decide)⟩
  obtain ⟨vx, hx⟩ := vertices_read attribs _ hb 0 (by omega)
  obtain ⟨vy, hy⟩ := vertices_read attribs _ hb 1 (by omega)
  obtain ⟨vz, hz⟩ := vertices_read attribs _ hb 2 (by omega)
  simp only [positionOnly] at hx hy hz
  simp [growAABB, hi, hx, hy, hz]

theorem blockFaces_isSome_of_positions (attribs : attrib_t) (mesh : mesh_t)
    (hidx : ∀ idx ∈ mesh.indices,
      0 ≤ idx.vertex_index ∧ 3 * idx.vertex_index + 2 < attribs.vertices.length)
    (fvs : List Nat) :
    ∀ (index_offset : Nat) (aabb : AABB), index_offset + fvs.sum ≤ mesh.indices.length →
      (blockFaces attribs mesh fvs index_offset aabb).isSome := by
  induction fvs with
  | nil => intro index_offset aabb _; simp [blockFaces]
  | cons fv rest ih =>
    intro index_offset aabb hsum
    simp only [List.sum_cons] at hsum
    have hfold : ((List.range fv).foldlM (growAABB attribs mesh index_offset) aabb).isSome := by
      apply foldlM_option_isSome
      intro b v hv
      exact growAABB_isSome_of_position attribs mesh index_offset v b
        (by have := List.mem_range.1 hv; omega) hidx
    obtain ⟨aabb', h'⟩ := Option.isSome_iff_exists.1 hfold
    simp only [blockFaces, h', Option.bind_eq_bind, Option.some_bind]
    exact ih (index_offset + fv) aabb' (by omega)

/-- A box whose vertex indices are inside the position array is extracted, whatever its
normal and texcoord indices are. -/
theorem addShape_block_isSome_of_positions (hash : SceneVertex → Nat) (attribs : attrib_t)
    (e : Extraction) (shape : shape_t) (h12 : shape.mesh.num_face_vertices.length = 12)
    (hlen : shape.mesh.indices.length = shape.mesh.num_face_vertices.sum)
    (hmat : shape.mesh.material_ids.length = shape.mesh.num_face_vertices.length)
    (hidx : ∀ idx ∈ shape.mesh.indices,
      0 ≤ idx.vertex_index ∧ 3 * idx.vertex_index + 2 < attribs.vertices.length) :
    (addShape hash attribs e shape).isSome := by
  obtain ⟨aabb, hb⟩ := Option.isSome_iff_exists.1
    (blockFaces_isSome_of_positions attribs shape.mesh hidx shape.mesh.num_face_vertices 0
      initialAABB (by omega))
  obtain ⟨mats, hm⟩ := Option.isSome_iff_exists.1
    (blockMaterials_isSome shape.mesh (by omega))
  unfold addShape
  simp [h12, hb, hm]

/-! ## C24 -/

/-- C24, as stated: a parse that succeeded, with one material and one triangle whose
third corner has vertex index 11 while the position array has 11 entries (0 to 10).
`LoadScene` does not return false: the corner is read outside the array, and the call
has no defined result. -/
theorem out_of_bounds_index_is_not_detected :
    brokenReader.valid = true ∧ brokenReader.materials ≠ [] ∧
    brokenShape ∈ brokenReader.shapes ∧ positionOnly 11 ∈ brokenShape.mesh.indices ∧
    ¬ IndexInBounds brokenReader.attrib (positionOnly 11) ∧
    sceneAttribs.vertices[attribIndex 3 (positionOnly 11).vertex_index 0]? = none ∧
    AddGeometryToScene constantHash brokenReader.attrib brokenReader.shapes {} = none ∧
    LoadScene constantHash brokenReader {} = none ∧
    ¬ ∃ s' calls, LoadScene constantHash brokenReader {} = some (false, s', calls) := by
  have h : LoadScene constantHash brokenReader {} = none := by decide
  refine ⟨rfl, by decide, by decide, by decide, by decide, by decide, by decide, h, ?_⟩
  rintro ⟨s', calls, hs⟩
  rw [h] at hs
  cases hs

/-- C24, amended: the loader makes no bounds check, and `LoadScene` returns false only
when the parse step failed or the material list is empty. When the parse succeeded with a
material and a shape has, among the index entries of its faces, one that the extraction
reads and that points outside its attribute array, the array is read out of bounds: the
extraction has no defined result and neither has `LoadScene`, which does not return
false. The entries read are: for a shape of 12 faces (a box) the vertex index of each
face vertex; for another shape, when all its faces are triangles, the vertex index of
each corner and its normal and texcoord index when they are not negative. The indices
are C `int`s and the position array has fewer than `2 ^ 63` entries. The normal and
texcoord indices of a box are never read: a box whose vertex indices are inside the
position array is extracted whatever they are. When every shape is well formed the
extraction has a result. -/
theorem out_of_bounds_index_is_read (hash : SceneVertex → Nat) (reader : ObjReader)
    (this : Scene) :
    (∀ s' calls, LoadScene hash reader this = some (false, s', calls) →
      reader.valid = false ∨ reader.materials = []) ∧
    (reader.valid = true → reader.materials ≠ [] →
      reader.attrib.vertices.length < 2 ^ 63 →
      ∀ shape ∈ reader.shapes,
        (shape.mesh.num_face_vertices.length ≠ 12 →
          ∀ fv ∈ shape.mesh.num_face_vertices, fv = 3) →
        ReferencesOutOfBounds reader.attrib shape →
        AddGeometryToScene hash reader.attrib reader.shapes this = none ∧
        LoadScene hash reader this = none ∧
        ¬ ∃ b s' calls, LoadScene hash reader this = some (b, s', calls)) ∧
    (∀ (shape : shape_t) (e : Extraction), shape.mesh.num_face_vertices.length = 12 →
      shape.mesh.indices.length = shape.mesh.num_face_vertices.sum →
      shape.mesh.material_ids.length = shape.mesh.num_face_vertices.length →
      (∀ idx ∈ shape.mesh.indices,
        0 ≤ idx.vertex_index ∧ 3 * idx.vertex_index + 2 < reader.attrib.vertices.length) →
      (addShape hash reader.attrib e shape).isSome) ∧
    ((∀ shape ∈ reader.shapes, WellFormedShape reader.attrib shape) →
      (AddGeometryToScene hash reader.attrib reader.shapes this).isSome) := by
  refine ⟨fun s' calls h => (LoadScene_false hash reader this s' calls h).1, ?_, ?_, ?_⟩
  · intro hv hm hlen shape hshape htri hout
    have hex : extractGeometry hash reader.attrib reader.shapes this = none :=
      foldlM_option_none _ _ shape hshape
        (addShape_none_of_out_of_bounds hash reader.attrib shape hlen htri hout) _
    have hgeo : AddGeometryToScene hash reader.attrib reader.shapes this = none := by
      simp [AddGeometryToScene, hex]
    have hne : reader.materials.isEmpty = false := by
      cases hl : reader.materials with
      | nil => exact absurd hl hm
      | cons a l => rfl
    have hload : LoadScene hash reader this = none := by
      simp [LoadScene, hv, hne, hgeo]
    refine ⟨hgeo, hload, ?_⟩
    rintro ⟨b, s', calls, hs⟩
    rw [hload] at hs
    cases hs
  · intro shape e h12 hlen hmat hidx
    exact addShape_block_isSome_of_positions hash reader.attrib e shape h12 hlen hmat hidx
  · intro hwf
    simp only [AddGeometryToScene, Option.isSome_map']
    exact extractGeometry_isSome hash reader.attrib reader.shapes this hwf

/-- Witness of C24, amended: the triangle with the vertex index 11 is read out of bounds,
and the box with normal index 7 and texcoord index 9 is extracted. -/
theorem out_of_bounds_index_is_read_witness :
    ReferencesOutOfBounds brokenReader.attrib brokenShape ∧
    LoadScene constantHash brokenReader {} = none ∧
    (∀ idx ∈ strayNormalBlock.mesh.indices, ¬ IndexInBounds brokenReader.attrib idx) ∧
    (addShape constantHash brokenReader.attrib freshExtraction strayNormalBlock).isSome :=
  have hout : ReferencesOutOfBounds brokenReader.attrib brokenShape :=
    ⟨2, positionOnly 11, by decide, rfl, by decide, by decide, by decide, by decide⟩
  have h := out_of_bounds_index_is_read constantHash brokenReader {}
  ⟨hout, (h.2.1 rfl (by decide) (by decide) brokenShape (by decide) (fun _ => by decide)
      hout).2.1,
    by decide,
    h.2.2.1 strayNormalBlock freshExtraction rfl rfl rfl (by decide)⟩

/-! ## On numbers, the extraction over every value of `float` is the one over numbers -/

theorem ofVertex_injective : Function.Injective ofVertex := by
  intro a b h
  obtain ⟨⟨px, py, pz⟩, ⟨nx, ny, nz⟩, ⟨u, v⟩⟩ := a
  obtain ⟨⟨px', py', pz'⟩, ⟨nx', ny', nz'⟩, ⟨u', v'⟩⟩ := b
  simp only [ofVertex, ofFloat3, ofFloat2, Ieee.SceneVertex.mk.injEq, Ieee.float3.mk.injEq,
    Ieee.float2.mk.injEq, Ieee.float.number.injEq] at h
  simp only [SceneVertex.mk.injEq, float3.mk.injEq, float2.mk.injEq]
  exact h

theorem eq_ofVertex (a b : SceneVertex) :
    Ieee.SceneVertex.eq (ofVertex a) (ofVertex b) = SceneVertex.eq a b := rfl

theorem toVertexData_ofVertex (v : SceneVertex) :
    (ofVertex v).toVertexData = ofVertexData v.toVertexData := rfl

theorem chainFind_ofVertex (c : List (SceneVertex × Nat)) (k : SceneVertex) :
    Ieee.UnorderedMap.chainFind (c.map (fun p => (ofVertex p.1, p.2))) (ofVertex k) =
      UnorderedMap.chainFind c k := by
  induction c with
  | nil => rfl
  | cons p rest ih =>
    obtain ⟨k', v⟩ := p
    simp only [List.map_cons, Ieee.UnorderedMap.chainFind, UnorderedMap.chainFind, eq_ofVertex,
      ih]

theorem chainSet_ofVertex (c : List (SceneVertex × Nat)) (k : SceneVertex) (v : Nat) :
    Ieee.UnorderedMap.chainSet (c.map (fun p => (ofVertex p.1, p.2))) (ofVertex k) v =
      (UnorderedMap.chainSet c k v).map (fun p => (ofVertex p.1, p.2)) := by
  induction c with
  | nil => rfl
  | cons p rest ih =>
    obtain ⟨k', v'⟩ := p
    simp only [List.map_cons, Ieee.UnorderedMap.chainSet, UnorderedMap.chainSet, eq_ofVertex,
      ih]
    split_ifs <;> rfl

theorem find?_ofMap (hash : Ieee.SceneVertex → Nat) (m : UnorderedMap) (k : SceneVertex) :
    (ofMap m).find? hash (ofVertex k) = m.find? (fun v => hash (ofVertex v)) k := by
  simp only [Ieee.UnorderedMap.find?, UnorderedMap.find?, ofMap, chainFind_ofVertex]

theorem count_ofMap (hash : Ieee.SceneVertex → Nat) (m : UnorderedMap) (k : SceneVertex) :
    (ofMap m).count hash (ofVertex k) = m.count (fun v => hash (ofVertex v)) k := by
  simp only [Ieee.UnorderedMap.count, UnorderedMap.count, find?_ofMap]

theorem set_ofMap (hash : Ieee.SceneVertex → Nat) (m : UnorderedMap) (k : SceneVertex)
    (v : Nat) :
    (ofMap m).set hash (ofVertex k) v = ofMap (m.set (fun v => hash (ofVertex v)) k v) := by
  simp only [Ieee.UnorderedMap.set, UnorderedMap.set, ofMap, Ieee.UnorderedMap.mk.injEq]
  funext h
  split_ifs
  · exact chainSet_ofVertex _ k v
  · rfl

theorem get_ofMap (hash : Ieee.SceneVertex → Nat) (m : UnorderedMap) (k : SceneVertex) :
    (ofMap m).get hash (ofVertex k) =
      ((m.get (fun v => hash (ofVertex v)) k).1,
        ofMap (m.get (fun v => hash (ofVertex v)) k).2) := by
  simp only [Ieee.UnorderedMap.get, UnorderedMap.get, find?_ofMap]
  cases m.find? (fun v => hash (ofVertex v)) k with
  | none => simp only [set_ofMap]
  | some i => rfl

theorem addVertex_ofExtraction (hash : Ieee.SceneVertex → Nat) (e : Extraction)
    (v : SceneVertex) :
    Ieee.addVertex hash (ofExtraction e) (ofVertex v) =
      ofExtraction (addVertex (fun v => hash (ofVertex v)) e v) := by
  by_cases hc : e.uniqueVertices.count (fun v => hash (ofVertex v)) v = 0
  · simp only [Ieee.addVertex, addVertex, ofExtraction, count_ofMap, hc, if_true, set_ofMap,
      get_ofMap, ofScene, List.map_append, List.map_cons, List.map_nil, List.length_map,
      toVertexData_ofVertex]
  · simp only [Ieee.addVertex, addVertex, ofExtraction, count_ofMap, hc, if_false, get_ofMap,
      ofScene]

theorem readVertex_ofAttribs (attribs : attrib_t) (idx : index_t) :
    Ieee.readVertex (ofAttribs attribs) idx = (readVertex attribs idx).map ofVertex := by
  unfold Ieee.readVertex readVertex ofAttribs
  simp only [List.getElem?_map]
  cases attribs.vertices[attribIndex 3 idx.vertex_index 0]? with
  | none => rfl
  | some px =>
  cases attribs.vertices[attribIndex 3 idx.vertex_index 1]? with
  | none => rfl
  | some py =>
  cases attribs.vertices[attribIndex 3 idx.vertex_index 2]? with
  | none => rfl
  | some pz =>
  simp only [Option.map_some', Option.bind_eq_bind, Option.some_bind, Option.pure_def]
  by_cases hn : idx.normal_index ≥ 0
  · simp only [hn, if_true]
    cases attribs.normals[attribIndex 3 idx.normal_index 0]? with
    | none => rfl
    | some nx =>
    cases attribs.normals[attribIndex 3 idx.normal_index 1]? with
    | none => rfl
    | some ny =>
    cases attribs.normals[attribIndex 3 idx.normal_index 2]? with
    | none => rfl
    | some nz =>
    simp only [Option.map_some', Option.some_bind]
    by_cases ht : idx.texcoord_index ≥ 0
    · simp only [ht, if_true]
      cases attribs.texcoords[attribIndex 2 idx.texcoord_index 0]? with
      | none => rfl
      | some u =>
      cases attribs.texcoords[attribIndex 2 idx.texcoord_index 1]? with
      | none => rfl
      | some v => rfl
    · simp only [ht, if_false]
      rfl
  · simp only [hn, if_false, Option.some_bind]
    by_cases ht : idx.texcoord_index ≥ 0
    · simp only [ht, if_true]
      cases attribs.texcoords[attribIndex 2 idx.texcoord_index 0]? with
      | none => rfl
      | some u =>
      cases attribs.texcoords[attribIndex 2 idx.texcoord_index 1]? with
      | none => rfl
      | some v => rfl
    · simp only [ht, if_false]
      rfl

theorem cornerAt_ofAttribs (attribs : attrib_t) (mesh : mesh_t) (i : Nat) :
    Ieee.cornerAt (ofAttribs attribs) mesh i = (cornerAt attribs mesh i).map ofVertex := by
  unfold Ieee.cornerAt cornerAt
  cases mesh.indices[i]? with
  | none => rfl
  | some idx => exact readVertex_ofAttribs attribs idx

theorem foldlM_map_option {α β γ : Type} (g : β → γ) (f : β → α → Option β)
    (f' : γ → α → Option γ) (h : ∀ b a, f' (g b) a = (f b a).map g) (l : List α) :
    ∀ b, l.foldlM f' (g b) = (l.foldlM f b).map g := by
  induction l with
  | nil => intro b; rfl
  | cons a l ih =>
    intro b
    simp only [List.foldlM_cons, h b a]
    cases f b a with
    | none => rfl
    | some b1 => exact ih b1

theorem meshCorner_ofExtraction (hash : Ieee.SceneVertex → Nat) (attribs : attrib_t)
    (mesh : mesh_t) (index_offset : Nat) (e : Extraction) (v : Nat) :
    Ieee.meshCorner hash (ofAttribs attribs) mesh index_offset (ofExtraction e) v =
      (meshCorner (fun v => hash (ofVertex v)) attribs mesh index_offset e v).map
        ofExtraction := by
  unfold Ieee.meshCorner meshCorner
  rw [cornerAt_ofAttribs]
  cases cornerAt attribs mesh (index_offset + v) with
  | none => rfl
  | some vertex => exact congrArg some (addVertex_ofExtraction hash e vertex)

theorem pushTriangle_ofExtraction (e : Extraction) (matID : Int) :
    Ieee.pushTriangle (ofExtraction e) matID = ofExtraction (pushTriangle e matID) := rfl

theorem meshFace_ofExtraction (hash : Ieee.SceneVertex → Nat) (attribs : attrib_t)
    (mesh : mesh_t) (f fv index_offset : Nat) (e : Extraction) :
    Ieee.meshFace hash (ofAttribs attribs) mesh f fv index_offset (ofExtraction e) =
      (meshFace (fun v => hash (ofVertex v)) attribs mesh f fv index_offset e).map
        (fun r => (r.1, ofExtraction r.2)) := by
  unfold Ieee.meshFace meshFace
  by_cases hfv : fv ≠ 3
  · rw [if_pos hfv, if_pos hfv]
    rfl
  · rw [if_neg hfv, if_neg hfv]
    rw [foldlM_map_option ofExtraction
      (meshCorner (fun v => hash (ofVertex v)) attribs mesh index_offset)
      (Ieee.meshCorner hash (ofAttribs attribs) mesh index_offset)
      (fun b a => meshCorner_ofExtraction hash attribs mesh index_offset b a)]
    cases (List.range fv).foldlM
      (meshCorner (fun v => hash (ofVertex v)) attribs mesh index_offset) e with
    | none => rfl
    | some e1 =>
      cases mesh.material_ids[f]? with
      | none => rfl
      | some matID => rfl

theorem meshFaces_ofExtraction (hash : Ieee.SceneVertex → Nat) (attribs : attrib_t)
    (mesh : mesh_t) (fvs : List Nat) :
    ∀ (f index_offset : Nat) (e : Extraction),
      Ieee.meshFaces hash (ofAttribs attribs) mesh fvs f index_offset (ofExtraction e) =
        (meshFaces (fun v => hash (ofVertex v)) attribs mesh fvs f index_offset e).map
          ofExtraction := by
  induction fvs with
  | nil => intro f index_offset e; rfl
  | cons fv rest ih =>
    intro f index_offset e
    simp only [Ieee.meshFaces, meshFaces, meshFace_ofExtraction]
    cases meshFace (fun v => hash (ofVertex v)) attribs mesh f fv index_offset e with
    | none => rfl
    | some r => exact ih (f + 1) r.1 r.2

theorem readBoxVertex_ofAttribs (attribs : attrib_t) (mesh : mesh_t) (index_offset : Nat)
    (aabb : AABB) (v : Nat) :
    Ieee.readBoxVertex (ofAttribs attribs) mesh index_offset () v =
      (growAABB attribs mesh index_offset aabb v).map (fun _ => ()) := by
  unfold Ieee.readBoxVertex growAABB ofAttribs
  simp only [List.getElem?_map]
  cases mesh.indices[index_offset + v]? with
  | none => rfl
  | some idx =>
  simp only [Option.bind_eq_bind, Option.some_bind]
  cases attribs.vertices[attribIndex 3 idx.vertex_index 0]? with
  | none => rfl
  | some px =>
  cases attribs.vertices[attribIndex 3 idx.vertex_index 1]? with
  | none => rfl
  | some py =>
  cases attribs.vertices[attribIndex 3 idx.vertex_index 2]? with
  | none => rfl
  | some pz => rfl

theorem foldlM_readBoxVertex (attribs : attrib_t) (mesh : mesh_t) (index_offset : Nat)
    (l : List Nat) :
    ∀ aabb : AABB, l.foldlM (Ieee.readBoxVertex (ofAttribs attribs) mesh index_offset) () =
      (l.foldlM (growAABB attribs mesh index_offset) aabb).map (fun _ => ()) := by
  induction l with
  | nil => intro aabb; rfl
  | cons v l ih =>
    intro aabb
    simp only [List.foldlM_cons, readBoxVertex_ofAttribs attribs mesh index_offset aabb v]
    cases growAABB attribs mesh index_offset aabb v with
    | none => rfl
    | some aabb1 => exact ih aabb1

theorem blockFaces_ofAttribs (attribs : attrib_t) (mesh : mesh_t) (fvs : List Nat) :
    ∀ (index_offset : Nat) (aabb : AABB),
      Ieee.blockFaces (ofAttribs attribs) mesh fvs index_offset =
        (blockFaces attribs mesh fvs index_offset aabb).map (fun _ => ()) := by
  induction fvs with
  | nil => intro index_offset aabb; rfl
  | cons fv rest ih =>
    intro index_offset aabb
    simp only [Ieee.blockFaces, blockFaces,
      foldlM_readBoxVertex attribs mesh index_offset (List.range fv) aabb]
    cases (List.range fv).foldlM (growAABB attribs mesh index_offset) aabb with
    | none => rfl
    | some aabb1 => exact ih (index_offset + fv) aabb1

theorem addShape_ofExtraction (hash : Ieee.SceneVertex → Nat) (attribs : attrib_t)
    (e : Extraction) (shape : shape_t) :
    Ieee.addShape hash (ofAttribs attribs) (ofExtraction e) shape =
      (addShape (fun v => hash (ofVertex v)) attribs e shape).map ofExtraction := by
  unfold Ieee.addShape addShape
  by_cases h12 : shape.mesh.num_face_vertices.length = 12
  · simp only [h12, if_true,
      blockFaces_ofAttribs attribs shape.mesh shape.mesh.num_face_vertices 0 initialAABB]
    cases blockFaces attribs shape.mesh shape.mesh.num_face_vertices 0 initialAABB with
    | none => rfl
    | some aabb =>
      cases blockMaterials shape.mesh with
      | none => rfl
      | some aabbMaterials => rfl
  · simp only [h12, if_false]
    exact meshFaces_ofExtraction hash attribs shape.mesh _ 0 0 e

theorem extractGeometry_ofScene (hash : Ieee.SceneVertex → Nat) (attribs : attrib_t)
    (shapes : List shape_t) (this : Scene) :
    Ieee.extractGeometry hash (ofAttribs attribs) shapes (ofScene this) =
      (extractGeometry (fun v => hash (ofVertex v)) attribs shapes this).map ofExtraction :=
  foldlM_map_option ofExtraction (addShape (fun v => hash (ofVertex v)) attribs)
    (Ieee.addShape hash (ofAttribs attribs))
    (fun b a => addShape_ofExtraction hash attribs b a) shapes ⟨this, UnorderedMap.empty, []⟩

/-- On a parser output without a NaN, the extraction over every value of `float` is the
extraction over numbers. -/
theorem AddGeometryToScene_ofScene (hash : Ieee.SceneVertex → Nat) (attribs : attrib_t)
    (shapes : List shape_t) (this : Scene) :
    Ieee.AddGeometryToScene hash (ofAttribs attribs) shapes (ofScene this) =
      (AddGeometryToScene (fun v => hash (ofVertex v)) attribs shapes this).map ofScene := by
  unfold Ieee.AddGeometryToScene AddGeometryToScene
  rw [extractGeometry_ofScene]
  cases extractGeometry (fun v => hash (ofVertex v)) attribs shapes this with
  | none => rfl
  | some e => rfl

theorem naiveSearch_ofVertex (D : List SceneVertex) (v : SceneVertex) :
    Ieee.naiveSearch (D.map ofVertex) (ofVertex v) = naiveSearch D v := by
  induction D with
  | nil => rfl
  | cons w D ih =>
    simp only [List.map_cons, Ieee.naiveSearch, naiveSearch, eq_ofVertex, ih]

theorem naiveAddVertex_ofNaiveExtraction (n : NaiveExtraction) (v : SceneVertex) :
    Ieee.naiveAddVertex (ofNaiveExtraction n) (ofVertex v) =
      ofNaiveExtraction (naiveAddVertex n v) := by
  unfold Ieee.naiveAddVertex naiveAddVertex
  simp only [ofNaiveExtraction, naiveSearch_ofVertex]
  cases naiveSearch n.emitted v with
  | none =>
    simp only [ofScene, List.map_append, List.map_cons, List.map_nil, List.length_map,
      toVertexData_ofVertex]
  | some position => rfl

theorem naiveMeshCorner_ofNaiveExtraction (attribs : attrib_t) (mesh : mesh_t)
    (index_offset : Nat) (n : NaiveExtraction) (v : Nat) :
    Ieee.naiveMeshCorner (ofAttribs attribs) mesh index_offset (ofNaiveExtraction n) v =
      (naiveMeshCorner attribs mesh index_offset n v).map ofNaiveExtraction := by
  unfold Ieee.naiveMeshCorner naiveMeshCorner
  rw [cornerAt_ofAttribs]
  cases cornerAt attribs mesh (index_offset + v) with
  | none => rfl
  | some vertex => exact congrArg some (naiveAddVertex_ofNaiveExtraction n vertex)

theorem naiveMeshFace_ofNaiveExtraction (attribs : attrib_t) (mesh : mesh_t)
    (f fv index_offset : Nat) (n : NaiveExtraction) :
    Ieee.naiveMeshFace (ofAttribs attribs) mesh f fv index_offset (ofNaiveExtraction n) =
      (naiveMeshFace attribs mesh f fv index_offset n).map
        (fun r => (r.1, ofNaiveExtraction r.2)) := by
  unfold Ieee.naiveMeshFace naiveMeshFace
  by_cases hfv : fv ≠ 3
  · rw [if_pos hfv, if_pos hfv]
    rfl
  · rw [if_neg hfv, if_neg hfv]
    rw [foldlM_map_option ofNaiveExtraction (naiveMeshCorner attribs mesh index_offset)
      (Ieee.naiveMeshCorner (ofAttribs attribs) mesh index_offset)
      (fun b a => naiveMeshCorner_ofNaiveExtraction attribs mesh index_offset b a)]
    cases (List.range fv).foldlM (naiveMeshCorner attribs mesh index_offset) n with
    | none => rfl
    | some n1 =>
      cases mesh.material_ids[f]? with
      | none => rfl
      | some matID => rfl

theorem naiveMeshFaces_ofNaiveExtraction (attribs : attrib_t) (mesh : mesh_t)
    (fvs : List Nat) :
    ∀ (f index_offset : Nat) (n : NaiveExtraction),
      Ieee.naiveMeshFaces (ofAttribs attribs) mesh fvs f index_offset (ofNaiveExtraction n) =
        (naiveMeshFaces attribs mesh fvs f index_offset n).map ofNaiveExtraction := by
  induction fvs with
  | nil => intro f index_offset n; rfl
  | cons fv rest ih =>
    intro f index_offset n
    simp only [Ieee.naiveMeshFaces, naiveMeshFaces, naiveMeshFace_ofNaiveExtraction]
    cases naiveMeshFace attribs mesh f fv index_offset n with
    | none => rfl
    | some r => exact ih (f + 1) r.1 r.2

theorem naiveAddShape_ofNaiveExtraction (attribs : attrib_t) (n : NaiveExtraction)
    (shape : shape_t) :
    Ieee.naiveAddShape (ofAttribs attribs) (ofNaiveExtraction n) shape =
      (naiveAddShape attribs n shape).map ofNaiveExtraction := by
  unfold Ieee.naiveAddShape naiveAddShape
  by_cases h12 : shape.mesh.num_face_vertices.length = 12
  · simp only [h12, if_true,
      blockFaces_ofAttribs attribs shape.mesh shape.mesh.num_face_vertices 0 initialAABB]
    cases blockFaces attribs shape.mesh shape.mesh.num_face_vertices 0 initialAABB with
    | none => rfl
    | some aabb =>
      cases blockMaterials shape.mesh with
      | none => rfl
      | some aabbMaterials => rfl
  · simp only [h12, if_false]
    exact naiveMeshFaces_ofNaiveExtraction attribs shape.mesh _ 0 0 n

/-- On a parser output without a NaN, the extraction with the naive deduplicator over
every value of `float` is the one over numbers. -/
theorem naiveAddGeometryToScene_ofScene (attribs : attrib_t) (shapes : List shape_t)
    (this : Scene) :
    Ieee.naiveAddGeometryToScene (ofAttribs attribs) shapes (ofScene this) =
      (naiveAddGeometryToScene attribs shapes this).map ofScene := by
  unfold Ieee.naiveAddGeometryToScene naiveAddGeometryToScene
  have h := foldlM_map_option ofNaiveExtraction (naiveAddShape attribs)
    (Ieee.naiveAddShape (ofAttribs attribs))
    (fun b a => naiveAddShape_ofNaiveExtraction attribs b a) shapes
    ⟨this, this.m_Vertices.length, []⟩
  have h0 : ofNaiveExtraction ⟨this, this.m_Vertices.length, []⟩ =
      ⟨ofScene this, (ofScene this).m_Vertices.length, []⟩ := by
    simp [ofNaiveExtraction, ofScene]
  rw [h0] at h
  rw [h]
  cases shapes.foldlM (naiveAddShape attribs) ⟨this, this.m_Vertices.length, []⟩ with
  | none => rfl
  | some n => rfl

/-! ## The corners the loops build are the corner stream -/

theorem meshFaces_corners (hash : SceneVertex → Nat) (attribs : attrib_t) (mesh : mesh_t)
    (fvs : List Nat) :
    ∀ (f index_offset : Nat) (e0 e1 : Extraction),
      meshFaces hash attribs mesh fvs f index_offset e0 = some e1 →
      ∃ cs, e1.corners = e0.corners ++ cs ∧
        Ieee.meshCorners (ofAttribs attribs) mesh fvs index_offset =
          some (cs.map ofVertex) := by
  induction fvs with
  | nil =>
    intro f index_offset e0 e1 h
    simp only [meshFaces, Option.some.injEq] at h
    subst h
    exact ⟨[], by simp, rfl⟩
  | cons fv rest ih =>
    intro f index_offset e0 e1 h
    cases hr : meshFace hash attribs mesh f fv index_offset e0 with
    | none => simp [meshFaces, hr] at h
    | some r =>
      simp only [meshFaces, hr, Option.bind_eq_bind, Option.some_bind] at h
      obtain ⟨cs, hcs, hm⟩ := ih (f + 1) r.1 r.2 e1 h
      by_cases hfv : fv = 3
      · subst hfv
        obtain ⟨v0, v1, v2, matID, h0, h1, h2, _, rfl⟩ :=
          meshFace_three hash attribs mesh f index_offset e0 r hr
        have hc : (pushTriangle (addVertex hash (addVertex hash (addVertex hash e0 v0) v1) v2)
            matID).corners = e0.corners ++ [v0, v1, v2] := by
          show (addVertex hash (addVertex hash (addVertex hash e0 v0) v1) v2).corners = _
          rw [addVertex_corners, addVertex_corners, addVertex_corners]
          simp
        refine ⟨v0 :: v1 :: v2 :: cs, ?_, ?_⟩
        · rw [hcs, hc]; simp
        · simp only [Ieee.meshCorners, ne_eq, not_true_eq_false, if_false, cornerAt_ofAttribs, h0,
            h1, h2, hm, Option.map_some', Option.bind_eq_bind, Option.some_bind, Option.pure_def,
            List.map_cons]
      · rw [meshFace_skip hash attribs mesh f fv index_offset e0 hfv] at hr
        simp only [Option.some.injEq] at hr
        subst hr
        refine ⟨cs, hcs, ?_⟩
        simp only [Ieee.meshCorners, ne_eq, hfv, not_false_eq_true, if_true]
        exact hm

theorem addShape_corners (hash : SceneVertex → Nat) (attribs : attrib_t) (e0 e1 : Extraction)
    (shape : shape_t) (h : addShape hash attribs e0 shape = some e1) :
    ∃ cs, e1.corners = e0.corners ++ cs ∧
      Ieee.shapeCorners (ofAttribs attribs) shape = some (cs.map ofVertex) := by
  by_cases h12 : shape.mesh.num_face_vertices.length = 12
  · obtain ⟨aabb, mats, _, _, rfl⟩ := addShape_block hash attribs e0 e1 shape h12 h
    exact ⟨[], by simp, by simp [Ieee.shapeCorners, h12]⟩
  · unfold addShape at h
    simp only [h12, if_false] at h
    obtain ⟨cs, hcs, hm⟩ := meshFaces_corners hash attribs shape.mesh _ 0 0 e0 e1 h
    exact ⟨cs, hcs, by simp only [Ieee.shapeCorners, h12, if_false]; exact hm⟩

theorem foldlM_addShape_corners (hash : SceneVertex → Nat) (attribs : attrib_t)
    (shapes : List shape_t) :
    ∀ (e0 e1 : Extraction), shapes.foldlM (addShape hash attribs) e0 = some e1 →
      ∃ cs, e1.corners = e0.corners ++ cs ∧
        Ieee.processedCorners (ofAttribs attribs) shapes = some (cs.map ofVertex) := by
  induction shapes with
  | nil =>
    intro e0 e1 h
    simp only [List.foldlM_nil, Option.pure_def, Option.some.injEq] at h
    subst h
    exact ⟨[], by simp, rfl⟩
  | cons shape rest ih =>
    intro e0 e1 h
    cases hs : addShape hash attribs e0 shape with
    | none => simp [List.foldlM_cons, hs] at h
    | some e =>
      simp only [List.foldlM_cons, hs, Option.bind_eq_bind, Option.some_bind] at h
      obtain ⟨cs1, h1, hm1⟩ := addShape_corners hash attribs e0 e shape hs
      obtain ⟨cs2, h2, hm2⟩ := ih e e1 h
      refine ⟨cs1 ++ cs2, by rw [h2, h1]; simp, ?_⟩
      simp only [Ieee.processedCorners, hm1, hm2, Option.bind_eq_bind, Option.some_bind,
        Option.pure_def, List.map_append]

/-- The history of the corners built by the shape loop is the corner stream of the parser
output. -/
theorem extractGeometry_corners (hash : SceneVertex → Nat) (attribs : attrib_t)
    (shapes : List shape_t) (this : Scene) (e : Extraction)
    (h : extractGeometry hash attribs shapes this = some e) :
    Ieee.processedCorners (ofAttribs attribs) shapes = some (e.corners.map ofVertex) := by
  obtain ⟨cs, hcs, hm⟩ := foldlM_addShape_corners hash attribs shapes _ e h
  simp only [List.nil_append] at hcs
  rw [hcs]
  exact hm

/-- In a mesh made of triangles the face loop builds the corners of each face from the
index entries of that face. -/
theorem meshCorners_eq_sourceFaceCorners (attribs : Ieee.attrib_t) (mesh : mesh_t)
    (fvs : List Nat) (htri : ∀ fv ∈ fvs, fv = 3) :
    ∀ index_offset : Nat, Ieee.meshCorners attribs mesh fvs index_offset =
      Ieee.sourceFaceCorners attribs mesh fvs index_offset := by
  induction fvs with
  | nil => intro index_offset; rfl
  | cons fv rest ih =>
    intro index_offset
    have hfv : fv = 3 := htri fv (List.mem_cons_self _ _)
    subst hfv
    simp only [Ieee.meshCorners, Ieee.sourceFaceCorners, ne_eq, not_true_eq_false, if_false,
      if_true, ih (fun fv h => htri fv (List.mem_cons_of_mem _ h))]

theorem processedCorners_eq_sourceCorners (attribs : Ieee.attrib_t) (shapes : List shape_t)
    (htri : TriangleMeshes shapes) :
    Ieee.processedCorners attribs shapes = Ieee.sourceCorners attribs shapes := by
  induction shapes with
  | nil => rfl
  | cons shape rest ih =>
    have hrest : TriangleMeshes rest := fun s hs => htri s (List.mem_cons_of_mem _ hs)
    simp only [Ieee.processedCorners, Ieee.sourceCorners, Ieee.shapeCorners, ih hrest]
    by_cases h12 : shape.mesh.num_face_vertices.length = 12
    · simp only [h12, if_true]
    · simp only [h12, if_false]
      rw [meshCorners_eq_sourceFaceCorners attribs shape.mesh _
        (htri shape (List.mem_cons_self _ _) h12) 0]

theorem firstOccurrences_ofVertex (corners : List SceneVertex) :
    Ieee.firstOccurrences (corners.map ofVertex) = (firstOccurrences corners).map ofVertex := by
  induction corners using List.reverseRecOn with
  | nil => rfl
  | append_singleton l v ih =>
    have h1 : Ieee.firstOccurrences (List.map ofVertex l ++ [ofVertex v]) =
        if ofVertex v ∈ Ieee.firstOccurrences (List.map ofVertex l) then
          Ieee.firstOccurrences (List.map ofVertex l)
        else Ieee.firstOccurrences (List.map ofVertex l) ++ [ofVertex v] := by
      simp [Ieee.firstOccurrences, List.foldl_append]
    rw [List.map_append, List.map_singleton, h1, firstOccurrences_append, ih]
    by_cases hv : v ∈ firstOccurrences l
    · have hv2 : ofVertex v ∈ List.map ofVertex (firstOccurrences l) :=
        List.mem_map_of_mem ofVertex hv
      rw [if_pos hv, if_pos hv2]
    · have hv2 : ofVertex v ∉ List.map ofVertex (firstOccurrences l) :=
        fun h => hv ((List.mem_map_of_injective ofVertex_injective).1 h)
      rw [if_neg hv, if_neg hv2]
      simp

/-! ## Parser outputs without a NaN -/

/-- The parser outputs without a NaN are the ones made of numbers. -/
theorem noNaN_iff_ofAttribs (attribs : Ieee.attrib_t) :
    Ieee.NoNaN attribs ↔ ∃ numbers : attrib_t, attribs = ofAttribs numbers := by
  have hlist : ∀ l : List Ieee.float, (∀ x ∈ l, x ≠ Ieee.float.nan) →
      ∃ q : List ℚ, l = q.map Ieee.float.number := by
    intro l
    induction l with
    | nil => intro _; exact ⟨[], rfl⟩
    | cons x l ih =>
      intro h
      obtain ⟨q, hq⟩ := ih (fun y hy => h y (List.mem_cons_of_mem _ hy))
      cases x with
      | nan => exact absurd rfl (h _ (List.mem_cons_self _ _))
      | number a => exact ⟨a :: q, by rw [hq]; rfl⟩
  constructor
  · rintro ⟨hv, hn, ht⟩
    obtain ⟨qv, hqv⟩ := hlist _ hv
    obtain ⟨qn, hqn⟩ := hlist _ hn
    obtain ⟨qt, hqt⟩ := hlist _ ht
    refine ⟨⟨qv, qn, qt⟩, ?_⟩
    obtain ⟨v, n, t⟩ := attribs
    simp only at hqv hqn hqt
    simp only [ofAttribs, hqv, hqn, hqt]
  · rintro ⟨numbers, rfl⟩
    simp [Ieee.NoNaN, ofAttribs]

theorem wellFormedShape_ofAttribs (attribs : attrib_t) (shape : shape_t) :
    Ieee.WellFormedShape (ofAttribs attribs) shape ↔ WellFormedShape attribs shape := by
  simp only [Ieee.WellFormedShape, WellFormedShape, Ieee.IndexInBounds, IndexInBounds, ofAttribs,
    List.length_map]

/-- On numbers, the extraction with the map is the extraction with the naive
deduplicator, over every value of `float` as over numbers. -/
theorem AddGeometryToScene_ofScene_eq_naive (hash : Ieee.SceneVertex → Nat)
    (attribs : attrib_t) (shapes : List shape_t) (this : Scene) :
    Ieee.AddGeometryToScene hash (ofAttribs attribs) shapes (ofScene this) =
      Ieee.naiveAddGeometryToScene (ofAttribs attribs) shapes (ofScene this) := by
  rw [AddGeometryToScene_ofScene, naiveAddGeometryToScene_ofScene, AddGeometryToScene_eq_naive]

theorem AddGeometryToScene_ofScene_isSome (hash : Ieee.SceneVertex → Nat)
    (attribs : attrib_t) (shapes : List shape_t) (this : Scene)
    (hwf : ∀ shape ∈ shapes, Ieee.WellFormedShape (ofAttribs attribs) shape) :
    (Ieee.AddGeometryToScene hash (ofAttribs attribs) shapes (ofScene this)).isSome := by
  rw [AddGeometryToScene_ofScene]
  simp only [AddGeometryToScene, Option.isSome_map']
  exact extractGeometry_isSome _ attribs shapes this
    (fun shape hs => (wellFormedShape_ofAttribs attribs shape).1 (hwf shape hs))

/-- When the extraction over every value of `float` has a result on numbers, it is the
image of the final state of the shape loop over numbers. -/
theorem AddGeometryToScene_ofScene_some (hash : Ieee.SceneVertex → Nat)
    (attribs : attrib_t) (shapes : List shape_t) (this : Scene) (s : Ieee.Scene)
    (h : Ieee.AddGeometryToScene hash (ofAttribs attribs) shapes (ofScene this) = some s) :
    ∃ e, extractGeometry (fun v => hash (ofVertex v)) attribs shapes this = some e ∧
      s = ofScene e.scene := by
  rw [AddGeometryToScene_ofScene] at h
  unfold AddGeometryToScene at h
  cases he : extractGeometry (fun v => hash (ofVertex v)) attribs shapes this with
  | none => rw [he] at h; cases h
  | some e =>
    rw [he] at h
    simp only [Option.map_some', Option.some.injEq] at h
    exact ⟨e, rfl, h.symm⟩

/-! ## The duplicate check on a key that equals itself -/

/-- A key equals itself exactly when none of its eight components is a NaN. -/
theorem ieee_eq_self_iff (v : Ieee.SceneVertex) :
    Ieee.SceneVertex.eq v v = true ↔
      v.position.x ≠ Ieee.float.nan ∧ v.position.y ≠ Ieee.float.nan ∧
      v.position.z ≠ Ieee.float.nan ∧ v.normal.x ≠ Ieee.float.nan ∧
      v.normal.y ≠ Ieee.float.nan ∧ v.normal.z ≠ Ieee.float.nan ∧
      v.uv.x ≠ Ieee.float.nan ∧ v.uv.y ≠ Ieee.float.nan := by
  have hf : ∀ x : Ieee.float, Ieee.float.eq x x = true ↔ x ≠ Ieee.float.nan := by
    intro x
    cases x <;> simp [Ieee.float.eq]
  obtain ⟨⟨px, py, pz⟩, ⟨nx, ny, nz⟩, ⟨u, w⟩⟩ := v
  simp only [Ieee.SceneVertex.eq, Bool.and_eq_true, hf]
  tauto

theorem ieee_chainFind_chainSet_self (c : List (Ieee.SceneVertex × Nat))
    (k : Ieee.SceneVertex) (v : Nat) (hk : Ieee.SceneVertex.eq k k = true) :
    Ieee.UnorderedMap.chainFind (Ieee.UnorderedMap.chainSet c k v) k = some v := by
  induction c with
  | nil => simp [Ieee.UnorderedMap.chainSet, Ieee.UnorderedMap.chainFind, hk]
  | cons p rest ih =>
    obtain ⟨k', v'⟩ := p
    by_cases hk' : Ieee.SceneVertex.eq k' k = true
    · simp [Ieee.UnorderedMap.chainSet, Ieee.UnorderedMap.chainFind, hk']
    · simp [Ieee.UnorderedMap.chainSet, Ieee.UnorderedMap.chainFind, hk', ih]

/-- A vertex that equals itself and that the map does not hold is stored, appended and
given the position it was appended at, cut to 32 bits. -/
theorem ieee_addVertex_new (hash : Ieee.SceneVertex → Nat) (e : Ieee.Extraction)
    (v : Ieee.SceneVertex) (hv : Ieee.SceneVertex.eq v v = true)
    (hc : e.uniqueVertices.count hash v = 0) :
    (Ieee.addVertex hash e v).scene.m_Vertices = e.scene.m_Vertices ++ [v.toVertexData] ∧
    (Ieee.addVertex hash e v).scene.m_Indices =
      e.scene.m_Indices ++ [e.scene.m_Vertices.length % 2 ^ 32] := by
  have hf : (e.uniqueVertices.set hash v (e.scene.m_Vertices.length % 2 ^ 32)).find? hash v =
      some (e.scene.m_Vertices.length % 2 ^ 32) := by
    simp [Ieee.UnorderedMap.find?, Ieee.UnorderedMap.set, ieee_chainFind_chainSet_self _ v _ hv]
  have hg : (e.uniqueVertices.set hash v (e.scene.m_Vertices.length % 2 ^ 32)).get hash v =
      (e.scene.m_Vertices.length % 2 ^ 32,
        e.uniqueVertices.set hash v (e.scene.m_Vertices.length % 2 ^ 32)) := by
    simp only [Ieee.UnorderedMap.get, hf]
  constructor <;> simp only [Ieee.addVertex, hc, if_true, hg]

/-- On a vertex array of `2 ^ 32` entries the index of a new vertex is cut to 0. -/
theorem ieee_addVertex_cut (hash : Ieee.SceneVertex → Nat) (e : Ieee.Extraction)
    (v : Ieee.SceneVertex) (hv : Ieee.SceneVertex.eq v v = true)
    (hc : e.uniqueVertices.count hash v = 0) (hlen : e.scene.m_Vertices.length = 2 ^ 32) :
    (Ieee.addVertex hash e v).scene.m_Indices = e.scene.m_Indices ++ [0] := by
  rw [(ieee_addVertex_new hash e v hv hc).2, hlen, Nat.mod_self]

/-- On a vertex array of `2 ^ 32` entries a new vertex without a NaN is appended at
position `2 ^ 32` and given the index 0, where the first of the old entries stands. -/
theorem ieee_addVertex_cut_entry (hash : Ieee.SceneVertex → Nat) (e : Ieee.Extraction)
    (v : Ieee.SceneVertex) (d : Ieee.VertexData) (hv : Ieee.SceneVertex.eq v v = true)
    (hc : e.uniqueVertices.count hash v = 0)
    (hvert : e.scene.m_Vertices = List.replicate (2 ^ 32) d) :
    (Ieee.addVertex hash e v).scene.m_Indices = e.scene.m_Indices ++ [0] ∧
    (Ieee.addVertex hash e v).scene.m_Vertices[0]? = some d ∧
    (Ieee.addVertex hash e v).scene.m_Vertices[2 ^ 32]? = some v.toVertexData := by
  have hlen : e.scene.m_Vertices.length = 2 ^ 32 := by rw [hvert, List.length_replicate]
  refine ⟨ieee_addVertex_cut hash e v hv hc hlen, ?_, ?_⟩
  · rw [(ieee_addVertex_new hash e v hv hc).1, hvert,
      List.getElem?_append_left (by rw [List.length_replicate]; norm_num),
      List.getElem?_replicate, if_pos (by norm_num)]
  · rw [(ieee_addVertex_new hash e v hv hc).1,
      List.getElem?_append_right (by rw [hlen]), hlen, Nat.sub_self]
    rfl

/-- A key with a NaN equals no key. -/
theorem ieee_eq_self_of_eq (a b : Ieee.SceneVertex) (h : Ieee.SceneVertex.eq a b = true) :
    Ieee.SceneVertex.eq b b = true := by
  obtain ⟨⟨px, py, pz⟩, ⟨nx, ny, nz⟩, ⟨u, v⟩⟩ := a
  obtain ⟨⟨px', py', pz'⟩, ⟨nx', ny', nz'⟩, ⟨u', v'⟩⟩ := b
  simp only [Ieee.SceneVertex.eq, Bool.and_eq_true] at h ⊢
  have hf : ∀ x y : Ieee.float, Ieee.float.eq x y = true → Ieee.float.eq y y = true := by
    intro x y hxy
    cases x <;> cases y <;> simp_all [Ieee.float.eq]
  obtain ⟨⟨⟨⟨h1, h2⟩, h3⟩, ⟨h4, h5⟩, h6⟩, h7, h8⟩ := h
  exact ⟨⟨⟨⟨hf _ _ h1, hf _ _ h2⟩, hf _ _ h3⟩, ⟨hf _ _ h4, hf _ _ h5⟩, hf _ _ h6⟩,
    hf _ _ h7, hf _ _ h8⟩

theorem ieee_chainFind_nan (c : List (Ieee.SceneVertex × Nat)) (k : Ieee.SceneVertex)
    (hk : Ieee.SceneVertex.eq k k = false) : Ieee.UnorderedMap.chainFind c k = none := by
  induction c with
  | nil => rfl
  | cons p rest ih =>
    obtain ⟨k', v'⟩ := p
    have : Ieee.SceneVertex.eq k' k = false := by
      rw [Bool.eq_false_iff]
      intro h
      rw [ieee_eq_self_of_eq k' k h] at hk
      cases hk
    simp [Ieee.UnorderedMap.chainFind, this, ih]

/-- A vertex with a NaN, which does not equal itself, is appended at every occurrence,
and the index pushed for it is 0, whatever the state of the loops. -/
theorem ieee_addVertex_nan (hash : Ieee.SceneVertex → Nat) (e : Ieee.Extraction)
    (v : Ieee.SceneVertex) (hv : Ieee.SceneVertex.eq v v = false) :
    e.uniqueVertices.count hash v = 0 ∧
    (Ieee.addVertex hash e v).scene.m_Vertices = e.scene.m_Vertices ++ [v.toVertexData] ∧
    (Ieee.addVertex hash e v).scene.m_Indices = e.scene.m_Indices ++ [0] := by
  have hfind : ∀ m : Ieee.UnorderedMap, m.find? hash v = none :=
    fun m => ieee_chainFind_nan _ v hv
  have hc : e.uniqueVertices.count hash v = 0 := by
    simp [Ieee.UnorderedMap.count, hfind]
  have hg : ∀ m : Ieee.UnorderedMap, (m.get hash v).1 = 0 := by
    intro m
    simp [Ieee.UnorderedMap.get, hfind]
  refine ⟨hc, ?_, ?_⟩
  · simp only [Ieee.addVertex, hc, if_true]
  · simp only [Ieee.addVertex, hc, if_true, hg]

/-! ## The vertex array lists first occurrences, on numbers -/

theorem getElem?_map_ofVertex (l : List SceneVertex) (k : Nat) (vertex : Ieee.SceneVertex)
    (h : (l.map ofVertex)[k]? = some vertex) : ∃ w, l[k]? = some w ∧ vertex = ofVertex w := by
  rw [List.getElem?_map] at h
  cases hw : l[k]? with
  | none => rw [hw] at h; cases h
  | some w =>
    rw [hw] at h
    simp only [Option.map_some', Option.some.injEq] at h
    exact ⟨w, rfl, h.symm⟩

theorem AddGeometryToScene_ofScene_next_index (hash : Ieee.SceneVertex → Nat)
    (attribs : attrib_t) (shapes : List shape_t) (this : Scene) (s : Ieee.Scene)
    (h : Ieee.AddGeometryToScene hash (ofAttribs attribs) shapes (ofScene this) = some s)
    (hsize : s.m_Vertices.length ≤ 2 ^ 32) :
    ∃ corners, Ieee.processedCorners (ofAttribs attribs) shapes = some corners ∧
      s.m_Vertices = (ofScene this).m_Vertices ++
        (Ieee.firstOccurrences corners).map Ieee.SceneVertex.toVertexData ∧
      (∀ (k : Nat) (vertex : Ieee.SceneVertex), corners[k]? = some vertex →
        vertex ∉ corners.take k →
        s.m_Indices[(ofScene this).m_Indices.length + k]? =
          some ((ofScene this).m_Vertices.length +
            (Ieee.firstOccurrences (corners.take k)).length) ∧
        s.m_Vertices[(ofScene this).m_Vertices.length +
          (Ieee.firstOccurrences (corners.take k)).length]? = some vertex.toVertexData) ∧
      (((ofScene this).m_Vertices = [] ∨
          ∃ i0 ∈ (ofScene this).m_Indices, (ofScene this).m_Vertices.length ≤ i0 + 1) →
        ∀ (k i : Nat), s.m_Indices[(ofScene this).m_Indices.length + k]? = some i →
          i = 0 ∨ ∃ j i', j < (ofScene this).m_Indices.length + k ∧
            s.m_Indices[j]? = some i' ∧ i ≤ i' + 1) := by
  obtain ⟨e, he, rfl⟩ := AddGeometryToScene_ofScene_some hash attribs shapes this s h
  have hlenV : (ofScene this).m_Vertices.length = this.m_Vertices.length := by
    simp [ofScene]
  have hsize2 : e.scene.m_Vertices.length ≤ 2 ^ 32 := by
    have : (ofScene e.scene).m_Vertices.length = e.scene.m_Vertices.length := by
      simp [ofScene]
    omega
  obtain ⟨_, h2, h3, h4⟩ :=
    (extractGeometry_next_index _ attribs shapes this).2.2 e he hsize2
  refine ⟨e.corners.map ofVertex, extractGeometry_corners _ attribs shapes this e he, ?_, ?_, ?_⟩
  · show e.scene.m_Vertices.map ofVertexData = this.m_Vertices.map ofVertexData ++ _
    rw [h2, List.map_append, firstOccurrences_ofVertex, List.map_map, List.map_map]
    rfl
  · intro k vertex hk hnot
    obtain ⟨w, hw, rfl⟩ := getElem?_map_ofVertex e.corners k vertex hk
    have hnot2 : w ∉ e.corners.take k := by
      intro hmem
      apply hnot
      rw [← List.map_take]
      exact List.mem_map_of_mem ofVertex hmem
    obtain ⟨a, b⟩ := h3 k w hw hnot2
    have hfo : (Ieee.firstOccurrences ((e.corners.map ofVertex).take k)).length =
        (firstOccurrences (e.corners.take k)).length := by
      rw [← List.map_take, firstOccurrences_ofVertex, List.length_map]
    rw [hfo, hlenV]
    refine ⟨a, ?_⟩
    show (e.scene.m_Vertices.map ofVertexData)[_]? = _
    rw [List.getElem?_map, b]
    rfl
  · intro hpre k i hki
    have hpre2 : this.m_Vertices = [] ∨ ∃ i0 ∈ this.m_Indices, this.m_Vertices.length ≤ i0 + 1 := by
      rcases hpre with h0 | ⟨i0, hi0, hle⟩
      · left
        have : (this.m_Vertices.map ofVertexData) = [] := h0
        simpa using this
      · right
        exact ⟨i0, hi0, by omega⟩
    exact h4 hpre2 k i hki

/-! ## The rounding of `1.0f - v` -/

theorem roundHalfEven_of_lt (m : ℚ) (f : Int) (h1 : (f : ℚ) ≤ m) (h2 : m < (f : ℚ) + 1 / 2) :
    roundHalfEven m = f := by
  have hf : ⌊m⌋ = f := by
    rw [Int.floor_eq_iff]
    constructor
    · exact h1
    · linarith
  unfold roundHalfEven
  simp only [hf]
  rw [if_pos (by linarith)]

theorem log_two_eq (x : ℚ) (n : Int) (h1 : (2 : ℚ) ^ n ≤ x) (h2 : x < (2 : ℚ) ^ (n + 1)) :
    Int.log 2 x = n := by
  have hpos : 0 < x := lt_of_lt_of_le (zpow_pos (by norm_num) n) h1
  apply le_antisymm
  · have := (Int.lt_zpow_iff_log_lt (b := 2) (by norm_num) hpos).1 (by exact_mod_cast h2)
    omega
  · exact (Int.zpow_le_iff_le_log (b := 2) (by norm_num) hpos).1 (by exact_mod_cast h1)

/-- The difference `1.0f - 0.1f`: its exact value, `120795955 / 134217728`, has 27
significant bits and is rounded to `7549747 / 8388608`. -/
theorem float_sub_one_tenth : float.sub 1 (13421773 / 134217728) = 7549747 / 8388608 := by
  have hx : (1 : ℚ) - 13421773 / 134217728 = 120795955 / 134217728 := by norm_num
  have hlog : Int.log 2 |(120795955 / 134217728 : ℚ)| = -1 := by
    rw [abs_of_pos (by norm_num)]
    apply log_two_eq
    · norm_num
    · norm_num
  unfold float.sub roundToFloat
  rw [hx, if_neg (by norm_num)]
  simp only [hlog]
  have hu : max ((-1 : Int) - 23) (-149) = -24 := by decide
  rw [hu]
  have hr : roundHalfEven ((120795955 / 134217728 : ℚ) / (2 : ℚ) ^ (-24 : Int)) = 15099494 := by
    apply roundHalfEven_of_lt
    · norm_num
    · norm_num
  rw [hr]
  norm_num

theorem roundHalfEven_near (m : ℚ) : |(roundHalfEven m : ℚ) - m| ≤ 1 / 2 := by
  have h1 : (⌊m⌋ : ℚ) ≤ m := Int.floor_le m
  have h2 : m < (⌊m⌋ : ℚ) + 1 := Int.lt_floor_add_one m
  unfold roundHalfEven
  simp only
  rw [abs_le]
  split_ifs with ha hb hc
  · constructor <;> linarith
  · push_cast; constructor <;> linarith
  · constructor <;> linarith
  · push_cast; constructor <;> linarith

/-- The rounded value is within half a unit of the last place of the exact one: the
relative error is at most `2 ^ -24`, or the absolute error at most `2 ^ -150`. -/
theorem roundToFloat_near (x : ℚ) :
    |roundToFloat x - x| ≤ max (|x| / 2 ^ 24) (1 / 2 ^ 150) := by
  unfold roundToFloat
  by_cases hx : x = 0
  · subst hx
    simp
  · rw [if_neg hx]
    simp only
    set u : Int := max (Int.log 2 |x| - 23) (-149) with hu
    have hpos : (0 : ℚ) < (2 : ℚ) ^ u := zpow_pos (by norm_num) u
    have hm := roundHalfEven_near (x / (2 : ℚ) ^ u)
    have hmul : |(roundHalfEven (x / (2 : ℚ) ^ u) : ℚ) * (2 : ℚ) ^ u - x| =
        |(roundHalfEven (x / (2 : ℚ) ^ u) : ℚ) - x / (2 : ℚ) ^ u| * (2 : ℚ) ^ u := by
      rw [← abs_of_pos hpos, ← abs_mul, abs_of_pos hpos, sub_mul, div_mul_cancel₀ _ (ne_of_gt hpos)]
    rw [hmul]
    have hb : |(roundHalfEven (x / (2 : ℚ) ^ u) : ℚ) - x / (2 : ℚ) ^ u| * (2 : ℚ) ^ u ≤
        (2 : ℚ) ^ u / 2 := by
      have := mul_le_mul_of_nonneg_right hm (le_of_lt hpos)
      linarith
    refine le_trans hb ?_
    have habs : 0 < |x| := abs_pos.2 hx
    rcases le_total (Int.log 2 |x| - 23) (-149) with hle | hle
    · have hu2 : u = -149 := by rw [hu]; exact max_eq_right hle
      rw [hu2]
      apply le_max_of_le_right
      norm_num
    · have hu2 : u = Int.log 2 |x| - 23 := by rw [hu]; exact max_eq_left hle
      rw [hu2]
      apply le_max_of_le_left
      have hlog : ((2 : ℕ) : ℚ) ^ Int.log 2 |x| ≤ |x| := Int.zpow_log_le_self (by norm_num) habs
      rw [zpow_sub₀ (by norm_num : (2 : ℚ) ≠ 0)]
      have h23 : ((2 : ℚ) ^ (23 : Int)) = 2 ^ 23 := by norm_cast
      rw [h23]
      have hlog2 : (2 : ℚ) ^ Int.log 2 |x| ≤ |x| := by exact_mod_cast hlog
      have : (2 : ℚ) ^ Int.log 2 |x| / 2 ^ 23 / 2 ≤ |x| / 2 ^ 23 / 2 := by
        apply div_le_div_of_nonneg_right _ (by norm_num)
        exact div_le_div_of_nonneg_right hlog2 (by norm_num)
      calc (2 : ℚ) ^ Int.log 2 |x| / 2 ^ 23 / 2 ≤ |x| / 2 ^ 23 / 2 := this
        _ = |x| / 2 ^ 24 := by ring

/-! ## The reads of one corner, over every value of `float` -/

theorem getElem?_attribIndex {α : Type} (l : List α) (stride : Nat) (i : Int) (k : Nat)
    (h0 : 0 ≤ i) (h : stride * i + k < l.length) : ∃ x, l[attribIndex stride i k]? = some x := by
  have h1 := attribIndex_le stride i k h0
  have h3 : attribIndex stride i k < l.length := by
    have : (attribIndex stride i k : Int) < l.length := by omega
    exact_mod_cast this
  exact ⟨_, List.getElem?_eq_getElem h3⟩

theorem ieee_readVertex_isSome (attribs : Ieee.attrib_t) (idx : index_t)
    (h : Ieee.IndexInBounds attribs idx) : (Ieee.readVertex attribs idx).isSome := by
  obtain ⟨h0, hv, hn, ht⟩ := h
  obtain ⟨px, hx⟩ := getElem?_attribIndex attribs.vertices 3 idx.vertex_index 0 h0
    (by push_cast; omega)
  obtain ⟨py, hy⟩ := getElem?_attribIndex attribs.vertices 3 idx.vertex_index 1 h0
    (by push_cast; omega)
  obtain ⟨pz, hz⟩ := getElem?_attribIndex attribs.vertices 3 idx.vertex_index 2 h0
    (by push_cast; omega)
  by_cases hn0 : 0 ≤ idx.normal_index
  · obtain ⟨nx, hnx⟩ := getElem?_attribIndex attribs.normals 3 idx.normal_index 0 hn0
      (by have := hn hn0; push_cast; omega)
    obtain ⟨ny, hny⟩ := getElem?_attribIndex attribs.normals 3 idx.normal_index 1 hn0
      (by have := hn hn0; push_cast; omega)
    obtain ⟨nz, hnz⟩ := getElem?_attribIndex attribs.normals 3 idx.normal_index 2 hn0
      (by have := hn hn0; push_cast; omega)
    by_cases ht0 : 0 ≤ idx.texcoord_index
    · obtain ⟨u, hu⟩ := getElem?_attribIndex attribs.texcoords 2 idx.texcoord_index 0 ht0
        (by have := ht ht0; push_cast; omega)
      obtain ⟨v, hv⟩ := getElem?_attribIndex attribs.texcoords 2 idx.texcoord_index 1 ht0
        (by have := ht ht0; push_cast; omega)
      simp [Ieee.readVertex, hx, hy, hz, hn0, hnx, hny, hnz, ht0, hu, hv]
    · simp [Ieee.readVertex, hx, hy, hz, hn0, hnx, hny, hnz, ht0]
  · by_cases ht0 : 0 ≤ idx.texcoord_index
    · obtain ⟨u, hu⟩ := getElem?_attribIndex attribs.texcoords 2 idx.texcoord_index 0 ht0
        (by have := ht ht0; push_cast; omega)
      obtain ⟨v, hv⟩ := getElem?_attribIndex attribs.texcoords 2 idx.texcoord_index 1 ht0
        (by have := ht ht0; push_cast; omega)
      simp [Ieee.readVertex, hx, hy, hz, hn0, ht0, hu, hv]
    · simp [Ieee.readVertex, hx, hy, hz, hn0, ht0]

theorem ieee_readVertex_some (attribs : Ieee.attrib_t) (idx : index_t)
    (vertex : Ieee.SceneVertex) (h : Ieee.readVertex attribs idx = some vertex) :
    attribs.vertices[attribIndex 3 idx.vertex_index 0]? = some vertex.position.x ∧
    attribs.vertices[attribIndex 3 idx.vertex_index 1]? = some vertex.position.y ∧
    attribs.vertices[attribIndex 3 idx.vertex_index 2]? = some vertex.position.z ∧
    (0 ≤ idx.normal_index →
      attribs.normals[attribIndex 3 idx.normal_index 0]? = some vertex.normal.x ∧
      attribs.normals[attribIndex 3 idx.normal_index 1]? = some vertex.normal.y ∧
      attribs.normals[attribIndex 3 idx.normal_index 2]? = some vertex.normal.z) ∧
    (idx.normal_index < 0 →
      vertex.normal = ⟨Ieee.float.number 0, Ieee.float.number 0, Ieee.float.number 0⟩) ∧
    (0 ≤ idx.texcoord_index → ∃ u v,
      attribs.texcoords[attribIndex 2 idx.texcoord_index 0]? = some u ∧
      attribs.texcoords[attribIndex 2 idx.texcoord_index 1]? = some v ∧
      vertex.uv = ⟨u, Ieee.float.sub (Ieee.float.number 1) v⟩) ∧
    (idx.texcoord_index < 0 → vertex.uv = ⟨Ieee.float.number 0, Ieee.float.number 0⟩) := by
  unfold Ieee.readVertex at h
  cases hx : attribs.vertices[attribIndex 3 idx.vertex_index 0]? with
  | none => simp [hx] at h
  | some px =>
  cases hy : attribs.vertices[attribIndex 3 idx.vertex_index 1]? with
  | none => simp [hx, hy] at h
  | some py =>
  cases hz : attribs.vertices[attribIndex 3 idx.vertex_index 2]? with
  | none => simp [hx, hy, hz] at h
  | some pz =>
  simp only [hx, hy, hz, Option.bind_eq_bind, Option.some_bind, Option.pure_def] at h
  by_cases hn : idx.normal_index ≥ 0
  · by_cases ht : idx.texcoord_index ≥ 0
    · simp only [hn, ht, if_true] at h
      cases hnx : attribs.normals[attribIndex 3 idx.normal_index 0]? with
      | none => simp [hnx] at h
      | some nx =>
      cases hny : attribs.normals[attribIndex 3 idx.normal_index 1]? with
      | none => simp [hnx, hny] at h
      | some ny =>
      cases hnz : attribs.normals[attribIndex 3 idx.normal_index 2]? with
      | none => simp [hnx, hny, hnz] at h
      | some nz =>
      cases hu : attribs.texcoords[attribIndex 2 idx.texcoord_index 0]? with
      | none => simp [hnx, hny, hnz, hu] at h
      | some u =>
      cases hv : attribs.texcoords[attribIndex 2 idx.texcoord_index 1]? with
      | none => simp [hnx, hny, hnz, hu, hv] at h
      | some v =>
      simp only [hnx, hny, hnz, hu, hv, Option.some_bind, Option.some.injEq] at h
      subst h
      exact ⟨rfl, rfl, rfl, fun _ => ⟨rfl, rfl, rfl⟩, fun hh => absurd hh (by omega),
        fun _ => ⟨u, v, rfl, rfl, rfl⟩, fun hh => absurd hh (by omega)⟩
    · simp only [hn, ht, if_true, if_false] at h
      cases hnx : attribs.normals[attribIndex 3 idx.normal_index 0]? with
      | none => simp [hnx] at h
      | some nx =>
      cases hny : attribs.normals[attribIndex 3 idx.normal_index 1]? with
      | none => simp [hnx, hny] at h
      | some ny =>
      cases hnz : attribs.normals[attribIndex 3 idx.normal_index 2]? with
      | none => simp [hnx, hny, hnz] at h
      | some nz =>
      simp only [hnx, hny, hnz, Option.some_bind, Option.some.injEq] at h
      subst h
      exact ⟨rfl, rfl, rfl, fun _ => ⟨rfl, rfl, rfl⟩, fun hh => absurd hh (by omega),
        fun hh => absurd hh ht, fun _ => rfl⟩
  · by_cases ht : idx.texcoord_index ≥ 0
    · simp only [hn, ht, if_true, if_false] at h
      cases hu : attribs.texcoords[attribIndex 2 idx.texcoord_index 0]? with
      | none => simp [hu] at h
      | some u =>
      cases hv : attribs.texcoords[attribIndex 2 idx.texcoord_index 1]? with
      | none => simp [hu, hv] at h
      | some v =>
      simp only [hu, hv, Option.some_bind, Option.some.injEq] at h
      subst h
      exact ⟨rfl, rfl, rfl, fun hh => absurd hh hn, fun _ => rfl,
        fun _ => ⟨u, v, rfl, rfl, rfl⟩, fun hh => absurd hh (by omega)⟩
    · simp only [hn, ht, if_false, Option.some_bind, Option.some.injEq] at h
      subst h
      exact ⟨rfl, rfl, rfl, fun hh => absurd hh hn, fun _ => rfl,
        fun hh => absurd hh ht, fun _ => rfl⟩

/-! ## C23 -/

/-- C23: the `SceneVertex` built for a corner from the index triple `idx`, over every
value of `float`. It is built whenever the triple is in bounds. Its position is the three
entries of `attribs.vertices` at `3 * vertex_index`; its normal is the three entries of
`attribs.normals` at `3 * normal_index` when `normal_index >= 0` and the zero vector
otherwise; its uv is `(u, 1.0f - v)` for the two entries `u`, `v` of `attribs.texcoords`
at `2 * texcoord_index` when `texcoord_index >= 0`, and `(0, 0)`, which is not `(0, 1)`,
otherwise. The difference `1.0f - v` is the one of the type `float`: for a number `v` the
value of the type nearest to `1 - v`, within `2 ^ -24` of it in relative terms or
`2 ^ -150` in absolute terms, and a NaN for a NaN. The subscripts
`stride * size_t(i) + k` are `stride * i + k` for every non-negative `int`, and the
corner at entry `i` of the index list is built from `indices[i]`. -/
theorem corner_vertex_attributes (attribs : Ieee.attrib_t) (idx : index_t) :
    (Ieee.IndexInBounds attribs idx → (Ieee.readVertex attribs idx).isSome) ∧
    (∀ vertex, Ieee.readVertex attribs idx = some vertex →
      attribs.vertices[attribIndex 3 idx.vertex_index 0]? = some vertex.position.x ∧
      attribs.vertices[attribIndex 3 idx.vertex_index 1]? = some vertex.position.y ∧
      attribs.vertices[attribIndex 3 idx.vertex_index 2]? = some vertex.position.z ∧
      (0 ≤ idx.normal_index →
        attribs.normals[attribIndex 3 idx.normal_index 0]? = some vertex.normal.x ∧
        attribs.normals[attribIndex 3 idx.normal_index 1]? = some vertex.normal.y ∧
        attribs.normals[attribIndex 3 idx.normal_index 2]? = some vertex.normal.z) ∧
      (idx.normal_index < 0 →
        vertex.normal = ⟨Ieee.float.number 0, Ieee.float.number 0, Ieee.float.number 0⟩) ∧
      (0 ≤ idx.texcoord_index → ∃ u v,
        attribs.texcoords[attribIndex 2 idx.texcoord_index 0]? = some u ∧
        attribs.texcoords[attribIndex 2 idx.texcoord_index 1]? = some v ∧
        vertex.uv = ⟨u, Ieee.float.sub (Ieee.float.number 1) v⟩) ∧
      (idx.texcoord_index < 0 →
        vertex.uv = ⟨Ieee.float.number 0, Ieee.float.number 0⟩ ∧
        vertex.uv ≠ ⟨Ieee.float.number 0, Ieee.float.number 1⟩)) ∧
    (∀ v : ℚ, Ieee.float.sub (Ieee.float.number 1) (Ieee.float.number v) =
      Ieee.float.number (roundToFloat (1 - v))) ∧
    Ieee.float.sub (Ieee.float.number 1) Ieee.float.nan = Ieee.float.nan ∧
    (∀ v : ℚ, |roundToFloat (1 - v) - (1 - v)| ≤ max (|1 - v| / 2 ^ 24) (1 / 2 ^ 150)) ∧
    (∀ (stride : Nat) (i : Int) (k : Nat), 0 ≤ i → i < 2 ^ 31 → stride ≤ 3 → k ≤ 2 →
      attribIndex stride i k = stride * i.toNat + k) ∧
    (∀ (mesh : mesh_t) (i : Nat),
      Ieee.cornerAt attribs mesh i = (mesh.indices[i]?).bind (Ieee.readVertex attribs)) := by
  refine ⟨ieee_readVertex_isSome attribs idx, ?_, fun v => rfl, rfl,
    fun v => roundToFloat_near (1 - v), attribIndex_of_int, fun mesh i => rfl⟩
  intro vertex h
  obtain ⟨h1, h2, h3, h4, h5, h6, h7⟩ := ieee_readVertex_some attribs idx vertex h
  refine ⟨h1, h2, h3, h4, h5, h6, fun ht => ⟨h7 ht, ?_⟩⟩
  rw [h7 ht]
  decide

/-- Witness of C23: a corner with the texture coordinate `(1 / 2, 0.1f)`, whose uv is
`(1 / 2, 7549747 / 8388608)`, the rounded difference, where `1 - v` is
`120795955 / 134217728`; a corner with the texture coordinate `(1, NaN)`; and a corner
with a position only. -/
theorem corner_vertex_attributes_witness :
    Ieee.IndexInBounds uvAttribs ⟨9, 0, 0⟩ ∧
    Ieee.readVertex uvAttribs ⟨9, 0, 0⟩ =
      some ⟨⟨Ieee.float.number 3, Ieee.float.number 0, Ieee.float.number 0⟩,
        ⟨Ieee.float.number 0, Ieee.float.number 0, Ieee.float.number 1⟩,
        ⟨Ieee.float.number (1 / 2), Ieee.float.number (7549747 / 8388608)⟩⟩ ∧
    (1 : ℚ) - 13421773 / 134217728 = 120795955 / 134217728 ∧
    Ieee.readVertex uvAttribs ⟨9, -1, 1⟩ =
      some ⟨⟨Ieee.float.number 3, Ieee.float.number 0, Ieee.float.number 0⟩,
        ⟨Ieee.float.number 0, Ieee.float.number 0, Ieee.float.number 0⟩,
        ⟨Ieee.float.number 1, Ieee.float.nan⟩⟩ ∧
    Ieee.readVertex uvAttribs (positionOnly 9) =
      some ⟨⟨Ieee.float.number 3, Ieee.float.number 0, Ieee.float.number 0⟩,
        ⟨Ieee.float.number 0, Ieee.float.number 0, Ieee.float.number 0⟩,
        ⟨Ieee.float.number 0, Ieee.float.number 0⟩⟩ := by
  have hb : Ieee.IndexInBounds uvAttribs ⟨9, 0, 0⟩ := by decide
  have hb2 : Ieee.IndexInBounds uvAttribs ⟨9, -1, 1⟩ := by decide
  have hb3 : Ieee.IndexInBounds uvAttribs (positionOnly 9) := by decide
  have hsub : Ieee.float.sub (Ieee.float.number 1) (Ieee.float.number (13421773 / 134217728)) =
      Ieee.float.number (7549747 / 8388608) :=
    congrArg Ieee.float.number float_sub_one_tenth
  have key : ∀ (idx : index_t) (w : Ieee.SceneVertex), Ieee.IndexInBounds uvAttribs idx →
      (∀ vertex, Ieee.readVertex uvAttribs idx = some vertex → vertex = w) →
      Ieee.readVertex uvAttribs idx = some w := by
    intro idx w hin hw
    obtain ⟨vertex, hv⟩ := Option.isSome_iff_exists.1
      ((corner_vertex_attributes uvAttribs idx).1 hin)
    rw [hv, hw vertex hv]
  refine ⟨hb, key _ _ hb ?_, by norm_num, key _ _ hb2 ?_, key _ _ hb3 ?_⟩
  · intro vertex hv
    obtain ⟨p0, p1, p2, hn, _, ht, _⟩ := (corner_vertex_attributes uvAttribs ⟨9, 0, 0⟩).2.1 vertex hv
    obtain ⟨n0, n1, n2⟩ := hn (by decide)
    obtain ⟨u, v, hu, hv2, huv⟩ := ht (by decide)
    have a0 : uvAttribs.vertices[attribIndex 3 (9 : Int) 0]? = some (Ieee.float.number 3) := rfl
    have a1 : uvAttribs.vertices[attribIndex 3 (9 : Int) 1]? = some (Ieee.float.number 0) := rfl
    have a2 : uvAttribs.vertices[attribIndex 3 (9 : Int) 2]? = some (Ieee.float.number 0) := rfl
    have b0 : uvAttribs.normals[attribIndex 3 (0 : Int) 0]? = some (Ieee.float.number 0) := rfl
    have b1 : uvAttribs.normals[attribIndex 3 (0 : Int) 1]? = some (Ieee.float.number 0) := rfl
    have b2 : uvAttribs.normals[attribIndex 3 (0 : Int) 2]? = some (Ieee.float.number 1) := rfl
    have c0 : uvAttribs.texcoords[attribIndex 2 (0 : Int) 0]? =
        some (Ieee.float.number (1 / 2)) := rfl
    have c1 : uvAttribs.texcoords[attribIndex 2 (0 : Int) 1]? =
        some (Ieee.float.number (13421773 / 134217728)) := rfl
    have e0 := p0.symm.trans a0
    have e1 := p1.symm.trans a1
    have e2 := p2.symm.trans a2
    have f0 := n0.symm.trans b0
    have f1 := n1.symm.trans b1
    have f2 := n2.symm.trans b2
    have g0 := hu.symm.trans c0
    have g1 := hv2.symm.trans c1
    simp only [Option.some.injEq] at e0 e1 e2 f0 f1 f2 g0 g1
    obtain ⟨⟨px, py, pz⟩, ⟨nx, ny, nz⟩, uv⟩ := vertex
    simp only at e0 e1 e2 f0 f1 f2 huv
    rw [e0, e1, e2, f0, f1, f2, huv, g0, g1, hsub]
  · intro vertex hv
    obtain ⟨p0, p1, p2, _, hn, ht, _⟩ :=
      (corner_vertex_attributes uvAttribs ⟨9, -1, 1⟩).2.1 vertex hv
    have hnz := hn (by decide)
    obtain ⟨u, v, hu, hv2, huv⟩ := ht (by decide)
    have a0 : uvAttribs.vertices[attribIndex 3 (9 : Int) 0]? = some (Ieee.float.number 3) := rfl
    have a1 : uvAttribs.vertices[attribIndex 3 (9 : Int) 1]? = some (Ieee.float.number 0) := rfl
    have a2 : uvAttribs.vertices[attribIndex 3 (9 : Int) 2]? = some (Ieee.float.number 0) := rfl
    have c0 : uvAttribs.texcoords[attribIndex 2 (1 : Int) 0]? = some (Ieee.float.number 1) := rfl
    have c1 : uvAttribs.texcoords[attribIndex 2 (1 : Int) 1]? = some Ieee.float.nan := rfl
    have e0 := p0.symm.trans a0
    have e1 := p1.symm.trans a1
    have e2 := p2.symm.trans a2
    have g0 := hu.symm.trans c0
    have g1 := hv2.symm.trans c1
    simp only [Option.some.injEq] at e0 e1 e2 g0 g1
    obtain ⟨⟨px, py, pz⟩, nrm, uv⟩ := vertex
    simp only at e0 e1 e2 hnz huv
    rw [e0, e1, e2, hnz, huv, g0, g1]
    rfl
  · intro vertex hv
    obtain ⟨p0, p1, p2, _, hn, _, ht⟩ :=
      (corner_vertex_attributes uvAttribs (positionOnly 9)).2.1 vertex hv
    have hnz := hn (by decide)
    have htz := (ht (by decide)).1
    have a0 : uvAttribs.vertices[attribIndex 3 (9 : Int) 0]? = some (Ieee.float.number 3) := rfl
    have a1 : uvAttribs.vertices[attribIndex 3 (9 : Int) 1]? = some (Ieee.float.number 0) := rfl
    have a2 : uvAttribs.vertices[attribIndex 3 (9 : Int) 2]? = some (Ieee.float.number 0) := rfl
    have e0 := p0.symm.trans a0
    have e1 := p1.symm.trans a1
    have e2 := p2.symm.trans a2
    simp only [Option.some.injEq] at e0 e1 e2
    obtain ⟨⟨px, py, pz⟩, nrm, uv⟩ := vertex
    simp only at e0 e1 e2 hnz htz
    rw [e0, e1, e2, hnz, htz]

/-! ## The result does not depend on the hash function, with or without a NaN -/

theorem ieee_float_eq_iff (x y : Ieee.float) :
    Ieee.float.eq x y = true ↔ x = y ∧ Ieee.float.eq x x = true := by
  cases x <;> cases y <;> simp [Ieee.float.eq]

/-- The member `operator==` holds for two keys exactly when they are the same key and
have no NaN. -/
theorem ieee_eq_iff (a b : Ieee.SceneVertex) :
    Ieee.SceneVertex.eq a b = true ↔ a = b ∧ Ieee.SceneVertex.eq a a = true := by
  obtain ⟨⟨px, py, pz⟩, ⟨nx, ny, nz⟩, ⟨u, v⟩⟩ := a
  obtain ⟨⟨px', py', pz'⟩, ⟨nx', ny', nz'⟩, ⟨u', v'⟩⟩ := b
  simp only [Ieee.SceneVertex.eq, Bool.and_eq_true, Ieee.SceneVertex.mk.injEq,
    Ieee.float3.mk.injEq, Ieee.float2.mk.injEq]
  rw [ieee_float_eq_iff px px', ieee_float_eq_iff py py', ieee_float_eq_iff pz pz',
    ieee_float_eq_iff nx nx', ieee_float_eq_iff ny ny', ieee_float_eq_iff nz nz',
    ieee_float_eq_iff u u', ieee_float_eq_iff v v']
  tauto

theorem ieee_chainFind_chainSet (c : List (Ieee.SceneVertex × Nat)) (k k2 : Ieee.SceneVertex)
    (v : Nat) :
    Ieee.UnorderedMap.chainFind (Ieee.UnorderedMap.chainSet c k v) k2 =
      if Ieee.SceneVertex.eq k k2 = true then some v else Ieee.UnorderedMap.chainFind c k2 := by
  induction c with
  | nil => simp [Ieee.UnorderedMap.chainSet, Ieee.UnorderedMap.chainFind]
  | cons p rest ih =>
    obtain ⟨k', v'⟩ := p
    by_cases hk : Ieee.SceneVertex.eq k' k = true
    · obtain ⟨rfl, hself⟩ := (ieee_eq_iff k' k).1 hk
      simp only [Ieee.UnorderedMap.chainSet, hk, if_true, Ieee.UnorderedMap.chainFind]
      by_cases hk2 : Ieee.SceneVertex.eq k' k2 = true
      · simp [hk2]
      · simp [hk2]
    · simp only [Ieee.UnorderedMap.chainSet, hk, Ieee.UnorderedMap.chainFind, ih]
      by_cases hk2 : Ieee.SceneVertex.eq k' k2 = true
      · have hne : ¬ Ieee.SceneVertex.eq k k2 = true := by
          intro h
          obtain ⟨e1, h1⟩ := (ieee_eq_iff k' k2).1 hk2
          obtain ⟨e2, _⟩ := (ieee_eq_iff k k2).1 h
          apply hk
          rw [e1, ← e2] at h1
          rw [e1, ← e2]
          exact h1
        simp [hk2, hne]
      · simp [hk2]

theorem ieee_find?_set (hash : Ieee.SceneVertex → Nat) (m : Ieee.UnorderedMap)
    (k k2 : Ieee.SceneVertex) (v : Nat) :
    (m.set hash k v).find? hash k2 =
      if Ieee.SceneVertex.eq k k2 = true then some v else m.find? hash k2 := by
  by_cases hh : hash k2 = hash k
  · simp only [Ieee.UnorderedMap.find?, Ieee.UnorderedMap.set, hh, if_true,
      ieee_chainFind_chainSet]
  · have hne : ¬ Ieee.SceneVertex.eq k k2 = true := by
      intro h
      obtain ⟨e, _⟩ := (ieee_eq_iff k k2).1 h
      exact hh (by rw [e])
    simp [Ieee.UnorderedMap.find?, Ieee.UnorderedMap.set, hh, hne]

theorem sameLookups_addVertex (hash1 hash2 : Ieee.SceneVertex → Nat)
    (e1 e2 : Ieee.Extraction) (h : SameLookups hash1 hash2 e1 e2) (v : Ieee.SceneVertex) :
    SameLookups hash1 hash2 (Ieee.addVertex hash1 e1 v) (Ieee.addVertex hash2 e2 v) := by
  obtain ⟨hs, hf⟩ := h
  have hget : ∀ (m1 m2 : Ieee.UnorderedMap),
      (∀ k, m1.find? hash1 k = m2.find? hash2 k) →
      (m1.get hash1 v).1 = (m2.get hash2 v).1 ∧
      ∀ k, (m1.get hash1 v).2.find? hash1 k = (m2.get hash2 v).2.find? hash2 k := by
    intro m1 m2 hm
    have hv := hm v
    cases h1 : m1.find? hash1 v with
    | none =>
      have h2 : m2.find? hash2 v = none := by rw [← hv, h1]
      have a1 : m1.get hash1 v = (0, m1.set hash1 v 0) := by
        simp only [Ieee.UnorderedMap.get, h1]
      have a2 : m2.get hash2 v = (0, m2.set hash2 v 0) := by
        simp only [Ieee.UnorderedMap.get, h2]
      rw [a1, a2]
      exact ⟨rfl, fun k => by rw [ieee_find?_set, ieee_find?_set, hm k]⟩
    | some i =>
      have h2 : m2.find? hash2 v = some i := by rw [← hv, h1]
      have a1 : m1.get hash1 v = (i, m1) := by simp only [Ieee.UnorderedMap.get, h1]
      have a2 : m2.get hash2 v = (i, m2) := by simp only [Ieee.UnorderedMap.get, h2]
      rw [a1, a2]
      exact ⟨rfl, hm⟩
  have hcount : e1.uniqueVertices.count hash1 v = e2.uniqueVertices.count hash2 v := by
    simp only [Ieee.UnorderedMap.count, hf v]
  by_cases hc : e1.uniqueVertices.count hash1 v = 0
  · have hc2 : e2.uniqueVertices.count hash2 v = 0 := hcount ▸ hc
    obtain ⟨g1, g2⟩ := hget
      (e1.uniqueVertices.set hash1 v (e1.scene.m_Vertices.length % 2 ^ 32))
      (e2.uniqueVertices.set hash2 v (e2.scene.m_Vertices.length % 2 ^ 32))
      (fun k => by rw [ieee_find?_set, ieee_find?_set, hf k, hs])
    rw [hs] at g1
    refine ⟨?_, ?_⟩
    · simp only [Ieee.addVertex, hc, hc2, if_true, hs, g1]
    · intro k
      simp only [Ieee.addVertex, hc, hc2, if_true]
      exact g2 k
  · have hc2 : ¬ e2.uniqueVertices.count hash2 v = 0 := hcount ▸ hc
    obtain ⟨g1, g2⟩ := hget e1.uniqueVertices e2.uniqueVertices hf
    refine ⟨?_, ?_⟩
    · simp only [Ieee.addVertex, hc, hc2, if_false, g1, hs]
    · intro k
      simp only [Ieee.addVertex, hc, hc2, if_false]
      exact g2 k

theorem sameLookups_meshCorner (hash1 hash2 : Ieee.SceneVertex → Nat)
    (attribs : Ieee.attrib_t) (mesh : mesh_t) (index_offset : Nat) (e1 e2 : Ieee.Extraction)
    (v : Nat) (h : SameLookups hash1 hash2 e1 e2) :
    Related (SameLookups hash1 hash2) (Ieee.meshCorner hash1 attribs mesh index_offset e1 v)
      (Ieee.meshCorner hash2 attribs mesh index_offset e2 v) := by
  unfold Ieee.meshCorner
  cases Ieee.cornerAt attribs mesh (index_offset + v) with
  | none => trivial
  | some vertex => exact sameLookups_addVertex hash1 hash2 e1 e2 h vertex

theorem sameLookups_meshFace (hash1 hash2 : Ieee.SceneVertex → Nat)
    (attribs : Ieee.attrib_t) (mesh : mesh_t) (f fv index_offset : Nat)
    (e1 e2 : Ieee.Extraction) (h : SameLookups hash1 hash2 e1 e2) :
    Related (fun r q => r.1 = q.1 ∧ SameLookups hash1 hash2 r.2 q.2)
      (Ieee.meshFace hash1 attribs mesh f fv index_offset e1)
      (Ieee.meshFace hash2 attribs mesh f fv index_offset e2) := by
  unfold Ieee.meshFace
  by_cases hfv : fv ≠ 3
  · rw [if_pos hfv, if_pos hfv]
    exact ⟨rfl, h⟩
  · rw [if_neg hfv, if_neg hfv]
    have hc := foldlM_related (SameLookups hash1 hash2)
      (Ieee.meshCorner hash1 attribs mesh index_offset)
      (Ieee.meshCorner hash2 attribs mesh index_offset)
      (fun b c a hR => sameLookups_meshCorner hash1 hash2 attribs mesh index_offset b c a hR)
      (List.range fv) e1 e2 h
    cases h1 : (List.range fv).foldlM (Ieee.meshCorner hash1 attribs mesh index_offset) e1 with
    | none =>
      cases h2 : (List.range fv).foldlM (Ieee.meshCorner hash2 attribs mesh index_offset) e2 with
      | none => trivial
      | some n1 => rw [h1, h2] at hc; exact hc.elim
    | some a1 =>
      cases h2 : (List.range fv).foldlM (Ieee.meshCorner hash2 attribs mesh index_offset) e2 with
      | none => rw [h1, h2] at hc; exact hc.elim
      | some a2 =>
        rw [h1, h2] at hc
        simp only [Option.bind_eq_bind, Option.some_bind]
        cases mesh.material_ids[f]? with
        | none => trivial
        | some matID =>
          refine ⟨rfl, ?_, hc.2⟩
          simp only [Ieee.pushTriangle, hc.1]

theorem sameLookups_meshFaces (hash1 hash2 : Ieee.SceneVertex → Nat)
    (attribs : Ieee.attrib_t) (mesh : mesh_t) (fvs : List Nat) :
    ∀ (f index_offset : Nat) (e1 e2 : Ieee.Extraction), SameLookups hash1 hash2 e1 e2 →
      Related (SameLookups hash1 hash2)
        (Ieee.meshFaces hash1 attribs mesh fvs f index_offset e1)
        (Ieee.meshFaces hash2 attribs mesh fvs f index_offset e2) := by
  induction fvs with
  | nil => intro f index_offset e1 e2 h; exact h
  | cons fv rest ih =>
    intro f index_offset e1 e2 h
    have hf := sameLookups_meshFace hash1 hash2 attribs mesh f fv index_offset e1 e2 h
    simp only [Ieee.meshFaces]
    cases h1 : Ieee.meshFace hash1 attribs mesh f fv index_offset e1 with
    | none =>
      cases h2 : Ieee.meshFace hash2 attribs mesh f fv index_offset e2 with
      | none => trivial
      | some q => rw [h1, h2] at hf; exact hf.elim
    | some r =>
      cases h2 : Ieee.meshFace hash2 attribs mesh f fv index_offset e2 with
      | none => rw [h1, h2] at hf; exact hf.elim
      | some q =>
        rw [h1, h2] at hf
        simp only [Option.bind_eq_bind, Option.some_bind]
        have hq : r.1 = q.1 := hf.1
        rw [hq]
        exact ih (f + 1) q.1 r.2 q.2 hf.2

theorem sameLookups_addShape (hash1 hash2 : Ieee.SceneVertex → Nat)
    (attribs : Ieee.attrib_t) (e1 e2 : Ieee.Extraction) (shape : shape_t)
    (h : SameLookups hash1 hash2 e1 e2) :
    Related (SameLookups hash1 hash2) (Ieee.addShape hash1 attribs e1 shape)
      (Ieee.addShape hash2 attribs e2 shape) := by
  unfold Ieee.addShape
  by_cases h12 : shape.mesh.num_face_vertices.length = 12
  · simp only [h12, if_true]
    cases Ieee.blockFaces attribs shape.mesh shape.mesh.num_face_vertices 0 with
    | none => trivial
    | some u =>
      cases blockMaterials shape.mesh with
      | none => trivial
      | some aabbMaterials =>
        refine ⟨?_, h.2⟩
        simp only [h.1]
  · simp only [h12, if_false]
    exact sameLookups_meshFaces hash1 hash2 attribs shape.mesh _ 0 0 e1 e2 h

/-- Two hash functions give the same extraction, on every parser output and every loader,
with or without a NaN. -/
theorem ieee_AddGeometryToScene_hash (hash1 hash2 : Ieee.SceneVertex → Nat)
    (attribs : Ieee.attrib_t) (shapes : List shape_t) (this : Ieee.Scene) :
    Ieee.AddGeometryToScene hash1 attribs shapes this =
      Ieee.AddGeometryToScene hash2 attribs shapes this := by
  have h := foldlM_related (SameLookups hash1 hash2) (Ieee.addShape hash1 attribs)
    (Ieee.addShape hash2 attribs)
    (fun b c a hR => sameLookups_addShape hash1 hash2 attribs b c a hR) shapes
    ⟨this, Ieee.UnorderedMap.empty⟩ ⟨this, Ieee.UnorderedMap.empty⟩ ⟨rfl, fun _ => rfl⟩
  unfold Ieee.AddGeometryToScene Ieee.extractGeometry
  cases h1 : shapes.foldlM (Ieee.addShape hash1 attribs) ⟨this, Ieee.UnorderedMap.empty⟩ with
  | none =>
    cases h2 : shapes.foldlM (Ieee.addShape hash2 attribs) ⟨this, Ieee.UnorderedMap.empty⟩ with
    | none => rfl
    | some n => rw [h1, h2] at h; exact h.elim
  | some e =>
    cases h2 : shapes.foldlM (Ieee.addShape hash2 attribs) ⟨this, Ieee.UnorderedMap.empty⟩ with
    | none => rw [h1, h2] at h; exact h.elim
    | some n =>
      rw [h1, h2] at h
      simp only [Option.map_some', Option.some.injEq]
      exact h.1

/-! ## C28 -/

/-- C28, as stated: two triangles, the first corner of the second with a NaN in its
normal. That corner equals no key, itself included: with the map it is appended as vertex
3 and given index 0, by the second `operator[]`; the naive deduplicator, which finds no
equal vertex either, appends it and gives it index 3. The two extractions differ. -/
theorem nan_corner_separates_map_and_naive :
    Ieee.processedCorners nanAttribs [nanShape] =
      some [ofVertex ⟨⟨0, 0, 0⟩, ⟨0, 0, 0⟩, ⟨0, 0⟩⟩, ofVertex ⟨⟨1, 0, 0⟩, ⟨0, 0, 0⟩, ⟨0, 0⟩⟩,
        ofVertex ⟨⟨1, 1, 0⟩, ⟨0, 0, 0⟩, ⟨0, 0⟩⟩, nanCorner,
        ofVertex ⟨⟨1, 1, 0⟩, ⟨0, 0, 0⟩, ⟨0, 0⟩⟩, ofVertex ⟨⟨1, 0, 0⟩, ⟨0, 0, 0⟩, ⟨0, 0⟩⟩] ∧
    Ieee.SceneVertex.eq nanCorner nanCorner = false ∧
    (Ieee.AddGeometryToScene Ieee.constantHash nanAttribs [nanShape] {}).map
      (fun s => (s.m_Indices, s.m_Vertices.length, s.m_Vertices[3]?)) =
      some ([0, 1, 2, 0, 2, 1], 4, some nanCorner.toVertexData) ∧
    (Ieee.naiveAddGeometryToScene nanAttribs [nanShape] {}).map
      (fun s => (s.m_Indices, s.m_Vertices.length, s.m_Vertices[3]?)) =
      some ([0, 1, 2, 3, 2, 1], 4, some nanCorner.toVertexData) ∧
    Ieee.AddGeometryToScene Ieee.constantHash nanAttribs [nanShape] {} ≠
      Ieee.naiveAddGeometryToScene nanAttribs [nanShape] {} := by
  refine ⟨by decide, by decide, by decide, by decide, by decide⟩

/-- C28, amended: for every parser output, with or without a NaN, every loader and every
two hash functions, `AddGeometryToScene` gives the same result with both, and has no
result with one exactly when it has none with the other. For every parser output without
a NaN, every loader over numbers and every hash function, `AddGeometryToScene` with the
map gives the loader that the extraction with the naive deduplicator gives, `m_Vertices`,
`m_Indices` and `m_TriPerFaceMatID` included, and has no result exactly when the naive one
has none; on well-formed shapes both have a result. A function of Lean sends equal keys
to equal hashes. -/
theorem extraction_independent_of_hash (attribs : Ieee.attrib_t) (shapes : List shape_t)
    (this : Scene) :
    (∀ (hash1 hash2 : Ieee.SceneVertex → Nat) (start : Ieee.Scene),
      Ieee.AddGeometryToScene hash1 attribs shapes start =
        Ieee.AddGeometryToScene hash2 attribs shapes start) ∧
    (Ieee.NoNaN attribs →
      (∀ hash : Ieee.SceneVertex → Nat,
        Ieee.AddGeometryToScene hash attribs shapes (ofScene this) =
          Ieee.naiveAddGeometryToScene attribs shapes (ofScene this)) ∧
      ((∀ shape ∈ shapes, Ieee.WellFormedShape attribs shape) →
        ∃ s, Ieee.naiveAddGeometryToScene attribs shapes (ofScene this) = some s ∧
          ∀ hash : Ieee.SceneVertex → Nat,
            Ieee.AddGeometryToScene hash attribs shapes (ofScene this) = some s)) := by
  refine ⟨fun hash1 hash2 start =>
    ieee_AddGeometryToScene_hash hash1 hash2 attribs shapes start, ?_⟩
  intro hnan
  obtain ⟨numbers, rfl⟩ := (noNaN_iff_ofAttribs attribs).1 hnan
  refine ⟨fun hash => AddGeometryToScene_ofScene_eq_naive hash numbers shapes this, ?_⟩
  intro hwf
  obtain ⟨s, hs⟩ := Option.isSome_iff_exists.1
    (AddGeometryToScene_ofScene_isSome Ieee.constantHash numbers shapes this hwf)
  refine ⟨s, ?_, ?_⟩
  · rw [← AddGeometryToScene_ofScene_eq_naive Ieee.constantHash]
    exact hs
  · intro hash
    rw [AddGeometryToScene_ofScene_eq_naive hash,
      ← AddGeometryToScene_ofScene_eq_naive Ieee.constantHash]
    exact hs

/-- Witness of C28, amended: the small scene on a fresh loader, with the hash of the
source form and with a hash that separates the vertices by their first coordinate; and
the two triangles with a NaN, for which the two hash functions give the same result. -/
theorem extraction_independent_of_hash_witness :
    Ieee.NoNaN (ofAttribs sceneAttribs) ∧
    (∃ s, Ieee.naiveAddGeometryToScene (ofAttribs sceneAttribs)
        [cubeShape, mixedShape, quadShape] {} = some s ∧
      Ieee.AddGeometryToScene Ieee.constantHash (ofAttribs sceneAttribs)
        [cubeShape, mixedShape, quadShape] {} = some s ∧
      Ieee.AddGeometryToScene (fun v => if v.position.x = Ieee.float.number 0 then 0 else 1)
        (ofAttribs sceneAttribs) [cubeShape, mixedShape, quadShape] {} = some s ∧
      s.m_Indices = [0, 1, 2, 0, 1, 2, 0, 2, 3] ∧ s.m_Vertices.length = 4) ∧
    Ieee.AddGeometryToScene Ieee.constantHash nanAttribs [nanShape] {} =
      Ieee.AddGeometryToScene (fun v => if v.position.x = Ieee.float.number 0 then 0 else 1)
        nanAttribs [nanShape] {} := by
  have hnan : Ieee.NoNaN (ofAttribs sceneAttribs) := by decide
  obtain ⟨s, hs, hall⟩ := ((extraction_independent_of_hash (ofAttribs sceneAttribs)
    [cubeShape, mixedShape, quadShape] {}).2 hnan).2 (by decide)
  have hval : Ieee.naiveAddGeometryToScene (ofAttribs sceneAttribs)
      [cubeShape, mixedShape, quadShape] {} =
      some s → s.m_Indices = [0, 1, 2, 0, 1, 2, 0, 2, 3] ∧ s.m_Vertices.length = 4 := by
    have hd : (Ieee.naiveAddGeometryToScene (ofAttribs sceneAttribs)
        [cubeShape, mixedShape, quadShape] {}).map
        (fun s => (s.m_Indices, s.m_Vertices.length)) =
        some ([0, 1, 2, 0, 1, 2, 0, 2, 3], 4) := by decide
    intro h
    rw [h] at hd
    simp only [Option.map_some', Option.some.injEq, Prod.mk.injEq] at hd
    exact hd
  exact ⟨hnan, ⟨s, hs, hall _, hall _, hval hs⟩,
    (extraction_independent_of_hash nanAttribs [nanShape] {}).1 _ _ {}⟩

/-! ## C4 -/

/-- C4, as stated: three triangles on a fresh loader; the first corner of the second and
of the third triangle is the same corner, with a NaN in its normal. The nine corners have
four distinct values, and the vertex array ends with five entries: the corner with the
NaN equals no key of the map, itself included, and is appended at each occurrence. -/
theorem nan_corner_is_appended_twice :
    ∃ corners s, Ieee.processedCorners nanAttribs [twiceNanShape] = some corners ∧
      Ieee.AddGeometryToScene Ieee.constantHash nanAttribs [twiceNanShape] {} = some s ∧
      corners.length = 9 ∧ corners[3]? = some nanCorner ∧ corners[6]? = some nanCorner ∧
      corners.toFinset.card = 4 ∧ s.m_Vertices.length = 5 ∧
      s.m_Vertices[3]? = some nanCorner.toVertexData ∧
      s.m_Vertices[4]? = some nanCorner.toVertexData ∧
      s.m_Indices = [0, 1, 2, 0, 2, 1, 0, 1, 0] := by
  have hc : (Ieee.processedCorners nanAttribs [twiceNanShape]).isSome := by decide
  have hs : (Ieee.AddGeometryToScene Ieee.constantHash nanAttribs [twiceNanShape] {}).isSome := by
    decide
  obtain ⟨corners, hcorners⟩ := Option.isSome_iff_exists.1 hc
  obtain ⟨s, hscene⟩ := Option.isSome_iff_exists.1 hs
  have h1 : (Ieee.processedCorners nanAttribs [twiceNanShape]).map
      (fun l => (l.length, l[3]?, l[6]?, l.toFinset.card)) =
      some (9, some nanCorner, some nanCorner, 4) := by decide
  have h2 : (Ieee.AddGeometryToScene Ieee.constantHash nanAttribs [twiceNanShape] {}).map
      (fun s => (s.m_Vertices.length, s.m_Vertices[3]?, s.m_Vertices[4]?, s.m_Indices)) =
      some (5, some nanCorner.toVertexData, some nanCorner.toVertexData,
        [0, 1, 2, 0, 2, 1, 0, 1, 0]) := by decide
  rw [hcorners] at h1
  rw [hscene] at h2
  simp only [Option.map_some', Option.some.injEq, Prod.mk.injEq] at h1 h2
  exact ⟨corners, s, hcorners, hscene, h1.1, h1.2.1, h1.2.2.1, h1.2.2.2, h2.1, h2.2.1,
    h2.2.2.1, h2.2.2.2⟩

/-- On numbers and an empty loader: the count of the vertex array and the index entries
of equal corners, against the corner stream. -/
theorem AddGeometryToScene_ofScene_distinct (hash : Ieee.SceneVertex → Nat)
    (attribs : attrib_t) (shapes : List shape_t) (s : Ieee.Scene)
    (h : Ieee.AddGeometryToScene hash (ofAttribs attribs) shapes {} = some s) :
    ∃ corners, Ieee.processedCorners (ofAttribs attribs) shapes = some corners ∧
      s.m_Vertices.length = corners.toFinset.card ∧
      s.m_Indices.length = corners.length ∧
      ∀ j k, j < k → k < corners.length → corners[j]? = corners[k]? →
        s.m_Indices[k]? = s.m_Indices[j]? := by
  obtain ⟨e, he, rfl⟩ := AddGeometryToScene_ofScene_some hash attribs shapes {} s h
  obtain ⟨_, h1, h2, h3⟩ :=
    (extractGeometry_counts_distinct _ attribs shapes {} rfl rfl).2 e he
  refine ⟨e.corners.map ofVertex, extractGeometry_corners _ attribs shapes {} e he, ?_, ?_, ?_⟩
  · show (e.scene.m_Vertices.map ofVertexData).length = _
    rw [List.length_map, h1, List.card_toFinset, List.card_toFinset,
      List.dedup_map_of_injective ofVertex_injective, List.length_map]
  · show e.scene.m_Indices.length = _
    rw [h2, List.length_map]
  · intro j k hjk hk hjk2
    rw [List.length_map] at hk
    rw [List.getElem?_map, List.getElem?_map] at hjk2
    have : e.corners[j]? = e.corners[k]? := by
      cases hj : e.corners[j]? with
      | none =>
        cases hk2 : e.corners[k]? with
        | none => rfl
        | some b => rw [hj, hk2] at hjk2; cases hjk2
      | some a =>
        cases hk2 : e.corners[k]? with
        | none => rw [hj, hk2] at hjk2; cases hjk2
        | some b =>
          rw [hj, hk2] at hjk2
          simp only [Option.map_some', Option.some.injEq] at hjk2
          rw [ofVertex_injective hjk2]
    exact (h3 j k (by omega) hk this).symm

/-- C4, amended: after `AddGeometryToScene` on an empty loader and a parser output
without a NaN, the length of `m_Vertices` is the number of distinct `SceneVertex` values
among the processed triangle corners of the mesh shapes, `m_Indices` has one entry per
corner, and two corners with equal values have the same entry in `m_Indices`: the later
occurrence has the entry of the earlier one. On well-formed shapes the call has a
result. -/
theorem vertex_array_counts_distinct_corners (hash : Ieee.SceneVertex → Nat)
    (attribs : Ieee.attrib_t) (shapes : List shape_t) (hnan : Ieee.NoNaN attribs) :
    ((∀ shape ∈ shapes, Ieee.WellFormedShape attribs shape) →
      (Ieee.AddGeometryToScene hash attribs shapes {}).isSome) ∧
    ∀ s, Ieee.AddGeometryToScene hash attribs shapes {} = some s →
      ∃ corners, Ieee.processedCorners attribs shapes = some corners ∧
        s.m_Vertices.length = corners.toFinset.card ∧
        s.m_Indices.length = corners.length ∧
        ∀ j k, j < k → k < corners.length → corners[j]? = corners[k]? →
          s.m_Indices[k]? = s.m_Indices[j]? := by
  obtain ⟨numbers, rfl⟩ := (noNaN_iff_ofAttribs attribs).1 hnan
  exact ⟨fun hwf => AddGeometryToScene_ofScene_isSome hash numbers shapes {} hwf,
    fun s h => AddGeometryToScene_ofScene_distinct hash numbers shapes s h⟩

/-- Witness of C4, amended: a square of two triangles that share two corners, on a
fresh loader: 6 corners, 4 vertices, and the two shared corners have the entries 0 and 2
at both their occurrences. -/
theorem vertex_array_counts_distinct_corners_witness :
    Ieee.NoNaN (ofAttribs sceneAttribs) ∧
    ∃ s corners,
      Ieee.AddGeometryToScene Ieee.constantHash (ofAttribs sceneAttribs) [quadShape] {} =
        some s ∧
      Ieee.processedCorners (ofAttribs sceneAttribs) [quadShape] = some corners ∧
      corners.length = 6 ∧ corners.toFinset.card = 4 ∧ s.m_Vertices.length = 4 ∧
      s.m_Indices = [0, 1, 2, 0, 2, 3] ∧ corners[0]? = corners[3]? ∧
      corners[2]? = corners[4]? := by
  have hnan : Ieee.NoNaN (ofAttribs sceneAttribs) := by decide
  have h := vertex_array_counts_distinct_corners Ieee.constantHash (ofAttribs sceneAttribs)
    [quadShape] hnan
  obtain ⟨s, hs⟩ := Option.isSome_iff_exists.1 (h.1 (by decide))
  obtain ⟨corners, hc, h1, h2, _⟩ := h.2 s hs
  have hd : (Ieee.processedCorners (ofAttribs sceneAttribs) [quadShape]).map
      (fun l => (l.length, l.toFinset.card, decide (l[0]? = l[3]?), decide (l[2]? = l[4]?))) =
      some (6, 4, true, true) := by decide
  have hi : (Ieee.AddGeometryToScene Ieee.constantHash (ofAttribs sceneAttribs)
      [quadShape] {}).map (fun s => s.m_Indices) = some [0, 1, 2, 0, 2, 3] := by decide
  rw [hc] at hd
  rw [hs] at hi
  simp only [Option.map_some', Option.some.injEq, Prod.mk.injEq, decide_eq_true_eq] at hd hi
  exact ⟨hnan, s, corners, hs, hc, hd.1, hd.2.1, by rw [h1, hd.2.1], hi, hd.2.2.1, hd.2.2.2⟩

/-! ## C22 -/

/-- C22, as stated: two triangles on a fresh loader, the first corner of the second with
a NaN in its normal. That corner was not emitted before; it is appended to `m_Vertices`
at position 3, the length of the array before the append; and the index it receives is
0, not 3: it equals no key of the map, itself included, so `operator[]` at line 317 does
not find the entry stored at line 312 and makes one with value 0. Also, on a state whose
vertex array holds `2 ^ 32` entries, a new vertex without a NaN receives index 0: the
length is cut to a `uint32_t`. -/
theorem nan_corner_gets_index_zero :
    (∃ corners s, Ieee.processedCorners nanAttribs [nanShape] = some corners ∧
      Ieee.AddGeometryToScene Ieee.constantHash nanAttribs [nanShape] {} = some s ∧
      corners[3]? = some nanCorner ∧ nanCorner ∉ corners.take 3 ∧
      s.m_Vertices.length = 4 ∧ s.m_Vertices[3]? = some nanCorner.toVertexData ∧
      s.m_Indices = [0, 1, 2, 0, 2, 1] ∧ s.m_Indices[3]? ≠ some 3) ∧
    (Ieee.addVertex Ieee.constantHash
      ⟨{ m_Vertices := List.replicate (2 ^ 32) Ieee.SceneVertex.zero.toVertexData },
        Ieee.UnorderedMap.empty⟩ Ieee.SceneVertex.zero).scene.m_Indices = [0] := by
  constructor
  · have hc : (Ieee.processedCorners nanAttribs [nanShape]).isSome := by decide
    have hs : (Ieee.AddGeometryToScene Ieee.constantHash nanAttribs [nanShape] {}).isSome := by
      decide
    obtain ⟨corners, hcorners⟩ := Option.isSome_iff_exists.1 hc
    obtain ⟨s, hscene⟩ := Option.isSome_iff_exists.1 hs
    have h1 : (Ieee.processedCorners nanAttribs [nanShape]).map
        (fun l => (l[3]?, decide (nanCorner ∉ l.take 3))) = some (some nanCorner, true) := by
      decide
    have h2 : (Ieee.AddGeometryToScene Ieee.constantHash nanAttribs [nanShape] {}).map
        (fun s => (s.m_Vertices.length, s.m_Vertices[3]?, s.m_Indices)) =
        some (4, some nanCorner.toVertexData, [0, 1, 2, 0, 2, 1]) := by decide
    rw [hcorners] at h1
    rw [hscene] at h2
    simp only [Option.map_some', Option.some.injEq, Prod.mk.injEq, decide_eq_true_eq] at h1 h2
    refine ⟨corners, s, hcorners, hscene, h1.1, h1.2, h2.1, h2.2.1, h2.2.2, ?_⟩
    rw [h2.2.2]
    decide
  · exact ieee_addVertex_cut Ieee.constantHash
      ⟨{ m_Vertices := List.replicate (2 ^ 32) Ieee.SceneVertex.zero.toVertexData },
        Ieee.UnorderedMap.empty⟩ Ieee.SceneVertex.zero (by decide) rfl
      (List.length_replicate _ _)

/-- C22, amended: a corner without a NaN (a vertex that equals itself, none of its eight
components being a NaN) that the map does not hold is appended to `m_Vertices` and,
while the array holds fewer than `2 ^ 32` entries, receives the length the array had
before the append; a corner with a NaN is appended at every occurrence and receives the
index 0. After `AddGeometryToScene` on a
parser output without a NaN and a loader over numbers, as long as the vertex array fits
the 32-bit index type: the call has appended to `m_Vertices` the distinct processed
corners in the order of their first occurrence in the corner stream; a corner that did
not occur earlier in the stream has, as its index entry, the length of the array before
the call plus the number of distinct corners before it, which is the place where its
`VertexData` stands; and when the array was empty before the call, or an earlier index
entry comes within one of its length, every entry the call pushes is 0 or at most one
more than an earlier entry. On well-formed shapes the call has a result. -/
theorem new_vertex_gets_next_index (hash : Ieee.SceneVertex → Nat) (attribs : Ieee.attrib_t)
    (shapes : List shape_t) (this : Scene) (hnan : Ieee.NoNaN attribs) :
    ((∀ shape ∈ shapes, Ieee.WellFormedShape attribs shape) →
      (Ieee.AddGeometryToScene hash attribs shapes (ofScene this)).isSome) ∧
    (∀ (e0 : Ieee.Extraction) (vertex : Ieee.SceneVertex),
      Ieee.SceneVertex.eq vertex vertex = true →
      e0.uniqueVertices.count hash vertex = 0 → e0.scene.m_Vertices.length < 2 ^ 32 →
      (Ieee.addVertex hash e0 vertex).scene.m_Vertices =
        e0.scene.m_Vertices ++ [vertex.toVertexData] ∧
      (Ieee.addVertex hash e0 vertex).scene.m_Indices =
        e0.scene.m_Indices ++ [e0.scene.m_Vertices.length]) ∧
    (∀ (e0 : Ieee.Extraction) (vertex : Ieee.SceneVertex),
      Ieee.SceneVertex.eq vertex vertex = false →
      e0.uniqueVertices.count hash vertex = 0 ∧
      (Ieee.addVertex hash e0 vertex).scene.m_Vertices =
        e0.scene.m_Vertices ++ [vertex.toVertexData] ∧
      (Ieee.addVertex hash e0 vertex).scene.m_Indices = e0.scene.m_Indices ++ [0]) ∧
    ∀ s, Ieee.AddGeometryToScene hash attribs shapes (ofScene this) = some s →
      s.m_Vertices.length ≤ 2 ^ 32 →
      ∃ corners, Ieee.processedCorners attribs shapes = some corners ∧
        s.m_Vertices = (ofScene this).m_Vertices ++
          (Ieee.firstOccurrences corners).map Ieee.SceneVertex.toVertexData ∧
        (∀ (k : Nat) (vertex : Ieee.SceneVertex), corners[k]? = some vertex →
          vertex ∉ corners.take k →
          s.m_Indices[(ofScene this).m_Indices.length + k]? =
            some ((ofScene this).m_Vertices.length +
              (Ieee.firstOccurrences (corners.take k)).length) ∧
          s.m_Vertices[(ofScene this).m_Vertices.length +
            (Ieee.firstOccurrences (corners.take k)).length]? = some vertex.toVertexData) ∧
        (((ofScene this).m_Vertices = [] ∨
            ∃ i0 ∈ (ofScene this).m_Indices, (ofScene this).m_Vertices.length ≤ i0 + 1) →
          ∀ (k i : Nat), s.m_Indices[(ofScene this).m_Indices.length + k]? = some i →
            i = 0 ∨ ∃ j i', j < (ofScene this).m_Indices.length + k ∧
              s.m_Indices[j]? = some i' ∧ i ≤ i' + 1) := by
  obtain ⟨numbers, rfl⟩ := (noNaN_iff_ofAttribs attribs).1 hnan
  refine ⟨fun hwf => AddGeometryToScene_ofScene_isSome hash numbers shapes this hwf, ?_,
    fun e0 vertex hv => ieee_addVertex_nan hash e0 vertex hv,
    fun s h hsize => AddGeometryToScene_ofScene_next_index hash numbers shapes this s h hsize⟩
  intro e0 vertex hv hc hlt
  obtain ⟨a, b⟩ := ieee_addVertex_new hash e0 vertex hv hc
  rw [Nat.mod_eq_of_lt hlt] at b
  exact ⟨a, b⟩

/-- Witness of C22, amended: a square of two triangles on a fresh loader: 4 vertices for
6 corners, in the order of first occurrence, with the index entries 0, 1, 2, 0, 2, 3. -/
theorem new_vertex_gets_next_index_witness :
    Ieee.NoNaN (ofAttribs sceneAttribs) ∧
    ∃ s corners,
      Ieee.AddGeometryToScene Ieee.constantHash (ofAttribs sceneAttribs) [quadShape] {} =
        some s ∧
      Ieee.processedCorners (ofAttribs sceneAttribs) [quadShape] = some corners ∧
      s.m_Vertices.length ≤ 2 ^ 32 ∧
      s.m_Vertices = (Ieee.firstOccurrences corners).map Ieee.SceneVertex.toVertexData ∧
      s.m_Vertices.length = 4 ∧ s.m_Indices = [0, 1, 2, 0, 2, 3] ∧
      ∀ (k i : Nat), s.m_Indices[k]? = some i →
        i = 0 ∨ ∃ j i', j < k ∧ s.m_Indices[j]? = some i' ∧ i ≤ i' + 1 := by
  have hnan : Ieee.NoNaN (ofAttribs sceneAttribs) := by decide
  have h := new_vertex_gets_next_index Ieee.constantHash (ofAttribs sceneAttribs) [quadShape]
    {} hnan
  obtain ⟨s, hs⟩ := Option.isSome_iff_exists.1 (h.1 (by decide))
  have hd : (Ieee.AddGeometryToScene Ieee.constantHash (ofAttribs sceneAttribs)
      [quadShape] {}).map (fun s => (s.m_Vertices.length, s.m_Indices)) =
      some (4, [0, 1, 2, 0, 2, 3]) := by decide
  have hs2 := hs
  change Ieee.AddGeometryToScene Ieee.constantHash (ofAttribs sceneAttribs) [quadShape] {} =
    some s at hs2
  rw [hs2] at hd
  simp only [Option.map_some', Option.some.injEq, Prod.mk.injEq] at hd
  have hsize : s.m_Vertices.length ≤ 2 ^ 32 := by
    rw [hd.1]
    norm_num
  obtain ⟨corners, hc, h2, _, h4⟩ := h.2.2.2 s hs hsize
  refine ⟨hnan, s, corners, hs2, hc, hsize, by simpa [ofScene] using h2, hd.1, hd.2, ?_⟩
  intro k i hki
  have := h4 (Or.inl rfl) k i (by simpa [ofScene] using hki)
  simpa [ofScene] using this

/-! ## The index stream follows the corners of the source, on numbers -/

/-- In a mesh made of triangles, face `t` has the corners of the index entries `3 * t`,
`3 * t + 1` and `3 * t + 2` after the first entry of the mesh, in this order. -/
theorem sourceFaceCorners_triangles (attribs : Ieee.attrib_t) (mesh : mesh_t)
    (fvs : List Nat) (htri : ∀ fv ∈ fvs, fv = 3) :
    ∀ (first : Nat) (corners : List Ieee.SceneVertex),
      Ieee.sourceFaceCorners attribs mesh fvs first = some corners →
      corners.length = 3 * fvs.length ∧
      ∀ (t i : Nat), t < fvs.length → i < 3 →
        corners[3 * t + i]? = Ieee.cornerAt attribs mesh (first + 3 * t + i) ∧
        (corners[3 * t + i]?).isSome := by
  induction fvs with
  | nil =>
    intro first corners h
    simp only [Ieee.sourceFaceCorners, Option.some.injEq] at h
    subst h
    exact ⟨rfl, fun t i ht => absurd ht (by simp)⟩
  | cons fv rest ih =>
    intro first corners h
    have hfv : fv = 3 := htri fv (List.mem_cons_self _ _)
    subst hfv
    simp only [Ieee.sourceFaceCorners, if_true] at h
    cases h0 : Ieee.cornerAt attribs mesh first with
    | none => simp [h0] at h
    | some v0 =>
    cases h1 : Ieee.cornerAt attribs mesh (first + 1) with
    | none => simp [h0, h1] at h
    | some v1 =>
    cases h2 : Ieee.cornerAt attribs mesh (first + 2) with
    | none => simp [h0, h1, h2] at h
    | some v2 =>
    cases hr : Ieee.sourceFaceCorners attribs mesh rest (first + 3) with
    | none => simp [h0, h1, h2, hr] at h
    | some cs =>
      simp only [h0, h1, h2, hr, Option.bind_eq_bind, Option.some_bind, Option.pure_def,
        Option.some.injEq] at h
      subst h
      obtain ⟨hlen, hall⟩ := ih (fun fv h => htri fv (List.mem_cons_of_mem _ h)) (first + 3) cs hr
      refine ⟨by simp only [List.length_cons, hlen]; omega, ?_⟩
      intro t i ht hi
      cases t with
      | zero =>
        interval_cases i
        · simp [h0]
        · simp [h1]
        · simp [h2]
      | succ t =>
        have ht2 : t < rest.length := by simpa using ht
        obtain ⟨a, b⟩ := hall t i ht2 hi
        have e1 : 3 * (t + 1) + i = (3 * t + i) + 3 := by omega
        have e2 : first + 3 * (t + 1) + i = first + 3 + 3 * t + i := by omega
        rw [e1, e2]
        simp only [List.getElem?_cons_succ]
        exact ⟨a, b⟩

theorem AddGeometryToScene_ofScene_index_stream (hash : Ieee.SceneVertex → Nat)
    (attribs : attrib_t) (shapes : List shape_t) (this : Scene) (s : Ieee.Scene)
    (htri : TriangleMeshes shapes)
    (h : Ieee.AddGeometryToScene hash (ofAttribs attribs) shapes (ofScene this) = some s)
    (hsize : s.m_Vertices.length ≤ 2 ^ 32) :
    ∃ corners, Ieee.sourceCorners (ofAttribs attribs) shapes = some corners ∧
      s.m_Indices.length = (ofScene this).m_Indices.length + corners.length ∧
      ∀ (k : Nat) (vertex : Ieee.SceneVertex), corners[k]? = some vertex →
        ∃ i, s.m_Indices[(ofScene this).m_Indices.length + k]? = some i ∧
          s.m_Vertices[i]? = some vertex.toVertexData := by
  obtain ⟨e, he, rfl⟩ := AddGeometryToScene_ofScene_some hash attribs shapes this s h
  have hsize2 : e.scene.m_Vertices.length ≤ 2 ^ 32 := by
    have : (ofScene e.scene).m_Vertices.length = e.scene.m_Vertices.length := by
      simp [ofScene]
    omega
  obtain ⟨_, h2, h3, _⟩ := extractGeometry_index_stream _ attribs shapes this e he hsize2
  refine ⟨e.corners.map ofVertex, ?_, ?_, ?_⟩
  · rw [← processedCorners_eq_sourceCorners _ shapes htri]
    exact extractGeometry_corners _ attribs shapes this e he
  · show e.scene.m_Indices.length = this.m_Indices.length + _
    rw [h2, List.length_map]
  · intro k vertex hk
    obtain ⟨w, hw, rfl⟩ := getElem?_map_ofVertex e.corners k vertex hk
    obtain ⟨i, hi1, hi2⟩ := h3 k w hw
    refine ⟨i, hi1, ?_⟩
    show (e.scene.m_Vertices.map ofVertexData)[i]? = _
    rw [List.getElem?_map, hi2]
    rfl

/-! ## C5 -/

/-- C5, as stated, at three inputs. Two triangles on a fresh loader, the first corner of
the second with a NaN in its normal: the index pushed for that corner, the fourth of the
stream, is 0, and `m_Vertices[0]` is the data of the first corner of the first triangle,
at position `(0, 0, 0)`, not the data of the corner, at position `(0, 1, 0)`: the second
triangle is emitted with another first corner than its source face has. A vertex array of
`2 ^ 32` entries: a new corner is appended at position `2 ^ 32` and given the index 0,
where an old entry stands. A quadrilateral before a triangle in one mesh: the first corner
of the triangle of the source is at `(2, 0, 0)`, and the triangle emitted has, as its
first corner, the first corner of the quadrilateral, at `(0, 0, 0)`. -/
theorem index_points_at_another_corner :
    (TriangleMeshes [nanShape] ∧
      ∃ corners s, Ieee.sourceCorners nanAttribs [nanShape] = some corners ∧
        Ieee.AddGeometryToScene Ieee.constantHash nanAttribs [nanShape] {} = some s ∧
        s.m_Vertices.length ≤ 2 ^ 32 ∧
        corners[3]? = some nanCorner ∧ s.m_Indices[3]? = some 0 ∧
        s.m_Vertices[0]? =
          some (ofVertex ⟨⟨0, 0, 0⟩, ⟨0, 0, 0⟩, ⟨0, 0⟩⟩).toVertexData ∧
        s.m_Vertices[0]? ≠ some nanCorner.toVertexData) ∧
    ((Ieee.addVertex Ieee.constantHash
        ⟨{ m_Vertices := List.replicate (2 ^ 32) Ieee.SceneVertex.zero.toVertexData },
          Ieee.UnorderedMap.empty⟩ (ofVertex ⟨⟨1, 0, 0⟩, ⟨0, 0, 0⟩, ⟨0, 0⟩⟩)).scene.m_Indices =
        [0] ∧
      (Ieee.addVertex Ieee.constantHash
        ⟨{ m_Vertices := List.replicate (2 ^ 32) Ieee.SceneVertex.zero.toVertexData },
          Ieee.UnorderedMap.empty⟩
        (ofVertex ⟨⟨1, 0, 0⟩, ⟨0, 0, 0⟩, ⟨0, 0⟩⟩)).scene.m_Vertices[0]? =
        some Ieee.SceneVertex.zero.toVertexData ∧
      Ieee.SceneVertex.zero.toVertexData ≠
        (ofVertex ⟨⟨1, 0, 0⟩, ⟨0, 0, 0⟩, ⟨0, 0⟩⟩).toVertexData) ∧
    (¬ TriangleMeshes [mixedShape] ∧
      (Ieee.sourceCorners (ofAttribs sceneAttribs) [mixedShape]).map (fun l => l[0]?) =
        some (some (ofVertex ⟨⟨2, 0, 0⟩, ⟨0, 0, 0⟩, ⟨0, 0⟩⟩)) ∧
      (Ieee.AddGeometryToScene Ieee.constantHash (ofAttribs sceneAttribs) [mixedShape] {}).map
        (fun s => (s.m_Indices, s.m_Vertices[0]?)) =
        some ([0, 1, 2], some (ofVertex ⟨⟨0, 0, 0⟩, ⟨0, 0, 0⟩, ⟨0, 0⟩⟩).toVertexData)) := by
  refine ⟨⟨by decide, ?_⟩, ?_, ⟨by decide, by decide, by decide⟩⟩
  · have hc : (Ieee.sourceCorners nanAttribs [nanShape]).isSome := by decide
    have hs : (Ieee.AddGeometryToScene Ieee.constantHash nanAttribs [nanShape] {}).isSome := by
      decide
    obtain ⟨corners, hcorners⟩ := Option.isSome_iff_exists.1 hc
    obtain ⟨s, hscene⟩ := Option.isSome_iff_exists.1 hs
    have h1 : (Ieee.sourceCorners nanAttribs [nanShape]).map (fun l => l[3]?) =
        some (some nanCorner) := by decide
    have h2 : (Ieee.AddGeometryToScene Ieee.constantHash nanAttribs [nanShape] {}).map
        (fun s => (s.m_Vertices.length, s.m_Indices[3]?, s.m_Vertices[0]?)) =
        some (4, some 0, some (ofVertex ⟨⟨0, 0, 0⟩, ⟨0, 0, 0⟩, ⟨0, 0⟩⟩).toVertexData) := by
      decide
    rw [hcorners] at h1
    rw [hscene] at h2
    simp only [Option.map_some', Option.some.injEq, Prod.mk.injEq] at h1 h2
    refine ⟨corners, s, hcorners, hscene, ?_, h1, h2.2.1, h2.2.2, ?_⟩
    · rw [h2.1]; norm_num
    · rw [h2.2.2]
      decide
  · have h := ieee_addVertex_cut_entry Ieee.constantHash
      ⟨{ m_Vertices := List.replicate (2 ^ 32) Ieee.SceneVertex.zero.toVertexData },
        Ieee.UnorderedMap.empty⟩ (ofVertex ⟨⟨1, 0, 0⟩, ⟨0, 0, 0⟩, ⟨0, 0⟩⟩)
      Ieee.SceneVertex.zero.toVertexData (by decide) rfl rfl
    exact ⟨h.1, h.2.1, by decide⟩

/-- C5, amended: on a parser output without a NaN in which every face of every mesh shape
is a triangle, and a loader over numbers, after `AddGeometryToScene`, as long as the
vertex array fits the 32-bit index type: with `n` the length of the index stream before
the call, `m_Vertices[m_Indices[n + k]]` is `toVertexData` of the k-th triangle corner of
the source, the corners taken in shape order, face order and corner order, and the stream
has one entry per corner; so each emitted triangle has the three corners of its source
face in the same order. In a mesh of triangles the corners of face `t` are those of the
index entries `3 * t`, `3 * t + 1` and `3 * t + 2`. On well-formed shapes the call has a
result. What the index entries of a triangle are when a face that is not a triangle
comes before it in its mesh is not stated here. -/
theorem index_stream_follows_corners (hash : Ieee.SceneVertex → Nat)
    (attribs : Ieee.attrib_t) (shapes : List shape_t) (this : Scene)
    (hnan : Ieee.NoNaN attribs) (htri : TriangleMeshes shapes) :
    ((∀ shape ∈ shapes, Ieee.WellFormedShape attribs shape) →
      (Ieee.AddGeometryToScene hash attribs shapes (ofScene this)).isSome) ∧
    (∀ s, Ieee.AddGeometryToScene hash attribs shapes (ofScene this) = some s →
      s.m_Vertices.length ≤ 2 ^ 32 →
      ∃ corners, Ieee.sourceCorners attribs shapes = some corners ∧
        s.m_Indices.length = (ofScene this).m_Indices.length + corners.length ∧
        ∀ (k : Nat) (vertex : Ieee.SceneVertex), corners[k]? = some vertex →
          ∃ i, s.m_Indices[(ofScene this).m_Indices.length + k]? = some i ∧
            s.m_Vertices[i]? = some vertex.toVertexData) ∧
    ∀ shape ∈ shapes, shape.mesh.num_face_vertices.length ≠ 12 →
      ∀ corners, Ieee.sourceFaceCorners attribs shape.mesh shape.mesh.num_face_vertices 0 =
          some corners →
        corners.length = 3 * shape.mesh.num_face_vertices.length ∧
        ∀ (t i : Nat), t < shape.mesh.num_face_vertices.length → i < 3 →
          corners[3 * t + i]? = Ieee.cornerAt attribs shape.mesh (3 * t + i) ∧
          (corners[3 * t + i]?).isSome := by
  obtain ⟨numbers, rfl⟩ := (noNaN_iff_ofAttribs attribs).1 hnan
  refine ⟨fun hwf => AddGeometryToScene_ofScene_isSome hash numbers shapes this hwf,
    fun s h hsize =>
      AddGeometryToScene_ofScene_index_stream hash numbers shapes this s htri h hsize, ?_⟩
  intro shape hshape h12 corners hc
  obtain ⟨a, b⟩ := sourceFaceCorners_triangles (ofAttribs numbers) shape.mesh _
    (htri shape hshape h12) 0 corners hc
  refine ⟨a, fun t i ht hi => ?_⟩
  have := b t i ht hi
  simpa using this

/-- Witness of C5, amended: the box and a square of two triangles, on a fresh loader: 6
corners, 4 vertices, index entries 0, 1, 2, 0, 2, 3. -/
theorem index_stream_follows_corners_witness :
    Ieee.NoNaN (ofAttribs sceneAttribs) ∧ TriangleMeshes [cubeShape, quadShape] ∧
    ∃ s corners,
      Ieee.AddGeometryToScene Ieee.constantHash (ofAttribs sceneAttribs)
        [cubeShape, quadShape] {} = some s ∧
      Ieee.sourceCorners (ofAttribs sceneAttribs) [cubeShape, quadShape] = some corners ∧
      s.m_Vertices.length ≤ 2 ^ 32 ∧ corners.length = 6 ∧
      s.m_Indices = [0, 1, 2, 0, 2, 3] ∧
      ∀ (k : Nat) (vertex : Ieee.SceneVertex), corners[k]? = some vertex →
        ∃ i, s.m_Indices[k]? = some i ∧ s.m_Vertices[i]? = some vertex.toVertexData := by
  have hnan : Ieee.NoNaN (ofAttribs sceneAttribs) := by decide
  have htri : TriangleMeshes [cubeShape, quadShape] := by decide
  have h := index_stream_follows_corners Ieee.constantHash (ofAttribs sceneAttribs)
    [cubeShape, quadShape] {} hnan htri
  obtain ⟨s, hs⟩ := Option.isSome_iff_exists.1 (h.1 (by decide))
  have hd : (Ieee.AddGeometryToScene Ieee.constantHash (ofAttribs sceneAttribs)
      [cubeShape, quadShape] {}).map (fun s => (s.m_Vertices.length, s.m_Indices)) =
      some (4, [0, 1, 2, 0, 2, 3]) := by decide
  have hs2 := hs
  change Ieee.AddGeometryToScene Ieee.constantHash (ofAttribs sceneAttribs)
    [cubeShape, quadShape] {} = some s at hs2
  rw [hs2] at hd
  simp only [Option.map_some', Option.some.injEq, Prod.mk.injEq] at hd
  have hsize : s.m_Vertices.length ≤ 2 ^ 32 := by
    rw [hd.1]
    norm_num
  obtain ⟨corners, hc, h2, h3⟩ := h.2.1 s hs hsize
  have hlen : corners.length = 6 := by
    rw [hd.2] at h2
    simp [ofScene] at h2
    omega
  refine ⟨hnan, htri, s, corners, hs2, hc, hsize, hlen, hd.2, ?_⟩
  intro k vertex hk
  simpa [ofScene] using h3 k vertex hk

end Mineways
